import Mathlib

/-!
# MiniLang interpreter: lexer, parser, semantic pre-pass and evaluator

A shallow embedding of the C++ sources (`lexer.cpp`, `parser2.cpp`, `interp.cpp`,
`interp.h`, `environment.cpp`, `array.cpp`, `string.cpp`, `value.cpp`).

Conventions of the embedding

* A C++ exception, an assertion failure or undefined behaviour is a value of
  `Failure`; every fallible function returns `Except Failure _`.
* Source locations (file, line, column) are not represented: no property
  below depends on them.
* Heap objects that are shared and mutated (`Environment`, `Array`,
  `Function`) live in a `Store` and are addressed by index; immutable
  `String` representations are carried by value.
* Loops and recursion whose termination depends on the input program take a
  fuel argument; running out of fuel is `Failure.nontermination`.
-/

namespace MiniLang

/-! ## Failures -/

/-- Ways in which a call can end without returning a value. -/
inductive Failure where
  /-- `SyntaxError::raise` (used by the lexer and the parser). -/
  | SyntaxError (msg : String)
  /-- `EvaluationError::raise`. -/
  | EvaluationError (msg : String)
  /-- `throw std::runtime_error(msg)`. -/
  | runtime_error (msg : String)
  /-- `std::out_of_range` thrown by the standard library. -/
  | out_of_range (what : String)
  /-- `std::invalid_argument` thrown by the standard library. -/
  | invalid_argument (what : String)
  /-- A failed `assert`. -/
  | assertion_failure (what : String)
  /-- Undefined behaviour: null dereference, dangling pointer, falling off
  the end of a value-returning function. -/
  | undefined_behaviour (what : String)
  /-- The fuel of the model ran out: the C++ code would still be running. -/
  | nontermination
  deriving DecidableEq, Repr

/-! ## Tokens (token.h) -/

/-- Token tags of `enum TokenKind`. -/
inductive TokenKind where
  | TOK_IDENTIFIER
  | TOK_INTEGER_LITERAL
  | TOK_PLUS
  | TOK_MINUS
  | TOK_TIMES
  | TOK_DIVIDE
  | TOK_LPAREN
  | TOK_RPAREN
  | TOK_SEMICOLON
  | TOK_ASSIGN
  | TOK_LESS
  | TOK_GREATER
  | TOK_IS_EQUAL
  | TOK_AND
  | TOK_LESS_EQUAL
  | TOK_GREATER_EQUAL
  | TOK_OR
  | TOK_NOT_EQUAL
  | TOK_VAR
  | ERROR
  | TOK_IF
  | TOK_ELSE
  | TOK_WHILE
  | TOK_LBRACE
  | TOK_RBRACE
  | TOK_COMMA
  | TOK_FUNCTION
  | TOK_STRING
  deriving DecidableEq, Repr

open TokenKind

/-- A token: the `Node` built by `Lexer::token_create` (tag and lexeme). -/
structure Token where
  tag : TokenKind
  str : String
  deriving DecidableEq, Repr

/-! ## Lexer (lexer.cpp) -/

/-- State of a `Lexer`: the unread characters of `m_in`, the end-of-file flag
and the FIFO of lookahead tokens. -/
structure Lexer where
  m_in : List Char
  m_eof : Bool
  m_lookahead : List Token
  deriving DecidableEq, Repr

/-- A lexer freshly constructed on the given input text. -/
def Lexer.create (input : List Char) : Lexer :=
  { m_in := input, m_eof := false, m_lookahead := [] }

/-- C `isspace` in the default locale. -/
def isspace (c : Char) : Bool :=
  c.toNat == 32 || (9 ≤ c.toNat && c.toNat ≤ 13)

/-- C `isalpha` in the default locale. -/
def isalpha (c : Char) : Bool :=
  (65 ≤ c.toNat && c.toNat ≤ 90) || (97 ≤ c.toNat && c.toNat ≤ 122)

/-- C `isdigit`. -/
def isdigit (c : Char) : Bool :=
  48 ≤ c.toNat && c.toNat ≤ 57

/-- C `isalnum` in the default locale. -/
def isalnum (c : Char) : Bool :=
  isalpha c || isdigit c

/-- `Lexer::read`: the next character, or `none` (the `-1` of the source) at
end of input, which also sets `m_eof`. -/
def Lexer.read (lx : Lexer) : Option Char × Lexer :=
  if lx.m_eof then (none, lx)
  else
    match lx.m_in with
    | [] => (none, { lx with m_eof := true })
    | c :: rest => (some c, { lx with m_in := rest })

/-- `Lexer::unread`: push a character back (`ungetc`). -/
def Lexer.unread (lx : Lexer) (c : Char) : Lexer :=
  { lx with m_in := c :: lx.m_in }

/-- `Lexer::token_create`. -/
def token_create (kind : TokenKind) (lexeme : String) : Token :=
  { tag := kind, str := lexeme }

/-- The loop of `Lexer::read_continued_token`; the counter bounds the number
of characters read. -/
def read_continued_loop (kind : TokenKind) (pred : Char → Bool) :
    Nat → String → Lexer → Token × Lexer
  | 0, lexeme, lx => (token_create kind lexeme, lx)
  | n + 1, lexeme, lx =>
    match lx.read with
    | (some c, lx1) =>
      if pred c then read_continued_loop kind pred n (lexeme.push c) lx1
      else (token_create kind lexeme, lx1.unread c)
    | (none, lx1) => (token_create kind lexeme, lx1)

/-- `Lexer::read_continued_token`. -/
def Lexer.read_continued_token (lx : Lexer) (kind : TokenKind) (lexeme_start : String)
    (pred : Char → Bool) : Token × Lexer :=
  read_continued_loop kind pred (lx.m_in.length + 1) lexeme_start lx

/-- `Lexer::try_two_character_token`. -/
def Lexer.try_two_character_token (lx : Lexer) (first second : Char)
    (oneCharKind twoCharKind : TokenKind) : Except Failure (Token × Lexer) :=
  let lexeme := String.singleton first
  match lx.read with
  | (next_c, lx1) =>
    if next_c = some second then
      .ok (token_create twoCharKind (lexeme.push second), lx1)
    else if oneCharKind = ERROR then
      .error (.SyntaxError ("Unrecognized character '" ++ String.singleton first ++ "'"))
    else
      match next_c with
      | some c => .ok (token_create oneCharKind lexeme, lx1.unread c)
      | none => .ok (token_create oneCharKind lexeme, lx1)

/-- The double-quote character. -/
def dquote : Char := Char.ofNat 34

/-- The backslash character. -/
def backslash : Char := Char.ofNat 92

/-- The loop of `Lexer::string_create`. -/
def string_create_loop : Nat → String → Lexer → Except Failure (Token × Lexer)
  | 0, _, _ => .error .nontermination
  | n + 1, lexeme, lx =>
    match lx.read with
    | (none, _) => .error (.SyntaxError "Unexpected end of string input")
    | (some c, lx1) =>
      if c = backslash then
        match lx1.read with
        | (some next_c, lx2) =>
          if next_c = 'n' then string_create_loop n (lexeme.push (Char.ofNat 10)) lx2
          else if next_c = 't' then string_create_loop n (lexeme.push (Char.ofNat 9)) lx2
          else if next_c = 'r' then string_create_loop n (lexeme.push (Char.ofNat 13)) lx2
          else if next_c = dquote then string_create_loop n (lexeme.push dquote) lx2
          else .error (.SyntaxError "Invalid escape character")
        | (none, _) => .error (.SyntaxError "Invalid escape character")
      else if c = dquote then .ok (token_create TOK_STRING lexeme, lx1)
      else string_create_loop n (lexeme.push c) lx1

/-- `Lexer::string_create` (the opening quote is dropped from the lexeme). -/
def Lexer.string_create (lx : Lexer) : Except Failure (Token × Lexer) :=
  string_create_loop (lx.m_in.length + 1) "" lx

/-- The whitespace-skipping loop at the head of `Lexer::read_token`: returns
the first character that is not white space (or `none` at end of input). -/
def skip_whitespace : Nat → Lexer → Option Char × Lexer
  | 0, lx => (none, lx)
  | n + 1, lx =>
    match lx.read with
    | (some c, lx1) => if isspace c then skip_whitespace n lx1 else (some c, lx1)
    | (none, lx1) => (none, lx1)

/-- Keyword reclassification of an identifier token in `Lexer::read_token`. -/
def keyword_tag (tok : Token) : Token :=
  if tok.str = "var" then { tok with tag := TOK_VAR }
  else if tok.str = "if" then { tok with tag := TOK_IF }
  else if tok.str = "else" then { tok with tag := TOK_ELSE }
  else if tok.str = "while" then { tok with tag := TOK_WHILE }
  else if tok.str = "function" then { tok with tag := TOK_FUNCTION }
  else tok

/-- `Lexer::read_token`: `none` is the null pointer returned at end of file. -/
def Lexer.read_token (lx : Lexer) : Except Failure (Option Token × Lexer) :=
  match skip_whitespace (lx.m_in.length + 1) lx with
  | (none, lx1) => .ok (none, lx1)
  | (some c, lx1) =>
    let lexeme := String.singleton c
    if isalpha c then
      match lx1.read_continued_token TOK_IDENTIFIER lexeme isalnum with
      | (tok, lx2) => .ok (some (keyword_tag tok), lx2)
    else if isdigit c then
      match lx1.read_continued_token TOK_INTEGER_LITERAL lexeme isdigit with
      | (tok, lx2) => .ok (some tok, lx2)
    else if c = '+' then .ok (some (token_create TOK_PLUS lexeme), lx1)
    else if c = '-' then .ok (some (token_create TOK_MINUS lexeme), lx1)
    else if c = '*' then .ok (some (token_create TOK_TIMES lexeme), lx1)
    else if c = '/' then .ok (some (token_create TOK_DIVIDE lexeme), lx1)
    else if c = '(' then .ok (some (token_create TOK_LPAREN lexeme), lx1)
    else if c = ')' then .ok (some (token_create TOK_RPAREN lexeme), lx1)
    else if c = ';' then .ok (some (token_create TOK_SEMICOLON lexeme), lx1)
    else if c = '=' then
      (lx1.try_two_character_token '=' '=' TOK_ASSIGN TOK_IS_EQUAL).map
        (fun r => (some r.1, r.2))
    else if c = '<' then
      (lx1.try_two_character_token '<' '=' TOK_LESS TOK_LESS_EQUAL).map
        (fun r => (some r.1, r.2))
    else if c = '>' then
      (lx1.try_two_character_token '>' '=' TOK_GREATER TOK_GREATER_EQUAL).map
        (fun r => (some r.1, r.2))
    else if c = '&' then
      (lx1.try_two_character_token '&' '&' ERROR TOK_AND).map (fun r => (some r.1, r.2))
    else if c = '|' then
      (lx1.try_two_character_token '|' '|' ERROR TOK_OR).map (fun r => (some r.1, r.2))
    else if c = '!' then
      (lx1.try_two_character_token '!' '=' ERROR TOK_NOT_EQUAL).map (fun r => (some r.1, r.2))
    else if c = Char.ofNat 123 then .ok (some (token_create TOK_LBRACE lexeme), lx1)
    else if c = Char.ofNat 125 then .ok (some (token_create TOK_RBRACE lexeme), lx1)
    else if c = ',' then .ok (some (token_create TOK_COMMA lexeme), lx1)
    else if c = dquote then
      (lx1.string_create).map (fun r => (some r.1, r.2))
    else .error (.SyntaxError ("Unrecognized character '" ++ String.singleton c ++ "'"))

/-- The loop of `Lexer::fill`; the counter bounds the number of iterations
(each one consumes a character or reaches end of file). -/
def fill_loop (how_many : Nat) : Nat → Lexer → Except Failure Lexer
  | 0, lx => .ok lx
  | n + 1, lx =>
    if !lx.m_eof && lx.m_lookahead.length < how_many then
      match lx.read_token with
      | .error e => .error e
      | .ok (some tok, lx1) =>
        fill_loop how_many n { lx1 with m_lookahead := lx1.m_lookahead ++ [tok] }
      | .ok (none, lx1) => fill_loop how_many n lx1
    else .ok lx

/-- `Lexer::fill`. -/
def Lexer.fill (lx : Lexer) (how_many : Nat) : Except Failure Lexer :=
  if how_many = 0 then .error (.assertion_failure "how_many > 0")
  else fill_loop how_many (lx.m_in.length + 1) lx

/-- `Lexer::next`. -/
def Lexer.next (lx : Lexer) : Except Failure (Token × Lexer) :=
  match lx.fill 1 with
  | .error e => .error e
  | .ok lx1 =>
    match lx1.m_lookahead with
    | [] => .error (.SyntaxError "Unexpected end of input")
    | tok :: rest => .ok (tok, { lx1 with m_lookahead := rest })

/-- `Lexer::peek`: `none` is the null pointer returned when fewer than
`how_many` tokens remain. -/
def Lexer.peek (lx : Lexer) (how_many : Nat) : Except Failure (Option Token × Lexer) :=
  match lx.fill how_many with
  | .error e => .error e
  | .ok lx1 =>
    if lx1.m_lookahead.length < how_many then .ok (none, lx1)
    else .ok (lx1.m_lookahead.get? (how_many - 1), lx1)

/-! ## AST nodes (ast.h) and the parser (parser2.cpp) -/

/-- AST node tags of `enum ASTKind`. -/
inductive ASTKind where
  | AST_ADD
  | AST_SUB
  | AST_MULTIPLY
  | AST_DIVIDE
  | AST_VARREF
  | AST_INT_LITERAL
  | AST_UNIT
  | AST_STATEMENT
  | AST_VARDEF
  | AST_ASSIGN
  | AST_LOGICAL_OR
  | AST_LOGICAL_AND
  | AST_LESS
  | AST_LESSEQUAL
  | AST_GREATER
  | AST_GREATEREQUAL
  | AST_ISEQUAL
  | AST_ISNOTEQUAL
  | AST_IF
  | AST_WHILE
  | AST_STATEMENT_LIST
  | AST_FNCALL
  | AST_ARGLIST
  | AST_FUNCTION
  | AST_PARAM_LIST
  | AST_STRING_LITERAL
  deriving DecidableEq, Repr

open ASTKind

/-- An AST `Node`: tag, string payload and the ordered children. -/
inductive Node where
  | mk (tag : ASTKind) (str : String) (kids : List Node)
  deriving Repr

/-- `Node::get_tag`. -/
def Node.get_tag : Node → ASTKind
  | .mk tag _ _ => tag

/-- `Node::get_str`. -/
def Node.get_str : Node → String
  | .mk _ str _ => str

/-- The children of a node. -/
def Node.kids : Node → List Node
  | .mk _ _ kids => kids

/-- `Node::get_num_kids`. -/
def Node.get_num_kids (n : Node) : Nat := n.kids.length

/-- `Node::get_kid`: asking for a child that does not exist is an error of
the caller. -/
def Node.get_kid (n : Node) (i : Nat) : Except Failure Node :=
  match n.kids.get? i with
  | some k => .ok k
  | none => .error (.undefined_behaviour "get_kid: no such child")

/-- `Node::append_kid`. -/
def Node.append_kid : Node → Node → Node
  | .mk tag str kids, k => .mk tag str (kids ++ [k])

/-- `Parser2::expect`. -/
def expect (lx : Lexer) (tok_kind : TokenKind) : Except Failure (Token × Lexer) :=
  match lx.next with
  | .error e => .error e
  | .ok (next_terminal, lx1) =>
    if next_terminal.tag ≠ tok_kind then
      .error (.SyntaxError ("Unexpected token '" ++ next_terminal.str ++ "'"))
    else .ok (next_terminal, lx1)

/-- `Parser2::expect_and_discard`. -/
def expect_and_discard (lx : Lexer) (tok_kind : TokenKind) : Except Failure Lexer :=
  (expect lx tok_kind).map (fun r => r.2)

/-- Whether a peeked token pointer is non-null and carries the given tag. -/
def has_tag (t : Option Token) (k : TokenKind) : Bool :=
  match t with
  | some tok => tok.tag = k
  | none => false

/-- AST tag chosen by the `switch` of `Parser2::parse_R`. -/
def relational_tag (k : TokenKind) : ASTKind :=
  match k with
  | TOK_LESS => AST_LESS
  | TOK_GREATER => AST_GREATER
  | TOK_IS_EQUAL => AST_ISEQUAL
  | TOK_LESS_EQUAL => AST_LESSEQUAL
  | TOK_GREATER_EQUAL => AST_GREATEREQUAL
  | _ => AST_ISNOTEQUAL

/-- Test of `Parser2::parse_R` for a relational operator token. -/
def is_relational (k : TokenKind) : Bool :=
  k = TOK_LESS || k = TOK_GREATER || k = TOK_IS_EQUAL ||
  k = TOK_LESS_EQUAL || k = TOK_GREATER_EQUAL || k = TOK_NOT_EQUAL

mutual

/-- `Parser2::parse_Stmt`. -/
def parse_Stmt : Nat → Lexer → Except Failure (Node × Lexer)
  | 0, _ => .error .nontermination
  | n + 1, lx => do
    let (next_tok, lx) ← lx.peek 1
    match next_tok with
    | none => .error (.SyntaxError "Unexpected end of input looking for statement")
    | some tok =>
      if tok.tag = TOK_VAR then do
        let lx ← expect_and_discard lx TOK_VAR
        let (ident, lx) ← expect lx TOK_IDENTIFIER
        let varRef := Node.mk AST_VARREF ident.str []
        let varDef := Node.mk AST_VARDEF "" [varRef]
        let lx ← expect_and_discard lx TOK_SEMICOLON
        .ok (Node.mk AST_STATEMENT "" [varDef], lx)
      else if tok.tag = TOK_IF then do
        let lx ← expect_and_discard lx TOK_IF
        let lx ← expect_and_discard lx TOK_LPAREN
        let (ast_A, lx) ← parse_A n lx
        let ifNode := Node.mk AST_IF "" [ast_A]
        let lx ← expect_and_discard lx TOK_RPAREN
        let lx ← expect_and_discard lx TOK_LBRACE
        let (block, lx) ← parse_SList n (Node.mk AST_STATEMENT_LIST "" []) lx
        let lx ← expect_and_discard lx TOK_RBRACE
        let ifNode := ifNode.append_kid block
        let (t, lx) ← lx.peek 1
        if has_tag t TOK_ELSE then do
          let lx ← expect_and_discard lx TOK_ELSE
          let lx ← expect_and_discard lx TOK_LBRACE
          let (elseBlock, lx) ← parse_SList n (Node.mk AST_STATEMENT_LIST "" []) lx
          let lx ← expect_and_discard lx TOK_RBRACE
          .ok (Node.mk AST_STATEMENT "" [ifNode.append_kid elseBlock], lx)
        else .ok (Node.mk AST_STATEMENT "" [ifNode], lx)
      else if tok.tag = TOK_WHILE then do
        let lx ← expect_and_discard lx TOK_WHILE
        let lx ← expect_and_discard lx TOK_LPAREN
        let (ast_A, lx) ← parse_A n lx
        let whileNode := Node.mk AST_WHILE "" [ast_A]
        let lx ← expect_and_discard lx TOK_RPAREN
        let lx ← expect_and_discard lx TOK_LBRACE
        let (block, lx) ← parse_SList n (Node.mk AST_STATEMENT_LIST "" []) lx
        let lx ← expect_and_discard lx TOK_RBRACE
        .ok (Node.mk AST_STATEMENT "" [whileNode.append_kid block], lx)
      else do
        let (ast_A, lx) ← parse_A n lx
        let lx ← expect_and_discard lx TOK_SEMICOLON
        .ok (Node.mk AST_STATEMENT "" [ast_A], lx)

/-- The `for (;;)` loop that fills a block with statements; the source writes
it out once for each of the four kinds of block (function body, if branch,
else branch, while body). A statement is parsed before the end of the block
is tested. -/
def parse_SList : Nat → Node → Lexer → Except Failure (Node × Lexer)
  | 0, _, _ => .error .nontermination
  | n + 1, block, lx => do
    let (stmt, lx) ← parse_Stmt n lx
    let block := block.append_kid stmt
    let (t, lx) ← lx.peek 1
    if t = none || has_tag t TOK_RBRACE then .ok (block, lx)
    else parse_SList n block lx

/-- `Parser2::parse_A`. -/
def parse_A : Nat → Lexer → Except Failure (Node × Lexer)
  | 0, _ => .error .nontermination
  | n + 1, lx => do
    let (next_tok, lx) ← lx.peek 1
    match next_tok with
    | none => .error (.SyntaxError "Unexpected end of input looking for A")
    | some tok =>
      let (next_next_tok, lx) ← lx.peek 2
      if has_tag next_next_tok TOK_ASSIGN && tok.tag = TOK_IDENTIFIER then do
        let varRef := Node.mk AST_VARREF tok.str []
        let lx ← expect_and_discard lx TOK_IDENTIFIER
        let lx ← expect_and_discard lx TOK_ASSIGN
        let (ast_A, lx) ← parse_A n lx
        .ok (Node.mk AST_ASSIGN "" [varRef, ast_A], lx)
      else parse_L n lx

/-- `Parser2::parse_L`. -/
def parse_L : Nat → Lexer → Except Failure (Node × Lexer)
  | 0, _ => .error .nontermination
  | n + 1, lx => do
    let (ast, lx) ← parse_R n lx
    let (next_tok, lx) ← lx.peek 1
    match next_tok with
    | none => .error (.SyntaxError "Unexpected end of input looking for L")
    | some tok =>
      if tok.tag = TOK_OR || tok.tag = TOK_AND then do
        let (_, lx) ← expect lx tok.tag
        let (right, lx) ← parse_R n lx
        .ok (Node.mk (if tok.tag = TOK_OR then AST_LOGICAL_OR else AST_LOGICAL_AND) ""
          [ast, right], lx)
      else .ok (ast, lx)

/-- `Parser2::parse_R`. -/
def parse_R : Nat → Lexer → Except Failure (Node × Lexer)
  | 0, _ => .error .nontermination
  | n + 1, lx => do
    let (ast, lx) ← parse_E n lx
    let (next_tok, lx) ← lx.peek 1
    match next_tok with
    | none => .error (.SyntaxError "Unexpected end of input looking for R")
    | some tok =>
      if is_relational tok.tag then do
        let (_, lx) ← expect lx tok.tag
        let (right, lx) ← parse_E n lx
        .ok (Node.mk (relational_tag tok.tag) "" [ast, right], lx)
      else .ok (ast, lx)

/-- `Parser2::parse_E`. -/
def parse_E : Nat → Lexer → Except Failure (Node × Lexer)
  | 0, _ => .error .nontermination
  | n + 1, lx => do
    let (ast, lx) ← parse_T n lx
    parse_EPrime n ast lx

/-- `Parser2::parse_EPrime`. -/
def parse_EPrime : Nat → Node → Lexer → Except Failure (Node × Lexer)
  | 0, _, _ => .error .nontermination
  | n + 1, ast, lx => do
    let (next_tok, lx) ← lx.peek 1
    match next_tok with
    | none => .ok (ast, lx)
    | some tok =>
      if tok.tag = TOK_PLUS || tok.tag = TOK_MINUS then do
        let (_, lx) ← expect lx tok.tag
        let (term_ast, lx) ← parse_T n lx
        parse_EPrime n
          (Node.mk (if tok.tag = TOK_PLUS then AST_ADD else AST_SUB) "" [ast, term_ast]) lx
      else .ok (ast, lx)

/-- `Parser2::parse_T`. -/
def parse_T : Nat → Lexer → Except Failure (Node × Lexer)
  | 0, _ => .error .nontermination
  | n + 1, lx => do
    let (ast, lx) ← parse_F n lx
    parse_TPrime n ast lx

/-- `Parser2::parse_TPrime`. -/
def parse_TPrime : Nat → Node → Lexer → Except Failure (Node × Lexer)
  | 0, _, _ => .error .nontermination
  | n + 1, ast, lx => do
    let (next_tok, lx) ← lx.peek 1
    match next_tok with
    | none => .ok (ast, lx)
    | some tok =>
      if tok.tag = TOK_TIMES || tok.tag = TOK_DIVIDE then do
        let (_, lx) ← expect lx tok.tag
        let (primary_ast, lx) ← parse_F n lx
        parse_TPrime n
          (Node.mk (if tok.tag = TOK_TIMES then AST_MULTIPLY else AST_DIVIDE) ""
            [ast, primary_ast]) lx
      else .ok (ast, lx)

/-- `Parser2::parse_F`. -/
def parse_F : Nat → Lexer → Except Failure (Node × Lexer)
  | 0, _ => .error .nontermination
  | n + 1, lx => do
    let (next_tok, lx) ← lx.peek 1
    match next_tok with
    | none =>
      .error (.SyntaxError "Unexpected end of input looking for primary expression")
    | some tok =>
      let (next_next_tok, lx) ← lx.peek 2
      if has_tag next_next_tok TOK_LPAREN && tok.tag = TOK_IDENTIFIER then do
        let (t, lx) ← expect lx TOK_IDENTIFIER
        let varRef := Node.mk AST_VARREF t.str []
        let lx ← expect_and_discard lx TOK_LPAREN
        let (args, lx) ← parse_OptArgList n lx
        let lx ← expect_and_discard lx TOK_RPAREN
        .ok (Node.mk AST_FNCALL "" [varRef, args], lx)
      else if tok.tag = TOK_INTEGER_LITERAL || tok.tag = TOK_IDENTIFIER then do
        let (t, lx) ← expect lx tok.tag
        .ok (Node.mk (if tok.tag = TOK_INTEGER_LITERAL then AST_INT_LITERAL else AST_VARREF)
          t.str [], lx)
      else if tok.tag = TOK_LPAREN then do
        let lx ← expect_and_discard lx TOK_LPAREN
        let (ast, lx) ← parse_A n lx
        let lx ← expect_and_discard lx TOK_RPAREN
        .ok (ast, lx)
      else if tok.tag = TOK_STRING then do
        let (t, lx) ← expect lx TOK_STRING
        .ok (Node.mk AST_STRING_LITERAL t.str [], lx)
      else .error (.SyntaxError "Invalid primary expression")

/-- `Parser2::parse_OptArgList`. -/
def parse_OptArgList : Nat → Lexer → Except Failure (Node × Lexer)
  | 0, _ => .error .nontermination
  | n + 1, lx => do
    let (next_tok, lx) ← lx.peek 1
    match next_tok with
    | none => .ok (Node.mk AST_ARGLIST "" [], lx)
    | some tok =>
      if tok.tag ≠ TOK_RPAREN then parse_ArgList n (Node.mk AST_ARGLIST "" []) lx
      else .ok (Node.mk AST_ARGLIST "" [], lx)

/-- `Parser2::parse_ArgList`. -/
def parse_ArgList : Nat → Node → Lexer → Except Failure (Node × Lexer)
  | 0, _, _ => .error .nontermination
  | n + 1, ast, lx => do
    let (arg, lx) ← parse_L n lx
    let ast := ast.append_kid arg
    let (next_tok, lx) ← lx.peek 1
    if has_tag next_tok TOK_COMMA then do
      let lx ← expect_and_discard lx TOK_COMMA
      parse_ArgList n ast lx
    else .ok (ast, lx)

end

/-- `Parser2::parse_PList`. -/
def parse_PList : Nat → Node → Lexer → Except Failure (Node × Lexer)
  | 0, _, _ => .error .nontermination
  | n + 1, ast, lx => do
    let (ident, lx) ← expect lx TOK_IDENTIFIER
    let ast := ast.append_kid (Node.mk AST_VARREF ident.str [])
    let (next_tok, lx) ← lx.peek 1
    if has_tag next_tok TOK_COMMA then do
      let lx ← expect_and_discard lx TOK_COMMA
      parse_PList n ast lx
    else .ok (ast, lx)

/-- `Parser2::parse_OptPList`. -/
def parse_OptPList (fuel : Nat) (lx : Lexer) : Except Failure (Node × Lexer) := do
  let (next_tok, lx) ← lx.peek 1
  match next_tok with
  | none => .ok (Node.mk AST_PARAM_LIST "" [], lx)
  | some tok =>
    if tok.tag ≠ TOK_RPAREN then parse_PList fuel (Node.mk AST_PARAM_LIST "" []) lx
    else .ok (Node.mk AST_PARAM_LIST "" [], lx)

/-- `Parser2::parse_Func`. -/
def parse_Func (fuel : Nat) (lx : Lexer) : Except Failure (Node × Lexer) := do
  let (t, lx) ← lx.peek 1
  match t with
  | none => .error (.undefined_behaviour "null pointer dereference: peek()->get_loc()")
  | some _ =>
    let lx ← expect_and_discard lx TOK_FUNCTION
    let (ident, lx) ← expect lx TOK_IDENTIFIER
    let func := Node.mk AST_FUNCTION "" [Node.mk AST_VARREF ident.str []]
    let lx ← expect_and_discard lx TOK_LPAREN
    let (plist, lx) ← parse_OptPList fuel lx
    let func := func.append_kid plist
    let lx ← expect_and_discard lx TOK_RPAREN
    let lx ← expect_and_discard lx TOK_LBRACE
    let (block, lx) ← parse_SList fuel (Node.mk AST_STATEMENT_LIST "" []) lx
    let lx ← expect_and_discard lx TOK_RBRACE
    .ok (func.append_kid block, lx)

/-- `Parser2::parse_TStmt`. The pointer returned by `peek()` is dereferenced
without a null test. -/
def parse_TStmt (fuel : Nat) (lx : Lexer) : Except Failure (Node × Lexer) := do
  let (next_tok, lx) ← lx.peek 1
  match next_tok with
  | none => .error (.undefined_behaviour "null pointer dereference: next_tok->get_tag()")
  | some tok =>
    if tok.tag = TOK_FUNCTION then parse_Func fuel lx
    else parse_Stmt fuel lx

/-- The loop of `Parser2::parse_Unit`. -/
def parse_Unit_loop (fuel : Nat) : Nat → Node → Lexer → Except Failure (Node × Lexer)
  | 0, _, _ => .error .nontermination
  | n + 1, unit, lx => do
    let (stmt, lx) ← parse_TStmt fuel lx
    let unit := unit.append_kid stmt
    let (t, lx) ← lx.peek 1
    if t = none then .ok (unit, lx)
    else parse_Unit_loop fuel n unit lx

/-- `Parser2::parse_Unit`. -/
def parse_Unit (fuel : Nat) (lx : Lexer) : Except Failure (Node × Lexer) :=
  parse_Unit_loop fuel fuel (Node.mk AST_UNIT "" []) lx

/-- `Parser2::parse`. -/
def parse (fuel : Nat) (lx : Lexer) : Except Failure (Node × Lexer) :=
  parse_Unit fuel lx

/-! ## Values (value.cpp), representations and the store -/

/-- The native callbacks that `Interpreter::execute` binds in the global
environment (`IntrinsicFn` function pointers). -/
inductive IntrinsicFn where
  | intrinsic_print
  | intrinsic_println
  | intrinsic_readint
  | array_mkarr
  | array_len
  | array_get
  | array_set
  | array_push
  | array_pop
  | string_substr
  | string_strcat
  | string_strlen
  deriving DecidableEq, Repr

/-- A `Value`: the kind tag with its payload. A heap kind carries the address
of its representation in the store (`VALUE_FUNCTION`, `VALUE_ARRAY`); a
`String` representation is immutable and is carried by content. -/
inductive Value where
  | VALUE_INT (ival : Int)
  | VALUE_FUNCTION (fn : Nat)
  | VALUE_INTRINSIC_FN (f : IntrinsicFn)
  | VALUE_ARRAY (arr : Nat)
  | VALUE_STRING (str : String)
  deriving DecidableEq, Repr

open Value

/-- Modelled from the spec: `value.h` is not among the sources. `is_numeric`
holds of integer values only. -/
def Value.is_numeric : Value → Bool
  | VALUE_INT _ => true
  | _ => false

/-- Modelled from the spec: `value.h` is not among the sources. `get_ival`
asserts that the value is an integer, as `get_function`, `get_array` and
`get_string` of `value.cpp` assert their kinds. -/
def Value.get_ival : Value → Except Failure Int
  | VALUE_INT i => .ok i
  | _ => .error (.assertion_failure "m_kind == VALUE_INT")

/-- Least value of the C++ type `int`. -/
def INT_MIN : Int := -2147483648

/-- Greatest value of the C++ type `int`. -/
def INT_MAX : Int := 2147483647

/-- Result of an `int` operation whose mathematical value is `z`: signed
overflow is undefined behaviour. -/
def int_result (z : Int) : Except Failure Int :=
  if INT_MIN ≤ z ∧ z ≤ INT_MAX then .ok z
  else .error (.undefined_behaviour "signed integer overflow")

/-- A `Function` representation: name, parameter names, the address of the
defining environment and the body. -/
structure Function where
  m_name : String
  m_params : List String
  m_parent_env : Nat
  m_body : Node
  deriving Repr

/-- An `Array` representation: the explicit length `m_size` and the vector
`m_array`. -/
structure Array where
  m_size : Int
  m_array : List Value
  deriving DecidableEq, Repr

/-- An `Environment`: the parent pointer and the map the `variables` member
(`std::map<std::string, Value>`, kept as an association list with at most
one entry per name). -/
structure Environment where
  m_parent : Option Nat
  vars : List (String × Value)
  deriving DecidableEq, Repr

/-- The heap and the standard streams. `envs[p] = none` means that the
environment at address `p` has been deleted. -/
structure Store where
  envs : List (Option Environment)
  functions : List Function
  arrays : List Array
  output : String
  input : List Int
  deriving Repr

/-- `variables.find(name)`. -/
def map_find (m : List (String × Value)) (name : String) : Option Value :=
  m.lookup name

/-- `variables[name] = value`. -/
def map_assign : List (String × Value) → String → Value → List (String × Value)
  | [], name, value => [(name, value)]
  | (k, w) :: rest, name, value =>
    if name = k then (k, value) :: rest else (k, w) :: map_assign rest name value

/-- Dereference an `Environment` pointer. -/
def Store.env (s : Store) (p : Nat) : Except Failure Environment :=
  match s.envs[p]? with
  | some (some e) => .ok e
  | _ => .error (.undefined_behaviour "dangling Environment pointer")

/-- `new Environment(parent)`: the address of the new object and the store
that holds it. -/
def Store.new_env (s : Store) (parent : Option Nat) : Nat × Store :=
  (s.envs.length, { s with envs := s.envs ++ [some { m_parent := parent, vars := [] }] })

/-- `delete env`. -/
def Store.delete_env (s : Store) (p : Nat) : Store :=
  { s with envs := s.envs.set p none }

/-- Write back an environment at its address. -/
def Store.put_env (s : Store) (p : Nat) (e : Environment) : Store :=
  { s with envs := s.envs.set p (some e) }

/-! ## Environment (environment.cpp) -/

/-- `Environment::defineVar`. -/
def Environment_defineVar (s : Store) (env : Nat) (name : String) : Except Failure Store := do
  let e ← s.env env
  .ok (s.put_env env { e with vars := map_assign e.vars name (VALUE_INT 0) })

/-- `Environment::bind`. -/
def Environment_bind (s : Store) (env : Nat) (name : String) (value : Value) :
    Except Failure Store := do
  let e ← s.env env
  .ok (s.put_env env { e with vars := map_assign e.vars name value })

/-- `Environment::isDefinedInCurrentScope`. -/
def Environment_isDefinedInCurrentScope (s : Store) (env : Nat) (name : String) :
    Except Failure Bool := do
  let e ← s.env env
  .ok (map_find e.vars name).isSome

/-- Recursion of `Environment::isDefined` along the parent pointers; the
counter bounds the length of the chain. -/
def isDefined_walk (s : Store) : Nat → Nat → String → Except Failure Bool
  | 0, _, _ => .error .nontermination
  | n + 1, env, name => do
    let e ← s.env env
    if (map_find e.vars name).isSome then .ok true
    else
      match e.m_parent with
      | some p => isDefined_walk s n p name
      | none => .ok false

/-- `Environment::isDefined`. -/
def Environment_isDefined (s : Store) (env : Nat) (name : String) : Except Failure Bool :=
  isDefined_walk s s.envs.length env name

/-- Recursion of `Environment::getVar` along the parent pointers. When the
chain is exhausted the source falls off the end of a value-returning
function. -/
def getVar_walk (s : Store) : Nat → Nat → String → Except Failure Value
  | 0, _, _ => .error .nontermination
  | n + 1, env, name => do
    let e ← s.env env
    match map_find e.vars name with
    | some v => .ok v
    | none =>
      match e.m_parent with
      | some p => getVar_walk s n p name
      | none => .error (.undefined_behaviour "getVar: no return value")

/-- `Environment::getVar`. -/
def Environment_getVar (s : Store) (env : Nat) (name : String) : Except Failure Value :=
  getVar_walk s s.envs.length env name

/-- Recursion of `Environment::setVar` along the parent pointers. When no
scope of the chain binds the name nothing is written. -/
def setVar_walk (value : Value) : Nat → Store → Nat → String → Except Failure Store
  | 0, _, _, _ => .error .nontermination
  | n + 1, s, env, name => do
    let e ← s.env env
    if (map_find e.vars name).isSome then
      .ok (s.put_env env { e with vars := map_assign e.vars name value })
    else
      match e.m_parent with
      | some p => setVar_walk value n s p name
      | none => .ok s

/-- `Environment::setVar`. -/
def Environment_setVar (s : Store) (env : Nat) (name : String) (value : Value) :
    Except Failure Store :=
  setVar_walk value s.envs.length s env name

/-! ## Text conversions of the standard library -/

/-- Modelled from the spec: `cpputil.h` is not among the sources.
`cpputil::format("%d", i)` is the decimal rendering of the integer `i`. -/
def format_d (i : Int) : String :=
  if i < 0 then "-" ++ Nat.repr i.natAbs else Nat.repr i.toNat

/-- Value of the longest prefix of decimal digits, continuing from `acc`. -/
def stoi_digits : List Char → Nat → Nat
  | [], acc => acc
  | c :: cs, acc => if isdigit c then stoi_digits cs (acc * 10 + (c.toNat - 48)) else acc

/-- The digits of `std::stoi` once the sign has been read. -/
def stoi_unsigned (body : List Char) (negative : Bool) : Except Failure Int :=
  match body with
  | [] => .error (.invalid_argument "stoi")
  | c :: _ =>
    if isdigit c then
      let z : Int := if negative then -(stoi_digits body 0 : Int) else (stoi_digits body 0 : Int)
      if INT_MIN ≤ z ∧ z ≤ INT_MAX then .ok z else .error (.out_of_range "stoi")
    else .error (.invalid_argument "stoi")

/-- Conversion of a text without leading white space by `std::stoi`. -/
def stoi_signed (cs : List Char) : Except Failure Int :=
  match cs with
  | [] => .error (.invalid_argument "stoi")
  | c :: rest =>
    if c = '-' then stoi_unsigned rest true
    else if c = '+' then stoi_unsigned rest false
    else stoi_unsigned cs false

/-- `std::stoi(str)`: leading white space is skipped, an optional sign and
the longest run of decimal digits are converted; `std::invalid_argument`
when there is no digit, `std::out_of_range` when the value does not fit an
`int`. -/
def stoi (str : String) : Except Failure Int :=
  stoi_signed (str.data.dropWhile isspace)

/-- Conversion of an `int` to `size_t` (64 bits). -/
def to_size_t (i : Int) : Nat := (i % 18446744073709551616).toNat

/-- `std::string::substr(pos, n)`: throws `std::out_of_range` when
`pos > size()`, otherwise the `min(n, size() - pos)` characters from `pos`. -/
def std_string_substr (str : String) (pos n : Nat) : Except Failure String :=
  if pos > str.length then .error (.out_of_range "basic_string::substr")
  else .ok (String.mk ((str.data.drop pos).take n))

/-! ## String (string.cpp) and Array (array.cpp) -/

/-- `String::substr`. -/
def String_substr (m_string : String) (start «end» : Int) : Except Failure Value :=
  (std_string_substr m_string (to_size_t start) (to_size_t «end»)).map VALUE_STRING

/-- `String::strcat`. -/
def String_strcat (m_string : String) (b_string : Value) : Except Failure Value :=
  match b_string with
  | VALUE_STRING b => .ok (VALUE_STRING (m_string ++ b))
  | _ => .error (.assertion_failure "m_kind == VALUE_STRING")

/-- `String::strlen`. -/
def String_strlen (m_string : String) : Int := m_string.length

/-- The `Array` constructor. -/
def Array.create (array : List Value) : Array :=
  { m_size := array.length, m_array := array }

/-- `Array::len`. -/
def Array.len (a : Array) : Int := a.m_size

/-- `Array::get`. -/
def Array.get (a : Array) (index : Int) : Except Failure Value :=
  if index ≥ 0 ∧ index < a.m_size then
    match a.m_array[index.toNat]? with
    | some v => .ok v
    | none => .error (.undefined_behaviour "vector subscript out of range")
  else .error (.EvaluationError ("Array index out of bound: " ++ format_d index ++ "\n"))

/-- `Array::set`: the value returned and the array after the call. -/
def Array.set (a : Array) (index : Int) (val : Value) : Except Failure (Value × Array) :=
  if index ≥ 0 ∧ index < a.m_size then
    if index.toNat < a.m_array.length then
      .ok (val, { a with m_array := a.m_array.set index.toNat val })
    else .error (.undefined_behaviour "vector subscript out of range")
  else .error (.EvaluationError ("Array index out of bound: " ++ format_d index ++ "\n"))

/-- `Array::push`. -/
def Array.push (a : Array) (val : Value) : Value × Array :=
  (val, { m_size := a.m_size + 1, m_array := a.m_array ++ [val] })

/-- `Array::pop`. -/
def Array.pop (a : Array) : Except Failure (Value × Array) :=
  if a.m_size = 0 then .error (.EvaluationError "Popping an empty array \n")
  else
    match a.m_array.getLast? with
    | some last_val => .ok (last_val, { m_size := a.m_size - 1, m_array := a.m_array.dropLast })
    | none => .error (.undefined_behaviour "back() of an empty vector")

/-- Dereference an `Array` pointer. -/
def Store.array (s : Store) (p : Nat) : Except Failure Array :=
  match s.arrays[p]? with
  | some a => .ok a
  | none => .error (.undefined_behaviour "dangling Array pointer")

/-- Write back an array at its address. -/
def Store.put_array (s : Store) (p : Nat) (a : Array) : Store :=
  { s with arrays := s.arrays.set p a }

/-! ## Rendering of values (value.cpp) -/

/-- The loop of `Value::array_as_str` from index `i` on, `k` elements left. -/
def array_as_str_loop (as_str : Value → Except Failure String) (a : Array) :
    Nat → Int → String → Except Failure String
  | 0, _, result => .ok (result ++ "]")
  | k + 1, i, result => do
    let v ← a.get i
    let str ← as_str v
    array_as_str_loop as_str a k (i + 1) ((if i > 0 then result ++ ", " else result) ++ str)

/-- Recursion of `Value::as_str` through nested arrays; the counter bounds
the nesting depth. -/
def as_str_walk (s : Store) : Nat → Value → Except Failure String
  | 0, _ => .error .nontermination
  | n + 1, v =>
    match v with
    | VALUE_INT i => .ok (format_d i)
    | VALUE_FUNCTION f =>
      match s.functions[f]? with
      | some fn => .ok ("<function " ++ fn.m_name ++ ">")
      | none => .error (.undefined_behaviour "dangling Function pointer")
    | VALUE_INTRINSIC_FN _ => .ok "<intrinsic function>"
    | VALUE_ARRAY p => do
      let a ← s.array p
      array_as_str_loop (as_str_walk s n) a a.len.toNat 0 "["
    | VALUE_STRING str => .ok str

/-- `Value::as_str`. An array nested more deeply than there are arrays in the
store contains itself, and the source recurses without end. -/
def Value.as_str (s : Store) (v : Value) : Except Failure String :=
  as_str_walk s (s.arrays.length + 1) v

/-! ## Intrinsic functions (interp.h) -/

/-- `Interpreter::intrinsic_print`. -/
def intrinsic_print (args : List Value) (s : Store) : Except Failure (Value × Store) :=
  match args with
  | [a] => do
    let str ← a.as_str s
    .ok (VALUE_INT 0, { s with output := s.output ++ str })
  | _ => .error (.EvaluationError "Wrong number of arguments passed to print function")

/-- `Interpreter::intrinsic_println`. -/
def intrinsic_println (args : List Value) (s : Store) : Except Failure (Value × Store) :=
  match args with
  | [a] => do
    let str ← a.as_str s
    .ok (VALUE_INT 0, { s with output := s.output ++ str ++ "\n" })
  | _ => .error (.EvaluationError "Wrong number of arguments passed to println function")

/-- `Interpreter::intrinsic_readint`; standard input is the list of the
integers that `scanf` will read, and reading fails once it is empty. -/
def intrinsic_readint (args : List Value) (s : Store) : Except Failure (Value × Store) :=
  match args with
  | [] =>
    match s.input with
    | i :: rest => .ok (VALUE_INT i, { s with input := rest })
    | [] => .error (.EvaluationError "Failed to read an integer from standard input")
  | _ => .error (.EvaluationError "readint does not take any arguments")

/-- `Interpreter::array_mkarr`. -/
def array_mkarr (args : List Value) (s : Store) : Except Failure (Value × Store) :=
  .ok (VALUE_ARRAY s.arrays.length, { s with arrays := s.arrays ++ [Array.create args] })

/-- `Interpreter::array_len`. -/
def array_len (args : List Value) (s : Store) : Except Failure (Value × Store) :=
  match args with
  | [a0] =>
    match a0 with
    | VALUE_ARRAY p => do
      let a ← s.array p
      .ok (VALUE_INT a.len, s)
    | _ => .error (.EvaluationError "First argument to array len function must be an array")
  | _ => .error (.EvaluationError "Wrong number of arguments passed to array length function")

/-- `Interpreter::array_get`. -/
def array_get (args : List Value) (s : Store) : Except Failure (Value × Store) :=
  match args with
  | [a0, a1] =>
    match a0 with
    | VALUE_ARRAY p =>
      match a1 with
      | VALUE_INT index => do
        let a ← s.array p
        let v ← a.get index
        .ok (v, s)
      | _ => .error (.EvaluationError "Second argument to array get function must be an integer")
    | _ => .error (.EvaluationError "First argument to array get function must be an array")
  | _ => .error (.EvaluationError "Wrong number of arguments passed to array get function")

/-- `Interpreter::array_set`. -/
def array_set (args : List Value) (s : Store) : Except Failure (Value × Store) :=
  match args with
  | [a0, a1, a2] =>
    match a0 with
    | VALUE_ARRAY p =>
      match a1 with
      | VALUE_INT index => do
        let a ← s.array p
        let (v, a) ← a.set index a2
        .ok (v, s.put_array p a)
      | _ => .error (.EvaluationError "Second argument to array set function must be an integer")
    | _ => .error (.EvaluationError "First argument to array set function must be an array")
  | _ => .error (.EvaluationError "Wrong number of arguments passed to array set function")

/-- `Interpreter::array_push`. -/
def array_push (args : List Value) (s : Store) : Except Failure (Value × Store) :=
  match args with
  | [a0, a1] =>
    match a0 with
    | VALUE_ARRAY p => do
      let a ← s.array p
      .ok ((a.push a1).1, s.put_array p (a.push a1).2)
    | _ => .error (.EvaluationError "First argument to array push function must be an array")
  | _ => .error (.EvaluationError "Wrong number of arguments passed to array push function")

/-- `Interpreter::array_pop`. -/
def array_pop (args : List Value) (s : Store) : Except Failure (Value × Store) :=
  match args with
  | [a0] =>
    match a0 with
    | VALUE_ARRAY p => do
      let a ← s.array p
      let (v, a) ← a.pop
      .ok (v, s.put_array p a)
    | _ => .error (.EvaluationError "First argument to array pop function must be an array")
  | _ => .error (.EvaluationError "Wrong number of arguments passed to array pop function")

/-- `Interpreter::string_substr`. -/
def string_substr (args : List Value) (s : Store) : Except Failure (Value × Store) :=
  match args with
  | [a0, a1, a2] =>
    match a0 with
    | VALUE_STRING str =>
      match a1 with
      | VALUE_INT start =>
        match a2 with
        | VALUE_INT «end» => do
          let v ← String_substr str start «end»
          .ok (v, s)
        | _ => .error (.EvaluationError
            "Third argument to string substr function must be an integer")
      | _ => .error (.EvaluationError
          "Second argument to string substr function must be an integer")
    | _ => .error (.EvaluationError "First argument to string substr function must be a string")
  | _ => .error (.EvaluationError "Wrong number of arguments passed to string substr function")

/-- `Interpreter::string_strcat`. -/
def string_strcat (args : List Value) (s : Store) : Except Failure (Value × Store) :=
  match args with
  | [a0, a1] =>
    match a0 with
    | VALUE_STRING str =>
      match a1 with
      | VALUE_STRING _ => do
        let v ← String_strcat str a1
        .ok (v, s)
      | _ => .error (.EvaluationError
          "Second argument to string strcat function must be a string")
    | _ => .error (.EvaluationError "First argument to string strcat function must be a string")
  | _ => .error (.EvaluationError "Wrong number of arguments passed to string strcat function")

/-- `Interpreter::string_strlen`. -/
def string_strlen (args : List Value) (s : Store) : Except Failure (Value × Store) :=
  match args with
  | [a0] =>
    match a0 with
    | VALUE_STRING str => .ok (VALUE_INT (String_strlen str), s)
    | _ => .error (.EvaluationError "First argument to string length function must be a string")
  | _ => .error (.EvaluationError "Wrong number of arguments passed to string length function")

/-- Call through an `IntrinsicFn` pointer. -/
def call_intrinsic (f : IntrinsicFn) (args : List Value) (s : Store) :
    Except Failure (Value × Store) :=
  match f with
  | .intrinsic_print => intrinsic_print args s
  | .intrinsic_println => intrinsic_println args s
  | .intrinsic_readint => intrinsic_readint args s
  | .array_mkarr => array_mkarr args s
  | .array_len => array_len args s
  | .array_get => array_get args s
  | .array_set => array_set args s
  | .array_push => array_push args s
  | .array_pop => array_pop args s
  | .string_substr => string_substr args s
  | .string_strcat => string_strcat args s
  | .string_strlen => string_strlen args s

/-! ## Semantic pre-pass (interp.cpp: analyze) -/

/-- The built-in names with which `Interpreter::analyze` starts. -/
def builtin_names : List String :=
  ["print", "println", "readint", "mkarr", "len", "get", "set", "push", "pop",
   "substr", "strcat", "strlen"]

mutual

/-- `Interpreter::analyzeHelper`: the set of defined names after the subtree
has been visited, or the error raised in it. -/
def analyzeHelper : Node → List String → Except Failure (List String)
  | .mk tag str kids, definedVariables =>
    if tag = AST_VARDEF then
      match kids with
      | varNode :: _ => analyze_kids kids (definedVariables.insert varNode.get_str)
      | [] => .error (.undefined_behaviour "get_kid: no such child")
    else if tag = AST_VARREF then
      if str ∈ definedVariables then analyze_kids kids definedVariables
      else .error (.EvaluationError ("Reference to undefined name '" ++ str ++ "'"))
    else analyze_kids kids definedVariables

/-- The loop over the children in `Interpreter::analyzeHelper`. -/
def analyze_kids : List Node → List String → Except Failure (List String)
  | [], definedVariables => .ok definedVariables
  | kid :: rest, definedVariables =>
    match analyzeHelper kid definedVariables with
    | .ok d => analyze_kids rest d
    | .error e => .error e

end

/-- `Interpreter::analyze`. -/
def analyze (m_ast : Node) : Except Failure (List String) :=
  analyzeHelper m_ast builtin_names

/-! ## Evaluator (interp.cpp) -/

/-- `Interpreter::check_exists`. -/
def check_exists (identifier : String) (env : Nat) (s : Store) : Except Failure String := do
  let defined ← Environment_isDefined s env identifier
  if !defined then
    .error (.EvaluationError ("Function not defined before invoking '" ++ identifier ++ "'"))
  else .ok identifier

/-- `Interpreter::create_function`. -/
def create_function (node : Node) (env : Nat) (s : Store) : Except Failure (Value × Store) := do
  let identifierNode ← node.get_kid 0
  let fn_name := identifierNode.get_str
  let paramListNode ← node.get_kid 1
  let param_names := paramListNode.kids.map Node.get_str
  if node.get_num_kids = 3 then do
    let body ← node.get_kid 2
    let fn_val := VALUE_FUNCTION s.functions.length
    let s := { s with functions := s.functions ++
      [{ m_name := fn_name, m_params := param_names, m_parent_env := env, m_body := body }] }
    let s ← Environment_bind s env fn_name fn_val
    .ok (VALUE_INT 0, s)
  else .error (.EvaluationError "No function body found")

/-- The loop of `Interpreter::execute(Node *, Environment *)` over the
statements of a block, `ev` being `Interpreter::evaluate`. -/
def execute_loop (ev : Node → Nat → Store → Except Failure (Value × Store)) (env : Nat) :
    List Node → Value → Store → Except Failure (Value × Store)
  | [], result, s => .ok (result, s)
  | statm_ast :: rest, _, s => do
    let kid ← statm_ast.get_kid 0
    let (result, s) ← ev kid env s
    execute_loop ev env rest result s

/-- `Interpreter::execute(Node *, Environment *)`. -/
def execute_with (ev : Node → Nat → Store → Except Failure (Value × Store)) (node : Node)
    (env : Nat) (s : Store) : Except Failure (Value × Store) :=
  execute_loop ev env node.kids (VALUE_INT 0) s

/-- The `while` statement inside `case AST_WHILE`, entered with the value of
the first evaluation of the condition; the counter bounds the number of
iterations. -/
def while_loop (ev : Node → Nat → Store → Except Failure (Value × Store))
    (conditionNode blockNode : Node) (env : Nat) :
    Nat → Value → Store → Except Failure (Value × Store)
  | 0, _, _ => .error .nontermination
  | n + 1, conditionValue, s => do
    let c ← conditionValue.get_ival
    if c ≠ 0 then do
      let (new_env, s) := s.new_env (some env)
      let (_, s) ← execute_with ev blockNode new_env s
      let (conditionValue, s) ← ev conditionNode new_env s
      let s := s.delete_env new_env
      while_loop ev conditionNode blockNode env n conditionValue s
    else .ok (VALUE_INT 0, s)

/-- The argument loop of a call of a user function: each argument is
evaluated in the environment of the caller and bound in `fncall_env`. -/
def bind_arguments (ev : Node → Nat → Store → Except Failure (Value × Store))
    (function : Function) (env fncall_env : Nat) :
    List Node → Nat → Store → Except Failure Store
  | [], _, s => .ok s
  | argNode :: rest, i, s => do
    let (argValue, s) ← ev argNode env s
    match function.m_params[i]? with
    | none => .error (.undefined_behaviour "get_param_name: no such parameter")
    | some param_name => do
      let s ← Environment_bind s fncall_env param_name argValue
      bind_arguments ev function env fncall_env rest (i + 1) s

/-- The argument loop of a call of an intrinsic function. -/
def evaluate_arguments (ev : Node → Nat → Store → Except Failure (Value × Store)) (env : Nat) :
    List Node → Store → Except Failure (List Value × Store)
  | [], s => .ok ([], s)
  | argNode :: rest, s => do
    let (argValue, s) ← ev argNode env s
    let (values, s) ← evaluate_arguments ev env rest s
    .ok (argValue :: values, s)

/-- `Interpreter::evaluate_and_check_numeric`, `ev` being
`Interpreter::evaluate`. -/
def evaluate_and_check_numeric_with
    (ev : Node → Nat → Store → Except Failure (Value × Store))
    (node : Node) (env : Nat) (i : Nat) (s : Store) : Except Failure (Int × Store) := do
  let kid ← node.get_kid i
  let (result, s) ← ev kid env s
  match result with
  | VALUE_INT ival => .ok (ival, s)
  | _ => .error (.EvaluationError "Cannot perform arithmetic calculation on non-numeric values")

/-- The `switch` on the operator tag after both operands of a binary
operation have been evaluated. -/
def binary_operation (tag : ASTKind) (left right : Int) : Except Failure Value :=
  match tag with
  | AST_ADD => (int_result (right + left)).map VALUE_INT
  | AST_SUB => (int_result (left - right)).map VALUE_INT
  | AST_MULTIPLY => (int_result (right * left)).map VALUE_INT
  | AST_DIVIDE =>
    if right = 0 then .error (.EvaluationError "Attempt to divide by 0")
    else (int_result (Int.tdiv left right)).map VALUE_INT
  | AST_LESS => .ok (VALUE_INT (if left < right then 1 else 0))
  | AST_LESSEQUAL => .ok (VALUE_INT (if left ≤ right then 1 else 0))
  | AST_GREATER => .ok (VALUE_INT (if left > right then 1 else 0))
  | AST_GREATEREQUAL => .ok (VALUE_INT (if left ≥ right then 1 else 0))
  | AST_ISEQUAL => .ok (VALUE_INT (if left = right then 1 else 0))
  | AST_ISNOTEQUAL => .ok (VALUE_INT (if left ≠ right then 1 else 0))
  | _ => .error (.runtime_error "Invalid AST node to evaluate")

/-- `Interpreter::evaluate`. The first argument is the fuel: the depth of
nested evaluations and the number of iterations of a loop that are allowed. -/
def evaluate : Nat → Node → Nat → Store → Except Failure (Value × Store)
  | 0, _, _, _ => .error .nontermination
  | fuel + 1, node, env, s =>
    match node.get_tag with
    | AST_INT_LITERAL => do
      let intValue ← stoi node.get_str
      .ok (VALUE_INT intValue, s)
    | AST_VARREF => do
      let identifier ← check_exists node.get_str env s
      let value ← Environment_getVar s env identifier
      .ok (value, s)
    | AST_ASSIGN => do
      let varNode ← node.get_kid 0
      let exprNode ← node.get_kid 1
      let (childval, s) ← evaluate fuel exprNode env s
      let identifier ← check_exists varNode.get_str env s
      let s ← Environment_setVar s env identifier childval
      .ok (childval, s)
    | AST_VARDEF => do
      let varNode ← node.get_kid 0
      let identifier := varNode.get_str
      let defined ← Environment_isDefinedInCurrentScope s env identifier
      if defined then
        .error (.EvaluationError ("Variable '" ++ identifier ++ "' already defined"))
      else do
        let s ← Environment_defineVar s env identifier
        .ok (VALUE_INT 0, s)
    | AST_IF => do
      let nkids := node.get_num_kids
      let conditionNode ← node.get_kid 0
      let blockNode ← node.get_kid 1
      let (conditionValue, s) ← evaluate fuel conditionNode env s
      if nkids = 2 then do
        let c ← conditionValue.get_ival
        if c ≠ 0 then do
          let (new_env, s) := s.new_env (some env)
          let (_, s) ← execute_with (evaluate fuel) blockNode new_env s
          .ok (VALUE_INT 0, s.delete_env new_env)
        else .ok (VALUE_INT 0, s)
      else if nkids = 3 then do
        let elseBlockNode ← node.get_kid 2
        let c ← conditionValue.get_ival
        if c ≠ 0 then do
          let (new_env, s) := s.new_env (some env)
          let (_, s) ← execute_with (evaluate fuel) blockNode new_env s
          .ok (VALUE_INT 0, s.delete_env new_env)
        else do
          let (new_env, s) := s.new_env (some env)
          let (_, s) ← execute_with (evaluate fuel) elseBlockNode new_env s
          .ok (VALUE_INT 0, s.delete_env new_env)
      else .ok (VALUE_INT 0, s)
    | AST_WHILE => do
      let conditionNode ← node.get_kid 0
      let blockNode ← node.get_kid 1
      let (new_env, s) := s.new_env (some env)
      let (conditionValue, s) ← evaluate fuel conditionNode new_env s
      let s := s.delete_env new_env
      while_loop (evaluate fuel) conditionNode blockNode env fuel conditionValue s
    | AST_FNCALL => do
      let identifierNode ← node.get_kid 0
      let identifier := identifierNode.get_str
      let name ← check_exists identifier env s
      let functionValue ← Environment_getVar s env name
      match functionValue with
      | VALUE_FUNCTION f =>
        match s.functions[f]? with
        | none => .error (.undefined_behaviour "dangling Function pointer")
        | some function => do
          let (fncall_env, s) := s.new_env (some function.m_parent_env)
          let argListNode ← node.get_kid 1
          let numArgs := argListNode.get_num_kids
          if numArgs ≠ function.m_params.length then
            .error (.EvaluationError ("Function '" ++ identifier ++ "' requires " ++
              Nat.repr function.m_params.length ++ " arguments"))
          else do
            let s ← bind_arguments (evaluate fuel) function env fncall_env argListNode.kids 0 s
            let (block_env, s) := s.new_env (some fncall_env)
            let (result, s) ← execute_with (evaluate fuel) function.m_body block_env s
            let s := s.delete_env fncall_env
            let s := s.delete_env block_env
            .ok (result, s)
      | VALUE_INTRINSIC_FN function => do
        let argListNode ← node.get_kid 1
        let (arguments, s) ← evaluate_arguments (evaluate fuel) env argListNode.kids s
        call_intrinsic function arguments s
      | _ => .error (.EvaluationError "Invalid function type")
    | AST_STRING_LITERAL => .ok (VALUE_STRING node.get_str, s)
    | tag => do
      let (left, s) ← evaluate_and_check_numeric_with (evaluate fuel) node env 0 s
      if tag = AST_LOGICAL_AND then
        if left = 0 then .ok (VALUE_INT 0, s)
        else do
          let (right, s) ← evaluate_and_check_numeric_with (evaluate fuel) node env 1 s
          .ok (VALUE_INT (if right ≠ 0 then 1 else 0), s)
      else if tag = AST_LOGICAL_OR then
        if left ≠ 0 then .ok (VALUE_INT 1, s)
        else do
          let (right, s) ← evaluate_and_check_numeric_with (evaluate fuel) node env 1 s
          .ok (VALUE_INT (if right ≠ 0 then 1 else 0), s)
      else do
        let (right, s) ← evaluate_and_check_numeric_with (evaluate fuel) node env 1 s
        let value ← binary_operation tag left right
        .ok (value, s)

/-- `Interpreter::evaluate_and_check_numeric`. -/
def evaluate_and_check_numeric (fuel : Nat) (node : Node) (env : Nat) (i : Nat) (s : Store) :
    Except Failure (Int × Store) :=
  evaluate_and_check_numeric_with (evaluate fuel) node env i s

/-- `Interpreter::execute(Node *, Environment *)` with `Interpreter::evaluate`
run on the given fuel. -/
def execute (fuel : Nat) (node : Node) (env : Nat) (s : Store) : Except Failure (Value × Store) :=
  execute_with (evaluate fuel) node env s

/-- The names and callbacks bound by `Interpreter::execute()`. -/
def intrinsic_bindings : List (String × IntrinsicFn) :=
  [("print", .intrinsic_print), ("println", .intrinsic_println),
   ("readint", .intrinsic_readint), ("mkarr", .array_mkarr), ("len", .array_len),
   ("get", .array_get), ("set", .array_set), ("push", .array_push), ("pop", .array_pop),
   ("substr", .string_substr), ("strcat", .string_strcat), ("strlen", .string_strlen)]

/-- The binding of the intrinsic functions at the start of
`Interpreter::execute()`. -/
def bind_intrinsics (global_env : Nat) : List (String × IntrinsicFn) → Store → Except Failure Store
  | [], s => .ok s
  | (name, f) :: rest, s => do
    let s ← Environment_bind s global_env name (VALUE_INTRINSIC_FN f)
    bind_intrinsics global_env rest s

/-- The loop of `Interpreter::execute()` over the top-level statements. -/
def execute_top_loop (fuel : Nat) (global_env : Nat) :
    List Node → Value → Store → Except Failure (Value × Store)
  | [], result, s => .ok (result, s)
  | statm_ast :: rest, _, s => do
    if statm_ast.get_tag = AST_FUNCTION then do
      let (result, s) ← create_function statm_ast global_env s
      execute_top_loop fuel global_env rest result s
    else do
      let kid ← statm_ast.get_kid 0
      let (result, s) ← evaluate fuel kid global_env s
      execute_top_loop fuel global_env rest result s

/-- `Interpreter::execute()`. -/
def execute_program (fuel : Nat) (m_ast : Node) (s : Store) : Except Failure (Value × Store) := do
  let (global_env, s) := s.new_env none
  let s ← bind_intrinsics global_env intrinsic_bindings s
  let (result, s) ← execute_top_loop fuel global_env m_ast.kids (VALUE_INT 0) s
  .ok (result, s.delete_env global_env)

/-- A store with nothing allocated, no output written and the given standard
input. -/
def Store.initial (input : List Int) : Store :=
  { envs := [], functions := [], arrays := [], output := "", input := input }

/-! ## Programs and stores used in the statements -/

/-- A lexer whose input has been read to the end, its lookahead buffer
holding the given tokens. -/
def Lexer.of_tokens (toks : List Token) : Lexer :=
  { m_in := [], m_eof := true, m_lookahead := toks }

/-- The node of a variable reference. -/
def varref (x : String) : Node := .mk AST_VARREF x []

/-- The node of an integer literal. -/
def int_literal (lexeme : String) : Node := .mk AST_INT_LITERAL lexeme []

/-- The node of the assignment `x = e`. -/
def assign_node (x : String) (e : Node) : Node := .mk AST_ASSIGN "" [varref x, e]

/-- The node of the definition `var x;`. -/
def vardef_node (x : String) : Node := .mk AST_VARDEF "" [varref x]

/-- The node of the call `f(args)`. -/
def fncall_node (f : String) (args : List Node) : Node :=
  .mk AST_FNCALL "" [varref f, .mk AST_ARGLIST "" args]

/-- The statement node that wraps an expression or construct. -/
def statement (n : Node) : Node := .mk AST_STATEMENT "" [n]

/-- A block of statements. -/
def statement_list (stmts : List Node) : Node := .mk AST_STATEMENT_LIST "" stmts

/-- A store whose only environment is an empty global scope. -/
def empty_global_store : Store :=
  { envs := [some { m_parent := none, vars := [] }], functions := [], arrays := [],
    output := "", input := [] }

/-- A store in which the global scope binds `f` to a user function with the
parameters `a` and `b` and the body `a;`. -/
def store_with_f : Store :=
  { envs := [some { m_parent := none, vars := [("f", VALUE_FUNCTION 0)] }],
    functions := [{ m_name := "f", m_params := ["a", "b"], m_parent_env := 0,
                    m_body := statement_list [statement (varref "a")] }],
    arrays := [], output := "", input := [] }

/-- The node of `function f(params) { body }`. -/
def function_node (f : String) (params : List String) (body : List Node) : Node :=
  .mk AST_FUNCTION "" [varref f, .mk AST_PARAM_LIST "" (params.map varref), statement_list body]

/-- The tree of the program `var f; function f(a) { a; }`. -/
def program_var_f_function_f : Node :=
  .mk AST_UNIT "" [statement (vardef_node "f"), function_node "f" ["a"] [statement (varref "a")]]

/-- The node of `while (cond) { body }`. -/
def while_node (cond : Node) (body : List Node) : Node :=
  .mk AST_WHILE "" [cond, statement_list body]

/-- The node of `if (cond) { body }`. -/
def if_node (cond : Node) (body : List Node) : Node :=
  .mk AST_IF "" [cond, statement_list body]

/-- The tokens of `function f ( ) { }`. -/
def tokens_function_empty_body : List Token :=
  [⟨TOK_FUNCTION, "function"⟩, ⟨TOK_IDENTIFIER, "f"⟩, ⟨TOK_LPAREN, "("⟩, ⟨TOK_RPAREN, ")"⟩,
   ⟨TOK_LBRACE, "\x7b"⟩, ⟨TOK_RBRACE, "\x7d"⟩]

/-- The tokens of `if ( 1 ) { }`. -/
def tokens_if_empty_body : List Token :=
  [⟨TOK_IF, "if"⟩, ⟨TOK_LPAREN, "("⟩, ⟨TOK_INTEGER_LITERAL, "1"⟩, ⟨TOK_RPAREN, ")"⟩,
   ⟨TOK_LBRACE, "\x7b"⟩, ⟨TOK_RBRACE, "\x7d"⟩]

/-- The tokens of `if ( 1 ) { 1 ; } else { }`. -/
def tokens_else_empty_body : List Token :=
  [⟨TOK_IF, "if"⟩, ⟨TOK_LPAREN, "("⟩, ⟨TOK_INTEGER_LITERAL, "1"⟩, ⟨TOK_RPAREN, ")"⟩,
   ⟨TOK_LBRACE, "\x7b"⟩, ⟨TOK_INTEGER_LITERAL, "1"⟩, ⟨TOK_SEMICOLON, ";"⟩, ⟨TOK_RBRACE, "\x7d"⟩,
   ⟨TOK_ELSE, "else"⟩, ⟨TOK_LBRACE, "\x7b"⟩, ⟨TOK_RBRACE, "\x7d"⟩]

/-- The tokens of `while ( 1 ) { }`. -/
def tokens_while_empty_body : List Token :=
  [⟨TOK_WHILE, "while"⟩, ⟨TOK_LPAREN, "("⟩, ⟨TOK_INTEGER_LITERAL, "1"⟩, ⟨TOK_RPAREN, ")"⟩,
   ⟨TOK_LBRACE, "\x7b"⟩, ⟨TOK_RBRACE, "\x7d"⟩]

/-- The tree of `var x; x = 1; while (x) { var x; println(7); }`. -/
def program_while_shadow : Node :=
  .mk AST_UNIT "" [
    statement (vardef_node "x"),
    statement (assign_node "x" (int_literal "1")),
    statement (while_node (varref "x")
      [statement (vardef_node "x"), statement (fncall_node "println" [int_literal "7"])])]

/-- The natural number that a string of decimal digits denotes. -/
def decimal_value (ds : List Char) : Nat :=
  ds.foldl (fun acc c => acc * 10 + (c.toNat - 48)) 0

/-- The node of a binary operation. -/
def binary_node (tag : ASTKind) (l r : Node) : Node := .mk tag "" [l, r]

/-- The tags of the ten arithmetic and relational operators. -/
def arithmetic_relational_tags : List ASTKind :=
  [AST_ADD, AST_SUB, AST_MULTIPLY, AST_DIVIDE, AST_LESS, AST_LESSEQUAL, AST_GREATER,
   AST_GREATEREQUAL, AST_ISEQUAL, AST_ISNOTEQUAL]

/-- The scopes of the chain that starts at `env`, innermost first, as far as
the parent pointers lead; `none` when a pointer on the way is dangling or the
chain is longer than the counter allows (a cyclic chain). -/
def scope_chain (s : Store) : Nat → Nat → Option (List Environment)
  | 0, _ => none
  | n + 1, env =>
    match s.envs[env]? with
    | some (some e) =>
      match e.m_parent with
      | none => some [e]
      | some p => (scope_chain s n p).map (fun rest => e :: rest)
    | _ => none

/-- A store with two scopes: the global scope at address 0 binds `x` to 1 and
`y` to 5, and its child at address 1 binds `x` to 2. -/
def two_scope_store : Store :=
  { envs := [some { m_parent := none, vars := [("x", VALUE_INT 1), ("y", VALUE_INT 5)] },
             some { m_parent := some 0, vars := [("x", VALUE_INT 2)] }],
    functions := [], arrays := [], output := "", input := [] }

/-! ## Reference counting of representations (value.cpp, valrep.cpp)

The evaluator above keeps representations in the store and never frees them.
The definitions of this section follow the memory discipline of `Value`
itself: `Value` objects and `ValRep` objects live in an `RcHeap`, and the
constructors, the copy constructor, `operator=`, `detach` and the destructor
of `value.cpp` act on it. -/

/-- Modelled from the spec: `value.h` is not among the sources. The kind tag
`m_kind` of a `Value`. -/
inductive ValueKind where
  | VALUE_INT
  | VALUE_INTRINSIC_FN
  | VALUE_FUNCTION
  | VALUE_ARRAY
  | VALUE_STRING
  deriving DecidableEq, Repr

/-- Modelled from the spec: `value.h` is not among the sources. `is_dynamic`
holds of the heap kinds Function, Array and String; Int and IntrinsicFunction
are atomic. -/
def ValueKind.is_dynamic : ValueKind → Bool
  | .VALUE_FUNCTION => true
  | .VALUE_ARRAY => true
  | .VALUE_STRING => true
  | _ => false

/-- Modelled from the spec: `valrep.h` is not among the sources. A `ValRep`
object: its reference count (`valrep.cpp` initialises it to 0), and whether
`delete` has been applied to it. -/
structure ValRep where
  m_refcount : Int
  deleted : Bool
  deriving DecidableEq, Repr

/-- A `Value` object: the kind tag and the pointer `m_rep` (`none` is the
null pointer; the atomic payload is not represented). -/
structure ValueObject where
  m_kind : ValueKind
  m_rep : Option Nat
  deriving DecidableEq, Repr

/-- The `ValRep` objects ever allocated and the `Value` objects ever
constructed (`none`: the object has been destroyed). -/
structure RcHeap where
  reps : List ValRep
  values : List (Option ValueObject)
  deriving DecidableEq, Repr

/-- The heap before anything is allocated. -/
def RcHeap.empty : RcHeap := { reps := [], values := [] }

/-- Dereference a pointer to a `Value` object. -/
def RcHeap.value (h : RcHeap) (i : Nat) : Except Failure ValueObject :=
  match h.values[i]? with
  | some (some v) => .ok v
  | _ => .error (.undefined_behaviour "use of a destroyed Value")

/-- Write a `Value` object back. -/
def RcHeap.put_value (h : RcHeap) (i : Nat) (v : ValueObject) : RcHeap :=
  { h with values := h.values.set i (some v) }

/-- Dereference a pointer to a `ValRep` object that has not been deleted. -/
def RcHeap.rep (h : RcHeap) (r : Nat) : Except Failure ValRep :=
  match h.reps[r]? with
  | some rep =>
    if rep.deleted then .error (.undefined_behaviour "use of a deleted ValRep") else .ok rep
  | none => .error (.undefined_behaviour "invalid ValRep pointer")

/-- Modelled from the spec: `valrep.h` is not among the sources.
`ValRep::add_ref` increments the reference count. -/
def ValRep_add_ref (h : RcHeap) (r : Nat) : Except Failure RcHeap := do
  let rep ← h.rep r
  .ok { h with reps := h.reps.set r { rep with m_refcount := rep.m_refcount + 1 } }

/-- Modelled from the spec: `valrep.h` is not among the sources.
`ValRep::remove_ref` decrements the reference count. -/
def ValRep_remove_ref (h : RcHeap) (r : Nat) : Except Failure RcHeap := do
  let rep ← h.rep r
  .ok { h with reps := h.reps.set r { rep with m_refcount := rep.m_refcount - 1 } }

/-- Modelled from the spec: `valrep.h` is not among the sources.
`ValRep::get_num_refs`. -/
def ValRep_get_num_refs (h : RcHeap) (r : Nat) : Except Failure Int := do
  let rep ← h.rep r
  .ok rep.m_refcount

/-- `delete m_rep`: deleting an object twice is undefined behaviour. -/
def delete_rep (h : RcHeap) (r : Nat) : Except Failure RcHeap := do
  let rep ← h.rep r
  .ok { h with reps := h.reps.set r { rep with deleted := true } }

/-- `new Function(...)`, `new Array(...)`, `new String(...)`: the address of
a fresh `ValRep` with reference count 0. -/
def new_rep (h : RcHeap) : Nat × RcHeap :=
  (h.reps.length, { h with reps := h.reps ++ [{ m_refcount := 0, deleted := false }] })

/-- `Value::detach`. -/
def Value_detach (h : RcHeap) (this : Nat) : Except Failure RcHeap := do
  let v ← h.value this
  if v.m_kind.is_dynamic then
    match v.m_rep with
    | none => .error (.undefined_behaviour "null pointer dereference: m_rep")
    | some r => do
      let h ← ValRep_remove_ref h r
      let n ← ValRep_get_num_refs h r
      let h ← if n = 0 then delete_rep h r else .ok h
      .ok (h.put_value this { m_kind := .VALUE_INT, m_rep := none })
  else .ok h

/-- `Value::operator=`. -/
def Value_assign (h : RcHeap) (this rhs : Nat) : Except Failure RcHeap := do
  let t ← h.value this
  let r ← h.value rhs
  if this ≠ rhs ∧ ¬ (t.m_kind.is_dynamic = true ∧ r.m_kind.is_dynamic = true ∧ t.m_rep = r.m_rep)
  then do
    let h ← Value_detach h this
    if r.m_kind.is_dynamic then
      match r.m_rep with
      | none => .error (.undefined_behaviour "null pointer dereference: m_rep")
      | some p => ValRep_add_ref (h.put_value this { m_kind := r.m_kind, m_rep := some p }) p
    else .ok (h.put_value this { m_kind := r.m_kind, m_rep := none })
  else .ok h

/-- `Value::Value(int)` and `Value::Value(IntrinsicFn)`: a new atomic value of
the given kind. -/
def Value_construct_atomic (h : RcHeap) (kind : ValueKind) : Nat × RcHeap :=
  (h.values.length, { h with values := h.values ++ [some { m_kind := kind, m_rep := none }] })

/-- `Value::Value(Function *)`, `Value::Value(Array *)` and
`Value::Value(String *)`: a new value of the given heap kind attached to the
representation `rep`. -/
def Value_construct_rep (h : RcHeap) (kind : ValueKind) (rep : Nat) : Except Failure RcHeap :=
  ValRep_add_ref { h with values := h.values ++ [some { m_kind := kind, m_rep := some rep }] } rep

/-- `Value::Value(const Value &)`. -/
def Value_copy_construct (h : RcHeap) (other : Nat) : Except Failure RcHeap :=
  Value_assign (Value_construct_atomic h .VALUE_INT).2 h.values.length other

/-- `Value::~Value`. -/
def Value_destruct (h : RcHeap) (this : Nat) : Except Failure RcHeap := do
  let h ← Value_detach h this
  .ok { h with values := h.values.set this none }

/-- The operations on `Value` objects. -/
inductive ValueOp where
  /-- `new` of a representation. -/
  | new_rep
  /-- `Value(int)`. -/
  | construct_int
  /-- `Value(IntrinsicFn)`. -/
  | construct_intrinsic
  /-- `Value(Function *)`. -/
  | construct_function (rep : Nat)
  /-- `Value(Array *)`. -/
  | construct_array (rep : Nat)
  /-- `Value(String *)`. -/
  | construct_string (rep : Nat)
  /-- `Value(const Value &)`. -/
  | copy_construct (other : Nat)
  /-- `this = rhs`. -/
  | assign (this rhs : Nat)
  /-- `~Value()`. -/
  | destruct (this : Nat)
  deriving DecidableEq, Repr

/-- The effect of one operation. -/
def apply_op (op : ValueOp) (h : RcHeap) : Except Failure RcHeap :=
  match op with
  | .new_rep => .ok (new_rep h).2
  | .construct_int => .ok (Value_construct_atomic h .VALUE_INT).2
  | .construct_intrinsic => .ok (Value_construct_atomic h .VALUE_INTRINSIC_FN).2
  | .construct_function rep => Value_construct_rep h .VALUE_FUNCTION rep
  | .construct_array rep => Value_construct_rep h .VALUE_ARRAY rep
  | .construct_string rep => Value_construct_rep h .VALUE_STRING rep
  | .copy_construct other => Value_copy_construct h other
  | .assign this rhs => Value_assign h this rhs
  | .destruct this => Value_destruct h this

/-- The effect of a sequence of operations. -/
def apply_all : List ValueOp → RcHeap → Except Failure RcHeap
  | [], h => .ok h
  | op :: rest, h =>
    match apply_op op h with
    | .ok h1 => apply_all rest h1
    | .error e => .error e

/-- Whether a slot holds a live `Value` that is attached to the
representation `r`. -/
def holds (r : Nat) (o : Option ValueObject) : Bool :=
  match o with
  | some v => v.m_kind.is_dynamic && (v.m_rep == some r)
  | none => false

/-- The number of live `Value` objects that hold the representation `r`. -/
def holders (h : RcHeap) (r : Nat) : Nat := h.values.countP (holds r)

/-- Whether the representation `r` has been freed. -/
def is_deleted (h : RcHeap) (r : Nat) : Bool :=
  match h.reps[r]? with
  | some rep => rep.deleted
  | none => false

/-- The operation refers only to live `Value` objects (a copy constructor may
also be handed the object under construction) and, when it attaches a raw
pointer, to a representation that has not been freed. -/
def valid_op (op : ValueOp) (h : RcHeap) : Prop :=
  match op with
  | .new_rep => True
  | .construct_int => True
  | .construct_intrinsic => True
  | .construct_function rep => rep < h.reps.length ∧ is_deleted h rep = false
  | .construct_array rep => rep < h.reps.length ∧ is_deleted h rep = false
  | .construct_string rep => rep < h.reps.length ∧ is_deleted h rep = false
  | .copy_construct other =>
    (∃ v, h.values[other]? = some (some v)) ∨ other = h.values.length
  | .assign this rhs =>
    (∃ v, h.values[this]? = some (some v)) ∧ ∃ v, h.values[rhs]? = some (some v)
  | .destruct this => ∃ v, h.values[this]? = some (some v)

/-- The reference-count balance: a representation that has not been freed
has a reference count equal to the number of live values that hold it, a
freed representation is held by no live value, and every live value of a heap
kind points to an allocated representation. -/
def balanced (h : RcHeap) : Prop :=
  (∀ (r : Nat) (rep : ValRep), h.reps[r]? = some rep →
    (rep.deleted = false → rep.m_refcount = (holders h r : Int)) ∧
    (rep.deleted = true → holders h r = 0)) ∧
  (∀ (i : Nat) (v : ValueObject), h.values[i]? = some (some v) → v.m_kind.is_dynamic = true →
    ∃ r, v.m_rep = some r ∧ r < h.reps.length)

/-- The heap that `detach` leaves when the value holds the representation
`r`. -/
def detached (h : RcHeap) (i r : Nat) (rep : ValRep) : RcHeap :=
  { reps := h.reps.set r
      { m_refcount := rep.m_refcount - 1, deleted := decide (rep.m_refcount - 1 = 0) },
    values := h.values.set i (some { m_kind := .VALUE_INT, m_rep := none }) }

/-- The heap that attaching the value at `i` to the representation `p`
leaves. -/
def attached (h : RcHeap) (i : Nat) (kind : ValueKind) (p : Nat) (rep : ValRep) : RcHeap :=
  { reps := h.reps.set p { rep with m_refcount := rep.m_refcount + 1 },
    values := h.values.set i (some { m_kind := kind, m_rep := some p }) }

/-- The heap after `new Array`, `Value(Array *)` and a copy construction:
two live values share one representation with reference count 2. -/
def shared_array_heap : RcHeap :=
  { reps := [{ m_refcount := 2, deleted := false }],
    values := [some { m_kind := .VALUE_ARRAY, m_rep := some 0 },
               some { m_kind := .VALUE_ARRAY, m_rep := some 0 }] }

/-- A store in which the global scope binds `a` to the array `[1, 2, 3]` at
address 0 and `b` to 0. -/
def store_with_array : Store :=
  { envs := [some { m_parent := none, vars := [("a", VALUE_ARRAY 0), ("b", VALUE_INT 0)] }],
    functions := [],
    arrays := [Array.create [VALUE_INT 1, VALUE_INT 2, VALUE_INT 3]],
    output := "", input := [] }

/-- The run of the argument loop of a call, in the words of the claim: the
arguments are evaluated one after the other, each once, in the environment
`env` of the caller; every evaluation leaves the scope `fncall_env` of the
parameters as it is, and after it the value is bound there to the parameter
of the same position. The lists are the arguments, the parameter names and
the values; the stores are those before and after the run. -/
inductive ArgumentRun (ev : Node → Nat → Store → Except Failure (Value × Store))
    (env fncall_env : Nat) :
    List Node → List String → List Value → Store → Store → Prop where
  | nil (s : Store) : ArgumentRun ev env fncall_env [] [] [] s s
  | cons (a : Node) (p : String) (v : Value) (s t u s2 : Store)
      (args : List Node) (params : List String) (vals : List Value)
      (hev : ev a env s = .ok (v, t))
      (hkeep : t.env fncall_env = s.env fncall_env)
      (hbind : Environment_bind t fncall_env p v = .ok u)
      (hrest : ArgumentRun ev env fncall_env args params vals u s2) :
      ArgumentRun ev env fncall_env (a :: args) (p :: params) (v :: vals) s s2

/-- A store in which the global scope binds `f` to a user function without
parameters whose body is `y;` and `g` to one whose body is `y = 3;`; the
scope at address 1, a block of the caller, binds `y` to 3. -/
def store_caller_local : Store :=
  { envs := [some { m_parent := none, vars := [("f", VALUE_FUNCTION 0), ("g", VALUE_FUNCTION 1)] },
             some { m_parent := some 0, vars := [("y", VALUE_INT 3)] }],
    functions := [{ m_name := "f", m_params := [], m_parent_env := 0,
                    m_body := statement_list [statement (varref "y")] },
                  { m_name := "g", m_params := [], m_parent_env := 0,
                    m_body := statement_list [statement (assign_node "y" (int_literal "3"))] }],
    arrays := [], output := "", input := [] }

/-- A store in which the global scope binds `f` to a user function whose two
parameters are both named `a` and whose body is `a;`. -/
def store_with_duplicate_parameter : Store :=
  { envs := [some { m_parent := none, vars := [("f", VALUE_FUNCTION 0)] }],
    functions := [{ m_name := "f", m_params := ["a", "a"], m_parent_env := 0,
                    m_body := statement_list [statement (varref "a")] }],
    arrays := [], output := "", input := [] }

/-- A store in which the global scope binds `f` to a user function with the
parameter `a` and the body `a; var c;`. -/
def store_with_var_body : Store :=
  { envs := [some { m_parent := none, vars := [("f", VALUE_FUNCTION 0)] }],
    functions := [{ m_name := "f", m_params := ["a"], m_parent_env := 0,
                    m_body := statement_list [statement (varref "a"),
                      statement (vardef_node "c")] }],
    arrays := [], output := "", input := [] }

/-- The lexer with its lookahead buffer replaced. -/
def Lexer.with_lookahead (lx : Lexer) (la : List Token) : Lexer :=
  { lx with m_lookahead := la }

/-- The tokens that `Lexer::read_token` yields on the unread input, called
until it returns the null pointer or `m_eof` is set; the counter bounds the
number of calls. -/
def tokenize : Nat → Lexer → Except Failure (List Token)
  | 0, _ => .error .nontermination
  | n + 1, lx =>
    if lx.m_eof then .ok []
    else
      match lx.read_token with
      | .error e => .error e
      | .ok (some tok, lx1) => (tokenize n lx1).map (fun rest => tok :: rest)
      | .ok (none, _) => .ok []

/-- The tokens not yet consumed: those of the lookahead buffer followed by
those of the unread input. A lexical error in the unread input is the
result when there is one. -/
def Lexer.remaining (lx : Lexer) : Except Failure (List Token) :=
  (tokenize (lx.m_in.length + 1) lx).map (fun rest => lx.m_lookahead ++ rest)

/-- A number of successive calls of `Lexer::next`: the tokens returned, in
order, and the lexer after the last call. -/
def next_tokens : Nat → Lexer → Except Failure (List Token × Lexer)
  | 0, lx => .ok ([], lx)
  | k + 1, lx =>
    match lx.next with
    | .error e => .error e
    | .ok (tok, lx1) =>
      match next_tokens k lx1 with
      | .error e => .error e
      | .ok (toks, lx2) => .ok (tok :: toks, lx2)

/-- Two lexers with the same tokens not yet consumed. -/
def Lexer.same_tokens (l1 l2 : Lexer) : Prop :=
  ∃ R, l1.remaining = .ok R ∧ l2.remaining = .ok R

/-- Two results of a function of the parser that agree: the same failure, or
the same value and lexers with the same tokens not yet consumed. -/
def same_result {α : Type} (r1 r2 : Except Failure (α × Lexer)) : Prop :=
  match r1, r2 with
  | .error e1, .error e2 => e1 = e2
  | .ok (a1, l1), .ok (a2, l2) => a1 = a2 ∧ l1.same_tokens l2
  | _, _ => False

/-- The text of the program `var x; x = n; println(x);`, `ds` being the
characters of the literal `n`. -/
def source_print_literal (ds : List Char) : List Char :=
  ['v', 'a', 'r', ' ', 'x', ';', ' ', 'x', ' ', '=', ' '] ++ (ds ++
    [';', ' ', 'p', 'r', 'i', 'n', 't', 'l', 'n', '(', 'x', ')', ';'])

/-- The tokens of `var x; x = n; println(x);`. -/
def tokens_print_literal (ds : List Char) : List Token :=
  [⟨TOK_VAR, "var"⟩, ⟨TOK_IDENTIFIER, "x"⟩, ⟨TOK_SEMICOLON, ";"⟩,
   ⟨TOK_IDENTIFIER, "x"⟩, ⟨TOK_ASSIGN, "="⟩, ⟨TOK_INTEGER_LITERAL, String.mk ds⟩,
   ⟨TOK_SEMICOLON, ";"⟩,
   ⟨TOK_IDENTIFIER, "println"⟩, ⟨TOK_LPAREN, "("⟩, ⟨TOK_IDENTIFIER, "x"⟩, ⟨TOK_RPAREN, ")"⟩,
   ⟨TOK_SEMICOLON, ";"⟩]

/-- The tree of `var x; x = n; println(x);`. -/
def program_print_literal (ds : List Char) : Node :=
  .mk AST_UNIT "" [
    statement (vardef_node "x"),
    statement (assign_node "x" (int_literal (String.mk ds))),
    statement (fncall_node "println" [varref "x"])]

/-- The store in which `Interpreter::execute()` runs the statements of a
program that defines no function: the global scope holds the twelve
intrinsic functions followed by the given bindings. -/
def global_store (vars : List (String × Value)) (output : String) (input : List Int) : Store :=
  { envs := [some { m_parent := none, vars :=
      [("print", VALUE_INTRINSIC_FN .intrinsic_print),
       ("println", VALUE_INTRINSIC_FN .intrinsic_println),
       ("readint", VALUE_INTRINSIC_FN .intrinsic_readint),
       ("mkarr", VALUE_INTRINSIC_FN .array_mkarr),
       ("len", VALUE_INTRINSIC_FN .array_len),
       ("get", VALUE_INTRINSIC_FN .array_get),
       ("set", VALUE_INTRINSIC_FN .array_set),
       ("push", VALUE_INTRINSIC_FN .array_push),
       ("pop", VALUE_INTRINSIC_FN .array_pop),
       ("substr", VALUE_INTRINSIC_FN .string_substr),
       ("strcat", VALUE_INTRINSIC_FN .string_strcat),
       ("strlen", VALUE_INTRINSIC_FN .string_strlen)] ++ vars }],
    functions := [], arrays := [], output := output, input := input }

/-- One element of the text between the quotes of a string literal, in the
words of the specification: a character that is neither the backslash nor the
double quote, or one of the four escapes. -/
inductive StringPiece where
  | plain (c : Char)
  | escape_n
  | escape_t
  | escape_r
  | escape_quote
  deriving DecidableEq, Repr

/-- The characters of the source text that make up the piece. -/
def StringPiece.source : StringPiece → List Char
  | .plain c => [c]
  | .escape_n => [backslash, 'n']
  | .escape_t => [backslash, 't']
  | .escape_r => [backslash, 'r']
  | .escape_quote => [backslash, dquote]

/-- The character that the piece stands for: itself, or newline, tab,
carriage return and double quote for the escapes. -/
def StringPiece.value : StringPiece → Char
  | .plain c => c
  | .escape_n => Char.ofNat 10
  | .escape_t => Char.ofNat 9
  | .escape_r => Char.ofNat 13
  | .escape_quote => dquote

/-- A plain piece is a character other than the backslash and the double
quote. -/
def StringPiece.well_formed : StringPiece → Bool
  | .plain c => c ≠ backslash && c ≠ dquote
  | _ => true

/-- The source text between the quotes of the literal made of the pieces. -/
def literal_source (ps : List StringPiece) : List Char :=
  (ps.map StringPiece.source).flatten

/-- The text that the literal made of the pieces denotes. -/
def literal_value (ps : List StringPiece) : List Char :=
  ps.map StringPiece.value

/-- The operators that have a one-character and a two-character form: first
character, second character, kind of the short token, kind of the long
token. -/
def extensible_operators : List (Char × Char × TokenKind × TokenKind) :=
  [('=', '=', TOK_ASSIGN, TOK_IS_EQUAL), ('<', '=', TOK_LESS, TOK_LESS_EQUAL),
   ('>', '=', TOK_GREATER, TOK_GREATER_EQUAL)]

/-- The operators that exist in a two-character form only: first character,
second character, kind of the token. -/
def paired_operators : List (Char × Char × TokenKind) :=
  [('&', '&', TOK_AND), ('|', '|', TOK_OR), ('!', '=', TOK_NOT_EQUAL)]

/-- The five keywords. -/
def keywords : List String := ["var", "if", "else", "while", "function"]

/-- The second result is the first whenever the first is a value: what a
function returns on some fuel it returns on the larger fuel too. -/
def result_le {α : Type} (r1 r2 : Except Failure α) : Prop :=
  ∀ v, r1 = .ok v → r2 = .ok v

/-- An operator token followed by the tokens of its right operand, with the
tree that operand parses to. -/
structure Operand where
  op : Token
  toks : List Token
  node : Node

/-- The tokens of `op1 f2 op2 f3 ...`, the chain after its first operand. -/
def operand_tokens : List Operand → List Token
  | [] => []
  | o :: more => o.op :: (o.toks ++ operand_tokens more)

/-- The tag `Parser2::parse_EPrime` gives the node of an additive operator. -/
def additive_tag (k : TokenKind) : ASTKind :=
  if k = TOK_PLUS then AST_ADD else AST_SUB

/-- The tag `Parser2::parse_TPrime` gives the node of a multiplicative
operator. -/
def multiplicative_tag (k : TokenKind) : ASTKind :=
  if k = TOK_TIMES then AST_MULTIPLY else AST_DIVIDE

/-- The left-nested tree `((f1 op1 f2) op2 f3) ...` over a first operand and
the operands after it. -/
def left_nested (tag_of : TokenKind → ASTKind) : Node → List Operand → Node
  | ast, [] => ast
  | ast, o :: more => left_nested tag_of (Node.mk (tag_of o.op.tag) "" [ast, o.node]) more

/-- Each operand of the chain is what `p` parses where the operand stands:
in front of the rest of the chain and of `rest`, `p` returns the operand's
tree and stops right after the operand's tokens. -/
def operands_parsed (p : Lexer → Except Failure (Node × Lexer)) :
    List Operand → List Token → Prop
  | [], _ => True
  | o :: more, rest =>
    p (Lexer.of_tokens (o.toks ++ (operand_tokens more ++ rest))) =
        .ok (o.node, Lexer.of_tokens (operand_tokens more ++ rest)) ∧
      operands_parsed p more rest

/-- The addresses of the scopes of the chain that starts at `env`, innermost
first, as far as the parent pointers lead; `none` when a pointer on the way
is dangling or the chain is longer than the counter allows. -/
def chain_addresses (s : Store) : Nat → Nat → Option (List Nat)
  | 0, _ => none
  | n + 1, env =>
    match s.envs[env]? with
    | some (some e) =>
      match e.m_parent with
      | none => some [env]
      | some p => (chain_addresses s n p).map (fun rest => env :: rest)
    | _ => none

mutual

/-- The nodes of a tree in pre-order (source order): the node itself, then
the nodes of its children from left to right. -/
def preorder : Node → List Node
  | .mk tag str kids => .mk tag str kids :: preorder_kids kids

/-- The nodes of a list of trees in pre-order. -/
def preorder_kids : List Node → List Node
  | [] => []
  | kid :: rest => preorder kid ++ preorder_kids rest

end

/-- The node is a `var` declaration of the name `x`: a VARDEF node whose
first child carries `x`. -/
def Node.declares (d : Node) (x : String) : Bool :=
  decide (d.get_tag = AST_VARDEF) &&
    (match d.kids with
     | v :: _ => decide (v.get_str = x)
     | [] => false)

/-- Every VARDEF node of the list has a child, as the VARDEF nodes that the
parser builds have. -/
def vardefs_named (nodes : List Node) : Bool :=
  nodes.all (fun d => d.get_tag != AST_VARDEF || !d.kids.isEmpty)

/-- What `Interpreter::analyzeHelper` does at each node, run over a list of
nodes with one set of names carried from node to node. -/
def analyze_nodes : List Node → List String → Except Failure (List String)
  | [], definedVariables => .ok definedVariables
  | n :: rest, definedVariables =>
    if n.get_tag = AST_VARDEF then
      match n.kids with
      | varNode :: _ => analyze_nodes rest (definedVariables.insert varNode.get_str)
      | [] => .error (.undefined_behaviour "get_kid: no such child")
    else if n.get_tag = AST_VARREF then
      if n.get_str ∈ definedVariables then analyze_nodes rest definedVariables
      else .error (.EvaluationError ("Reference to undefined name '" ++ n.get_str ++ "'"))
    else analyze_nodes rest definedVariables

/-- Some variable-reference node of the list names a name that is not in `D`
and that no `var` declaration earlier in the list declares. -/
def undefined_reference (nodes : List Node) (D : List String) : Prop :=
  ∃ (pre : List Node) (n : Node) (post : List Node), nodes = pre ++ n :: post ∧
    n.get_tag = AST_VARREF ∧ n.get_str ∉ D ∧ ∀ d ∈ pre, d.declares n.get_str = false

/-- The tree of `if (1) { var y; } y;`. -/
def program_block_then_reference : Node :=
  .mk AST_UNIT "" [
    statement (if_node (int_literal "1") [statement (vardef_node "y")]),
    statement (varref "y")]

/-- The tokens of `if (1) { var y; } y;`. -/
def tokens_block_then_reference : List Token :=
  [⟨TOK_IF, "if"⟩, ⟨TOK_LPAREN, "("⟩, ⟨TOK_INTEGER_LITERAL, "1"⟩, ⟨TOK_RPAREN, ")"⟩,
   ⟨TOK_LBRACE, "\x7b"⟩, ⟨TOK_VAR, "var"⟩, ⟨TOK_IDENTIFIER, "y"⟩, ⟨TOK_SEMICOLON, ";"⟩,
   ⟨TOK_RBRACE, "\x7d"⟩, ⟨TOK_IDENTIFIER, "y"⟩, ⟨TOK_SEMICOLON, ";"⟩]
/-- The tree of `function f() { 1; } f();`. -/
def program_function_then_call : Node :=
  .mk AST_UNIT "" [function_node "f" [] [statement (int_literal "1")],
    statement (fncall_node "f" [])]

/-- The tokens of `function f() { 1; } f();`. -/
def tokens_function_then_call : List Token :=
  [⟨TOK_FUNCTION, "function"⟩, ⟨TOK_IDENTIFIER, "f"⟩, ⟨TOK_LPAREN, "("⟩, ⟨TOK_RPAREN, ")"⟩,
   ⟨TOK_LBRACE, "\x7b"⟩, ⟨TOK_INTEGER_LITERAL, "1"⟩, ⟨TOK_SEMICOLON, ";"⟩, ⟨TOK_RBRACE, "\x7d"⟩,
   ⟨TOK_IDENTIFIER, "f"⟩, ⟨TOK_LPAREN, "("⟩, ⟨TOK_RPAREN, ")"⟩, ⟨TOK_SEMICOLON, ";"⟩]

/-! ## Theorems -/

/-! ### Association lists and scope chains -/

theorem map_find_map_assign_same (m : List (String × Value)) (name : String) (v : Value) :
    map_find (map_assign m name v) name = some v := by
  induction m with
  | nil => simp [map_assign, map_find, List.lookup]
  | cons kv rest ih =>
    obtain ⟨k, w⟩ := kv
    by_cases h : name = k
    · subst h; simp [map_assign, map_find, List.lookup]
    · have h2 : (name == k) = false := by simpa using h
      simp only [map_assign, h, if_false, map_find, List.lookup, h2]
      simpa [map_find] using ih

theorem map_find_map_assign_other (m : List (String × Value)) (name y : String) (v : Value)
    (hy : y ≠ name) : map_find (map_assign m name v) y = map_find m y := by
  induction m with
  | nil =>
    have h2 : (y == name) = false := by simpa using hy
    simp [map_assign, map_find, List.lookup, h2]
  | cons kv rest ih =>
    obtain ⟨k, w⟩ := kv
    by_cases h : name = k
    · subst h
      have h2 : (y == name) = false := by simpa using hy
      simp [map_assign, map_find, List.lookup, h2]
    · simp only [map_assign, h, if_false, map_find, List.lookup]
      by_cases h3 : y = k
      · subst h3; simp
      · have h4 : (y == k) = false := by simpa using h3
        simp only [h4]
        simpa [map_find] using ih

theorem getVar_walk_isDefined (s : Store) (name : String) (v : Value) :
    ∀ (n env : Nat), getVar_walk s n env name = .ok v →
      isDefined_walk s n env name = .ok true := by
  intro n
  induction n with
  | zero => intro env h; simp [getVar_walk] at h
  | succ n ih =>
    intro env h
    simp only [getVar_walk, isDefined_walk, bind, Except.bind] at h ⊢
    cases he : s.env env with
    | error e => simp [he] at h
    | ok e =>
      simp only [he] at h ⊢
      cases hf : map_find e.vars name with
      | some w => simp
      | none =>
        simp only [hf] at h ⊢
        cases hp : e.m_parent with
        | none => simp [hp] at h
        | some p => simp only [hp] at h ⊢; simpa using ih p h

theorem isDefined_false_setVar (value : Value) (s : Store) (name : String) :
    ∀ (n env : Nat), isDefined_walk s n env name = .ok false →
      setVar_walk value n s env name = .ok s := by
  intro n
  induction n with
  | zero => intro env h; simp [isDefined_walk] at h
  | succ n ih =>
    intro env h
    simp only [isDefined_walk, setVar_walk, bind, Except.bind] at h ⊢
    cases he : s.env env with
    | error e => simp [he] at h
    | ok e =>
      simp only [he] at h ⊢
      by_cases hf : (map_find e.vars name).isSome = true
      · simp [hf] at h
      · simp only [hf] at h ⊢
        cases hp : e.m_parent with
        | none => simp
        | some p => simp only [hp] at h ⊢; exact ih p h

/-! ### C1: assignment to a name that no scope binds -/

/-- C1, the claim as stated fails: in a store whose only scope is empty, `x`
is bound nowhere, and evaluating `x = 5` returns no value but raises the
evaluation error of `check_exists`. -/
theorem C1_assignment_to_unbound_raises :
    Environment_isDefined empty_global_store 0 "x" = .ok false ∧
    evaluate 2 (assign_node "x" (int_literal "5")) 0 empty_global_store =
      .error (.EvaluationError "Function not defined before invoking 'x'") := by
  constructor <;> rfl

/-- C1, amended: when `x` is bound in no scope of the chain once the
right-hand side `e` has been evaluated (to `v`, leaving the store `s1`),
evaluating `x = e` raises the evaluation error "Function not defined before
invoking 'x'"; the assignment writes no binding: `Environment::setVar` is not
reached, and on that store it would itself leave every scope as it is. -/
theorem C1_assignment_unbound_amended (fuel : Nat) (x : String) (e : Node) (env : Nat)
    (s s1 : Store) (v : Value)
    (he : evaluate fuel e env s = .ok (v, s1))
    (hx : Environment_isDefined s1 env x = .ok false) :
    evaluate (fuel + 1) (assign_node x e) env s =
        .error (.EvaluationError ("Function not defined before invoking '" ++ x ++ "'"))
      ∧ Environment_setVar s1 env x v = .ok s1 := by
  constructor
  · simp [evaluate, assign_node, varref, Node.get_tag, Node.get_kid, Node.kids, Node.get_str,
      bind, Except.bind, he, check_exists, hx]
  · exact isDefined_false_setVar v s1 x _ env hx

/-- Witness of C1 amended: the assignment `x = 5` in the empty global scope. -/
theorem C1_assignment_unbound_amended_witness :
    evaluate 2 (assign_node "x" (int_literal "5")) 0 empty_global_store =
        .error (.EvaluationError ("Function not defined before invoking '" ++ "x" ++ "'"))
      ∧ Environment_setVar empty_global_store 0 "x" (VALUE_INT 5) = .ok empty_global_store :=
  C1_assignment_unbound_amended 1 "x" (int_literal "5") 0 empty_global_store
    empty_global_store (VALUE_INT 5) rfl rfl

/-! ### C2: substr -/

/-- C2, the code at the failing input: `substr("hello", 1, 3)` returns
`"ell"` (three characters from position 1), not `"el"`: the third argument
reaches `std::string::substr` as a length, not as an end position. -/
theorem C2_substr_hello_1_3 (s : Store) :
    String_substr "hello" 1 3 = .ok (VALUE_STRING "ell") ∧
    string_substr [VALUE_STRING "hello", VALUE_INT 1, VALUE_INT 3] s =
      .ok (VALUE_STRING "ell", s) := by
  constructor <;> rfl

/-! ### C3: arity mismatch -/

/-- C3: when the callee name `f` resolves to a user function with `n`
parameters, a call `f(args)` with a different number of arguments raises the
evaluation error "Function 'f' requires n arguments", whatever the
arguments are (none of them is evaluated). -/
theorem C3_arity_mismatch (fuel : Nat) (f : String) (args : List Node) (env : Nat) (s : Store)
    (p : Nat) (function : Function)
    (hget : Environment_getVar s env f = .ok (VALUE_FUNCTION p))
    (hfn : s.functions[p]? = some function)
    (hm : args.length ≠ function.m_params.length) :
    evaluate (fuel + 1) (fncall_node f args) env s =
      .error (.EvaluationError ("Function '" ++ f ++ "' requires " ++
        Nat.repr function.m_params.length ++ " arguments")) := by
  have hdef : Environment_isDefined s env f = .ok true :=
    getVar_walk_isDefined s f _ _ env hget
  simp [evaluate, fncall_node, varref, Node.get_tag, Node.get_kid, Node.kids, Node.get_str,
    Node.get_num_kids, bind, Except.bind, check_exists, hdef, hget, hfn, Store.new_env, hm]

/-- Witness of C3: `f(1)` where `f` has the two parameters `a` and `b`. -/
theorem C3_arity_mismatch_witness :
    evaluate 1 (fncall_node "f" [int_literal "1"]) 0 store_with_f =
      .error (.EvaluationError ("Function '" ++ "f" ++ "' requires " ++
        Nat.repr 2 ++ " arguments")) :=
  C3_arity_mismatch 0 "f" [int_literal "1"] 0 store_with_f 0
    { m_name := "f", m_params := ["a", "b"], m_parent_env := 0,
      m_body := statement_list [statement (varref "a")] } rfl rfl (by decide)

/-! ### C4: analyze and function parameters -/

theorem analyzeHelper_varref (x : String) (D : List String) :
    analyzeHelper (varref x) D =
      if x ∈ D then .ok D
      else .error (.EvaluationError ("Reference to undefined name '" ++ x ++ "'")) := by
  simp [varref, analyzeHelper, analyze_kids]

theorem analyzeHelper_other (tag : ASTKind) (str : String) (kids : List Node) (D : List String)
    (h1 : tag ≠ AST_VARDEF) (h2 : tag ≠ AST_VARREF) :
    analyzeHelper (.mk tag str kids) D = analyze_kids kids D := by
  simp [analyzeHelper, h1, h2]

theorem analyze_kids_params (D : List String) (params : List String) :
    analyze_kids (params.map varref) D =
      match params.find? (fun q => decide (q ∉ D)) with
      | none => .ok D
      | some q => .error (.EvaluationError ("Reference to undefined name '" ++ q ++ "'")) := by
  induction params with
  | nil => simp [analyze_kids]
  | cons q rest ih =>
    by_cases hq : q ∈ D
    · simp [analyze_kids, analyzeHelper_varref, hq, ih, List.find?]
    · simp [analyze_kids, analyzeHelper_varref, hq, List.find?]

theorem analyze_kids_refs (D : List String) (refs : List String) (h : ∀ r ∈ refs, r ∈ D) :
    analyze_kids (refs.map (fun r => statement (varref r))) D = .ok D := by
  induction refs with
  | nil => simp [analyze_kids]
  | cons r rest ih =>
    have hr : r ∈ D := h r (by simp)
    have hrest : ∀ r ∈ rest, r ∈ D := fun r' hr' => h r' (by simp [hr'])
    simp [analyze_kids, statement, analyzeHelper, varref, hr]
    simpa [statement, varref] using ih hrest

/-- C4, the claim as stated fails: in `var f; function f(a) { a; }` the name
of the function is declared, yet analyze raises at the parameter list, whose
node for `a` is checked like any other variable reference. -/
theorem C4_parameter_list_rejected :
    analyze program_var_f_function_f =
      .error (.EvaluationError "Reference to undefined name 'a'") := by
  rfl

/-- C4, amended: parameters are not added to the set of defined names, and
the nodes of the parameter list are checked like references. For a function
definition whose name is in the set `D` and whose body consists of references
to its own parameters, analyze accepts the definition (leaving `D` as it is)
exactly when every parameter name is already in `D`, that is a built-in name
or a name declared by an earlier `var`; otherwise it raises "Reference to
undefined name" for the first parameter that is not in `D`. -/
theorem C4_parameters_amended (D : List String) (f : String) (params refs : List String)
    (hf : f ∈ D) (hrefs : ∀ r ∈ refs, r ∈ params) :
    analyzeHelper (function_node f params (refs.map (fun r => statement (varref r)))) D =
      match params.find? (fun q => decide (q ∉ D)) with
      | none => .ok D
      | some q => .error (.EvaluationError ("Reference to undefined name '" ++ q ++ "'")) := by
  have h1 := analyze_kids_params D params
  have hfn : analyzeHelper (function_node f params (refs.map (fun r => statement (varref r)))) D
      = analyze_kids [varref f, .mk AST_PARAM_LIST "" (params.map varref),
          statement_list (refs.map (fun r => statement (varref r)))] D :=
    analyzeHelper_other _ _ _ _ (by decide) (by decide)
  have hpl : analyzeHelper (.mk AST_PARAM_LIST "" (params.map varref)) D
      = analyze_kids (params.map varref) D :=
    analyzeHelper_other _ _ _ _ (by decide) (by decide)
  have hbody : analyzeHelper (statement_list (refs.map (fun r => statement (varref r)))) D
      = analyze_kids (refs.map (fun r => statement (varref r))) D :=
    analyzeHelper_other _ _ _ _ (by decide) (by decide)
  rw [hfn]
  cases hfind : params.find? (fun q => decide (q ∉ D)) with
  | some q =>
    rw [hfind] at h1
    simp only [analyze_kids, analyzeHelper_varref, hf, if_true, hpl, h1]
  | none =>
    rw [hfind] at h1
    have hall : ∀ r ∈ refs, r ∈ D := by
      intro r hr
      have := List.find?_eq_none.mp hfind r (hrefs r hr)
      simpa using this
    have h2 := analyze_kids_refs D refs hall
    simp only [analyze_kids, analyzeHelper_varref, hf, if_true, hpl, h1, hbody, h2]

/-- Witness of C4 amended: after `var f; var a;` the definition
`function f(a) { a; }` is accepted, the set of names being unchanged. -/
theorem C4_parameters_amended_witness :
    analyzeHelper (function_node "f" ["a"] (["a"].map (fun r => statement (varref r))))
        ("a" :: "f" :: builtin_names) =
      match ["a"].find? (fun q => decide (q ∉ "a" :: "f" :: builtin_names)) with
      | none => .ok ("a" :: "f" :: builtin_names)
      | some q => .error (.EvaluationError ("Reference to undefined name '" ++ q ++ "'")) :=
  C4_parameters_amended ("a" :: "f" :: builtin_names) "f" ["a"] ["a"] (by decide) (by decide)

/-! ### The lexer once its input is exhausted -/

theorem peek_of_tokens (toks : List Token) (k : Nat) (hk : k ≠ 0) :
    (Lexer.of_tokens toks).peek k =
      .ok (if toks.length < k then none else toks.get? (k - 1), Lexer.of_tokens toks) := by
  simp only [Lexer.peek, Lexer.fill, hk, if_false, Lexer.of_tokens, List.length_nil, fill_loop]
  simp
  by_cases h : toks.length < k <;> simp [h]

theorem peek_one_cons (t : Token) (rest : List Token) :
    (Lexer.of_tokens (t :: rest)).peek 1 = .ok (some t, Lexer.of_tokens (t :: rest)) := by
  rw [peek_of_tokens _ _ (by decide)]; simp

theorem peek_one_nil : (Lexer.of_tokens []).peek 1 = .ok (none, Lexer.of_tokens []) := by
  rw [peek_of_tokens _ _ (by decide)]; simp

theorem peek_two_cons (t : Token) (rest : List Token) :
    (Lexer.of_tokens (t :: rest)).peek 2 = .ok (rest.head?, Lexer.of_tokens (t :: rest)) := by
  rw [peek_of_tokens _ _ (by decide)]
  cases rest <;> simp

theorem next_of_tokens_cons (t : Token) (rest : List Token) :
    (Lexer.of_tokens (t :: rest)).next = .ok (t, Lexer.of_tokens rest) := by
  simp [Lexer.next, Lexer.fill, Lexer.of_tokens, fill_loop]

/-! ### C5: blocks without statements -/

theorem parse_F_rbrace (fuel : Nat) (str : String) (rest : List Token) :
    parse_F (fuel + 1) (Lexer.of_tokens (⟨TOK_RBRACE, str⟩ :: rest)) =
      .error (.SyntaxError "Invalid primary expression") := by
  simp [parse_F, peek_one_cons, peek_two_cons, bind, Except.bind, has_tag]

theorem parse_Stmt_rbrace (fuel : Nat) (str : String) (rest : List Token) :
    parse_Stmt (fuel + 7) (Lexer.of_tokens (⟨TOK_RBRACE, str⟩ :: rest)) =
      .error (.SyntaxError "Invalid primary expression") := by
  have hF := parse_F_rbrace fuel str rest
  have hT : parse_T (fuel + 2) (Lexer.of_tokens (⟨TOK_RBRACE, str⟩ :: rest)) =
      .error (.SyntaxError "Invalid primary expression") := by
    simp [parse_T, hF, bind, Except.bind]
  have hE : parse_E (fuel + 3) (Lexer.of_tokens (⟨TOK_RBRACE, str⟩ :: rest)) =
      .error (.SyntaxError "Invalid primary expression") := by
    simp [parse_E, hT, bind, Except.bind]
  have hR : parse_R (fuel + 4) (Lexer.of_tokens (⟨TOK_RBRACE, str⟩ :: rest)) =
      .error (.SyntaxError "Invalid primary expression") := by
    simp [parse_R, hE, bind, Except.bind]
  have hL : parse_L (fuel + 5) (Lexer.of_tokens (⟨TOK_RBRACE, str⟩ :: rest)) =
      .error (.SyntaxError "Invalid primary expression") := by
    simp [parse_L, hR, bind, Except.bind]
  have hA : parse_A (fuel + 6) (Lexer.of_tokens (⟨TOK_RBRACE, str⟩ :: rest)) =
      .error (.SyntaxError "Invalid primary expression") := by
    simp [parse_A, peek_one_cons, peek_two_cons, hL, bind, Except.bind]
  simp [parse_Stmt, peek_one_cons, hA, bind, Except.bind]

/-- C5, the claim as stated fails: for a function definition, an if branch,
an else branch and a while body, a block written `{` `}` makes the parser
raise a SyntaxError instead of yielding an empty statement list. -/
theorem C5_empty_blocks_rejected :
    parse 12 (Lexer.of_tokens tokens_function_empty_body) =
      .error (.SyntaxError "Invalid primary expression") ∧
    parse 12 (Lexer.of_tokens tokens_if_empty_body) =
      .error (.SyntaxError "Invalid primary expression") ∧
    parse 12 (Lexer.of_tokens tokens_else_empty_body) =
      .error (.SyntaxError "Invalid primary expression") ∧
    parse 12 (Lexer.of_tokens tokens_while_empty_body) =
      .error (.SyntaxError "Invalid primary expression") := by
  refine ⟨?_, ?_, ?_, ?_⟩ <;> rfl

/-- C5, amended: a block holds at least one statement. The loop that fills
the block of a function definition, an if branch, an else branch or a while
body parses a statement before it looks for the closing brace, so when the
token after `{` is `}` it raises the SyntaxError "Invalid primary
expression", whatever tokens follow. -/
theorem C5_block_needs_statement (fuel : Nat) (block : Node) (str : String)
    (rest : List Token) :
    parse_SList (fuel + 8) block (Lexer.of_tokens (⟨TOK_RBRACE, str⟩ :: rest)) =
      .error (.SyntaxError "Invalid primary expression") := by
  simp [parse_SList, parse_Stmt_rbrace, bind, Except.bind]

/-! ### C6: the scope of a while condition -/

/-- C6, the code at the failing input: `var x; x = 1; while (x) { var x;
println(7); }` ends after one iteration, having printed `7` once. The
re-evaluation of the condition runs in the scope of the body, where the
body's `x` (bound to 0) shadows the outer `x` (bound to 1). -/
theorem C6_condition_reads_body_scope :
    (execute_program 6 program_while_shadow (Store.initial [])).map
        (fun r => (r.1, r.2.output)) =
      .ok (VALUE_INT 0, "7\n") := by
  rfl

/-! ### C8: premature end of input -/

/-- C8, the code at the failing input: on an empty input, and on an input of
white space only, `parse` does not raise a SyntaxError: `parse_TStmt`
dereferences the null pointer returned by `peek()`. -/
theorem C8_empty_input_null_dereference (fuel : Nat) :
    parse (fuel + 1) (Lexer.create []) =
      .error (.undefined_behaviour "null pointer dereference: next_tok->get_tag()") ∧
    parse (fuel + 1) (Lexer.create [' ', ' ']) =
      .error (.undefined_behaviour "null pointer dereference: next_tok->get_tag()") := by
  constructor <;> rfl

/-! ### C9: failures of the built-in functions -/

/-- C9, the code at the failing input: `substr("hello", 6, 1)` and
`substr("hello", -1, 1)` pass every check of `string_substr` and end in the
`std::out_of_range` thrown by `std::string::substr`, which is not an
EvaluationError. -/
theorem C9_substr_out_of_range (s : Store) :
    string_substr [VALUE_STRING "hello", VALUE_INT 6, VALUE_INT 1] s =
      .error (.out_of_range "basic_string::substr") ∧
    string_substr [VALUE_STRING "hello", VALUE_INT (-1), VALUE_INT 1] s =
      .error (.out_of_range "basic_string::substr") := by
  constructor <;> rfl

/-! ### C7: integer literals -/

theorem isdigit_not_isspace (c : Char) (h : isdigit c = true) : isspace c = false := by
  simp only [isdigit, Bool.and_eq_true, decide_eq_true_eq] at h
  have h1 : (c.toNat == 32) = false := by
    rw [beq_eq_false_iff_ne]; omega
  have h2 : decide (c.toNat ≤ 13) = false := by
    rw [decide_eq_false_iff_not]; omega
  simp [isspace, h1, h2]

theorem isdigit_not_isalpha (c : Char) (h : isdigit c = true) : isalpha c = false := by
  simp only [isdigit, Bool.and_eq_true, decide_eq_true_eq] at h
  have h1 : decide (65 ≤ c.toNat) = false := by
    rw [decide_eq_false_iff_not]; omega
  have h2 : decide (97 ≤ c.toNat) = false := by
    rw [decide_eq_false_iff_not]; omega
  simp [isalpha, h1, h2]

theorem isdigit_ne_minus (c : Char) (h : isdigit c = true) : c ≠ '-' := by
  intro hc; subst hc; simp [isdigit] at h

theorem isdigit_ne_plus (c : Char) (h : isdigit c = true) : c ≠ '+' := by
  intro hc; subst hc; simp [isdigit] at h

theorem read_continued_loop_digits (kind : TokenKind) (la : List Token) :
    ∀ (cs : List Char) (n : Nat) (lexeme : String), (∀ c ∈ cs, isdigit c = true) →
      cs.length < n →
      read_continued_loop kind isdigit n lexeme { m_in := cs, m_eof := false, m_lookahead := la } =
        (⟨kind, ⟨lexeme.data ++ cs⟩⟩, { m_in := [], m_eof := true, m_lookahead := la }) := by
  intro cs
  induction cs with
  | nil =>
    intro n lexeme _ hn
    cases n with
    | zero => simp at hn
    | succ n => simp [read_continued_loop, Lexer.read, token_create]
  | cons c cs ih =>
    intro n lexeme hd hn
    cases n with
    | zero => simp at hn
    | succ n =>
      have hc : isdigit c = true := hd c (by simp)
      have hcs : ∀ c ∈ cs, isdigit c = true := fun c' h' => hd c' (by simp [h'])
      have hn2 : cs.length < n := by simpa using hn
      have hstep : read_continued_loop kind isdigit (n + 1) lexeme
          { m_in := c :: cs, m_eof := false, m_lookahead := la } =
          read_continued_loop kind isdigit n (lexeme.push c)
            { m_in := cs, m_eof := false, m_lookahead := la } := by
        simp [read_continued_loop, Lexer.read, hc]
      rw [hstep, ih n (lexeme.push c) hcs hn2]
      simp [String.push]

theorem stoi_digits_eq_foldl :
    ∀ (cs : List Char) (acc : Nat), (∀ c ∈ cs, isdigit c = true) →
      stoi_digits cs acc = cs.foldl (fun acc c => acc * 10 + (c.toNat - 48)) acc := by
  intro cs
  induction cs with
  | nil => intro acc _; simp [stoi_digits]
  | cons c cs ih =>
    intro acc hd
    have hc : isdigit c = true := hd c (by simp)
    have hcs : ∀ c ∈ cs, isdigit c = true := fun c' h' => hd c' (by simp [h'])
    simp [stoi_digits, hc, ih _ hcs]

theorem stoi_of_digits (ds : List Char) (hne : ds ≠ []) (hd : ∀ c ∈ ds, isdigit c = true)
    (hr : decimal_value ds ≤ 2147483647) :
    stoi (String.mk ds) = .ok (decimal_value ds : Int) := by
  cases ds with
  | nil => exact absurd rfl hne
  | cons c cs =>
    have hc : isdigit c = true := hd c (by simp)
    have hsp : isspace c = false := isdigit_not_isspace c hc
    have hval : stoi_digits (c :: cs) 0 = decimal_value (c :: cs) := by
      rw [stoi_digits_eq_foldl _ _ hd]; rfl
    have h1 : INT_MIN ≤ (decimal_value (c :: cs) : Int) := by
      simp only [INT_MIN]; omega
    have h2 : (decimal_value (c :: cs) : Int) ≤ INT_MAX := by
      simp only [INT_MAX]; omega
    simp only [stoi, List.dropWhile, hsp, stoi_signed, isdigit_ne_minus c hc,
      isdigit_ne_plus c hc, if_false, stoi_unsigned, hc, if_true, hval]
    simp [h1, h2]

/-- C7, the claim as stated fails: the literal `2147483648` is a non-empty
string of decimal digits, and evaluating its node yields no value: `std::stoi`
throws `std::out_of_range`. -/
theorem C7_literal_out_of_range :
    (∀ c ∈ "2147483648".data, isdigit c = true) ∧
    evaluate 1 (int_literal "2147483648") 0 empty_global_store =
      .error (.out_of_range "stoi") := by
  constructor
  · decide
  · rfl

/-- C7, amended: for every non-empty string of decimal digits whose value
fits an `int` (at most 2147483647), the lexer reads it as one integer-literal
token with that lexeme, evaluating the literal node yields the integer the
digits denote, and `as_str` renders it in canonical decimal form. -/
theorem C7_literal_roundtrip (ds : List Char) (fuel env : Nat) (s : Store)
    (hne : ds ≠ []) (hd : ∀ c ∈ ds, isdigit c = true)
    (hr : decimal_value ds ≤ 2147483647) :
    (Lexer.create ds).read_token =
        .ok (some ⟨TOK_INTEGER_LITERAL, String.mk ds⟩,
          { m_in := [], m_eof := true, m_lookahead := [] }) ∧
    evaluate (fuel + 1) (int_literal (String.mk ds)) env s =
        .ok (VALUE_INT (decimal_value ds), s) ∧
    (VALUE_INT (decimal_value ds)).as_str s = .ok (Nat.repr (decimal_value ds)) := by
  refine ⟨?_, ?_, ?_⟩
  · cases ds with
    | nil => exact absurd rfl hne
    | cons c cs =>
      have hc : isdigit c = true := hd c (by simp)
      have hcs : ∀ c ∈ cs, isdigit c = true := fun c' h' => hd c' (by simp [h'])
      simp only [Lexer.read_token, Lexer.create, List.length_cons, skip_whitespace, Lexer.read,
        Bool.false_eq_true, if_false, isdigit_not_isspace c hc, isdigit_not_isalpha c hc, hc,
        if_true, Lexer.read_continued_token]
      rw [read_continued_loop_digits TOK_INTEGER_LITERAL [] cs _ _ hcs (by simp)]
      simp [String.singleton, String.push]
  · simp [evaluate, int_literal, Node.get_tag, Node.get_str, stoi_of_digits ds hne hd hr, bind,
      Except.bind]
  · simp [Value.as_str, as_str_walk, format_d]

/-- Witness of C7 amended: the literal `042` denotes 42. -/
theorem C7_literal_roundtrip_witness :
    (Lexer.create ['0', '4', '2']).read_token =
        .ok (some ⟨TOK_INTEGER_LITERAL, String.mk ['0', '4', '2']⟩,
          { m_in := [], m_eof := true, m_lookahead := [] }) ∧
    evaluate (0 + 1) (int_literal (String.mk ['0', '4', '2'])) 0 empty_global_store =
        .ok (VALUE_INT (decimal_value ['0', '4', '2']), empty_global_store) ∧
    (VALUE_INT (decimal_value ['0', '4', '2'])).as_str empty_global_store =
        .ok (Nat.repr (decimal_value ['0', '4', '2'])) :=
  C7_literal_roundtrip ['0', '4', '2'] 0 0 empty_global_store (by decide) (by decide)
    (by decide)

/-! ### C10: variable definition -/

/-- C10: with `E` the innermost scope, `var x;` raises the evaluation error
"Variable 'x' already defined" when `E` binds `x`, and only then; otherwise
it yields 0 and the store differs from the one before only in that `E` now
binds `x` to 0: every other name of `E`, the parent of `E`, every other
scope, the functions, the arrays and the streams are as before. -/
theorem C10_vardef (fuel : Nat) (x : String) (env : Nat) (s : Store) (E : Environment)
    (hE : s.env env = .ok E) :
    ((map_find E.vars x).isSome = true →
      evaluate (fuel + 1) (vardef_node x) env s =
        .error (.EvaluationError ("Variable '" ++ x ++ "' already defined"))) ∧
    ((map_find E.vars x).isSome = false →
      ∃ (s1 : Store) (E1 : Environment),
        evaluate (fuel + 1) (vardef_node x) env s = .ok (VALUE_INT 0, s1) ∧
        s1.env env = .ok E1 ∧
        map_find E1.vars x = some (VALUE_INT 0) ∧
        (∀ y, y ≠ x → map_find E1.vars y = map_find E.vars y) ∧
        E1.m_parent = E.m_parent ∧
        (∀ p, p ≠ env → s1.envs[p]? = s.envs[p]?) ∧
        s1.envs.length = s.envs.length ∧
        s1.functions = s.functions ∧ s1.arrays = s.arrays ∧
        s1.output = s.output ∧ s1.input = s.input) := by
  have hlt : env < s.envs.length := by
    simp only [Store.env] at hE
    cases h : s.envs[env]? with
    | none => simp [h] at hE
    | some o =>
      have := List.getElem?_eq_some_iff.mp h
      exact this.1
  constructor
  · intro hx
    simp [evaluate, vardef_node, varref, Node.get_tag, Node.get_kid, Node.kids, Node.get_str,
      bind, Except.bind, Environment_isDefinedInCurrentScope, hE, hx]
  · intro hx
    refine ⟨s.put_env env { E with vars := map_assign E.vars x (VALUE_INT 0) },
      { E with vars := map_assign E.vars x (VALUE_INT 0) }, ?_, ?_, ?_, ?_, rfl, ?_, ?_,
      rfl, rfl, rfl, rfl⟩
    · simp [evaluate, vardef_node, varref, Node.get_tag, Node.get_kid, Node.kids, Node.get_str,
        bind, Except.bind, Environment_isDefinedInCurrentScope, hE, hx, Environment_defineVar]
    · simp [Store.env, Store.put_env, hlt]
    · exact map_find_map_assign_same _ _ _
    · intro y hy
      exact map_find_map_assign_other _ _ _ _ hy
    · intro p hp
      simp [Store.put_env, List.getElem?_set, Ne.symm hp]
    · simp [Store.put_env]

/-- Witness of C10: `var x;` raises in the global scope of `two_scope_store`,
which binds `x`, and defines `x` in the empty global scope. -/
theorem C10_vardef_witness :
    evaluate (0 + 1) (vardef_node "x") 0 two_scope_store =
        .error (.EvaluationError ("Variable '" ++ "x" ++ "' already defined")) ∧
    ∃ (s1 : Store) (E1 : Environment),
        evaluate (0 + 1) (vardef_node "x") 0 empty_global_store = .ok (VALUE_INT 0, s1) ∧
        s1.env 0 = .ok E1 ∧
        map_find E1.vars "x" = some (VALUE_INT 0) ∧
        (∀ y, y ≠ "x" →
          map_find E1.vars y = map_find ({ m_parent := none, vars := [] } : Environment).vars y) ∧
        E1.m_parent = ({ m_parent := none, vars := [] } : Environment).m_parent ∧
        (∀ p, p ≠ 0 → s1.envs[p]? = empty_global_store.envs[p]?) ∧
        s1.envs.length = empty_global_store.envs.length ∧
        s1.functions = empty_global_store.functions ∧ s1.arrays = empty_global_store.arrays ∧
        s1.output = empty_global_store.output ∧ s1.input = empty_global_store.input :=
  ⟨(C10_vardef 0 "x" 0 two_scope_store
      { m_parent := none, vars := [("x", VALUE_INT 1), ("y", VALUE_INT 5)] } rfl).1 rfl,
   (C10_vardef 0 "x" 0 empty_global_store { m_parent := none, vars := [] } rfl).2 rfl⟩

/-! ### C12, C13: logical operators -/

theorem evaluate_and_check_numeric_int (ev : Node → Nat → Store → Except Failure (Value × Store))
    (tag : ASTKind) (l r : Node) (env : Nat) (s s1 : Store) (a : Int)
    (h : ev l env s = .ok (VALUE_INT a, s1)) :
    evaluate_and_check_numeric_with ev (binary_node tag l r) env 0 s = .ok (a, s1) := by
  simp [evaluate_and_check_numeric_with, binary_node, Node.get_kid, Node.kids, bind,
    Except.bind, h]

theorem evaluate_and_check_numeric_int_right
    (ev : Node → Nat → Store → Except Failure (Value × Store))
    (tag : ASTKind) (l r : Node) (env : Nat) (s s1 : Store) (a : Int)
    (h : ev r env s = .ok (VALUE_INT a, s1)) :
    evaluate_and_check_numeric_with ev (binary_node tag l r) env 1 s = .ok (a, s1) := by
  simp [evaluate_and_check_numeric_with, binary_node, Node.get_kid, Node.kids, bind,
    Except.bind, h]

/-- C12: when the left operand of `l && e` evaluates to 0 the result is 0, and
when the left operand of `l || e` evaluates to a nonzero integer the result is
1; in both cases the result and the store are those left by the left operand
alone, whatever the expression `e` is: `e` is not evaluated, so it has no
effect and raises no error. -/
theorem C12_short_circuit (fuel : Nat) (l e : Node) (env : Nat) (s s1 : Store) :
    (evaluate fuel l env s = .ok (VALUE_INT 0, s1) →
      evaluate (fuel + 1) (binary_node AST_LOGICAL_AND l e) env s = .ok (VALUE_INT 0, s1)) ∧
    (∀ c : Int, c ≠ 0 → evaluate fuel l env s = .ok (VALUE_INT c, s1) →
      evaluate (fuel + 1) (binary_node AST_LOGICAL_OR l e) env s = .ok (VALUE_INT 1, s1)) := by
  constructor
  · intro h
    have h0 := evaluate_and_check_numeric_int (evaluate fuel) AST_LOGICAL_AND l e env s s1 0 h
    simp only [binary_node] at h0
    simp [evaluate, h0, bind, Except.bind, binary_node, Node.get_tag]
  · intro c hc h
    have h0 := evaluate_and_check_numeric_int (evaluate fuel) AST_LOGICAL_OR l e env s s1 c h
    simp only [binary_node] at h0
    simp [evaluate, h0, hc, bind, Except.bind, binary_node, Node.get_tag]

/-- Witness of C12: `0 && f()` and `1 || f()` in a store where `f` is not
even defined. -/
theorem C12_short_circuit_witness :
    evaluate (1 + 1) (binary_node AST_LOGICAL_AND (int_literal "0") (fncall_node "f" [])) 0
        empty_global_store = .ok (VALUE_INT 0, empty_global_store) ∧
    evaluate (1 + 1) (binary_node AST_LOGICAL_OR (int_literal "1") (fncall_node "f" [])) 0
        empty_global_store = .ok (VALUE_INT 1, empty_global_store) :=
  ⟨(C12_short_circuit 1 (int_literal "0") (fncall_node "f" []) 0 empty_global_store
      empty_global_store).1 rfl,
   (C12_short_circuit 1 (int_literal "1") (fncall_node "f" []) 0 empty_global_store
      empty_global_store).2 1 (by decide) rfl⟩


/-- C13: when the operands evaluate to the integers `a` and `b`, `a && b` is
1 if both are nonzero and 0 otherwise, and `a || b` is 1 if one of them is
nonzero and 0 otherwise; the result is the integer 0 or 1 in every case. The
store is the one left by the operands that were evaluated. -/
theorem C13_logical_values (fuel : Nat) (l r : Node) (env : Nat) (s s1 s2 : Store) (a b : Int)
    (hl : evaluate fuel l env s = .ok (VALUE_INT a, s1))
    (hr : evaluate fuel r env s1 = .ok (VALUE_INT b, s2)) :
    evaluate (fuel + 1) (binary_node AST_LOGICAL_AND l r) env s =
        .ok (VALUE_INT (if a ≠ 0 ∧ b ≠ 0 then 1 else 0), if a = 0 then s1 else s2) ∧
    evaluate (fuel + 1) (binary_node AST_LOGICAL_OR l r) env s =
        .ok (VALUE_INT (if a ≠ 0 ∨ b ≠ 0 then 1 else 0), if a ≠ 0 then s1 else s2) := by
  have h0 := fun tag => evaluate_and_check_numeric_int (evaluate fuel) tag l r env s s1 a hl
  have h1 := fun tag =>
    evaluate_and_check_numeric_int_right (evaluate fuel) tag l r env s1 s2 b hr
  simp only [binary_node] at h0 h1
  constructor
  · by_cases ha : a = 0
    · simp [evaluate, h0, ha, bind, Except.bind, binary_node, Node.get_tag]
    · by_cases hb : b = 0
      · simp [evaluate, h0, h1, ha, hb, bind, Except.bind, binary_node, Node.get_tag]
      · simp [evaluate, h0, h1, ha, hb, bind, Except.bind, binary_node, Node.get_tag]
  · by_cases ha : a = 0
    · by_cases hb : b = 0
      · simp [evaluate, h0, h1, ha, hb, bind, Except.bind, binary_node, Node.get_tag]
      · simp [evaluate, h0, h1, ha, hb, bind, Except.bind, binary_node, Node.get_tag]
    · simp [evaluate, h0, ha, bind, Except.bind, binary_node, Node.get_tag]

/-- Witness of C13: `2 && 0` and `2 || 0`. -/
theorem C13_logical_values_witness :
    evaluate (1 + 1) (binary_node AST_LOGICAL_AND (int_literal "2") (int_literal "0")) 0
        empty_global_store =
        .ok (VALUE_INT (if (2 : Int) ≠ 0 ∧ (0 : Int) ≠ 0 then 1 else 0),
          if (2 : Int) = 0 then empty_global_store else empty_global_store) ∧
    evaluate (1 + 1) (binary_node AST_LOGICAL_OR (int_literal "2") (int_literal "0")) 0
        empty_global_store =
        .ok (VALUE_INT (if (2 : Int) ≠ 0 ∨ (0 : Int) ≠ 0 then 1 else 0),
          if (2 : Int) ≠ 0 then empty_global_store else empty_global_store) :=
  C13_logical_values 1 (int_literal "2") (int_literal "0") 0 empty_global_store
    empty_global_store empty_global_store 2 0 rfl rfl

/-! ### C14: division by zero -/

/-- C14: when the operands of `l / r` evaluate to the integers `a` and `b`,
the evaluation raises an evaluation error if and only if `b` is 0. In that
case the error is "Attempt to divide by 0", no quotient is computed, and a
block that holds the division as a statement ends with that error, whatever
statements follow it. When `b` is not 0 the result is the quotient truncated
towards zero (undefined behaviour if it does not fit an `int`). -/
theorem C14_division (fuel : Nat) (l r : Node) (env : Nat) (s s1 s2 : Store) (a b : Int)
    (hl : evaluate fuel l env s = .ok (VALUE_INT a, s1))
    (hr : evaluate fuel r env s1 = .ok (VALUE_INT b, s2)) :
    (b = 0 →
      evaluate (fuel + 1) (binary_node AST_DIVIDE l r) env s =
        .error (.EvaluationError "Attempt to divide by 0") ∧
      ∀ rest : List Node,
        execute (fuel + 1) (statement_list (statement (binary_node AST_DIVIDE l r) :: rest))
          env s = .error (.EvaluationError "Attempt to divide by 0")) ∧
    (b ≠ 0 →
      evaluate (fuel + 1) (binary_node AST_DIVIDE l r) env s =
        (int_result (Int.tdiv a b)).map (fun z => (VALUE_INT z, s2)) ∧
      ∀ msg : String,
        evaluate (fuel + 1) (binary_node AST_DIVIDE l r) env s ≠
          .error (.EvaluationError msg)) := by
  have h0 := evaluate_and_check_numeric_int (evaluate fuel) AST_DIVIDE l r env s s1 a hl
  have h1 := evaluate_and_check_numeric_int_right (evaluate fuel) AST_DIVIDE l r env s1 s2 b hr
  simp only [binary_node] at h0 h1
  constructor
  · intro hb
    have hev : evaluate (fuel + 1) (binary_node AST_DIVIDE l r) env s =
        .error (.EvaluationError "Attempt to divide by 0") := by
      simp [evaluate, h0, h1, hb, bind, Except.bind, binary_node, Node.get_tag, binary_operation]
    refine ⟨hev, ?_⟩
    intro rest
    simp [execute, execute_with, statement_list, statement, Node.kids, execute_loop,
      Node.get_kid, bind, Except.bind, hev]
  · intro hb
    have hev : evaluate (fuel + 1) (binary_node AST_DIVIDE l r) env s =
        (int_result (Int.tdiv a b)).map (fun z => (VALUE_INT z, s2)) := by
      simp [evaluate, h0, h1, hb, bind, Except.bind, binary_node, Node.get_tag, binary_operation]
      cases int_result (a.tdiv b) <;> simp [Except.map]
    refine ⟨hev, ?_⟩
    intro msg
    rw [hev]
    unfold int_result
    split <;> simp [Except.map]

/-- Witness of C14: `5 / 0` raises and `6 / 3` does not. -/
theorem C14_division_witness :
    (evaluate (1 + 1) (binary_node AST_DIVIDE (int_literal "5") (int_literal "0")) 0
        empty_global_store = .error (.EvaluationError "Attempt to divide by 0") ∧
      ∀ rest : List Node,
        execute (1 + 1)
          (statement_list
            (statement (binary_node AST_DIVIDE (int_literal "5") (int_literal "0")) :: rest))
          0 empty_global_store = .error (.EvaluationError "Attempt to divide by 0")) ∧
    (evaluate (1 + 1) (binary_node AST_DIVIDE (int_literal "6") (int_literal "3")) 0
        empty_global_store =
        (int_result (Int.tdiv 6 3)).map (fun z => (VALUE_INT z, empty_global_store)) ∧
      ∀ msg : String,
        evaluate (1 + 1) (binary_node AST_DIVIDE (int_literal "6") (int_literal "3")) 0
          empty_global_store ≠ .error (.EvaluationError msg)) :=
  ⟨(C14_division 1 (int_literal "5") (int_literal "0") 0 empty_global_store empty_global_store
      empty_global_store 5 0 rfl rfl).1 rfl,
   (C14_division 1 (int_literal "6") (int_literal "3") 0 empty_global_store empty_global_store
      empty_global_store 6 3 rfl rfl).2 (by decide)⟩

/-! ### C15: non-numeric operands -/

/-- C15: for each of the ten operators `+ - * / < <= > >= == !=`, if the left
operand evaluates to a value that is not an integer, or the left operand
evaluates to an integer and the right operand to a value that is not one,
the operation raises the evaluation error "Cannot perform arithmetic
calculation on non-numeric values". -/
theorem C15_non_numeric_operand (tag : ASTKind) (htag : tag ∈ arithmetic_relational_tags)
    (fuel : Nat) (l r : Node) (env : Nat) (s s1 : Store) :
    (∀ v : Value, v.is_numeric = false → evaluate fuel l env s = .ok (v, s1) →
      evaluate (fuel + 1) (binary_node tag l r) env s =
        .error (.EvaluationError
          "Cannot perform arithmetic calculation on non-numeric values")) ∧
    (∀ (a : Int) (w : Value) (s2 : Store), w.is_numeric = false →
      evaluate fuel l env s = .ok (VALUE_INT a, s1) → evaluate fuel r env s1 = .ok (w, s2) →
      evaluate (fuel + 1) (binary_node tag l r) env s =
        .error (.EvaluationError
          "Cannot perform arithmetic calculation on non-numeric values")) := by
  simp only [arithmetic_relational_tags, List.mem_cons, List.mem_singleton,
    List.not_mem_nil, or_false] at htag
  constructor
  · intro v hv hl
    have h0 : evaluate_and_check_numeric_with (evaluate fuel) (.mk tag "" [l, r]) env 0 s =
        .error (.EvaluationError
          "Cannot perform arithmetic calculation on non-numeric values") := by
      cases v <;>
        simp_all [evaluate_and_check_numeric_with, Node.get_kid, Node.kids, bind, Except.bind,
          Value.is_numeric]
    rcases htag with h | h | h | h | h | h | h | h | h | h <;> subst h <;>
      simp [evaluate, h0, bind, Except.bind, binary_node, Node.get_tag]
  · intro a w s2 hw hl hr
    have h0 := evaluate_and_check_numeric_int (evaluate fuel) tag l r env s s1 a hl
    simp only [binary_node] at h0
    have h1 : evaluate_and_check_numeric_with (evaluate fuel) (.mk tag "" [l, r]) env 1 s1 =
        .error (.EvaluationError
          "Cannot perform arithmetic calculation on non-numeric values") := by
      cases w <;>
        simp_all [evaluate_and_check_numeric_with, Node.get_kid, Node.kids, bind, Except.bind,
          Value.is_numeric]
    rcases htag with h | h | h | h | h | h | h | h | h | h <;> subst h <;>
      simp [evaluate, h0, h1, bind, Except.bind, binary_node, Node.get_tag]

/-- Witness of C15: `"a" + 1` and `1 < "a"`. -/
theorem C15_non_numeric_operand_witness :
    evaluate (1 + 1) (binary_node AST_ADD (.mk AST_STRING_LITERAL "a" []) (int_literal "1")) 0
        empty_global_store =
      .error (.EvaluationError "Cannot perform arithmetic calculation on non-numeric values") ∧
    evaluate (1 + 1) (binary_node AST_LESS (int_literal "1") (.mk AST_STRING_LITERAL "a" [])) 0
        empty_global_store =
      .error (.EvaluationError "Cannot perform arithmetic calculation on non-numeric values") :=
  ⟨(C15_non_numeric_operand AST_ADD (by decide) 1 (.mk AST_STRING_LITERAL "a" [])
      (int_literal "1") 0 empty_global_store empty_global_store).1 (VALUE_STRING "a") rfl rfl,
   (C15_non_numeric_operand AST_LESS (by decide) 1 (int_literal "1")
      (.mk AST_STRING_LITERAL "a" []) 0 empty_global_store empty_global_store).2 1
      (VALUE_STRING "a") empty_global_store rfl rfl rfl⟩

/-! ### C16: variable reference -/

theorem isDefined_walk_chain (s : Store) (x : String) :
    ∀ (n env : Nat) (chain : List Environment), scope_chain s n env = some chain →
      isDefined_walk s n env x =
        .ok (chain.findSome? (fun E => map_find E.vars x)).isSome := by
  intro n
  induction n with
  | zero => intro env chain h; simp [scope_chain] at h
  | succ n ih =>
    intro env chain h
    simp only [scope_chain] at h
    cases he : s.envs[env]? with
    | none => simp [he] at h
    | some o =>
      cases o with
      | none => simp [he] at h
      | some e =>
        simp only [he] at h
        have hE : s.env env = .ok e := by simp [Store.env, he]
        simp only [isDefined_walk, bind, Except.bind, hE]
        cases hp : e.m_parent with
        | none =>
          simp only [hp, Option.some.injEq] at h
          subst h
          cases hf : map_find e.vars x <;> simp [List.findSome?, hf]
        | some p =>
          simp only [hp, Option.map_eq_some'] at h
          obtain ⟨rest, hrest, hc⟩ := h
          subst hc
          cases hf : map_find e.vars x with
          | some v => simp [List.findSome?, hf]
          | none => simp [List.findSome?, hf, ih p rest hrest]

theorem getVar_walk_chain (s : Store) (x : String) :
    ∀ (n env : Nat) (chain : List Environment) (v : Value), scope_chain s n env = some chain →
      chain.findSome? (fun E => map_find E.vars x) = some v →
      getVar_walk s n env x = .ok v := by
  intro n
  induction n with
  | zero => intro env chain v h; simp [scope_chain] at h
  | succ n ih =>
    intro env chain v h hv
    simp only [scope_chain] at h
    cases he : s.envs[env]? with
    | none => simp [he] at h
    | some o =>
      cases o with
      | none => simp [he] at h
      | some e =>
        simp only [he] at h
        have hE : s.env env = .ok e := by simp [Store.env, he]
        simp only [getVar_walk, bind, Except.bind, hE]
        cases hp : e.m_parent with
        | none =>
          simp only [hp, Option.some.injEq] at h
          subst h
          cases hf : map_find e.vars x with
          | some w => simp [List.findSome?, hf] at hv; simp [hv]
          | none => simp [List.findSome?, hf] at hv
        | some p =>
          simp only [hp, Option.map_eq_some'] at h
          obtain ⟨rest, hrest, hc⟩ := h
          subst hc
          cases hf : map_find e.vars x with
          | some w => simp [List.findSome?, hf] at hv; simp [hv]
          | none =>
            simp only [List.findSome?, hf] at hv
            simp [ih p rest v hrest hv]

/-- C16: let `chain` be the scopes from the current one outwards. Evaluating
a reference to `x` yields the value that the first (innermost) scope of the
chain binding `x` gives it, the store being unchanged; it raises an
evaluation error, whose message names `x`, exactly when no scope of the chain
binds `x`. -/
theorem C16_variable_reference (fuel : Nat) (x : String) (env : Nat) (s : Store)
    (chain : List Environment) (hchain : scope_chain s s.envs.length env = some chain) :
    evaluate (fuel + 1) (varref x) env s =
      match chain.findSome? (fun E => map_find E.vars x) with
      | some v => .ok (v, s)
      | none =>
        .error (.EvaluationError ("Function not defined before invoking '" ++ x ++ "'")) := by
  have hdef := isDefined_walk_chain s x _ env chain hchain
  cases hv : chain.findSome? (fun E => map_find E.vars x) with
  | none =>
    rw [hv] at hdef
    simp [evaluate, varref, Node.get_tag, Node.get_str, bind, Except.bind, check_exists,
      Environment_isDefined, hdef]
  | some v =>
    rw [hv] at hdef
    have hget := getVar_walk_chain s x _ env chain v hchain hv
    simp [evaluate, varref, Node.get_tag, Node.get_str, bind, Except.bind, check_exists,
      Environment_isDefined, hdef, Environment_getVar, hget]

/-- Witness of C16: in `two_scope_store`, read from the inner scope, `x` is
the inner 2 (not the outer 1), `y` is the outer 5, and `z` raises. -/
theorem C16_variable_reference_witness :
    evaluate (0 + 1) (varref "x") 1 two_scope_store = .ok (VALUE_INT 2, two_scope_store) ∧
    evaluate (0 + 1) (varref "y") 1 two_scope_store = .ok (VALUE_INT 5, two_scope_store) ∧
    evaluate (0 + 1) (varref "z") 1 two_scope_store =
      .error (.EvaluationError ("Function not defined before invoking '" ++ "z" ++ "'")) :=
  ⟨C16_variable_reference 0 "x" 1 two_scope_store
      [{ m_parent := some 0, vars := [("x", VALUE_INT 2)] },
       { m_parent := none, vars := [("x", VALUE_INT 1), ("y", VALUE_INT 5)] }] rfl,
   C16_variable_reference 0 "y" 1 two_scope_store
      [{ m_parent := some 0, vars := [("x", VALUE_INT 2)] },
       { m_parent := none, vars := [("x", VALUE_INT 1), ("y", VALUE_INT 5)] }] rfl,
   C16_variable_reference 0 "z" 1 two_scope_store
      [{ m_parent := some 0, vars := [("x", VALUE_INT 2)] },
       { m_parent := none, vars := [("x", VALUE_INT 1), ("y", VALUE_INT 5)] }] rfl⟩

/-! ### C11: shadowing in an if-block -/

theorem getElem?_append_length {α : Type} (l : List α) (a : α) :
    (l ++ [a])[l.length]? = some a := by
  simp

theorem set_append_length {α : Type} (l : List α) (a b : α) :
    (l ++ [a]).set l.length b = l ++ [b] := by
  induction l with
  | nil => simp
  | cons x xs ih => simp [ih]

theorem env_append (s : Store) (o : Option Environment) (env : Nat) (e : Environment)
    (h : s.env env = .ok e) :
    Store.env { s with envs := s.envs ++ [o] } env = .ok e := by
  simp only [Store.env] at h ⊢
  cases he : s.envs[env]? with
  | none => simp [he] at h
  | some o2 =>
    have hlt := (List.getElem?_eq_some_iff.mp he).1
    rw [List.getElem?_append_left hlt, he]
    simpa [he] using h

theorem getVar_walk_append (s : Store) (o : Option Environment) (x : String) (v : Value) :
    ∀ (n m env : Nat), n ≤ m → getVar_walk s n env x = .ok v →
      getVar_walk { s with envs := s.envs ++ [o] } m env x = .ok v := by
  intro n
  induction n with
  | zero => intro m env _ h; simp [getVar_walk] at h
  | succ n ih =>
    intro m env hm h
    cases m with
    | zero => omega
    | succ m =>
      simp only [getVar_walk, bind, Except.bind] at h ⊢
      cases he : s.env env with
      | error e => simp [he] at h
      | ok e =>
        rw [env_append s o env e he]
        simp only [he] at h ⊢
        cases hf : map_find e.vars x with
        | some w => simpa [hf] using h
        | none =>
          simp only [hf] at h ⊢
          cases hp : e.m_parent with
          | none => simp [hp] at h
          | some p =>
            simp only [hp] at h ⊢
            exact ih m p (by omega) h

theorem evaluate_vardef (fuel : Nat) (x : String) (env : Nat) (s : Store) :
    evaluate (fuel + 1) (vardef_node x) env s =
      (do
        let defined ← Environment_isDefinedInCurrentScope s env x
        if defined then
          .error (.EvaluationError ("Variable '" ++ x ++ "' already defined"))
        else do
          let s ← Environment_defineVar s env x
          .ok (VALUE_INT 0, s)) := by
  rfl

theorem evaluate_assign (fuel : Nat) (x : String) (e : Node) (env : Nat) (s : Store) :
    evaluate (fuel + 1) (assign_node x e) env s =
      (do
        let (childval, s) ← evaluate fuel e env s
        let identifier ← check_exists x env s
        let s ← Environment_setVar s env identifier childval
        .ok (childval, s)) := by
  rfl

theorem evaluate_if_two (fuel : Nat) (cond : Node) (body : List Node) (env : Nat) (s : Store) :
    evaluate (fuel + 1) (if_node cond body) env s =
      (do
        let (conditionValue, s) ← evaluate fuel cond env s
        let c ← conditionValue.get_ival
        if c ≠ 0 then do
          let (_, s2) ← execute_with (evaluate fuel) (statement_list body) s.envs.length
            (s.new_env (some env)).2
          .ok (VALUE_INT 0, s2.delete_env s.envs.length)
        else .ok (VALUE_INT 0, s)) := by
  rfl

/-- C11: let the condition of an `if` evaluate to a nonzero integer, leaving
the store `s1` in which the enclosing chain gives `x` the value `val`. A block
that declares `var x;` and then assigns to `x` the value of an expression
without effect raises no error, and afterwards the chain still gives `x` the
value `val`: every scope is as before, the scope of the block having been
deleted. A block that declares `var x;` twice raises the evaluation error
"Variable 'x' already defined". -/
theorem C11_if_block_shadowing (fuel : Nat) (cond e : Node) (x : String) (env : Nat)
    (s s1 : Store) (c : Int) (v val : Value)
    (hcond : evaluate (fuel + 1) cond env s = .ok (VALUE_INT c, s1)) (hc : c ≠ 0)
    (he : ∀ (env2 : Nat) (s2 : Store), evaluate fuel e env2 s2 = .ok (v, s2))
    (hx : Environment_getVar s1 env x = .ok val) :
    (∃ s3 : Store,
      evaluate (fuel + 2)
        (if_node cond [statement (vardef_node x), statement (assign_node x e)]) env s =
          .ok (VALUE_INT 0, s3) ∧
      s3.envs = s1.envs ++ [none] ∧
      Environment_getVar s3 env x = .ok val) ∧
    evaluate (fuel + 2)
      (if_node cond [statement (vardef_node x), statement (vardef_node x)]) env s =
        .error (.EvaluationError ("Variable '" ++ x ++ "' already defined")) := by
  constructor
  · refine ⟨{ s1 with envs := s1.envs ++ [none] }, ?_, rfl, ?_⟩
    · rw [evaluate_if_two, hcond]
      simp [statement_list, statement,
        Node.get_kid, Node.kids, bind,
        Except.bind, hc, Value.get_ival, Store.new_env, execute_with, execute_loop,
        evaluate_vardef, evaluate_assign,
        Environment_isDefinedInCurrentScope, Store.env, map_find, Environment_defineVar,
        Store.put_env, map_assign, set_append_length, he, check_exists,
        Environment_isDefined, isDefined_walk, Environment_setVar, setVar_walk,
        Store.delete_env]
    · exact getVar_walk_append s1 none x val _ _ env (by simp) hx
  · rw [evaluate_if_two, hcond]
    simp [statement_list, statement,
      Node.get_kid, Node.kids, bind,
      Except.bind, hc, Value.get_ival, Store.new_env, execute_with, execute_loop,
      evaluate_vardef,
      Environment_isDefinedInCurrentScope, Store.env, map_find, Environment_defineVar,
      Store.put_env, map_assign, set_append_length]

/-- Witness of C11: `if (1) { var x; x = 7; }` and `if (1) { var x; var x; }`
run in the global scope of `two_scope_store`, where `x` is 1. -/
theorem C11_if_block_shadowing_witness :
    (∃ s3 : Store,
      evaluate (1 + 2)
        (if_node (int_literal "1")
          [statement (vardef_node "x"), statement (assign_node "x" (int_literal "7"))])
        0 two_scope_store = .ok (VALUE_INT 0, s3) ∧
      s3.envs = two_scope_store.envs ++ [none] ∧
      Environment_getVar s3 0 "x" = .ok (VALUE_INT 1)) ∧
    evaluate (1 + 2)
      (if_node (int_literal "1") [statement (vardef_node "x"), statement (vardef_node "x")])
      0 two_scope_store =
        .error (.EvaluationError ("Variable '" ++ "x" ++ "' already defined")) :=
  C11_if_block_shadowing 1 (int_literal "1") (int_literal "7") "x" 0 two_scope_store
    two_scope_store 1 (VALUE_INT 7) (VALUE_INT 1) rfl (by decide) (fun _ _ => rfl) rfl

/-! ### C17, C18: reference counting -/

theorem countP_set_of_getElem? {α : Type} (p : α → Bool) :
    ∀ (l : List α) (i : Nat) (a b : α), l[i]? = some b →
      (l.set i a).countP p + (if p b then 1 else 0) = l.countP p + (if p a then 1 else 0) := by
  intro l
  induction l with
  | nil => intro i a b h; simp at h
  | cons x xs ih =>
    intro i a b h
    cases i with
    | zero =>
      simp only [List.getElem?_cons_zero, Option.some.injEq] at h
      subst h
      simp only [List.set_cons_zero, List.countP_cons]
      split <;> split <;> omega
    | succ i =>
      simp only [List.getElem?_cons_succ] at h
      have := ih i a b h
      simp only [List.set_cons_succ, List.countP_cons]
      omega

theorem holders_set (h : RcHeap) (i : Nat) (o o2 : Option ValueObject) (r : Nat)
    (hi : h.values[i]? = some o) :
    holders { h with values := h.values.set i o2 } r + (if holds r o then 1 else 0) =
      holders h r + (if holds r o2 then 1 else 0) := by
  simpa [holders] using countP_set_of_getElem? (holds r) h.values i o2 o hi

theorem holders_reps (h : RcHeap) (reps : List ValRep) (r : Nat) :
    holders { h with reps := reps } r = holders h r := rfl

theorem holds_dynamic (r : Nat) (v : ValueObject) (hd : v.m_kind.is_dynamic = true)
    (hr : v.m_rep = some r) : holds r (some v) = true := by
  simp [holds, hd, hr]

theorem holds_atomic (r : Nat) (v : ValueObject) (hd : v.m_kind.is_dynamic = false) :
    holds r (some v) = false := by
  simp [holds, hd]

theorem holds_other (r p : Nat) (v : ValueObject) (hr : v.m_rep = some p) (hne : r ≠ p) :
    holds r (some v) = false := by
  simp [holds, hr, Ne.symm hne]

theorem holders_pos (h : RcHeap) (i r : Nat) (o : Option ValueObject)
    (hi : h.values[i]? = some o) (ho : holds r o = true) : 0 < holders h r := by
  obtain ⟨hlt, heq⟩ := List.getElem?_eq_some_iff.mp hi
  have hmem : o ∈ h.values := by
    rw [← heq]; exact List.getElem_mem hlt
  exact List.countP_pos_iff.mpr ⟨o, hmem, ho⟩

/-- What a balanced heap says about the representation a live value holds. -/
theorem balanced_held (h : RcHeap) (hb : balanced h) (i : Nat) (v : ValueObject)
    (hi : h.values[i]? = some (some v)) (hd : v.m_kind.is_dynamic = true) :
    ∃ (r : Nat) (rep : ValRep), v.m_rep = some r ∧ h.reps[r]? = some rep ∧
      rep.deleted = false ∧ rep.m_refcount = (holders h r : Int) ∧ 0 < holders h r := by
  obtain ⟨r, hr, hlt⟩ := hb.2 i v hi hd
  have hpos : 0 < holders h r := holders_pos h i r _ hi (holds_dynamic r v hd hr)
  have hrep : h.reps[r]? = some h.reps[r] := List.getElem?_eq_getElem hlt
  have h1 := hb.1 r _ hrep
  have hdel : (h.reps[r]).deleted = false := by
    cases hq : (h.reps[r]).deleted with
    | false => rfl
    | true => have := h1.2 hq; omega
  exact ⟨r, h.reps[r], hr, hrep, hdel, h1.1 hdel, hpos⟩

theorem detach_atomic (h : RcHeap) (i : Nat) (v : ValueObject)
    (hi : h.values[i]? = some (some v)) (hd : v.m_kind.is_dynamic = false) :
    Value_detach h i = .ok h := by
  simp [Value_detach, RcHeap.value, hi, hd, bind, Except.bind]

theorem detach_dynamic (h : RcHeap) (i r : Nat) (v : ValueObject) (rep : ValRep)
    (hi : h.values[i]? = some (some v)) (hd : v.m_kind.is_dynamic = true)
    (hr : v.m_rep = some r) (hrep : h.reps[r]? = some rep) (hdel : rep.deleted = false) :
    Value_detach h i = .ok (detached h i r rep) := by
  have hlt : r < h.reps.length := (List.getElem?_eq_some_iff.mp hrep).1
  by_cases hz : rep.m_refcount - 1 = 0
  · simp [Value_detach, RcHeap.value, hi, hd, hr, bind, Except.bind, ValRep_remove_ref,
      RcHeap.rep, hrep, hdel, ValRep_get_num_refs, hlt, hz, delete_rep, RcHeap.put_value,
      detached]
  · simp [Value_detach, RcHeap.value, hi, hd, hr, bind, Except.bind, ValRep_remove_ref,
      RcHeap.rep, hrep, hdel, ValRep_get_num_refs, hlt, hz, RcHeap.put_value, detached]

theorem detached_holders (h : RcHeap) (i r : Nat) (v : ValueObject) (rep : ValRep)
    (hi : h.values[i]? = some (some v)) (hd : v.m_kind.is_dynamic = true)
    (hr : v.m_rep = some r) (q : Nat) :
    holders (detached h i r rep) q + (if q = r then 1 else 0) = holders h q := by
  have h1 := holders_set h i (some v) (some { m_kind := .VALUE_INT, m_rep := none }) q hi
  have h2 : holds q (some ({ m_kind := .VALUE_INT, m_rep := none } : ValueObject)) = false :=
    holds_atomic q _ rfl
  have h3 : holders (detached h i r rep) q =
      holders { h with values := h.values.set i (some { m_kind := .VALUE_INT, m_rep := none }) }
        q := rfl
  rw [h3]
  by_cases hq : q = r
  · subst hq
    have h4 : holds q (some v) = true := holds_dynamic q v hd hr
    simp only [h2, h4, if_true] at h1 ⊢
    simp at h1
    omega
  · have h4 : holds q (some v) = false := holds_other q r v hr hq
    simp only [h2, h4, hq, if_false] at h1 ⊢
    simp at h1
    omega

theorem detached_balanced (h : RcHeap) (hb : balanced h) (i r : Nat) (v : ValueObject)
    (rep : ValRep)
    (hi : h.values[i]? = some (some v)) (hd : v.m_kind.is_dynamic = true)
    (hr : v.m_rep = some r) (hrep : h.reps[r]? = some rep) (hdel : rep.deleted = false) :
    balanced (detached h i r rep) := by
  have hlt : r < h.reps.length := (List.getElem?_eq_some_iff.mp hrep).1
  have hrc : rep.m_refcount = (holders h r : Int) := (hb.1 r rep hrep).1 hdel
  constructor
  · intro q rep2 hq
    have hh := detached_holders h i r v rep hi hd hr q
    by_cases hqr : q = r
    · subst hqr
      simp only [detached, List.getElem?_set, hlt, if_true, Option.some.injEq] at hq
      simp only [if_true] at hh
      subst hq
      constructor
      · intro hnd
        simp only [decide_eq_false_iff_not] at hnd
        simp only
        omega
      · intro hdd
        simp only [decide_eq_true_eq] at hdd
        omega
    · simp only [detached, List.getElem?_set, Ne.symm hqr, if_false] at hq
      simp only [hqr, if_false, Nat.add_zero] at hh
      rw [hh]
      exact hb.1 q rep2 hq
  · intro j w hj hw
    by_cases hji : j = i
    · subst hji
      have hlt2 : j < h.values.length := (List.getElem?_eq_some_iff.mp hi).1
      simp only [detached, List.getElem?_set, hlt2, if_true, Option.some.injEq] at hj
      subst hj
      simp [ValueKind.is_dynamic] at hw
    · simp only [detached, List.getElem?_set, Ne.symm hji, if_false] at hj
      obtain ⟨p, hp, hplt⟩ := hb.2 j w hj hw
      exact ⟨p, hp, by simpa [detached] using hplt⟩

theorem detached_is_deleted (h : RcHeap) (i r : Nat) (rep : ValRep)
    (hrep : h.reps[r]? = some rep) (q : Nat) :
    is_deleted (detached h i r rep) q =
      if q = r then decide (rep.m_refcount - 1 = 0) else is_deleted h q := by
  have hlt : r < h.reps.length := (List.getElem?_eq_some_iff.mp hrep).1
  by_cases hqr : q = r
  · subst hqr
    simp [is_deleted, detached, List.getElem?_set, hlt]
  · simp [is_deleted, detached, List.getElem?_set, Ne.symm hqr, hqr]

theorem is_deleted_holders (h : RcHeap) (hb : balanced h) (q : Nat)
    (hq : is_deleted h q = true) : holders h q = 0 := by
  simp only [is_deleted] at hq
  cases hrep : h.reps[q]? with
  | none => simp [hrep] at hq
  | some rep =>
    simp only [hrep] at hq
    exact (hb.1 q rep hrep).2 hq

theorem holders_zero_of_ge (h : RcHeap) (hb : balanced h) (q : Nat)
    (hq : h.reps.length ≤ q) : holders h q = 0 := by
  by_contra hne
  have hpos : 0 < holders h q := Nat.pos_of_ne_zero hne
  obtain ⟨o, hmem, ho⟩ := List.countP_pos_iff.mp hpos
  obtain ⟨i, hlt, hi⟩ := List.getElem_of_mem hmem
  cases o with
  | none => simp [holds] at ho
  | some v =>
    simp only [holds, Bool.and_eq_true, beq_iff_eq] at ho
    have hi2 : h.values[i]? = some (some v) := by
      rw [List.getElem?_eq_getElem hlt, hi]
    obtain ⟨r, hr, hrlt⟩ := hb.2 i v hi2 ho.1
    rw [ho.2] at hr
    simp only [Option.some.injEq] at hr
    omega

/-- Everything the rest of the development needs to know about `detach`. -/
theorem detach_total (h : RcHeap) (hb : balanced h) (i : Nat) (v : ValueObject)
    (hi : h.values[i]? = some (some v)) :
    ∃ h1 : RcHeap, Value_detach h i = .ok h1 ∧ balanced h1 ∧
      (∃ w : ValueObject, h1.values[i]? = some (some w) ∧ w.m_kind.is_dynamic = false) ∧
      (∀ j, j ≠ i → h1.values[j]? = h.values[j]?) ∧
      h1.values.length = h.values.length ∧ h1.reps.length = h.reps.length ∧
      (∀ q, holders h1 q + (if holds q (some v) then 1 else 0) = holders h q) ∧
      (∀ q, is_deleted h1 q =
        (is_deleted h q || (holds q (some v) && decide (holders h q = 1)))) := by
  cases hd : v.m_kind.is_dynamic with
  | false =>
    refine ⟨h, detach_atomic h i v hi hd, hb, ⟨v, hi, hd⟩, fun _ _ => rfl, rfl, rfl, ?_, ?_⟩
    · intro q; simp [holds_atomic q v hd]
    · intro q; simp [holds_atomic q v hd]
  | true =>
    obtain ⟨r, rep, hr, hrep, hdel, hrc, hpos⟩ := balanced_held h hb i v hi hd
    have hlt : i < h.values.length := (List.getElem?_eq_some_iff.mp hi).1
    refine ⟨detached h i r rep, detach_dynamic h i r v rep hi hd hr hrep hdel,
      detached_balanced h hb i r v rep hi hd hr hrep hdel, ?_, ?_, ?_, ?_, ?_, ?_⟩
    · exact ⟨{ m_kind := .VALUE_INT, m_rep := none },
        by simp [detached, List.getElem?_set, hlt], rfl⟩
    · intro j hj
      simp [detached, List.getElem?_set, Ne.symm hj]
    · simp [detached]
    · simp [detached]
    · intro q
      have hh := detached_holders h i r v rep hi hd hr q
      by_cases hq : q = r
      · subst hq
        simpa [holds_dynamic q v hd hr] using hh
      · simpa [holds_other q r v hr hq, hq] using hh
    · intro q
      rw [detached_is_deleted h i r rep hrep q]
      by_cases hq : q = r
      · subst hq
        have hdq : is_deleted h q = false := by simp [is_deleted, hrep, hdel]
        simp only [if_true, hdq, holds_dynamic q v hd hr, Bool.true_and, Bool.false_or]
        congr 1
        apply propext
        constructor <;> intro hz <;> omega
      · simp [hq, holds_other q r v hr hq]

theorem attach_eq (h : RcHeap) (i : Nat) (kind : ValueKind) (p : Nat) (rep : ValRep)
    (hrep : h.reps[p]? = some rep) (hdel : rep.deleted = false) :
    ValRep_add_ref (h.put_value i { m_kind := kind, m_rep := some p }) p =
      .ok (attached h i kind p rep) := by
  simp [ValRep_add_ref, RcHeap.rep, RcHeap.put_value, hrep, hdel, bind, Except.bind, attached]

/-- Everything the rest of the development needs to know about attaching an
atomic value to a live representation. -/
theorem attach_total (h : RcHeap) (hb : balanced h) (i : Nat) (w : ValueObject)
    (kind : ValueKind) (p : Nat)
    (hi : h.values[i]? = some (some w)) (hw : w.m_kind.is_dynamic = false)
    (hk : kind.is_dynamic = true) (hp : p < h.reps.length) (hdel : is_deleted h p = false) :
    ∃ h2 : RcHeap,
      ValRep_add_ref (h.put_value i { m_kind := kind, m_rep := some p }) p = .ok h2 ∧
      balanced h2 ∧
      (∀ q, holders h2 q = holders h q + (if q = p then 1 else 0)) ∧
      (∀ q, is_deleted h2 q = is_deleted h q) := by
  have hrep : h.reps[p]? = some h.reps[p] := List.getElem?_eq_getElem hp
  have hdel2 : (h.reps[p]).deleted = false := by simpa [is_deleted, hrep] using hdel
  have hlt : i < h.values.length := (List.getElem?_eq_some_iff.mp hi).1
  have hhold : ∀ q, holders (attached h i kind p h.reps[p]) q =
      holders h q + (if q = p then 1 else 0) := by
    intro q
    have h1 := holders_set h i (some w) (some { m_kind := kind, m_rep := some p }) q hi
    have h3 : holders (attached h i kind p h.reps[p]) q =
        holders { h with values := h.values.set i (some { m_kind := kind, m_rep := some p }) }
          q := rfl
    rw [h3]
    by_cases hq : q = p
    · subst hq
      have h4 : holds q (some ({ m_kind := kind, m_rep := some q } : ValueObject)) = true :=
        holds_dynamic q _ hk rfl
      simp only [h4, holds_atomic q w hw, if_true] at h1 ⊢
      simp at h1
      omega
    · have h4 : holds q (some ({ m_kind := kind, m_rep := some p } : ValueObject)) = false :=
        holds_other q p _ rfl hq
      simp only [h4, holds_atomic q w hw, hq, if_false] at h1 ⊢
      simp at h1
      omega
  refine ⟨attached h i kind p h.reps[p], attach_eq h i kind p _ hrep hdel2, ?_, hhold, ?_⟩
  · constructor
    · intro q rep2 hq
      rw [hhold q]
      by_cases hqp : q = p
      · subst hqp
        simp only [attached, List.getElem?_set, hp, if_true, Option.some.injEq] at hq
        subst hq
        have hrc := (hb.1 q _ hrep).1 hdel2
        simp only [if_true]
        constructor
        · intro _
          show (h.reps[q]).m_refcount + 1 = ((holders h q + 1 : Nat) : Int)
          omega
        · intro hdd
          have hdd2 : (h.reps[q]).deleted = true := hdd
          rw [hdel2] at hdd2
          exact absurd hdd2 (by decide)
      · simp only [attached, List.getElem?_set, Ne.symm hqp, if_false] at hq
        simp only [hqp, if_false, Nat.add_zero]
        exact hb.1 q rep2 hq
    · intro j u hj hu
      by_cases hji : j = i
      · subst hji
        simp only [attached, List.getElem?_set, hlt, if_true, Option.some.injEq] at hj
        subst hj
        exact ⟨p, rfl, by simpa [attached] using hp⟩
      · simp only [attached, List.getElem?_set, Ne.symm hji, if_false] at hj
        obtain ⟨r, hr, hrlt⟩ := hb.2 j u hj hu
        exact ⟨r, hr, by simpa [attached] using hrlt⟩
  · intro q
    by_cases hqp : q = p
    · subst hqp
      simp [is_deleted, attached, List.getElem?_set, hp, hrep, hdel2]
    · simp [is_deleted, attached, List.getElem?_set, Ne.symm hqp]

theorem newly_deleted_iff (del del2 hold att : Bool) (n n2 : Nat)
    (hdel2 : del2 = (del || (hold && decide (n = 1))))
    (hn : n2 + (if hold then 1 else 0) = n + (if att then 1 else 0))
    (hexcl : hold = true → att = false) (hzero : del = true → n = 0) :
    (del2 = true ∧ del = false) ↔ (0 < n ∧ n2 = 0) := by
  subst hdel2
  cases del <;> cases hold <;> cases att <;> simp_all <;> omega

/-- Replacing a slot that holds no representation by another such slot changes
nothing for the balance. -/
theorem replace_nonholding (h : RcHeap) (hb : balanced h) (i : Nat) (o o2 : Option ValueObject)
    (hi : h.values[i]? = some o) (ho : ∀ q, holds q o = false)
    (ho2 : ∀ v, o2 = some v → v.m_kind.is_dynamic = false) :
    balanced { h with values := h.values.set i o2 } ∧
    ∀ q, holders { h with values := h.values.set i o2 } q = holders h q := by
  have ho3 : ∀ q, holds q o2 = false := by
    intro q
    cases o2 with
    | none => rfl
    | some v => exact holds_atomic q v (ho2 v rfl)
  have hh : ∀ q, holders { h with values := h.values.set i o2 } q = holders h q := by
    intro q
    have := holders_set h i o o2 q hi
    simpa [ho q, ho3 q] using this
  have hlt : i < h.values.length := (List.getElem?_eq_some_iff.mp hi).1
  refine ⟨⟨?_, ?_⟩, hh⟩
  · intro q rep hq
    rw [hh q]
    exact hb.1 q rep hq
  · intro j u hj hu
    by_cases hji : j = i
    · subst hji
      simp only [List.getElem?_set, hlt, if_true, Option.some.injEq] at hj
      rw [ho2 u hj] at hu
      exact absurd hu (by decide)
    · simp only [List.getElem?_set, Ne.symm hji, if_false] at hj
      exact hb.2 j u hj hu

theorem append_nonholding (h : RcHeap) (hb : balanced h) (kind : ValueKind)
    (hk : kind.is_dynamic = false) :
    balanced (Value_construct_atomic h kind).2 ∧
    ∀ q, holders (Value_construct_atomic h kind).2 q = holders h q := by
  have hh : ∀ q, holders (Value_construct_atomic h kind).2 q = holders h q := by
    intro q
    simp [Value_construct_atomic, holders, List.countP_append, holds, hk]
  refine ⟨⟨?_, ?_⟩, hh⟩
  · intro q rep hq
    rw [hh q]
    exact hb.1 q rep hq
  · intro j u hj hu
    simp only [Value_construct_atomic] at hj
    by_cases hjl : j < h.values.length
    · rw [List.getElem?_append_left hjl] at hj
      exact hb.2 j u hj hu
    · have hge : h.values.length ≤ j := Nat.le_of_not_lt hjl
      rw [List.getElem?_append_right hge] at hj
      cases hjj : j - h.values.length with
      | zero =>
        simp only [hjj, List.getElem?_cons_zero, Option.some.injEq] at hj
        subst hj
        rw [hk] at hu
        exact absurd hu (by decide)
      | succ k => simp [hjj] at hj

theorem new_rep_balanced (h : RcHeap) (hb : balanced h) :
    balanced (new_rep h).2 ∧ (∀ q, holders (new_rep h).2 q = holders h q) ∧
    ∀ q, is_deleted (new_rep h).2 q = is_deleted h q := by
  refine ⟨⟨?_, ?_⟩, fun _ => rfl, ?_⟩
  · intro q rep hq
    have hh : holders (new_rep h).2 q = holders h q := rfl
    rw [hh]
    simp only [new_rep] at hq
    by_cases hql : q < h.reps.length
    · rw [List.getElem?_append_left hql] at hq
      exact hb.1 q rep hq
    · have hge : h.reps.length ≤ q := Nat.le_of_not_lt hql
      rw [List.getElem?_append_right hge] at hq
      cases hqq : q - h.reps.length with
      | zero =>
        simp only [hqq, List.getElem?_cons_zero, Option.some.injEq] at hq
        subst hq
        have hz := holders_zero_of_ge h hb q hge
        constructor
        · intro _; simp [hz]
        · intro hd; exact absurd hd (by decide)
      | succ k => simp [hqq] at hq
  · intro j u hj hu
    obtain ⟨r, hr, hrlt⟩ := hb.2 j u hj hu
    exact ⟨r, hr, by simp [new_rep]; omega⟩
  · intro q
    simp only [is_deleted, new_rep]
    by_cases hql : q < h.reps.length
    · rw [List.getElem?_append_left hql]
    · have hge : h.reps.length ≤ q := Nat.le_of_not_lt hql
      rw [List.getElem?_append_right hge, List.getElem?_eq_none hge]
      cases hqq : q - h.reps.length with
      | zero => simp
      | succ k => simp

theorem value_ok_iff (h : RcHeap) (i : Nat) (v : ValueObject) :
    h.value i = .ok v ↔ h.values[i]? = some (some v) := by
  simp only [RcHeap.value]
  cases hv : h.values[i]? with
  | none => simp
  | some o => cases o <;> simp

theorem value_error (h : RcHeap) (i : Nat) (hv : ∀ v, h.values[i]? ≠ some (some v)) :
    h.value i = .error (.undefined_behaviour "use of a destroyed Value") := by
  unfold RcHeap.value
  split
  · rename_i v hq
    exact absurd hq (hv v)
  · rfl

/-- The statement that a representation is freed by a step exactly when the
number of its holders drops to zero in that step. -/
theorem freed_iff_of_same (h h2 : RcHeap)
    (hh : ∀ q, holders h2 q = holders h q) (hd : ∀ q, is_deleted h2 q = is_deleted h q)
    (q : Nat) :
    (is_deleted h2 q = true ∧ is_deleted h q = false) ↔ (0 < holders h q ∧ holders h2 q = 0) := by
  rw [hh q, hd q]
  constructor
  · intro ⟨h1, h2⟩; rw [h1] at h2; exact absurd h2 (by decide)
  · intro ⟨h1, h2⟩; omega

theorem assign_total (h : RcHeap) (hb : balanced h) (this rhs : Nat) (t rv : ValueObject)
    (ht : h.values[this]? = some (some t)) (hrv : h.values[rhs]? = some (some rv)) :
    ∃ h2 : RcHeap, Value_assign h this rhs = .ok h2 ∧ balanced h2 ∧
      ∀ q, (is_deleted h2 q = true ∧ is_deleted h q = false) ↔
        (0 < holders h q ∧ holders h2 q = 0) := by
  have htv := (value_ok_iff h this t).mpr ht
  have hrvv := (value_ok_iff h rhs rv).mpr hrv
  by_cases hcond : this ≠ rhs ∧
      ¬ (t.m_kind.is_dynamic = true ∧ rv.m_kind.is_dynamic = true ∧ t.m_rep = rv.m_rep)
  · obtain ⟨hne, hnot⟩ := hcond
    obtain ⟨h1, hdet, hb1, ⟨w, hw, hwa⟩, hframe, hlen, hrlen, hhold1, hdel1⟩ :=
      detach_total h hb this t ht
    have hrv1 : h1.values[rhs]? = some (some rv) := by
      rw [hframe rhs (Ne.symm hne)]; exact hrv
    cases hrd : rv.m_kind.is_dynamic with
    | true =>
      obtain ⟨p, rep, hp, hrep, hdelp, _, _⟩ := balanced_held h1 hb1 rhs rv hrv1 hrd
      have hplt : p < h1.reps.length := (List.getElem?_eq_some_iff.mp hrep).1
      have hdp : is_deleted h1 p = false := by simp [is_deleted, hrep, hdelp]
      obtain ⟨h2, hatt, hb2, hhold2, hdel2⟩ :=
        attach_total h1 hb1 this w rv.m_kind p hw hwa hrd hplt hdp
      refine ⟨h2, ?_, hb2, ?_⟩
      · unfold Value_assign
        simp only [htv, hrvv, bind, Except.bind]
        rw [if_pos ⟨hne, hnot⟩]
        simp [hdet, hrd, hp, hatt]
      · intro q
        apply newly_deleted_iff (is_deleted h q) (is_deleted h2 q) (holds q (some t))
          (decide (q = p)) (holders h q) (holders h2 q)
        · rw [hdel2 q, hdel1 q]
        · have h3 := hhold1 q
          rw [hhold2 q]
          by_cases hqp : q = p
          · have hdq : decide (q = p) = true := by simp [hqp]
            rw [hdq, if_pos hqp, if_pos rfl]
            omega
          · have hdq : decide (q = p) = false := by simp [hqp]
            rw [hdq, if_neg hqp]
            simp only [Bool.false_eq_true, if_false]
            omega
        · intro hht
          simp only [holds, Bool.and_eq_true, beq_iff_eq] at hht
          simp only [decide_eq_false_iff_not]
          intro hqp
          subst hqp
          exact hnot ⟨hht.1, hrd, by rw [hht.2, hp]⟩
        · exact is_deleted_holders h hb q
    | false =>
      obtain ⟨hb2, hhold2⟩ := replace_nonholding h1 hb1 this (some w)
        (some { m_kind := rv.m_kind, m_rep := none }) hw (fun q => holds_atomic q w hwa)
        (by intro v hv; simp only [Option.some.injEq] at hv; subst hv; exact hrd)
      refine ⟨h1.put_value this { m_kind := rv.m_kind, m_rep := none }, ?_, hb2, ?_⟩
      · unfold Value_assign
        simp only [htv, hrvv, bind, Except.bind]
        rw [if_pos ⟨hne, hnot⟩]
        simp [hdet, hrd]
      · intro q
        apply newly_deleted_iff (is_deleted h q)
          (is_deleted (h1.put_value this { m_kind := rv.m_kind, m_rep := none }) q)
          (holds q (some t)) false (holders h q)
          (holders (h1.put_value this { m_kind := rv.m_kind, m_rep := none }) q)
        · exact hdel1 q
        · have := hhold1 q
          have h3 := hhold2 q
          simp only [RcHeap.put_value] at h3 ⊢
          rw [h3]
          simpa using this
        · intro _; rfl
        · exact is_deleted_holders h hb q
  · refine ⟨h, ?_, hb, ?_⟩
    · unfold Value_assign
      simp only [htv, hrvv, bind, Except.bind]
      rw [if_neg hcond]
    · exact freed_iff_of_same h h (fun _ => rfl) (fun _ => rfl)

theorem construct_rep_eq (h : RcHeap) (kind : ValueKind) (rep : Nat) :
    Value_construct_rep h kind rep =
      ValRep_add_ref ((Value_construct_atomic h .VALUE_INT).2.put_value h.values.length
        { m_kind := kind, m_rep := some rep }) rep := by
  simp [Value_construct_rep, Value_construct_atomic, RcHeap.put_value, set_append_length]

theorem construct_atomic_slot (h : RcHeap) (kind : ValueKind) :
    (Value_construct_atomic h kind).2.values[h.values.length]? =
      some (some { m_kind := kind, m_rep := none }) := by
  simp [Value_construct_atomic]

theorem construct_atomic_old (h : RcHeap) (kind : ValueKind) (i : Nat) (o : Option ValueObject)
    (hi : h.values[i]? = some o) :
    (Value_construct_atomic h kind).2.values[i]? = some o := by
  have hlt : i < h.values.length := (List.getElem?_eq_some_iff.mp hi).1
  simp only [Value_construct_atomic]
  rw [List.getElem?_append_left hlt]
  exact hi

theorem construct_rep_total (h : RcHeap) (hb : balanced h) (kind : ValueKind) (rep : Nat)
    (hk : kind.is_dynamic = true) (hv : rep < h.reps.length ∧ is_deleted h rep = false) :
    ∃ h2 : RcHeap, Value_construct_rep h kind rep = .ok h2 ∧ balanced h2 ∧
      ∀ q, (is_deleted h2 q = true ∧ is_deleted h q = false) ↔
        (0 < holders h q ∧ holders h2 q = 0) := by
  obtain ⟨hb0, hh0⟩ := append_nonholding h hb .VALUE_INT rfl
  obtain ⟨h2, hatt, hb2, hhold2, hdel2⟩ :=
    attach_total (Value_construct_atomic h .VALUE_INT).2 hb0 h.values.length
      { m_kind := .VALUE_INT, m_rep := none } kind rep (construct_atomic_slot h .VALUE_INT) rfl
      hk hv.1 hv.2
  refine ⟨h2, by rw [construct_rep_eq]; exact hatt, hb2, ?_⟩
  intro q
  have hd : is_deleted h2 q = is_deleted h q := hdel2 q
  have hn : holders h2 q = holders h q + (if q = rep then 1 else 0) := by
    rw [hhold2 q, hh0 q]
  rw [hd, hn]
  constructor
  · intro ⟨h1, h3⟩; rw [h1] at h3; exact absurd h3 (by decide)
  · intro ⟨h1, h3⟩; omega

/-- Every valid operation succeeds on a balanced heap, leaves a balanced heap,
and frees a representation exactly when its number of holders drops to
zero. -/
theorem op_total (op : ValueOp) (h : RcHeap) (hb : balanced h) (hv : valid_op op h) :
    ∃ h2 : RcHeap, apply_op op h = .ok h2 ∧ balanced h2 ∧
      ∀ q, (is_deleted h2 q = true ∧ is_deleted h q = false) ↔
        (0 < holders h q ∧ holders h2 q = 0) := by
  cases op with
  | new_rep =>
    obtain ⟨hb2, hh, hd⟩ := new_rep_balanced h hb
    exact ⟨(new_rep h).2, rfl, hb2, freed_iff_of_same h _ hh hd⟩
  | construct_int =>
    obtain ⟨hb2, hh⟩ := append_nonholding h hb .VALUE_INT rfl
    exact ⟨_, rfl, hb2, freed_iff_of_same h _ hh (fun _ => rfl)⟩
  | construct_intrinsic =>
    obtain ⟨hb2, hh⟩ := append_nonholding h hb .VALUE_INTRINSIC_FN rfl
    exact ⟨_, rfl, hb2, freed_iff_of_same h _ hh (fun _ => rfl)⟩
  | construct_function rep => exact construct_rep_total h hb .VALUE_FUNCTION rep rfl hv
  | construct_array rep => exact construct_rep_total h hb .VALUE_ARRAY rep rfl hv
  | construct_string rep => exact construct_rep_total h hb .VALUE_STRING rep rfl hv
  | copy_construct other =>
    obtain ⟨hb0, hh0⟩ := append_nonholding h hb .VALUE_INT rfl
    have hslot := construct_atomic_slot h .VALUE_INT
    have hother : ∃ rv, (Value_construct_atomic h .VALUE_INT).2.values[other]? =
        some (some rv) := by
      rcases hv with ⟨v, hv⟩ | hv
      · exact ⟨v, construct_atomic_old h .VALUE_INT other _ hv⟩
      · subst hv; exact ⟨_, hslot⟩
    obtain ⟨rv, hrv⟩ := hother
    obtain ⟨h2, hass, hb2, hiff⟩ :=
      assign_total (Value_construct_atomic h .VALUE_INT).2 hb0 h.values.length other _ rv
        hslot hrv
    refine ⟨h2, hass, hb2, ?_⟩
    intro q
    have := hiff q
    rw [hh0 q] at this
    exact this
  | assign this rhs =>
    obtain ⟨⟨t, ht⟩, ⟨rv, hrv⟩⟩ := hv
    exact assign_total h hb this rhs t rv ht hrv
  | destruct this =>
    obtain ⟨v, hvv⟩ := hv
    obtain ⟨h1, hdet, hb1, ⟨w, hw, hwa⟩, _, _, _, hhold1, hdel1⟩ :=
      detach_total h hb this v hvv
    obtain ⟨hb2, hhold2⟩ := replace_nonholding h1 hb1 this (some w) none hw
      (fun q => holds_atomic q w hwa) (by intro u hu; exact absurd hu (by simp))
    refine ⟨{ h1 with values := h1.values.set this none }, ?_, hb2, ?_⟩
    · simp [apply_op, Value_destruct, hdet, bind, Except.bind]
    · intro q
      apply newly_deleted_iff (is_deleted h q)
        (is_deleted { h1 with values := h1.values.set this none } q)
        (holds q (some v)) false (holders h q)
        (holders { h1 with values := h1.values.set this none } q)
      · exact hdel1 q
      · rw [hhold2 q]
        simpa using hhold1 q
      · intro _; rfl
      · exact is_deleted_holders h hb q

theorem add_ref_ok (g g2 : RcHeap) (p : Nat) (hok : ValRep_add_ref g p = .ok g2) :
    p < g.reps.length ∧ is_deleted g p = false := by
  simp only [ValRep_add_ref, RcHeap.rep, bind, Except.bind] at hok
  cases hrep : g.reps[p]? with
  | none => simp [hrep] at hok
  | some rep =>
    have hlt := (List.getElem?_eq_some_iff.mp hrep).1
    cases hd : rep.deleted with
    | true => simp [hrep, hd] at hok
    | false => exact ⟨hlt, by simp [is_deleted, hrep, hd]⟩

theorem value_ok_of_bind {α : Type} (h : RcHeap) (i : Nat)
    (f : ValueObject → Except Failure α) (a : α)
    (hok : (h.value i >>= f) = .ok a) : ∃ v, h.values[i]? = some (some v) := by
  cases hv : h.value i with
  | error e => simp [hv, bind, Except.bind] at hok
  | ok v => exact ⟨v, (value_ok_iff h i v).mp hv⟩

theorem assign_ok_valid (h h2 : RcHeap) (this rhs : Nat)
    (hok : Value_assign h this rhs = .ok h2) :
    (∃ v, h.values[this]? = some (some v)) ∧ ∃ v, h.values[rhs]? = some (some v) := by
  unfold Value_assign at hok
  obtain ⟨t, ht⟩ := value_ok_of_bind h this _ h2 hok
  have htv := (value_ok_iff h this t).mpr ht
  simp only [htv, bind, Except.bind] at hok
  cases hr : h.value rhs with
  | error e => simp [hr] at hok
  | ok rv => exact ⟨⟨t, ht⟩, ⟨rv, (value_ok_iff h rhs rv).mp hr⟩⟩

/-- An operation that succeeds was valid. -/
theorem apply_op_ok_valid (op : ValueOp) (h h2 : RcHeap) (hok : apply_op op h = .ok h2) :
    valid_op op h := by
  cases op with
  | new_rep => trivial
  | construct_int => trivial
  | construct_intrinsic => trivial
  | construct_function rep =>
    have hg := add_ref_ok
      { h with values := h.values ++ [some { m_kind := .VALUE_FUNCTION, m_rep := some rep }] }
      h2 rep hok
    exact hg
  | construct_array rep =>
    have hg := add_ref_ok
      { h with values := h.values ++ [some { m_kind := .VALUE_ARRAY, m_rep := some rep }] }
      h2 rep hok
    exact hg
  | construct_string rep =>
    have hg := add_ref_ok
      { h with values := h.values ++ [some { m_kind := .VALUE_STRING, m_rep := some rep }] }
      h2 rep hok
    exact hg
  | copy_construct other =>
    obtain ⟨_, ⟨v, hv⟩⟩ := assign_ok_valid _ h2 _ other hok
    simp only [Value_construct_atomic] at hv
    by_cases hlt : other < h.values.length
    · rw [List.getElem?_append_left hlt] at hv
      exact Or.inl ⟨v, hv⟩
    · have hlt2 := (List.getElem?_eq_some_iff.mp hv).1
      simp only [List.length_append, List.length_singleton] at hlt2
      exact Or.inr (by omega)
  | assign this rhs => exact assign_ok_valid h h2 this rhs hok
  | destruct this =>
    simp only [apply_op, Value_destruct, bind, Except.bind] at hok
    cases hd : Value_detach h this with
    | error e => simp [hd] at hok
    | ok h1 =>
      unfold Value_detach at hd
      exact value_ok_of_bind h this _ h1 hd

theorem balanced_empty : balanced RcHeap.empty := by
  constructor
  · intro r rep hr; simp [RcHeap.empty] at hr
  · intro i v hi; simp [RcHeap.empty] at hi

theorem apply_all_balanced :
    ∀ (ops : List ValueOp) (h h2 : RcHeap), balanced h → apply_all ops h = .ok h2 →
      balanced h2 := by
  intro ops
  induction ops with
  | nil =>
    intro h h2 hb hok
    simp only [apply_all, Except.ok.injEq] at hok
    subst hok; exact hb
  | cons op rest ih =>
    intro h h2 hb hok
    simp only [apply_all] at hok
    cases hop : apply_op op h with
    | error e => simp [hop] at hok
    | ok h1 =>
      simp only [hop] at hok
      obtain ⟨h1b, hop2, hb1, _⟩ := op_total op h hb (apply_op_ok_valid op h h1 hop)
      rw [hop] at hop2
      simp only [Except.ok.injEq] at hop2
      subst hop2
      exact ih h1 h2 hb1 hok

/-- C17: starting from the empty heap, after any sequence of constructions,
copy constructions, assignments and destructions of `Value` objects the heap
is balanced: the reference count of every representation that has not been
freed equals the number of live values that hold it, and a freed
representation is held by no live value. Every single operation keeps the
balance and frees a representation exactly when the number of its holders
drops to zero in that operation; and an operation on live values never fails,
so nothing is freed twice and nothing freed is used. -/
theorem C17_reference_count_balance :
    (∀ (ops : List ValueOp) (h2 : RcHeap), apply_all ops RcHeap.empty = .ok h2 →
      balanced h2) ∧
    (∀ (op : ValueOp) (h h2 : RcHeap), balanced h → apply_op op h = .ok h2 →
      balanced h2 ∧
      ∀ q, (is_deleted h2 q = true ∧ is_deleted h q = false) ↔
        (0 < holders h q ∧ holders h2 q = 0)) ∧
    (∀ (op : ValueOp) (h : RcHeap), balanced h → valid_op op h →
      ∃ h2, apply_op op h = .ok h2) := by
  refine ⟨?_, ?_, ?_⟩
  · intro ops h2 hok
    exact apply_all_balanced ops RcHeap.empty h2 balanced_empty hok
  · intro op h h2 hb hok
    obtain ⟨h3, hop, hb3, hiff⟩ := op_total op h hb (apply_op_ok_valid op h h2 hok)
    rw [hok] at hop
    simp only [Except.ok.injEq] at hop
    subst hop
    exact ⟨hb3, hiff⟩
  · intro op h hb hv
    obtain ⟨h2, hop, _, _⟩ := op_total op h hb hv
    exact ⟨h2, hop⟩

/-- C18: assigning a `Value` to itself, or assigning between two values of
heap kinds that hold the same representation, leaves the whole heap as it
is: neither value changes, no reference count changes and nothing is
freed. -/
theorem C18_assignment_same_representation (h : RcHeap) (this rhs : Nat) (t rv : ValueObject)
    (ht : h.values[this]? = some (some t)) (hrv : h.values[rhs]? = some (some rv))
    (hsame : this = rhs ∨
      (t.m_kind.is_dynamic = true ∧ rv.m_kind.is_dynamic = true ∧ t.m_rep = rv.m_rep)) :
    Value_assign h this rhs = .ok h := by
  have htv := (value_ok_iff h this t).mpr ht
  have hrvv := (value_ok_iff h rhs rv).mpr hrv
  unfold Value_assign
  simp only [htv, hrvv, bind, Except.bind]
  rw [if_neg]
  rintro ⟨hne, hnot⟩
  rcases hsame with hs | hs
  · exact hne hs
  · exact hnot hs

/-- Witness of C17: an array representation is created, held by a value,
copied, and released again by assignments and a destruction; the final heap,
in which the representation is freed and no value holds it, is balanced. -/
theorem C17_reference_count_balance_witness :
    apply_all [.new_rep, .construct_array 0, .copy_construct 0, .assign 0 1, .construct_int,
        .assign 0 2, .destruct 1] RcHeap.empty =
      .ok { reps := [{ m_refcount := 0, deleted := true }],
            values := [some { m_kind := .VALUE_INT, m_rep := none }, none,
                       some { m_kind := .VALUE_INT, m_rep := none }] } ∧
    balanced { reps := [{ m_refcount := 0, deleted := true }],
               values := [some { m_kind := .VALUE_INT, m_rep := none }, none,
                          some { m_kind := .VALUE_INT, m_rep := none }] } :=
  ⟨rfl, C17_reference_count_balance.1
    [.new_rep, .construct_array 0, .copy_construct 0, .assign 0 1, .construct_int,
      .assign 0 2, .destruct 1] _ rfl⟩

/-- Witness of C18: in `shared_array_heap` the assignment of value 0 to
itself and the assignment of value 1 to value 0 change nothing. -/
theorem C18_assignment_same_representation_witness :
    Value_assign shared_array_heap 0 0 = .ok shared_array_heap ∧
    Value_assign shared_array_heap 0 1 = .ok shared_array_heap :=
  ⟨C18_assignment_same_representation shared_array_heap 0 0
      { m_kind := .VALUE_ARRAY, m_rep := some 0 } { m_kind := .VALUE_ARRAY, m_rep := some 0 }
      rfl rfl (Or.inl rfl),
   C18_assignment_same_representation shared_array_heap 0 1
      { m_kind := .VALUE_ARRAY, m_rep := some 0 } { m_kind := .VALUE_ARRAY, m_rep := some 0 }
      rfl rfl (Or.inr ⟨rfl, rfl, rfl⟩)⟩

/-! ### C20: bounds of get and set -/

theorem Array_get_set_bounds (a : Array) (i : Int) (v : Value)
    (hwf : a.m_size = a.m_array.length) :
    ((i < 0 ∨ i ≥ a.len) →
      a.get i = .error (.EvaluationError ("Array index out of bound: " ++ format_d i ++ "\n")) ∧
      a.set i v =
        .error (.EvaluationError ("Array index out of bound: " ++ format_d i ++ "\n"))) ∧
    ((0 ≤ i ∧ i < a.len) →
      (∃ w, a.m_array[i.toNat]? = some w ∧ a.get i = .ok w) ∧
      ∃ a2 : Array, a.set i v = .ok (v, a2) ∧ a2.len = a.len ∧
        a2.m_array.length = a.m_array.length ∧ a2.get i = .ok v ∧
        ∀ j, j ≠ i.toNat → a2.m_array[j]? = a.m_array[j]?) := by
  constructor
  · intro hout
    have hc : ¬ (i ≥ 0 ∧ i < a.m_size) := by
      simp only [Array.len] at hout
      omega
    simp [Array.get, Array.set, hc]
  · intro hin
    simp only [Array.len] at hin
    have hc : i ≥ 0 ∧ i < a.m_size := ⟨hin.1, hin.2⟩
    have hlt : i.toNat < a.m_array.length := by omega
    constructor
    · refine ⟨a.m_array[i.toNat], List.getElem?_eq_getElem hlt, ?_⟩
      simp [Array.get, hc, List.getElem?_eq_getElem hlt]
    · refine ⟨{ a with m_array := a.m_array.set i.toNat v }, ?_, rfl, by simp, ?_, ?_⟩
      · simp [Array.set, hc, hlt]
      · simp [Array.get, hc, List.getElem?_set, hlt]
      · intro j hj
        simp [List.getElem?_set, Ne.symm hj]

/-- C20: let `a` be the array at address `p`, its recorded length being the
length of its vector. For every integer `i`, `get(a, i)` and `set(a, i, v)`
raise the evaluation error "Array index out of bound: i" exactly when `i < 0`
or `i >= len(a)`. In bounds, `get` returns element `i` and leaves the store as
it is; `set` returns `v` and changes the store only in that the array now has
`v` at index `i`: its length and its other elements are as before, and `get`
at `i` then returns `v`. A `set` that raises does so before any write. -/
theorem C20_get_set_bounds (s : Store) (p : Nat) (a : Array) (i : Int) (v : Value)
    (hp : s.arrays[p]? = some a) (hwf : a.m_size = a.m_array.length) :
    ((i < 0 ∨ i ≥ a.len) →
      array_get [VALUE_ARRAY p, VALUE_INT i] s =
        .error (.EvaluationError ("Array index out of bound: " ++ format_d i ++ "\n")) ∧
      array_set [VALUE_ARRAY p, VALUE_INT i, v] s =
        .error (.EvaluationError ("Array index out of bound: " ++ format_d i ++ "\n"))) ∧
    ((0 ≤ i ∧ i < a.len) →
      (∃ w, a.m_array[i.toNat]? = some w ∧
        array_get [VALUE_ARRAY p, VALUE_INT i] s = .ok (w, s)) ∧
      ∃ a2 : Array,
        array_set [VALUE_ARRAY p, VALUE_INT i, v] s = .ok (v, s.put_array p a2) ∧
        a2.len = a.len ∧ a2.m_array.length = a.m_array.length ∧
        a2.m_array[i.toNat]? = some v ∧
        (∀ j, j ≠ i.toNat → a2.m_array[j]? = a.m_array[j]?) ∧
        array_get [VALUE_ARRAY p, VALUE_INT i] (s.put_array p a2) =
          .ok (v, s.put_array p a2)) := by
  have hplt : p < s.arrays.length := (List.getElem?_eq_some_iff.mp hp).1
  have hA := Array_get_set_bounds a i v hwf
  constructor
  · intro hout
    obtain ⟨hg, hs⟩ := hA.1 hout
    simp [array_get, array_set, Store.array, hp, bind, Except.bind, hg, hs]
  · intro hin
    obtain ⟨⟨w, hw, hg⟩, ⟨a2, hs, hl, hlen, hg2, hoth⟩⟩ := hA.2 hin
    refine ⟨⟨w, hw, ?_⟩, ⟨a2, ?_, hl, hlen, ?_, hoth, ?_⟩⟩
    · simp [array_get, Store.array, hp, bind, Except.bind, hg]
    · simp [array_set, Store.array, hp, bind, Except.bind, hs]
    · have hc : i ≥ 0 ∧ i < a2.m_size := by
        have : a2.m_size = a.m_size := hl
        simp only [Array.len] at hin
        omega
      simp only [Array.get, hc, and_self, if_true] at hg2
      cases hq : a2.m_array[i.toNat]? with
      | none => simp [hq] at hg2
      | some u => simp only [hq, Except.ok.injEq] at hg2; rw [hg2]
    · simp [array_get, Store.array, Store.put_array, List.getElem?_set, hplt, bind,
        Except.bind, hg2]

/-- Witness of C20: the array `[1, 2, 3]` of `store_with_array` at the
indices 3 and 1. -/
theorem C20_get_set_bounds_witness :
    (array_get [VALUE_ARRAY 0, VALUE_INT 3] store_with_array =
        .error (.EvaluationError ("Array index out of bound: " ++ format_d 3 ++ "\n")) ∧
      array_set [VALUE_ARRAY 0, VALUE_INT 3, VALUE_INT 9] store_with_array =
        .error (.EvaluationError ("Array index out of bound: " ++ format_d 3 ++ "\n"))) ∧
    ((∃ w, (Array.create [VALUE_INT 1, VALUE_INT 2, VALUE_INT 3]).m_array[(1 : Int).toNat]? =
          some w ∧
        array_get [VALUE_ARRAY 0, VALUE_INT 1] store_with_array = .ok (w, store_with_array)) ∧
      ∃ a2 : Array,
        array_set [VALUE_ARRAY 0, VALUE_INT 1, VALUE_INT 9] store_with_array =
          .ok (VALUE_INT 9, store_with_array.put_array 0 a2) ∧
        a2.len = (Array.create [VALUE_INT 1, VALUE_INT 2, VALUE_INT 3]).len ∧
        a2.m_array.length =
          (Array.create [VALUE_INT 1, VALUE_INT 2, VALUE_INT 3]).m_array.length ∧
        a2.m_array[(1 : Int).toNat]? = some (VALUE_INT 9) ∧
        (∀ j, j ≠ (1 : Int).toNat →
          a2.m_array[j]? =
            (Array.create [VALUE_INT 1, VALUE_INT 2, VALUE_INT 3]).m_array[j]?) ∧
        array_get [VALUE_ARRAY 0, VALUE_INT 1] (store_with_array.put_array 0 a2) =
          .ok (VALUE_INT 9, store_with_array.put_array 0 a2)) :=
  ⟨(C20_get_set_bounds store_with_array 0
      (Array.create [VALUE_INT 1, VALUE_INT 2, VALUE_INT 3]) 3 (VALUE_INT 9) rfl rfl).1
      (Or.inr (by decide)),
   (C20_get_set_bounds store_with_array 0
      (Array.create [VALUE_INT 1, VALUE_INT 2, VALUE_INT 3]) 1 (VALUE_INT 9) rfl rfl).2
      (by decide)⟩

/-! ### C19: arrays are shared by assignment -/

theorem env_put_env_same (s : Store) (q : Nat) (e e2 : Environment) (hq : s.env q = .ok e) :
    (s.put_env q e2).env q = .ok e2 := by
  simp only [Store.env] at hq
  cases h : s.envs[q]? with
  | none => simp [h] at hq
  | some o =>
    have hlt := (List.getElem?_eq_some_iff.mp h).1
    simp [Store.env, Store.put_env, List.getElem?_set, hlt]

theorem env_put_env_other (s : Store) (q r : Nat) (e2 : Environment) (hne : r ≠ q) :
    (s.put_env q e2).env r = s.env r := by
  simp [Store.env, Store.put_env, List.getElem?_set, Ne.symm hne]

/-- What `setVar` does when the chain binds the name: it succeeds, the chain
then gives the name the new value, and a scope is changed only in its binding
of that name. -/
theorem setVar_walk_defined (b : String) (v : Value) :
    ∀ (n : Nat) (s : Store) (env : Nat), isDefined_walk s n env b = .ok true →
      ∃ s1 : Store, setVar_walk v n s env b = .ok s1 ∧ getVar_walk s1 n env b = .ok v ∧
        s1.envs.length = s.envs.length ∧ s1.functions = s.functions ∧
        s1.arrays = s.arrays ∧ s1.output = s.output ∧ s1.input = s.input ∧
        ∀ (r : Nat) (e : Environment), s.env r = .ok e →
          ∃ e2 : Environment, s1.env r = .ok e2 ∧ e2.m_parent = e.m_parent ∧
            (∀ y, y ≠ b → map_find e2.vars y = map_find e.vars y) ∧
            ((map_find e.vars b).isSome = false → e2 = e) := by
  intro n
  induction n with
  | zero => intro s env h; simp [isDefined_walk] at h
  | succ n ih =>
    intro s env h
    simp only [isDefined_walk, bind, Except.bind] at h
    cases he : s.env env with
    | error err => simp [he] at h
    | ok e =>
      simp only [he] at h
      by_cases hf : (map_find e.vars b).isSome = true
      · refine ⟨s.put_env env { e with vars := map_assign e.vars b v }, ?_, ?_, ?_, rfl, rfl,
          rfl, rfl, ?_⟩
        · simp [setVar_walk, he, hf, bind, Except.bind]
        · simp [getVar_walk, env_put_env_same s env e _ he, map_find_map_assign_same, bind,
            Except.bind]
        · simp [Store.put_env]
        · intro r e0 hr
          by_cases hre : r = env
          · subst hre
            rw [he] at hr
            simp only [Except.ok.injEq] at hr
            subst hr
            refine ⟨_, env_put_env_same s r e _ he, rfl, ?_, ?_⟩
            · intro y hy
              exact map_find_map_assign_other _ _ _ _ hy
            · intro hnb
              rw [hf] at hnb
              exact absurd hnb (by decide)
          · refine ⟨e0, by rw [env_put_env_other s env r _ hre]; exact hr, rfl,
              fun _ _ => rfl, fun _ => rfl⟩
      · have hf2 : (map_find e.vars b).isSome = false := by simpa using hf
        simp only [hf2, Bool.false_eq_true, if_false] at h
        cases hp : e.m_parent with
        | none => simp [hp] at h
        | some p =>
          simp only [hp] at h
          obtain ⟨s1, hset, hget, hlen, hfn, harr, hout, hin, hframe⟩ := ih s p h
          obtain ⟨e2, he2, _, _, hsame⟩ := hframe env e he
          have he2e : e2 = e := hsame hf2
          subst he2e
          refine ⟨s1, ?_, ?_, hlen, hfn, harr, hout, hin, hframe⟩
          · simp [setVar_walk, he, hf2, hp, hset, bind, Except.bind]
          · have hnone : map_find e2.vars b = none := by
              cases hm : map_find e2.vars b with
              | none => rfl
              | some w => simp [hm] at hf2
            simp [getVar_walk, he2, hnone, hp, hget, bind, Except.bind]

/-- A chain lookup of another name is not disturbed by a store whose scopes
differ only in their binding of `b`. -/
theorem getVar_walk_frame (s s1 : Store) (a b : String) (hab : a ≠ b)
    (hframe : ∀ (r : Nat) (e : Environment), s.env r = .ok e →
      ∃ e2 : Environment, s1.env r = .ok e2 ∧ e2.m_parent = e.m_parent ∧
        (∀ y, y ≠ b → map_find e2.vars y = map_find e.vars y) ∧
        ((map_find e.vars b).isSome = false → e2 = e)) (w : Value) :
    ∀ (n env : Nat), getVar_walk s n env a = .ok w → getVar_walk s1 n env a = .ok w := by
  intro n
  induction n with
  | zero => intro env h; simp [getVar_walk] at h
  | succ n ih =>
    intro env h
    simp only [getVar_walk, bind, Except.bind] at h ⊢
    cases he : s.env env with
    | error err => simp [he] at h
    | ok e =>
      obtain ⟨e2, he2, hpar, hvars, _⟩ := hframe env e he
      simp only [he] at h
      simp only [he2, hvars a hab, hpar]
      cases hm : map_find e.vars a with
      | some u => simpa [hm] using h
      | none =>
        simp only [hm] at h ⊢
        cases hp : e.m_parent with
        | none => simp [hp] at h
        | some p =>
          simp only [hp] at h ⊢
          exact ih p h

theorem getVar_walk_envs (s s1 : Store) (x : String) (henvs : s1.envs = s.envs) :
    ∀ (n env : Nat), getVar_walk s1 n env x = getVar_walk s n env x := by
  intro n
  induction n with
  | zero => intro env; rfl
  | succ n ih =>
    intro env
    have he : s1.env env = s.env env := by simp [Store.env, henvs]
    simp only [getVar_walk, bind, Except.bind, he]
    cases s.env env with
    | error err => rfl
    | ok e =>
      simp only
      cases map_find e.vars x with
      | some u => rfl
      | none =>
        cases e.m_parent with
        | none => rfl
        | some p => exact ih p

theorem evaluate_varref_of_getVar (fuel : Nat) (x : String) (env : Nat) (s : Store) (v : Value)
    (hget : Environment_getVar s env x = .ok v) :
    evaluate (fuel + 1) (varref x) env s = .ok (v, s) := by
  have hdef : Environment_isDefined s env x = .ok true :=
    getVar_walk_isDefined s x v _ env hget
  simp [evaluate, varref, Node.get_tag, Node.get_str, bind, Except.bind, check_exists, hdef,
    hget]

theorem array_push_store (p : Nat) (w u : Value) (s s4 : Store)
    (h : array_push [VALUE_ARRAY p, w] s = .ok (u, s4)) : ∃ a2 : Array, s4 = s.put_array p a2 := by
  simp only [array_push, bind, Except.bind] at h
  cases ha : s.array p with
  | error err => simp [ha] at h
  | ok a0 =>
    simp only [ha, Except.ok.injEq, Prod.mk.injEq] at h
    exact ⟨_, h.2.symm⟩

theorem array_set_store (p : Nat) (i : Int) (w u : Value) (s s4 : Store)
    (h : array_set [VALUE_ARRAY p, VALUE_INT i, w] s = .ok (u, s4)) :
    ∃ a2 : Array, s4 = s.put_array p a2 := by
  simp only [array_set, bind, Except.bind] at h
  cases ha : s.array p with
  | error err => simp [ha] at h
  | ok a0 =>
    simp only [ha] at h
    cases hs : a0.set i w with
    | error err => simp [hs] at h
    | ok r =>
      simp only [hs, Except.ok.injEq, Prod.mk.injEq] at h
      exact ⟨_, h.2.symm⟩

theorem array_len_of_getElem? (q : Nat) (s : Store) (a0 : Array) (h : s.arrays[q]? = some a0) :
    array_len [VALUE_ARRAY q] s = .ok (VALUE_INT a0.len, s) := by
  simp [array_len, Store.array, h, bind, Except.bind]

theorem put_array_other (s : Store) (p q : Nat) (a2 : Array) (hne : q ≠ p) :
    (s.put_array p a2).arrays[q]? = s.arrays[q]? := by
  simp [Store.put_array, List.getElem?_set, Ne.symm hne]

/-- C19: let `a` hold the array at address `p` and let `b` be bound in the
chain. After `b = a;` both names hold the same representation `p`. A push on
it, `push(a, v)`, is seen through `b`: `len` of the value of `b` has grown
by 1 and `get` at the previous length returns `v` (and the same for a push
through `b`, the call being the same). The array made by `mkarr()` for
`b = mkarr();` lives at a fresh address, so a later `push` or `set` on the
array of `a` leaves it as it is, empty. -/
theorem C19_array_aliasing (fuel : Nat) (a b : String) (env : Nat) (s : Store) (p : Nat)
    (arr : Array) (v w : Value)
    (ha : Environment_getVar s env a = .ok (VALUE_ARRAY p))
    (hb : Environment_isDefined s env b = .ok true)
    (hp : s.arrays[p]? = some arr) (hwf : arr.m_size = arr.m_array.length) :
    ∃ s1 s2 s3 : Store,
      evaluate (fuel + 2) (assign_node b (varref a)) env s = .ok (VALUE_ARRAY p, s1) ∧
      Environment_getVar s1 env b = .ok (VALUE_ARRAY p) ∧
      Environment_getVar s1 env a = .ok (VALUE_ARRAY p) ∧
      array_push [VALUE_ARRAY p, v] s1 = .ok (v, s2) ∧
      Environment_getVar s2 env b = .ok (VALUE_ARRAY p) ∧
      array_len [VALUE_ARRAY p] s2 = .ok (VALUE_INT (arr.len + 1), s2) ∧
      array_get [VALUE_ARRAY p, VALUE_INT arr.len] s2 = .ok (v, s2) ∧
      array_mkarr [] s2 = .ok (VALUE_ARRAY s2.arrays.length, s3) ∧
      s2.arrays.length ≠ p ∧
      array_len [VALUE_ARRAY s2.arrays.length] s3 = .ok (VALUE_INT 0, s3) ∧
      (∀ (u : Value) (s4 : Store), array_push [VALUE_ARRAY p, w] s3 = .ok (u, s4) →
        array_len [VALUE_ARRAY s2.arrays.length] s4 = .ok (VALUE_INT 0, s4) ∧
        s4.arrays[s2.arrays.length]? = s3.arrays[s2.arrays.length]?) ∧
      (∀ (i : Int) (u : Value) (s4 : Store),
        array_set [VALUE_ARRAY p, VALUE_INT i, w] s3 = .ok (u, s4) →
        array_len [VALUE_ARRAY s2.arrays.length] s4 = .ok (VALUE_INT 0, s4) ∧
        s4.arrays[s2.arrays.length]? = s3.arrays[s2.arrays.length]?) := by
  obtain ⟨s1, hset, hget, hlen, hfn, harr, hout, hin, hframe⟩ :=
    setVar_walk_defined b (VALUE_ARRAY p) s.envs.length s env hb
  have hplt : p < s.arrays.length := (List.getElem?_eq_some_iff.mp hp).1
  have hgetb : Environment_getVar s1 env b = .ok (VALUE_ARRAY p) := by
    simp only [Environment_getVar, hlen]; exact hget
  have hgeta : Environment_getVar s1 env a = .ok (VALUE_ARRAY p) := by
    by_cases hab : a = b
    · subst hab; exact hgetb
    · simp only [Environment_getVar, hlen]
      exact getVar_walk_frame s s1 a b hab hframe _ _ env ha
  have hp1 : s1.arrays[p]? = some arr := by rw [harr]; exact hp
  have hsz : (0 : Int) ≤ arr.m_size := by omega
  refine ⟨s1, s1.put_array p (arr.push v).2,
    { (s1.put_array p (arr.push v).2) with
      arrays := (s1.put_array p (arr.push v).2).arrays ++ [Array.create []] },
    ?_, hgetb, hgeta, ?_, ?_, ?_, ?_, rfl, ?_, ?_, ?_, ?_⟩
  · rw [evaluate_assign, evaluate_varref_of_getVar fuel a env s _ ha]
    simp [bind, Except.bind, check_exists, hb, Environment_setVar, hset]
  · simp [array_push, Store.array, hp1, bind, Except.bind, Array.push]
  · have h2 := getVar_walk_envs s1 (s1.put_array p (arr.push v).2) b rfl
      (s1.put_array p (arr.push v).2).envs.length env
    simp only [Environment_getVar] at hgetb ⊢
    rw [h2]
    exact hgetb
  · have hplt1 : p < s1.arrays.length := by rw [harr]; exact hplt
    simp [array_len, Store.array, Store.put_array, List.getElem?_set, hplt1, bind, Except.bind,
      Array.push, Array.len]
  · have hplt1 : p < s1.arrays.length := by rw [harr]; exact hplt
    have hidx : arr.m_size.toNat = arr.m_array.length := by omega
    simp [array_get, Store.array, Store.put_array, List.getElem?_set, hplt1, bind, Except.bind,
      Array.push, Array.len, Array.get, hsz, hidx]
  · simp only [Store.put_array, List.length_set, harr]
    omega
  · simp [array_len, Store.array, bind, Except.bind, Array.create, Array.len]
  · intro u s4 hpush
    obtain ⟨a2, h4⟩ := array_push_store p w u _ s4 hpush
    subst h4
    have hq : (s1.put_array p (arr.push v).2).arrays.length ≠ p := by
      simp only [Store.put_array, List.length_set, harr]; omega
    have hsame := put_array_other
      { (s1.put_array p (arr.push v).2) with
        arrays := (s1.put_array p (arr.push v).2).arrays ++ [Array.create []] }
      p (s1.put_array p (arr.push v).2).arrays.length a2 hq
    refine ⟨?_, hsame⟩
    have hlook : (Store.put_array
        { (s1.put_array p (arr.push v).2) with
          arrays := (s1.put_array p (arr.push v).2).arrays ++ [Array.create []] }
        p a2).arrays[(s1.put_array p (arr.push v).2).arrays.length]? =
        some (Array.create []) := by
      rw [hsame]; simp
    exact array_len_of_getElem? _ _ _ hlook
  · intro i u s4 hsetarr
    obtain ⟨a2, h4⟩ := array_set_store p i w u _ s4 hsetarr
    subst h4
    have hq : (s1.put_array p (arr.push v).2).arrays.length ≠ p := by
      simp only [Store.put_array, List.length_set, harr]; omega
    have hsame := put_array_other
      { (s1.put_array p (arr.push v).2) with
        arrays := (s1.put_array p (arr.push v).2).arrays ++ [Array.create []] }
      p (s1.put_array p (arr.push v).2).arrays.length a2 hq
    refine ⟨?_, hsame⟩
    have hlook : (Store.put_array
        { (s1.put_array p (arr.push v).2) with
          arrays := (s1.put_array p (arr.push v).2).arrays ++ [Array.create []] }
        p a2).arrays[(s1.put_array p (arr.push v).2).arrays.length]? =
        some (Array.create []) := by
      rw [hsame]; simp
    exact array_len_of_getElem? _ _ _ hlook

/-- Witness of C19: `b = a;` in `store_with_array`, where `a` holds the array
`[1, 2, 3]`, then a push of 9 and, after a fresh array, a push or set of 4. -/
theorem C19_array_aliasing_witness :
    ∃ s1 s2 s3 : Store,
      evaluate (0 + 2) (assign_node "b" (varref "a")) 0 store_with_array =
        .ok (VALUE_ARRAY 0, s1) ∧
      Environment_getVar s1 0 "b" = .ok (VALUE_ARRAY 0) ∧
      Environment_getVar s1 0 "a" = .ok (VALUE_ARRAY 0) ∧
      array_push [VALUE_ARRAY 0, VALUE_INT 9] s1 = .ok (VALUE_INT 9, s2) ∧
      Environment_getVar s2 0 "b" = .ok (VALUE_ARRAY 0) ∧
      array_len [VALUE_ARRAY 0] s2 =
        .ok (VALUE_INT ((Array.create [VALUE_INT 1, VALUE_INT 2, VALUE_INT 3]).len + 1), s2) ∧
      array_get [VALUE_ARRAY 0,
          VALUE_INT (Array.create [VALUE_INT 1, VALUE_INT 2, VALUE_INT 3]).len] s2 =
        .ok (VALUE_INT 9, s2) ∧
      array_mkarr [] s2 = .ok (VALUE_ARRAY s2.arrays.length, s3) ∧
      s2.arrays.length ≠ 0 ∧
      array_len [VALUE_ARRAY s2.arrays.length] s3 = .ok (VALUE_INT 0, s3) ∧
      (∀ (u : Value) (s4 : Store),
        array_push [VALUE_ARRAY 0, VALUE_INT 4] s3 = .ok (u, s4) →
        array_len [VALUE_ARRAY s2.arrays.length] s4 = .ok (VALUE_INT 0, s4) ∧
        s4.arrays[s2.arrays.length]? = s3.arrays[s2.arrays.length]?) ∧
      (∀ (i : Int) (u : Value) (s4 : Store),
        array_set [VALUE_ARRAY 0, VALUE_INT i, VALUE_INT 4] s3 = .ok (u, s4) →
        array_len [VALUE_ARRAY s2.arrays.length] s4 = .ok (VALUE_INT 0, s4) ∧
        s4.arrays[s2.arrays.length]? = s3.arrays[s2.arrays.length]?) :=
  C19_array_aliasing 0 "a" "b" 0 store_with_array 0
    (Array.create [VALUE_INT 1, VALUE_INT 2, VALUE_INT 3]) (VALUE_INT 9) (VALUE_INT 4)
    rfl rfl rfl rfl

/-! ### C21: pop -/

/-- C21: let `a` be the array at address `p`, its recorded length being the
length of its vector. `pop(a)` raises the evaluation error "Popping an empty
array" when `a` is empty and raises nothing otherwise, so it raises exactly
when `a` is empty. On a non-empty array it returns the last element and
changes the store only in that the array has lost that element: the elements
before it are as they were and in the same order, and `len` then returns one
less than before. -/
theorem C21_pop (s : Store) (p : Nat) (a : Array)
    (hp : s.arrays[p]? = some a) (hwf : a.m_size = a.m_array.length) :
    (a.len = 0 →
      array_pop [VALUE_ARRAY p] s = .error (.EvaluationError "Popping an empty array \n")) ∧
    (a.len ≠ 0 →
      ∃ (last : Value) (a2 : Array),
        array_pop [VALUE_ARRAY p] s = .ok (last, s.put_array p a2) ∧
        a.m_array = a2.m_array ++ [last] ∧
        a2.len = a.len - 1 ∧
        a2.m_size = a2.m_array.length ∧
        array_len [VALUE_ARRAY p] (s.put_array p a2) =
          .ok (VALUE_INT (a.len - 1), s.put_array p a2)) := by
  have hplt : p < s.arrays.length := (List.getElem?_eq_some_iff.mp hp).1
  constructor
  · intro h0
    have h0 : a.m_size = 0 := h0
    simp [array_pop, Store.array, hp, bind, Except.bind, Array.pop, h0]
  · intro hne
    have hne : a.m_size ≠ 0 := hne
    have hnil : a.m_array ≠ [] := by
      intro hnil
      rw [hnil] at hwf
      exact hne (by simpa using hwf)
    refine ⟨a.m_array.getLast hnil,
      { m_size := a.m_size - 1, m_array := a.m_array.dropLast }, ?_, ?_, rfl, ?_, ?_⟩
    · simp [array_pop, Store.array, hp, bind, Except.bind, Array.pop, hne,
        List.getLast?_eq_getLast _ hnil]
    · exact (List.dropLast_append_getLast hnil).symm
    · have hpos : 0 < a.m_array.length := List.length_pos.mpr hnil
      show a.m_size - 1 = ((a.m_array.dropLast.length : Nat) : Int)
      rw [List.length_dropLast, hwf]
      omega
    · simp [array_len, Store.array, Store.put_array, List.getElem?_set, hplt, bind,
        Except.bind, Array.len]

/-- Witness of C21: the array `[1, 2, 3]` of `store_with_array`. -/
theorem C21_pop_witness :
    ((Array.create [VALUE_INT 1, VALUE_INT 2, VALUE_INT 3]).len = 0 →
      array_pop [VALUE_ARRAY 0] store_with_array =
        .error (.EvaluationError "Popping an empty array \n")) ∧
    ((Array.create [VALUE_INT 1, VALUE_INT 2, VALUE_INT 3]).len ≠ 0 →
      ∃ (last : Value) (a2 : Array),
        array_pop [VALUE_ARRAY 0] store_with_array =
          .ok (last, store_with_array.put_array 0 a2) ∧
        (Array.create [VALUE_INT 1, VALUE_INT 2, VALUE_INT 3]).m_array = a2.m_array ++ [last] ∧
        a2.len = (Array.create [VALUE_INT 1, VALUE_INT 2, VALUE_INT 3]).len - 1 ∧
        a2.m_size = a2.m_array.length ∧
        array_len [VALUE_ARRAY 0] (store_with_array.put_array 0 a2) =
          .ok (VALUE_INT ((Array.create [VALUE_INT 1, VALUE_INT 2, VALUE_INT 3]).len - 1),
            store_with_array.put_array 0 a2)) :=
  C21_pop store_with_array 0 (Array.create [VALUE_INT 1, VALUE_INT 2, VALUE_INT 3]) rfl rfl

/-! ### C22: push -/

/-- C22: let `a` be the array at address `p`, its recorded length being the
length of its vector. `push(a, v)` returns `v` and changes the store only in
that the array has `v` appended: the previous elements are as they were, `v`
is the element at the old length, and `len` then returns one more than
before. -/
theorem C22_push (s : Store) (p : Nat) (a : Array) (v : Value)
    (hp : s.arrays[p]? = some a) (hwf : a.m_size = a.m_array.length) :
    ∃ a2 : Array,
      array_push [VALUE_ARRAY p, v] s = .ok (v, s.put_array p a2) ∧
      a2.m_array = a.m_array ++ [v] ∧
      a2.len = a.len + 1 ∧
      a2.m_size = a2.m_array.length ∧
      array_len [VALUE_ARRAY p] (s.put_array p a2) =
        .ok (VALUE_INT (a.len + 1), s.put_array p a2) ∧
      array_get [VALUE_ARRAY p, VALUE_INT a.len] (s.put_array p a2) =
        .ok (v, s.put_array p a2) ∧
      ∀ (i : Nat) (w : Value), a.m_array[i]? = some w →
        array_get [VALUE_ARRAY p, VALUE_INT i] (s.put_array p a2) =
          .ok (w, s.put_array p a2) := by
  have hplt : p < s.arrays.length := (List.getElem?_eq_some_iff.mp hp).1
  refine ⟨(a.push v).2, ?_, rfl, rfl, ?_, ?_, ?_, ?_⟩
  · simp [array_push, Store.array, hp, bind, Except.bind, Array.push]
  · show a.m_size + 1 = (((a.m_array ++ [v]).length : Nat) : Int)
    rw [List.length_append, hwf]
    simp
  · simp [array_len, Store.array, Store.put_array, List.getElem?_set, hplt, bind,
      Except.bind, Array.len, Array.push]
  · have hc : a.m_size ≥ 0 ∧ a.m_size < a.m_size + 1 := by omega
    have htn : a.m_size.toNat = a.m_array.length := by omega
    simp [array_get, Store.array, Store.put_array, List.getElem?_set, hplt, bind,
      Except.bind, Array.len, Array.push, Array.get, hc, htn]
  · intro i w hi
    have hilt : i < a.m_array.length := (List.getElem?_eq_some_iff.mp hi).1
    have hc : ((i : Nat) : Int) ≥ 0 ∧ ((i : Nat) : Int) < a.m_size + 1 := by omega
    have hget : (a.m_array ++ [v])[i]? = some w := by
      rw [List.getElem?_append_left hilt]
      exact hi
    simp [array_get, Store.array, Store.put_array, List.getElem?_set, hplt, bind,
      Except.bind, Array.push, Array.get, hc, hget]

/-- Witness of C22: pushing 9 onto the array `[1, 2, 3]` of
`store_with_array`. -/
theorem C22_push_witness :
    ∃ a2 : Array,
      array_push [VALUE_ARRAY 0, VALUE_INT 9] store_with_array =
        .ok (VALUE_INT 9, store_with_array.put_array 0 a2) ∧
      a2.m_array = (Array.create [VALUE_INT 1, VALUE_INT 2, VALUE_INT 3]).m_array ++
        [VALUE_INT 9] ∧
      a2.len = (Array.create [VALUE_INT 1, VALUE_INT 2, VALUE_INT 3]).len + 1 ∧
      a2.m_size = a2.m_array.length ∧
      array_len [VALUE_ARRAY 0] (store_with_array.put_array 0 a2) =
        .ok (VALUE_INT ((Array.create [VALUE_INT 1, VALUE_INT 2, VALUE_INT 3]).len + 1),
          store_with_array.put_array 0 a2) ∧
      array_get [VALUE_ARRAY 0,
          VALUE_INT (Array.create [VALUE_INT 1, VALUE_INT 2, VALUE_INT 3]).len]
          (store_with_array.put_array 0 a2) =
        .ok (VALUE_INT 9, store_with_array.put_array 0 a2) ∧
      ∀ (i : Nat) (w : Value),
        (Array.create [VALUE_INT 1, VALUE_INT 2, VALUE_INT 3]).m_array[i]? = some w →
        array_get [VALUE_ARRAY 0, VALUE_INT i] (store_with_array.put_array 0 a2) =
          .ok (w, store_with_array.put_array 0 a2) :=
  C22_push store_with_array 0 (Array.create [VALUE_INT 1, VALUE_INT 2, VALUE_INT 3])
    (VALUE_INT 9) rfl rfl

/-! ### C23: mkarr -/

/-- C23: `mkarr(v0, ..., v(n-1))` raises nothing, leaves the arrays already in
the store as they are and returns a new array `a` for which `len(a)` returns
`n` and `get(a, i)` returns `vi` for every `i < n`. In particular the array of
`mkarr(1, 2, 3)` has length 3 and that of `mkarr()` has length 0. -/
theorem C23_mkarr (vs : List Value) (s : Store) :
    ∃ (q : Nat) (s2 : Store),
      array_mkarr vs s = .ok (VALUE_ARRAY q, s2) ∧
      s2.arrays = s.arrays ++ [Array.create vs] ∧
      s2.arrays[q]? = some (Array.create vs) ∧
      array_len [VALUE_ARRAY q] s2 = .ok (VALUE_INT vs.length, s2) ∧
      (∀ (i : Nat) (v : Value), vs[i]? = some v →
        array_get [VALUE_ARRAY q, VALUE_INT i] s2 = .ok (v, s2)) ∧
      (vs = [VALUE_INT 1, VALUE_INT 2, VALUE_INT 3] →
        array_len [VALUE_ARRAY q] s2 = .ok (VALUE_INT 3, s2)) ∧
      (vs = [] → array_len [VALUE_ARRAY q] s2 = .ok (VALUE_INT 0, s2)) := by
  have hlen : array_len [VALUE_ARRAY s.arrays.length]
      { s with arrays := s.arrays ++ [Array.create vs] } =
      .ok (VALUE_INT vs.length, { s with arrays := s.arrays ++ [Array.create vs] }) := by
    simp [array_len, Store.array, bind, Except.bind, Array.len, Array.create]
  refine ⟨s.arrays.length, { s with arrays := s.arrays ++ [Array.create vs] }, rfl, rfl,
    by simp, hlen, ?_, ?_, ?_⟩
  · intro i v hi
    have hilt : i < vs.length := (List.getElem?_eq_some_iff.mp hi).1
    have hc : ((i : Nat) : Int) ≥ 0 ∧ ((i : Nat) : Int) < ((vs.length : Nat) : Int) := by omega
    simp [array_get, Store.array, bind, Except.bind, Array.get, Array.create, hc, hi]
  · intro h
    rw [hlen, h]
    rfl
  · intro h
    rw [hlen, h]
    rfl

/-- Witness of C23: `mkarr(1, 2, 3)` in the store that holds only the global
scope. -/
theorem C23_mkarr_witness :
    array_mkarr [VALUE_INT 1, VALUE_INT 2, VALUE_INT 3] empty_global_store =
      .ok (VALUE_ARRAY 0, { empty_global_store with
        arrays := [Array.create [VALUE_INT 1, VALUE_INT 2, VALUE_INT 3]] }) ∧
    array_len [VALUE_ARRAY 0] { empty_global_store with
        arrays := [Array.create [VALUE_INT 1, VALUE_INT 2, VALUE_INT 3]] } =
      .ok (VALUE_INT 3, { empty_global_store with
        arrays := [Array.create [VALUE_INT 1, VALUE_INT 2, VALUE_INT 3]] }) ∧
    array_get [VALUE_ARRAY 0, VALUE_INT 1] { empty_global_store with
        arrays := [Array.create [VALUE_INT 1, VALUE_INT 2, VALUE_INT 3]] } =
      .ok (VALUE_INT 2, { empty_global_store with
        arrays := [Array.create [VALUE_INT 1, VALUE_INT 2, VALUE_INT 3]] }) := by
  obtain ⟨q, s2, hmk, -, -, hlen, hget, h3, -⟩ :=
    C23_mkarr [VALUE_INT 1, VALUE_INT 2, VALUE_INT 3] empty_global_store
  have hq : q = 0 ∧ s2 = { empty_global_store with
      arrays := [Array.create [VALUE_INT 1, VALUE_INT 2, VALUE_INT 3]] } := by
    have h : array_mkarr [VALUE_INT 1, VALUE_INT 2, VALUE_INT 3] empty_global_store =
        .ok (VALUE_ARRAY 0, { empty_global_store with
          arrays := [Array.create [VALUE_INT 1, VALUE_INT 2, VALUE_INT 3]] }) := rfl
    rw [h] at hmk
    injection hmk with hmk
    injection hmk with h1 h2
    injection h1 with h1
    exact ⟨h1.symm, h2.symm⟩
  obtain ⟨rfl, rfl⟩ := hq
  exact ⟨hmk, h3 rfl, hget 1 (VALUE_INT 2) rfl⟩

/-! ### C24: strcat -/

/-- C24: for all strings `a` and `b`, `strcat(a, b)` raises nothing, leaves
the store (and with it both argument strings) as it is and returns the string
of the characters of `a` followed by those of `b`; `strlen` of the result is
`strlen(a) + strlen(b)`. In particular `strcat("ab", "cd")` is `"abcd"`, of
length 4. -/
theorem C24_strcat (a b : String) (s : Store) :
    string_strcat [VALUE_STRING a, VALUE_STRING b] s = .ok (VALUE_STRING (a ++ b), s) ∧
    (a ++ b).data = a.data ++ b.data ∧
    string_strlen [VALUE_STRING (a ++ b)] s =
      .ok (VALUE_INT (String_strlen a + String_strlen b), s) ∧
    string_strcat [VALUE_STRING "ab", VALUE_STRING "cd"] s = .ok (VALUE_STRING "abcd", s) ∧
    string_strlen [VALUE_STRING "abcd"] s = .ok (VALUE_INT 4, s) := by
  refine ⟨rfl, rfl, ?_, rfl, rfl⟩
  simp [string_strlen, String_strlen, String.length_append]

/-! ### Calls of user functions -/

theorem evaluate_call_user (fuel : Nat) (f : String) (args : List Node) (env : Nat) (s : Store)
    (p : Nat) (function : Function)
    (hget : Environment_getVar s env f = .ok (VALUE_FUNCTION p))
    (hfn : s.functions[p]? = some function)
    (hm : args.length = function.m_params.length) :
    evaluate (fuel + 1) (fncall_node f args) env s =
      (do
        let s2 ← bind_arguments (evaluate fuel) function env s.envs.length args 0
          (s.new_env (some function.m_parent_env)).2
        let (result, s3) ← execute_with (evaluate fuel) function.m_body s2.envs.length
          (s2.new_env (some s.envs.length)).2
        .ok (result, (s3.delete_env s.envs.length).delete_env s2.envs.length)) := by
  have hdef : Environment_isDefined s env f = .ok true :=
    getVar_walk_isDefined s f _ _ env hget
  simp [evaluate, fncall_node, varref, Node.get_tag, Node.get_kid, Node.kids, Node.get_str,
    Node.get_num_kids, bind, Except.bind, check_exists, hdef, hget, hfn, Store.new_env, hm]

theorem isDefined_walk_append (s : Store) (o : Option Environment) (x : String) (b : Bool) :
    ∀ (n m env : Nat), n ≤ m → isDefined_walk s n env x = .ok b →
      isDefined_walk { s with envs := s.envs ++ [o] } m env x = .ok b := by
  intro n
  induction n with
  | zero => intro m env _ h; simp [isDefined_walk] at h
  | succ n ih =>
    intro m env hm h
    cases m with
    | zero => omega
    | succ m =>
      simp only [isDefined_walk, bind, Except.bind] at h ⊢
      cases he : s.env env with
      | error e => simp [he] at h
      | ok e =>
        rw [env_append s o env e he]
        simp only [he] at h ⊢
        by_cases hf : (map_find e.vars x).isSome = true
        · simpa [hf] using h
        · simp only [hf] at h ⊢
          cases hp : e.m_parent with
          | none => simpa [hp] using h
          | some p =>
            simp only [hp] at h ⊢
            exact ih m p (by omega) h

theorem execute_loop_append (ev : Node → Nat → Store → Except Failure (Value × Store))
    (env : Nat) (last : Node) :
    ∀ (stmts : List Node) (r0 r : Value) (s s4 : Store),
      execute_loop ev env stmts r0 s = .ok (r, s4) →
      execute_loop ev env (stmts ++ [statement last]) r0 s = ev last env s4 := by
  intro stmts
  induction stmts with
  | nil =>
    intro r0 r s s4 h
    simp only [execute_loop, Except.ok.injEq, Prod.mk.injEq] at h
    obtain ⟨-, rfl⟩ := h
    cases hev : ev last env s <;>
      simp [execute_loop, statement, Node.get_kid, Node.kids, bind, Except.bind, hev]
  | cons st rest ih =>
    intro r0 r s s4 h
    simp only [List.cons_append, execute_loop, bind, Except.bind] at h ⊢
    cases hk : st.get_kid 0 with
    | error e => simp [hk] at h
    | ok kid =>
      simp only [hk] at h ⊢
      cases hev : ev kid env s with
      | error e => simp [hev] at h
      | ok r1 =>
        simp only [hev] at h ⊢
        exact ih r1.1 r r1.2 s4 h

theorem while_loop_value (ev : Node → Nat → Store → Except Failure (Value × Store))
    (c b : Node) (env : Nat) :
    ∀ (n : Nat) (cv : Value) (s : Store) (v : Value) (s2 : Store),
      while_loop ev c b env n cv s = .ok (v, s2) → v = VALUE_INT 0 := by
  intro n
  induction n with
  | zero => intro cv s v s2 h; simp [while_loop] at h
  | succ n ih =>
    intro cv s v s2 h
    simp only [while_loop, bind, Except.bind] at h
    cases hc : cv.get_ival with
    | error e => simp [hc] at h
    | ok ci =>
      simp only [hc] at h
      by_cases hz : ci ≠ 0
      · rw [if_pos hz] at h
        cases hex : execute_with ev b (s.new_env (some env)).1 (s.new_env (some env)).2 with
        | error e => simp [hex] at h
        | ok r1 =>
          simp only [hex] at h
          cases hcv : ev c (s.new_env (some env)).1 r1.2 with
          | error e => simp [hcv] at h
          | ok r2 =>
            simp only [hcv] at h
            exact ih _ _ v s2 h
      · rw [if_neg hz] at h
        simp only [Except.ok.injEq, Prod.mk.injEq] at h
        exact h.1.symm
theorem evaluate_statement_value (fuel : Nat) (node : Node) (env : Nat) (s s2 : Store)
    (v : Value) (h : evaluate fuel node env s = .ok (v, s2))
    (htag : node.get_tag = AST_VARDEF ∨ node.get_tag = AST_IF ∨ node.get_tag = AST_WHILE) :
    v = VALUE_INT 0 := by
  cases fuel with
  | zero => simp [evaluate] at h
  | succ fuel =>
    rcases htag with ht | ht | ht
    · simp only [evaluate, ht, bind, Except.bind] at h
      repeat' split at h
      all_goals first
        | contradiction
        | (simp only [Except.ok.injEq, Prod.mk.injEq] at h; exact h.1.symm)
    · simp only [evaluate, ht, bind, Except.bind] at h
      repeat' split at h
      all_goals first
        | contradiction
        | (simp only [Except.ok.injEq, Prod.mk.injEq] at h; exact h.1.symm)
    · simp only [evaluate, ht, bind, Except.bind] at h
      repeat' split at h
      all_goals first
        | contradiction
        | exact while_loop_value _ _ _ _ _ _ _ _ _ h
theorem block_scope_isDefined (s2 : Store) (fenv : Nat) (y : String) (b : Bool)
    (h : Environment_isDefined s2 fenv y = .ok b) :
    Environment_isDefined (s2.new_env (some fenv)).2 s2.envs.length y = .ok b := by
  have h2 := isDefined_walk_append s2 (some { m_parent := some fenv, vars := [] }) y b
    s2.envs.length s2.envs.length fenv (Nat.le_refl _) h
  simp [Environment_isDefined, Store.new_env, isDefined_walk, Store.env, bind, Except.bind,
    map_find, h2]

theorem block_scope_getVar (s2 : Store) (fenv : Nat) (y : String) (v : Value)
    (h : Environment_getVar s2 fenv y = .ok v) :
    Environment_getVar (s2.new_env (some fenv)).2 s2.envs.length y = .ok v := by
  have h2 := getVar_walk_append s2 (some { m_parent := some fenv, vars := [] }) y v
    s2.envs.length s2.envs.length fenv (Nat.le_refl _) h
  simp [Environment_getVar, Store.new_env, getVar_walk, Store.env, bind, Except.bind,
    map_find, h2]

/-! ### C25: the scope of a function body -/

/-- C25: let `f` resolve at the call site to a user function called with as
many arguments as it has parameters, and let `s2` be the store once the
arguments are bound in the parameter scope, whose parent is the defining
environment of the function. A name in the body is looked up in the block
scope of the body, then in the parameter scope, then along the defining
environment, and the environment of the call site takes no part: when the
body is `y;` and the chain from the parameter scope gives `y` the value `v`,
the call returns `v`; when that chain does not bind `y`, the call raises the
evaluation error of `check_exists`, whatever the call site binds; and so does
the call when the body is the assignment `y = e;`. -/
theorem C25_function_scope (fuel : Nat) (f : String) (args : List Node) (env : Nat) (s : Store)
    (p : Nat) (function : Function) (y : String) (s2 : Store)
    (hget : Environment_getVar s env f = .ok (VALUE_FUNCTION p))
    (hfn : s.functions[p]? = some function)
    (hm : args.length = function.m_params.length)
    (hargs : bind_arguments (evaluate (fuel + 1)) function env s.envs.length args 0
      (s.new_env (some function.m_parent_env)).2 = .ok s2) :
    (function.m_body = statement_list [statement (varref y)] →
      (∀ v, Environment_getVar s2 s.envs.length y = .ok v →
        evaluate (fuel + 2) (fncall_node f args) env s =
          .ok (v, (((s2.new_env (some s.envs.length)).2).delete_env s.envs.length).delete_env
            s2.envs.length)) ∧
      (Environment_isDefined s2 s.envs.length y = .ok false →
        evaluate (fuel + 2) (fncall_node f args) env s =
          .error (.EvaluationError ("Function not defined before invoking '" ++ y ++ "'")))) ∧
    (∀ (e : Node) (w : Value),
      function.m_body = statement_list [statement (assign_node y e)] →
      evaluate fuel e s2.envs.length (s2.new_env (some s.envs.length)).2 =
        .ok (w, (s2.new_env (some s.envs.length)).2) →
      Environment_isDefined s2 s.envs.length y = .ok false →
      evaluate (fuel + 2) (fncall_node f args) env s =
        .error (.EvaluationError ("Function not defined before invoking '" ++ y ++ "'"))) := by
  have hcall := evaluate_call_user (fuel + 1) f args env s p function hget hfn hm
  rw [hargs] at hcall
  refine ⟨fun hbody => ⟨fun v hv => ?_, fun hundef => ?_⟩, fun e w hbody he hundef => ?_⟩
  · have hev := evaluate_varref_of_getVar fuel y s2.envs.length _ v
      (block_scope_getVar s2 s.envs.length y v hv)
    rw [hcall, hbody]
    simp [execute_with, execute_loop, statement_list, statement, Node.kids, Node.get_kid,
      bind, Except.bind, hev]
  · have hdef := block_scope_isDefined s2 s.envs.length y false hundef
    rw [hcall, hbody]
    simp [execute_with, execute_loop, statement_list, statement, Node.kids, Node.get_kid,
      bind, Except.bind, evaluate, varref, Node.get_tag, Node.get_str, check_exists, hdef]
  · have hdef := block_scope_isDefined s2 s.envs.length y false hundef
    rw [hcall, hbody]
    simp [execute_with, execute_loop, statement_list, statement, Node.kids, Node.get_kid,
      bind, Except.bind, evaluate_assign, he, check_exists, hdef]

/-- Witness of C25: in `store_caller_local` the block scope 1 of the caller
binds `y`, and the calls `f()` and `g()` made from that scope raise: the
bodies `y;` and `y = 3;` do not see the `y` of the caller. In `store_with_f`
the body `a;` of `f` finds the parameter `a`. -/
theorem C25_function_scope_witness :
    Environment_getVar store_caller_local 1 "y" = .ok (VALUE_INT 3) ∧
    evaluate (1 + 2) (fncall_node "f" []) 1 store_caller_local =
      .error (.EvaluationError ("Function not defined before invoking '" ++ "y" ++ "'")) ∧
    evaluate (1 + 2) (fncall_node "g" []) 1 store_caller_local =
      .error (.EvaluationError ("Function not defined before invoking '" ++ "y" ++ "'")) ∧
    ∃ s6 : Store,
      evaluate (0 + 2) (fncall_node "f" [int_literal "1", int_literal "2"]) 0 store_with_f =
        .ok (VALUE_INT 1, s6) :=
  ⟨rfl,
   ((C25_function_scope 1 "f" [] 1 store_caller_local 0
      { m_name := "f", m_params := [], m_parent_env := 0,
        m_body := statement_list [statement (varref "y")] } "y"
      (store_caller_local.new_env (some 0)).2 rfl rfl rfl rfl).1 rfl).2 rfl,
   (C25_function_scope 1 "g" [] 1 store_caller_local 1
      { m_name := "g", m_params := [], m_parent_env := 0,
        m_body := statement_list [statement (assign_node "y" (int_literal "3"))] } "y"
      (store_caller_local.new_env (some 0)).2 rfl rfl rfl rfl).2
      (int_literal "3") (VALUE_INT 3) rfl rfl rfl,
   ⟨_, ((C25_function_scope 0 "f" [int_literal "1", int_literal "2"] 0 store_with_f 0
      { m_name := "f", m_params := ["a", "b"], m_parent_env := 0,
        m_body := statement_list [statement (varref "a")] } "a" _ rfl rfl rfl rfl).1 rfl).1
      (VALUE_INT 1) rfl⟩⟩

/-! ### C26: the result of a call -/

/-- C26: let `f` resolve to a user function called with as many arguments as
it has parameters, let the body be the statements `stmts` followed by a last
statement, and let the arguments be bound and the statements `stmts` be
executed in order in the block scope of the body. The call then returns the
value to which the last statement evaluates in the store that the statements
before it have left; that value is 0 when the last statement is a `var`
definition, an `if` or a `while`. -/
theorem C26_call_result (fuel : Nat) (f : String) (args : List Node) (env : Nat) (s : Store)
    (p : Nat) (function : Function) (stmts : List Node) (last : Node)
    (s2 : Store) (r v : Value) (s4 s5 : Store)
    (hget : Environment_getVar s env f = .ok (VALUE_FUNCTION p))
    (hfn : s.functions[p]? = some function)
    (hm : args.length = function.m_params.length)
    (hbody : function.m_body = statement_list (stmts ++ [statement last]))
    (hargs : bind_arguments (evaluate fuel) function env s.envs.length args 0
      (s.new_env (some function.m_parent_env)).2 = .ok s2)
    (hstmts : execute_loop (evaluate fuel) s2.envs.length stmts (VALUE_INT 0)
      (s2.new_env (some s.envs.length)).2 = .ok (r, s4))
    (hlast : evaluate fuel last s2.envs.length s4 = .ok (v, s5)) :
    evaluate (fuel + 1) (fncall_node f args) env s =
      .ok (v, (s5.delete_env s.envs.length).delete_env s2.envs.length) ∧
    ((last.get_tag = AST_VARDEF ∨ last.get_tag = AST_IF ∨ last.get_tag = AST_WHILE) →
      v = VALUE_INT 0) := by
  constructor
  · rw [evaluate_call_user fuel f args env s p function hget hfn hm, hargs]
    have hl := execute_loop_append (evaluate fuel) s2.envs.length last stmts (VALUE_INT 0) r
      (s2.new_env (some s.envs.length)).2 s4 hstmts
    simp [execute_with, hbody, statement_list, Node.kids, bind, Except.bind, hl, hlast]
  · exact evaluate_statement_value fuel last s2.envs.length s4 s5 v hlast

/-- Witness of C26: `f(7)` where the body of `f` is `a; var c;` returns 0,
and `f(1, 2)` where the body of `f` is `a;` returns 1. -/
theorem C26_call_result_witness :
    (∃ s6 : Store,
      evaluate (1 + 1) (fncall_node "f" [int_literal "7"]) 0 store_with_var_body =
        .ok (VALUE_INT 0, s6)) ∧
    (∃ s6 : Store,
      evaluate (1 + 1) (fncall_node "f" [int_literal "1", int_literal "2"]) 0 store_with_f =
        .ok (VALUE_INT 1, s6)) :=
  ⟨⟨_, (C26_call_result 1 "f" [int_literal "7"] 0 store_with_var_body 0
      { m_name := "f", m_params := ["a"], m_parent_env := 0,
        m_body := statement_list [statement (varref "a"), statement (vardef_node "c")] }
      [statement (varref "a")] (vardef_node "c") _ (VALUE_INT 7) (VALUE_INT 0) _ _
      rfl rfl rfl rfl rfl rfl rfl).1⟩,
   ⟨_, (C26_call_result 1 "f" [int_literal "1", int_literal "2"] 0 store_with_f 0
      { m_name := "f", m_params := ["a", "b"], m_parent_env := 0,
        m_body := statement_list [statement (varref "a")] }
      [] (varref "a") _ (VALUE_INT 0) (VALUE_INT 1) _ _
      rfl rfl rfl rfl rfl rfl rfl).1⟩⟩
/-! ### C27: binding of the arguments -/

theorem getElem?_of_drop_cons {α : Type} (l : List α) (i : Nat) (a : α) (rest : List α)
    (h : l.drop i = a :: rest) : l[i]? = some a ∧ l.drop (i + 1) = rest := by
  constructor
  · have h2 : (l.drop i)[0]? = some a := by rw [h]; simp
    simpa [List.getElem?_drop] using h2
  · have h2 : (l.drop i).drop 1 = rest := by rw [h]; rfl
    rw [← h2, List.drop_drop]

theorem bind_arguments_of_run (ev : Node → Nat → Store → Except Failure (Value × Store))
    (function : Function) (env fenv : Nat) (args : List Node) (params : List String)
    (vals : List Value) (s s2 : Store)
    (hrun : ArgumentRun ev env fenv args params vals s s2) :
    ∀ i, function.m_params.drop i = params →
      bind_arguments ev function env fenv args i s = .ok s2 := by
  induction hrun with
  | nil s => intro i _; rfl
  | cons a p v s t u s2 args params vals hev hkeep hbind hrest ih =>
    intro i hi
    obtain ⟨hp, hd⟩ := getElem?_of_drop_cons function.m_params i p params hi
    simp only [bind_arguments, bind, Except.bind, hev, hp, hbind]
    exact ih (i + 1) hd

theorem run_lengths (ev : Node → Nat → Store → Except Failure (Value × Store))
    (env fenv : Nat) (args : List Node) (params : List String)
    (vals : List Value) (s s2 : Store)
    (hrun : ArgumentRun ev env fenv args params vals s s2) :
    args.length = params.length ∧ vals.length = args.length := by
  induction hrun with
  | nil s => exact ⟨rfl, rfl⟩
  | cons a p v s t u s2 args params vals hev hkeep hbind hrest ih =>
    simp only [List.length_cons]
    omega

theorem run_keeps_bindings (ev : Node → Nat → Store → Except Failure (Value × Store))
    (env fenv : Nat) (args : List Node) (params : List String)
    (vals : List Value) (s s2 : Store)
    (hrun : ArgumentRun ev env fenv args params vals s s2) :
    ∀ E, s.env fenv = .ok E →
      ∃ E2, s2.env fenv = .ok E2 ∧ E2.m_parent = E.m_parent ∧
        ∀ x, x ∉ params → map_find E2.vars x = map_find E.vars x := by
  induction hrun with
  | nil s => intro E hE; exact ⟨E, hE, rfl, fun _ _ => rfl⟩
  | cons a p v s t u s2 args params vals hev hkeep hbind hrest ih =>
    intro E hE
    have ht : t.env fenv = .ok E := by rw [hkeep, hE]
    have hu : u.env fenv = .ok { E with vars := map_assign E.vars p v } := by
      simp only [Environment_bind, ht, bind, Except.bind, Except.ok.injEq] at hbind
      rw [← hbind]
      exact env_put_env_same t fenv E _ ht
    obtain ⟨E2, hE2, hpar, hvars⟩ := ih _ hu
    refine ⟨E2, hE2, hpar, fun x hx => ?_⟩
    have hxp : x ≠ p := fun h => hx (by simp [h])
    have hxr : x ∉ params := fun h => hx (by simp [h])
    rw [hvars x hxr]
    exact map_find_map_assign_other E.vars p x v hxp

theorem run_binds (ev : Node → Nat → Store → Except Failure (Value × Store))
    (env fenv : Nat) (args : List Node) (params : List String)
    (vals : List Value) (s s2 : Store)
    (hrun : ArgumentRun ev env fenv args params vals s s2) :
    ∀ E, s.env fenv = .ok E →
      ∀ (i : Nat) (pn : String) (v : Value), params[i]? = some pn → vals[i]? = some v →
        pn ∉ params.drop (i + 1) →
        ∃ E2, s2.env fenv = .ok E2 ∧ map_find E2.vars pn = some v := by
  induction hrun with
  | nil s => intro E _ i pn v hp; simp at hp
  | cons a p v s t u s2 args params vals hev hkeep hbind hrest ih =>
    intro E hE i pn w hp hv hlater
    have ht : t.env fenv = .ok E := by rw [hkeep, hE]
    have hu : u.env fenv = .ok { E with vars := map_assign E.vars p v } := by
      simp only [Environment_bind, ht, bind, Except.bind, Except.ok.injEq] at hbind
      rw [← hbind]
      exact env_put_env_same t fenv E _ ht
    cases i with
    | zero =>
      simp only [List.getElem?_cons_zero, Option.some.injEq] at hp hv
      subst hp
      subst hv
      simp only [Nat.zero_add, List.drop_succ_cons, List.drop_zero] at hlater
      obtain ⟨E2, hE2, -, hvars⟩ :=
        run_keeps_bindings ev env fenv args params vals u s2 hrest _ hu
      refine ⟨E2, hE2, ?_⟩
      rw [hvars p hlater]
      exact map_find_map_assign_same E.vars p v
    | succ j =>
      simp only [List.getElem?_cons_succ] at hp hv
      simp only [List.drop_succ_cons] at hlater
      exact ih _ hu j pn w hp hv hlater

/-- C27, the claim as stated fails: in `store_with_duplicate_parameter` the
function `f` has two parameters named `a` and the body `a;`. The call
`f(1, 2)` has matching arity; once the arguments are bound the name `a` of
the first parameter has the value 2 of the second argument, not the value 1
of the first, and the call returns 2. -/
theorem C27_duplicate_parameter :
    (∃ s2 : Store,
      bind_arguments (evaluate 1)
        { m_name := "f", m_params := ["a", "a"], m_parent_env := 0,
          m_body := statement_list [statement (varref "a")] } 0 1
        [int_literal "1", int_literal "2"] 0
        (store_with_duplicate_parameter.new_env (some 0)).2 = .ok s2 ∧
      Environment_getVar (s2.new_env (some 1)).2 2 "a" = .ok (VALUE_INT 2)) ∧
    ∃ s6 : Store,
      evaluate 2 (fncall_node "f" [int_literal "1", int_literal "2"]) 0
        store_with_duplicate_parameter = .ok (VALUE_INT 2, s6) :=
  ⟨⟨_, rfl, rfl⟩, ⟨_, rfl⟩⟩

/-- C27, amended: let `f` resolve to a user function, and let the arguments
be evaluated one after the other, each once and in the environment of the
caller, in a run that binds each value to the parameter of the same position
and gives the values `vals` (the run has as many arguments as parameters, and
no evaluation of an argument writes the parameter scope). The call is then
the execution of the body in a new block scope over the parameter scope of
that run, and at the start of the body every parameter name that no later
parameter repeats is bound to the value of the argument of its position; so
is every parameter when the names are pairwise distinct. -/
theorem C27_arguments_bound (fuel : Nat) (f : String) (args : List Node) (env : Nat)
    (s : Store) (p : Nat) (function : Function) (vals : List Value) (s2 : Store)
    (hget : Environment_getVar s env f = .ok (VALUE_FUNCTION p))
    (hfn : s.functions[p]? = some function)
    (hrun : ArgumentRun (evaluate fuel) env s.envs.length args function.m_params vals
      (s.new_env (some function.m_parent_env)).2 s2) :
    args.length = function.m_params.length ∧ vals.length = args.length ∧
    bind_arguments (evaluate fuel) function env s.envs.length args 0
      (s.new_env (some function.m_parent_env)).2 = .ok s2 ∧
    evaluate (fuel + 1) (fncall_node f args) env s =
      (do
        let (result, s3) ← execute_with (evaluate fuel) function.m_body s2.envs.length
          (s2.new_env (some s.envs.length)).2
        .ok (result, (s3.delete_env s.envs.length).delete_env s2.envs.length)) ∧
    (∀ (i : Nat) (pn : String) (v : Value),
      function.m_params[i]? = some pn → vals[i]? = some v →
      pn ∉ function.m_params.drop (i + 1) →
      Environment_getVar (s2.new_env (some s.envs.length)).2 s2.envs.length pn = .ok v) ∧
    (function.m_params.Nodup →
      ∀ (i : Nat) (pn : String) (v : Value),
        function.m_params[i]? = some pn → vals[i]? = some v →
        Environment_getVar (s2.new_env (some s.envs.length)).2 s2.envs.length pn = .ok v) := by
  have hlen := run_lengths (evaluate fuel) env s.envs.length args function.m_params vals _ s2
    hrun
  have hbind := bind_arguments_of_run (evaluate fuel) function env s.envs.length args
    function.m_params vals _ s2 hrun 0 rfl
  have hE : ((s.new_env (some function.m_parent_env)).2).env s.envs.length =
      .ok { m_parent := some function.m_parent_env, vars := [] } := by
    simp [Store.new_env, Store.env]
  have hlook : ∀ (i : Nat) (pn : String) (v : Value),
      function.m_params[i]? = some pn → vals[i]? = some v →
      pn ∉ function.m_params.drop (i + 1) →
      Environment_getVar (s2.new_env (some s.envs.length)).2 s2.envs.length pn = .ok v := by
    intro i pn v hp hv hlater
    obtain ⟨E2, hE2, hfind⟩ := run_binds (evaluate fuel) env s.envs.length args
      function.m_params vals _ s2 hrun _ hE i pn v hp hv hlater
    apply block_scope_getVar
    have hlt : s.envs.length < s2.envs.length := by
      simp only [Store.env] at hE2
      cases hq : s2.envs[s.envs.length]? with
      | none => simp [hq] at hE2
      | some o => exact (List.getElem?_eq_some_iff.mp hq).1
    obtain ⟨k, hk⟩ : ∃ k, s2.envs.length = k + 1 := ⟨s2.envs.length - 1, by omega⟩
    simp [Environment_getVar, hk, getVar_walk, hE2, bind, Except.bind, hfind]
  refine ⟨hlen.1, hlen.2, hbind, ?_, hlook, ?_⟩
  · rw [evaluate_call_user fuel f args env s p function hget hfn hlen.1, hbind]
    rfl
  · intro hnd i pn v hp hv
    apply hlook i pn v hp hv
    intro hmem
    obtain ⟨j, hj⟩ := List.getElem?_of_mem hmem
    rw [List.getElem?_drop] at hj
    have hilt : i < function.m_params.length := (List.getElem?_eq_some_iff.mp hp).1
    have hjlt : i + 1 + j < function.m_params.length := (List.getElem?_eq_some_iff.mp hj).1
    have heq := (@List.Nodup.getElem_inj_iff _ _ hnd i hilt (i + 1 + j) hjlt).mp (by
      have h1 := (List.getElem?_eq_some_iff.mp hp).2
      have h2 := (List.getElem?_eq_some_iff.mp hj).2
      rw [h1, h2])
    omega

/-- Witness of C27: `f(1, 2)` in `store_with_f`, where `f` has the
parameters `a` and `b`. -/
theorem C27_arguments_bound_witness :
    ∃ s2 : Store,
      bind_arguments (evaluate 1)
        { m_name := "f", m_params := ["a", "b"], m_parent_env := 0,
          m_body := statement_list [statement (varref "a")] } 0 store_with_f.envs.length
        [int_literal "1", int_literal "2"] 0 (store_with_f.new_env (some 0)).2 = .ok s2 ∧
      Environment_getVar (s2.new_env (some store_with_f.envs.length)).2 s2.envs.length "a" =
        .ok (VALUE_INT 1) ∧
      Environment_getVar (s2.new_env (some store_with_f.envs.length)).2 s2.envs.length "b" =
        .ok (VALUE_INT 2) := by
  have h := C27_arguments_bound 1 "f" [int_literal "1", int_literal "2"] 0 store_with_f 0
    { m_name := "f", m_params := ["a", "b"], m_parent_env := 0,
      m_body := statement_list [statement (varref "a")] } [VALUE_INT 1, VALUE_INT 2] _ rfl rfl
    (ArgumentRun.cons _ _ _ _ _ _ _ _ _ _ rfl rfl rfl
      (ArgumentRun.cons _ _ _ _ _ _ _ _ _ _ rfl rfl rfl (ArgumentRun.nil _)))
  exact ⟨_, h.2.2.1, h.2.2.2.2.2 (by decide) 0 "a" (VALUE_INT 1) rfl rfl,
    h.2.2.2.2.2 (by decide) 1 "b" (VALUE_INT 2) rfl rfl⟩

/-! ### C29: function definitions -/

/-- C29: executing the top-level definition `function f(p1, ..., pn) { body }`
in a live global environment `g` raises nothing and evaluates to 0. It adds
one function to the store, named `f`, with the parameter names in order, the
given body and `g` as defining environment, and binds `f` in `g` to that
function, whatever `f` was bound to; every other binding of `g`, every other
environment, the arrays and the standard streams are as before. The
top-level loop goes on with the remaining statements in that store. -/
theorem C29_function_definition (fuel : Nat) (f : String) (params : List String)
    (body : List Node) (g : Nat) (s : Store) (E : Environment) (rest : List Node) (r0 : Value)
    (hg : s.env g = .ok E) :
    ∃ s2 : Store,
      create_function (function_node f params body) g s = .ok (VALUE_INT 0, s2) ∧
      s2.functions = s.functions ++
        [{ m_name := f, m_params := params, m_parent_env := g,
           m_body := statement_list body }] ∧
      s2.env g = .ok { E with vars := map_assign E.vars f (VALUE_FUNCTION s.functions.length) } ∧
      map_find (map_assign E.vars f (VALUE_FUNCTION s.functions.length)) f =
        some (VALUE_FUNCTION s.functions.length) ∧
      (∀ y, y ≠ f →
        map_find (map_assign E.vars f (VALUE_FUNCTION s.functions.length)) y =
          map_find E.vars y) ∧
      Environment_getVar s2 g f = .ok (VALUE_FUNCTION s.functions.length) ∧
      (∀ q, q ≠ g → s2.envs[q]? = s.envs[q]?) ∧
      s2.arrays = s.arrays ∧ s2.output = s.output ∧ s2.input = s.input ∧
      execute_top_loop fuel g (function_node f params body :: rest) r0 s =
        execute_top_loop fuel g rest (VALUE_INT 0) s2 := by
  have hcf : create_function (function_node f params body) g s =
      .ok (VALUE_INT 0, Store.put_env { s with functions := s.functions ++
        [{ m_name := f, m_params := params, m_parent_env := g,
           m_body := statement_list body }] } g
        { E with vars := map_assign E.vars f (VALUE_FUNCTION s.functions.length) }) := by
    have hg2 : Store.env { s with functions := s.functions ++
        [{ m_name := f, m_params := params, m_parent_env := g,
           m_body := statement_list body }] } g = .ok E := hg
    simp [create_function, function_node, varref, Node.get_kid, Node.kids, Node.get_str,
      Node.get_num_kids, bind, Except.bind, Environment_bind, hg2, Function.comp_def]
  have henv : (Store.put_env { s with functions := s.functions ++
        [{ m_name := f, m_params := params, m_parent_env := g,
           m_body := statement_list body }] } g
        { E with vars := map_assign E.vars f (VALUE_FUNCTION s.functions.length) }).env g =
      .ok { E with vars := map_assign E.vars f (VALUE_FUNCTION s.functions.length) } :=
    env_put_env_same _ g E _ hg
  have hglt : g < s.envs.length := by
    simp only [Store.env] at hg
    cases hq : s.envs[g]? with
    | none => simp [hq] at hg
    | some o => exact (List.getElem?_eq_some_iff.mp hq).1
  refine ⟨_, hcf, rfl, henv, map_find_map_assign_same _ _ _,
    fun y hy => map_find_map_assign_other _ _ _ _ hy, ?_, ?_, rfl, rfl, rfl, ?_⟩
  · obtain ⟨k, hk⟩ : ∃ k, s.envs.length = k + 1 := ⟨s.envs.length - 1, by omega⟩
    have hlen : (Store.put_env { s with functions := s.functions ++
        [{ m_name := f, m_params := params, m_parent_env := g,
           m_body := statement_list body }] } g
        { E with vars := map_assign E.vars f (VALUE_FUNCTION s.functions.length) }).envs.length =
        k + 1 := by
      simp [Store.put_env, hk]
    simp only [Environment_getVar, hlen, getVar_walk, bind, Except.bind, henv,
      map_find_map_assign_same]
  · intro q hq
    simp [Store.put_env, List.getElem?_set, Ne.symm hq]
  · simp only [execute_top_loop, function_node, Node.get_tag, if_true, bind, Except.bind]
    have hcf2 := hcf
    simp only [function_node] at hcf2
    rw [hcf2]

/-- Witness of C29: `function f(a) { a; }` in the store that holds only an
empty global scope. -/
theorem C29_function_definition_witness :
    ∃ s2 : Store,
      create_function (function_node "f" ["a"] [statement (varref "a")]) 0
        empty_global_store = .ok (VALUE_INT 0, s2) ∧
      s2.functions =
        [{ m_name := "f", m_params := ["a"], m_parent_env := 0,
           m_body := statement_list [statement (varref "a")] }] ∧
      Environment_getVar s2 0 "f" = .ok (VALUE_FUNCTION 0) := by
  obtain ⟨s2, h1, h2, -, -, -, h3, -⟩ :=
    C29_function_definition 0 "f" ["a"] [statement (varref "a")] 0 empty_global_store
      { m_parent := none, vars := [] } [] (VALUE_INT 0) rfl
  exact ⟨s2, h1, h2, h3⟩

/-! ### The lexer: the lookahead buffer and the unread input -/

theorem with_lookahead_self (lx : Lexer) : lx.with_lookahead lx.m_lookahead = lx := rfl

theorem read_with_lookahead (lx : Lexer) (la : List Token) :
    (lx.with_lookahead la).read = ((lx.read).1, (lx.read).2.with_lookahead la) := by
  rcases lx with ⟨i, e, l⟩
  cases e <;> cases i <;> rfl

theorem read_some (lx lx1 : Lexer) (c : Char) (h : lx.read = (some c, lx1)) :
    lx.m_in = c :: lx1.m_in ∧ lx1.m_eof = false ∧ lx.m_eof = false := by
  rcases lx with ⟨i, e, l⟩
  cases e <;> cases i <;> simp [Lexer.read] at h
  obtain ⟨rfl, rfl⟩ := h
  exact ⟨rfl, rfl, rfl⟩

theorem read_none (lx lx1 : Lexer) (h : lx.read = (none, lx1)) :
    lx1.m_eof = true ∧ lx1.m_in = lx.m_in := by
  rcases lx with ⟨i, e, l⟩
  cases e <;> cases i <;> simp [Lexer.read] at h <;> subst h <;> exact ⟨rfl, rfl⟩

theorem read_continued_loop_with_lookahead (kind : TokenKind) (pred : Char → Bool)
    (la : List Token) :
    ∀ (n : Nat) (lexeme : String) (lx : Lexer),
      read_continued_loop kind pred n lexeme (lx.with_lookahead la) =
        ((read_continued_loop kind pred n lexeme lx).1,
         (read_continued_loop kind pred n lexeme lx).2.with_lookahead la) := by
  intro n
  induction n with
  | zero => intro lexeme lx; rfl
  | succ n ih =>
    intro lexeme lx
    simp only [read_continued_loop, read_with_lookahead]
    rcases hr : lx.read with ⟨_ | c, lx1⟩
    · rfl
    · simp only
      by_cases hp : pred c = true
      · simp only [hp, if_true]
        exact ih _ _
      · simp only [hp, Bool.false_eq_true, if_false]
        rfl

theorem read_continued_loop_length (kind : TokenKind) (pred : Char → Bool) :
    ∀ (n : Nat) (lexeme : String) (lx : Lexer),
      (read_continued_loop kind pred n lexeme lx).2.m_in.length ≤ lx.m_in.length := by
  intro n
  induction n with
  | zero => intro lexeme lx; exact Nat.le_refl _
  | succ n ih =>
    intro lexeme lx
    simp only [read_continued_loop]
    rcases hr : lx.read with ⟨_ | c, lx1⟩
    · simp only
      rw [(read_none lx lx1 hr).2]
    · have hs := read_some lx lx1 c hr
      simp only
      by_cases hp : pred c = true
      · simp only [hp, if_true]
        have := ih (lexeme.push c) lx1
        rw [hs.1]
        simp only [List.length_cons]
        omega
      · simp only [hp, Bool.false_eq_true, if_false, Lexer.unread]
        rw [hs.1]

theorem try_two_with_lookahead (lx : Lexer) (la : List Token) (first second : Char)
    (k1 k2 : TokenKind) :
    (lx.with_lookahead la).try_two_character_token first second k1 k2 =
      (lx.try_two_character_token first second k1 k2).map
        (fun r => (r.1, r.2.with_lookahead la)) := by
  simp only [Lexer.try_two_character_token, read_with_lookahead]
  rcases hr : lx.read with ⟨_ | c, lx1⟩
  · simp only
    by_cases h1 : (none : Option Char) = some second
    · simp at h1
    · rw [if_neg h1, if_neg h1]
      by_cases h2 : k1 = ERROR
      · rw [if_pos h2, if_pos h2]
        rfl
      · rw [if_neg h2, if_neg h2]
        rfl
  · simp only
    by_cases h1 : some c = some second
    · rw [if_pos h1, if_pos h1]
      rfl
    · rw [if_neg h1, if_neg h1]
      by_cases h2 : k1 = ERROR
      · rw [if_pos h2, if_pos h2]
        rfl
      · rw [if_neg h2, if_neg h2]
        rfl

theorem try_two_length (lx lx2 : Lexer) (first second : Char) (k1 k2 : TokenKind) (tok : Token)
    (h : lx.try_two_character_token first second k1 k2 = .ok (tok, lx2)) :
    lx2.m_in.length ≤ lx.m_in.length := by
  simp only [Lexer.try_two_character_token] at h
  rcases hr : lx.read with ⟨_ | c, lx1⟩
  · have hn := read_none lx lx1 hr
    rw [hr] at h
    simp only at h
    split at h
    · simp only [Except.ok.injEq, Prod.mk.injEq] at h
      rw [← h.2, hn.2]
    · split at h
      · simp at h
      · simp only [Except.ok.injEq, Prod.mk.injEq] at h
        rw [← h.2, hn.2]
  · have hs := read_some lx lx1 c hr
    rw [hr] at h
    simp only at h
    split at h
    · simp only [Except.ok.injEq, Prod.mk.injEq] at h
      rw [← h.2, hs.1]
      simp
    · split at h
      · simp at h
      · simp only [Except.ok.injEq, Prod.mk.injEq] at h
        rw [← h.2, hs.1]
        simp [Lexer.unread]

theorem string_create_loop_with_lookahead (la : List Token) :
    ∀ (n : Nat) (lexeme : String) (lx : Lexer),
      string_create_loop n lexeme (lx.with_lookahead la) =
        (string_create_loop n lexeme lx).map (fun r => (r.1, r.2.with_lookahead la)) := by
  intro n
  induction n with
  | zero => intro lexeme lx; rfl
  | succ n ih =>
    intro lexeme lx
    simp only [string_create_loop, read_with_lookahead]
    rcases hr : lx.read with ⟨_ | c, lx1⟩
    · rfl
    · simp only
      by_cases hb : c = backslash
      · rw [if_pos hb, if_pos hb]
        simp only [read_with_lookahead]
        rcases hr2 : lx1.read with ⟨_ | c2, lx2⟩
        · rfl
        · simp only
          by_cases h1 : c2 = 'n'
          · rw [if_pos h1, if_pos h1]
            exact ih _ _
          · rw [if_neg h1, if_neg h1]
            by_cases h2 : c2 = 't'
            · rw [if_pos h2, if_pos h2]
              exact ih _ _
            · rw [if_neg h2, if_neg h2]
              by_cases h3 : c2 = 'r'
              · rw [if_pos h3, if_pos h3]
                exact ih _ _
              · rw [if_neg h3, if_neg h3]
                by_cases h4 : c2 = dquote
                · rw [if_pos h4, if_pos h4]
                  exact ih _ _
                · rw [if_neg h4, if_neg h4]
                  rfl
      · rw [if_neg hb, if_neg hb]
        by_cases hq : c = dquote
        · rw [if_pos hq, if_pos hq]
          rfl
        · rw [if_neg hq, if_neg hq]
          exact ih _ _

theorem string_create_loop_length :
    ∀ (n : Nat) (lexeme : String) (lx lx2 : Lexer) (tok : Token),
      string_create_loop n lexeme lx = .ok (tok, lx2) →
      lx2.m_in.length ≤ lx.m_in.length := by
  intro n
  induction n with
  | zero => intro lexeme lx lx2 tok h; simp [string_create_loop] at h
  | succ n ih =>
    intro lexeme lx lx2 tok h
    simp only [string_create_loop] at h
    rcases hr : lx.read with ⟨_ | c, lx1⟩
    · rw [hr] at h
      simp at h
    · have hs := read_some lx lx1 c hr
      rw [hr] at h
      simp only at h
      have hlen : lx.m_in.length = lx1.m_in.length + 1 := by rw [hs.1]; rfl
      split at h
      · rcases hr2 : lx1.read with ⟨_ | c2, lx3⟩
        · rw [hr2] at h
          simp at h
        · have hs2 := read_some lx1 lx3 c2 hr2
          have hlen2 : lx1.m_in.length = lx3.m_in.length + 1 := by rw [hs2.1]; rfl
          rw [hr2] at h
          simp only at h
          repeat' split at h
          all_goals first
            | exact Nat.le_trans (ih _ _ _ _ h) (by omega)
            | simp at h
      · split at h
        · simp only [Except.ok.injEq, Prod.mk.injEq] at h
          rw [← h.2]
          omega
        · have := ih _ _ _ _ h
          omega

theorem skip_whitespace_with_lookahead (la : List Token) :
    ∀ (n : Nat) (lx : Lexer),
      skip_whitespace n (lx.with_lookahead la) =
        ((skip_whitespace n lx).1, (skip_whitespace n lx).2.with_lookahead la) := by
  intro n
  induction n with
  | zero => intro lx; rfl
  | succ n ih =>
    intro lx
    simp only [skip_whitespace, read_with_lookahead]
    rcases hr : lx.read with ⟨_ | c, lx1⟩
    · rfl
    · simp only
      split
      · exact ih _
      · rfl

theorem skip_whitespace_some :
    ∀ (n : Nat) (lx lx1 : Lexer) (c : Char), skip_whitespace n lx = (some c, lx1) →
      lx1.m_in.length < lx.m_in.length ∧ lx.m_eof = false := by
  intro n
  induction n with
  | zero => intro lx lx1 c h; simp [skip_whitespace] at h
  | succ n ih =>
    intro lx lx1 c h
    simp only [skip_whitespace] at h
    rcases hr : lx.read with ⟨_ | d, lx2⟩
    · rw [hr] at h
      simp at h
    · have hs := read_some lx lx2 d hr
      have hlen : lx.m_in.length = lx2.m_in.length + 1 := by rw [hs.1]; rfl
      rw [hr] at h
      simp only at h
      split at h
      · have := (ih _ _ _ h).1
        exact ⟨by omega, hs.2.2⟩
      · simp only [Prod.mk.injEq, Option.some.injEq] at h
        rw [← h.2]
        exact ⟨by omega, hs.2.2⟩

theorem skip_whitespace_none :
    ∀ (n : Nat) (lx lx1 : Lexer), lx.m_in.length < n → skip_whitespace n lx = (none, lx1) →
      lx1.m_eof = true := by
  intro n
  induction n with
  | zero => intro lx lx1 hn; omega
  | succ n ih =>
    intro lx lx1 hn h
    simp only [skip_whitespace] at h
    rcases hr : lx.read with ⟨_ | d, lx2⟩
    · rw [hr] at h
      simp only [Prod.mk.injEq, true_and] at h
      rw [← h]
      exact (read_none lx lx2 hr).1
    · have hs := read_some lx lx2 d hr
      have hlen : lx.m_in.length = lx2.m_in.length + 1 := by rw [hs.1]; rfl
      rw [hr] at h
      simp only at h
      split at h
      · exact ih _ _ (by omega) h
      · simp at h
theorem read_token_with_lookahead (lx : Lexer) (la : List Token) :
    (lx.with_lookahead la).read_token =
      (lx.read_token).map (fun r => (r.1, r.2.with_lookahead la)) := by
  have hlen : (lx.with_lookahead la).m_in.length = lx.m_in.length := rfl
  simp only [Lexer.read_token, hlen, skip_whitespace_with_lookahead]
  rcases hs : skip_whitespace (lx.m_in.length + 1) lx with ⟨_ | c, lx1⟩
  · rfl
  · have hlen1 : (lx1.with_lookahead la).m_in.length = lx1.m_in.length := rfl
    simp only [Lexer.read_continued_token, Lexer.string_create, hlen1,
      read_continued_loop_with_lookahead, try_two_with_lookahead,
      string_create_loop_with_lookahead,
      apply_ite (Except.map (fun r : Option Token × Lexer => (r.1, r.2.with_lookahead la)))]
    repeat' (refine ite_congr rfl (fun _ => ?_) (fun _ => ?_))
    all_goals first
      | rfl
      | (cases lx1.try_two_character_token _ _ _ _ <;> rfl)
      | (cases string_create_loop _ _ _ <;> rfl)

theorem read_token_cases (lx : Lexer) (P : Except Failure (Option Token × Lexer) → Prop)
    (hnone : ∀ lx1, skip_whitespace (lx.m_in.length + 1) lx = (none, lx1) → P (.ok (none, lx1)))
    (hcont : ∀ (c : Char) (lx1 : Lexer) (kind : TokenKind) (pred : Char → Bool)
      (g : Token → Token),
      skip_whitespace (lx.m_in.length + 1) lx = (some c, lx1) →
      P (.ok (some (g (read_continued_loop kind pred (lx1.m_in.length + 1)
            (String.singleton c) lx1).1),
          (read_continued_loop kind pred (lx1.m_in.length + 1) (String.singleton c) lx1).2)))
    (hsimple : ∀ (c : Char) (lx1 : Lexer) (tok : Token),
      skip_whitespace (lx.m_in.length + 1) lx = (some c, lx1) → P (.ok (some tok, lx1)))
    (htwo : ∀ (c : Char) (lx1 : Lexer) (first second : Char) (k1 k2 : TokenKind),
      skip_whitespace (lx.m_in.length + 1) lx = (some c, lx1) →
      P ((lx1.try_two_character_token first second k1 k2).map (fun r => (some r.1, r.2))))
    (hstr : ∀ (c : Char) (lx1 : Lexer),
      skip_whitespace (lx.m_in.length + 1) lx = (some c, lx1) →
      P ((string_create_loop (lx1.m_in.length + 1) "" lx1).map (fun r => (some r.1, r.2))))
    (herr : ∀ msg, P (.error (.SyntaxError msg))) :
    P lx.read_token := by
  simp only [Lexer.read_token]
  rcases hs : skip_whitespace (lx.m_in.length + 1) lx with ⟨_ | c, lx1⟩
  · exact hnone _ hs
  · simp only [Lexer.read_continued_token, Lexer.string_create]
    by_cases h0 : isalpha c = true
    · rw [if_pos h0]
      exact hcont c lx1 TOK_IDENTIFIER isalnum keyword_tag hs
    rw [if_neg h0]
    by_cases h1 : isdigit c = true
    · rw [if_pos h1]
      exact hcont c lx1 TOK_INTEGER_LITERAL isdigit id hs
    rw [if_neg h1]
    by_cases h2 : c = '+'
    · rw [if_pos h2]
      exact hsimple _ _ _ hs
    rw [if_neg h2]
    by_cases h3 : c = '-'
    · rw [if_pos h3]
      exact hsimple _ _ _ hs
    rw [if_neg h3]
    by_cases h4 : c = '*'
    · rw [if_pos h4]
      exact hsimple _ _ _ hs
    rw [if_neg h4]
    by_cases h5 : c = '/'
    · rw [if_pos h5]
      exact hsimple _ _ _ hs
    rw [if_neg h5]
    by_cases h6 : c = '('
    · rw [if_pos h6]
      exact hsimple _ _ _ hs
    rw [if_neg h6]
    by_cases h7 : c = ')'
    · rw [if_pos h7]
      exact hsimple _ _ _ hs
    rw [if_neg h7]
    by_cases h8 : c = ';'
    · rw [if_pos h8]
      exact hsimple _ _ _ hs
    rw [if_neg h8]
    by_cases h9 : c = '='
    · rw [if_pos h9]
      exact htwo _ _ _ _ _ _ hs
    rw [if_neg h9]
    by_cases h10 : c = '<'
    · rw [if_pos h10]
      exact htwo _ _ _ _ _ _ hs
    rw [if_neg h10]
    by_cases h11 : c = '>'
    · rw [if_pos h11]
      exact htwo _ _ _ _ _ _ hs
    rw [if_neg h11]
    by_cases h12 : c = '&'
    · rw [if_pos h12]
      exact htwo _ _ _ _ _ _ hs
    rw [if_neg h12]
    by_cases h13 : c = '|'
    · rw [if_pos h13]
      exact htwo _ _ _ _ _ _ hs
    rw [if_neg h13]
    by_cases h14 : c = '!'
    · rw [if_pos h14]
      exact htwo _ _ _ _ _ _ hs
    rw [if_neg h14]
    by_cases h15 : c = Char.ofNat 123
    · rw [if_pos h15]
      exact hsimple _ _ _ hs
    rw [if_neg h15]
    by_cases h16 : c = Char.ofNat 125
    · rw [if_pos h16]
      exact hsimple _ _ _ hs
    rw [if_neg h16]
    by_cases h17 : c = ','
    · rw [if_pos h17]
      exact hsimple _ _ _ hs
    rw [if_neg h17]
    by_cases h18 : c = dquote
    · rw [if_pos h18]
      exact hstr _ _ hs
    rw [if_neg h18]
    exact herr _

theorem read_token_some (lx lx1 : Lexer) (tok : Token)
    (h : lx.read_token = .ok (some tok, lx1)) :
    lx1.m_in.length < lx.m_in.length ∧ lx.m_eof = false ∧
      lx1.m_lookahead = lx.m_lookahead := by
  have hla : lx1.m_lookahead = lx.m_lookahead := by
    have h2 := read_token_with_lookahead lx lx.m_lookahead
    rw [with_lookahead_self, h] at h2
    simp only [Except.map, Except.ok.injEq, Prod.mk.injEq, true_and] at h2
    rw [h2]
    rfl
  have key : ∀ tok lx1, lx.read_token = .ok (some tok, lx1) →
      lx1.m_in.length < lx.m_in.length ∧ lx.m_eof = false := by
    apply read_token_cases lx
      (fun r => ∀ tok lx1, r = .ok (some tok, lx1) →
        lx1.m_in.length < lx.m_in.length ∧ lx.m_eof = false)
    · intro lx2 _ tok lx1 h
      simp at h
    · intro c lx2 kind pred g hs tok lx1 h
      have hsk := skip_whitespace_some _ _ _ _ hs
      have hrc := read_continued_loop_length kind pred (lx2.m_in.length + 1)
        (String.singleton c) lx2
      simp only [Except.ok.injEq, Prod.mk.injEq] at h
      rw [← h.2]
      exact ⟨by omega, hsk.2⟩
    · intro c lx2 tok2 hs tok lx1 h
      have hsk := skip_whitespace_some _ _ _ _ hs
      simp only [Except.ok.injEq, Prod.mk.injEq] at h
      rw [← h.2]
      exact hsk
    · intro c lx2 first second k1 k2 hs tok lx1 h
      have hsk := skip_whitespace_some _ _ _ _ hs
      cases htt : lx2.try_two_character_token first second k1 k2 with
      | error e => rw [htt] at h; simp [Except.map] at h
      | ok r =>
        rw [htt] at h
        simp only [Except.map, Except.ok.injEq, Prod.mk.injEq] at h
        have := try_two_length lx2 r.2 first second k1 k2 r.1 htt
        rw [← h.2]
        exact ⟨by omega, hsk.2⟩
    · intro c lx2 hs tok lx1 h
      have hsk := skip_whitespace_some _ _ _ _ hs
      cases htt : string_create_loop (lx2.m_in.length + 1) "" lx2 with
      | error e => rw [htt] at h; simp [Except.map] at h
      | ok r =>
        rw [htt] at h
        simp only [Except.map, Except.ok.injEq, Prod.mk.injEq] at h
        have := string_create_loop_length _ _ lx2 r.2 r.1 htt
        rw [← h.2]
        exact ⟨by omega, hsk.2⟩
    · intro msg tok lx1 h
      simp at h
  exact ⟨(key tok lx1 h).1, (key tok lx1 h).2, hla⟩

theorem read_token_none (lx lx1 : Lexer) (h : lx.read_token = .ok (none, lx1)) :
    lx1.m_eof = true ∧ lx1.m_lookahead = lx.m_lookahead := by
  have hla : lx1.m_lookahead = lx.m_lookahead := by
    have h2 := read_token_with_lookahead lx lx.m_lookahead
    rw [with_lookahead_self, h] at h2
    simp only [Except.map, Except.ok.injEq, Prod.mk.injEq, true_and] at h2
    rw [h2]
    rfl
  have key : ∀ lx1, lx.read_token = .ok (none, lx1) → lx1.m_eof = true := by
    apply read_token_cases lx (fun r => ∀ lx1, r = .ok (none, lx1) → lx1.m_eof = true)
    · intro lx2 hs lx1 h
      simp only [Except.ok.injEq, Prod.mk.injEq, true_and] at h
      rw [← h]
      exact skip_whitespace_none _ _ _ (Nat.lt_succ_self _) hs
    · intro c lx2 kind pred g hs lx1 h
      simp at h
    · intro c lx2 tok2 hs lx1 h
      simp at h
    · intro c lx2 first second k1 k2 hs lx1 h
      cases htt : lx2.try_two_character_token first second k1 k2 with
      | error e => rw [htt] at h; simp [Except.map] at h
      | ok r => rw [htt] at h; simp [Except.map] at h
    · intro c lx2 hs lx1 h
      cases htt : string_create_loop (lx2.m_in.length + 1) "" lx2 with
      | error e => rw [htt] at h; simp [Except.map] at h
      | ok r => rw [htt] at h; simp [Except.map] at h
    · intro msg lx1 h
      simp at h
  exact ⟨key lx1 h, hla⟩
theorem tokenize_with_lookahead (la : List Token) :
    ∀ (n : Nat) (lx : Lexer), tokenize n (lx.with_lookahead la) = tokenize n lx := by
  intro n
  induction n with
  | zero => intro lx; rfl
  | succ n ih =>
    intro lx
    have he : (lx.with_lookahead la).m_eof = lx.m_eof := rfl
    simp only [tokenize, he, read_token_with_lookahead]
    cases lx.m_eof with
    | true => rfl
    | false =>
      simp only [Bool.false_eq_true, if_false]
      rcases hr : lx.read_token with e | ⟨_ | tok, lx1⟩
      · rfl
      · rfl
      · simp only [Except.map]
        rw [ih lx1]

theorem tokenize_fuel :
    ∀ (n m : Nat) (lx : Lexer), lx.m_in.length < n → lx.m_in.length < m →
      tokenize n lx = tokenize m lx := by
  intro n
  induction n with
  | zero => intro m lx hn; omega
  | succ n ih =>
    intro m lx hn hm
    cases m with
    | zero => omega
    | succ m =>
      simp only [tokenize]
      cases he : lx.m_eof with
      | true => rfl
      | false =>
        simp only [Bool.false_eq_true, if_false]
        rcases hr : lx.read_token with e | ⟨_ | tok, lx1⟩
        · rfl
        · rfl
        · have hlt := (read_token_some lx lx1 tok hr).1
          simp only
          rw [ih m lx1 (by omega) (by omega)]

theorem fill_loop_spec (k : Nat) :
    ∀ (f : Nat) (lx : Lexer) (ts : List Token), lx.m_in.length < f →
      tokenize (lx.m_in.length + 1) lx = .ok ts →
      ∃ (lx1 : Lexer) (ts1 : List Token),
        fill_loop k f lx = .ok lx1 ∧
        tokenize (lx1.m_in.length + 1) lx1 = .ok ts1 ∧
        lx1.m_lookahead ++ ts1 = lx.m_lookahead ++ ts ∧
        (k ≤ lx1.m_lookahead.length ∨ ts1 = []) := by
  intro f
  induction f with
  | zero => intro lx ts hf; omega
  | succ f ih =>
    intro lx ts hf htok
    simp only [fill_loop]
    by_cases hc : (!lx.m_eof && decide (lx.m_lookahead.length < k)) = true
    · rw [if_pos hc]
      simp only [Bool.and_eq_true, Bool.not_eq_true', decide_eq_true_eq] at hc
      simp only [tokenize, hc.1, Bool.false_eq_true, if_false] at htok
      rcases hr : lx.read_token with e | ⟨_ | tok, lx1⟩
      · rw [hr] at htok
        simp at htok
      · rw [hr] at htok
        simp only [Except.ok.injEq] at htok
        obtain ⟨heof, hla⟩ := read_token_none lx lx1 hr
        have hfill : fill_loop k f lx1 = .ok lx1 := by
          cases f with
          | zero => rfl
          | succ f => simp [fill_loop, heof]
        refine ⟨lx1, [], hfill, ?_, ?_, Or.inr rfl⟩
        · simp [tokenize, heof]
        · rw [hla, ← htok]
      · rw [hr] at htok
        obtain ⟨hlt, -, hla⟩ := read_token_some lx lx1 tok hr
        simp only at htok
        cases hrest : tokenize lx.m_in.length lx1 with
        | error e => rw [hrest] at htok; simp [Except.map] at htok
        | ok rest =>
          rw [hrest] at htok
          simp only [Except.map, Except.ok.injEq] at htok
          have hrest2 : tokenize (lx1.m_in.length + 1)
              (lx1.with_lookahead (lx1.m_lookahead ++ [tok])) = .ok rest := by
            rw [tokenize_with_lookahead, ← hrest]
            exact tokenize_fuel _ _ lx1 (by omega) hlt
          obtain ⟨lx2, ts2, hfill, htok2, happ, hor⟩ :=
            ih (lx1.with_lookahead (lx1.m_lookahead ++ [tok])) rest
              (by show lx1.m_in.length < f; omega) hrest2
          refine ⟨lx2, ts2, hfill, htok2, ?_, hor⟩
          rw [happ, ← htok, hla]
          simp [Lexer.with_lookahead]
    · rw [if_neg hc]
      refine ⟨lx, ts, rfl, htok, rfl, ?_⟩
      simp only [Bool.and_eq_true, Bool.not_eq_true', decide_eq_true_eq, not_and, not_lt] at hc
      cases he : lx.m_eof with
      | false => exact Or.inl (hc he)
      | true =>
        simp only [tokenize, he, if_true, Except.ok.injEq] at htok
        exact Or.inr htok.symm

theorem remaining_iff (lx : Lexer) (R : List Token) :
    lx.remaining = .ok R ↔
      ∃ ts, tokenize (lx.m_in.length + 1) lx = .ok ts ∧ R = lx.m_lookahead ++ ts := by
  unfold Lexer.remaining
  cases tokenize (lx.m_in.length + 1) lx with
  | error e => simp [Except.map]
  | ok ts =>
    simp only [Except.map, Except.ok.injEq]
    constructor
    · intro h
      exact ⟨ts, rfl, h.symm⟩
    · rintro ⟨ts2, rfl, h⟩
      exact h.symm

theorem fill_remaining (lx : Lexer) (R : List Token) (k : Nat) (hk : 0 < k)
    (hR : lx.remaining = .ok R) :
    ∃ (lx1 : Lexer) (ts1 : List Token),
      lx.fill k = .ok lx1 ∧ lx1.remaining = .ok R ∧
      tokenize (lx1.m_in.length + 1) lx1 = .ok ts1 ∧
      R = lx1.m_lookahead ++ ts1 ∧
      (k ≤ lx1.m_lookahead.length ∨ ts1 = []) := by
  obtain ⟨ts, htok, rfl⟩ := (remaining_iff lx R).mp hR
  obtain ⟨lx1, ts1, hfill, htok1, happ, hor⟩ :=
    fill_loop_spec k (lx.m_in.length + 1) lx ts (Nat.lt_succ_self _) htok
  refine ⟨lx1, ts1, ?_, (remaining_iff lx1 _).mpr ⟨ts1, htok1, happ.symm⟩, htok1, happ.symm, hor⟩
  simp only [Lexer.fill]
  rw [if_neg (by omega)]
  exact hfill

theorem peek_remaining (lx : Lexer) (R : List Token) (k : Nat) (hk : 0 < k)
    (hR : lx.remaining = .ok R) :
    ∃ lx1 : Lexer, lx.peek k = .ok (R[k - 1]?, lx1) ∧ lx1.remaining = .ok R := by
  obtain ⟨lx1, ts1, hfill, hrem, -, happ, hor⟩ := fill_remaining lx R k hk hR
  refine ⟨lx1, ?_, hrem⟩
  simp only [Lexer.peek, hfill]
  by_cases hlt : lx1.m_lookahead.length < k
  · rw [if_pos hlt]
    have hts : ts1 = [] := by
      rcases hor with h | h
      · omega
      · exact h
    have hlen : R.length ≤ k - 1 := by
      rw [happ, hts, List.append_nil]
      omega
    rw [List.getElem?_eq_none hlen]
  · rw [if_neg hlt]
    have hlt2 : k - 1 < lx1.m_lookahead.length := by omega
    rw [happ, List.getElem?_append_left hlt2, List.get?_eq_getElem?]

theorem next_remaining_nil (lx : Lexer) (hR : lx.remaining = .ok []) :
    lx.next = .error (.SyntaxError "Unexpected end of input") := by
  obtain ⟨lx1, ts1, hfill, -, -, happ, -⟩ := fill_remaining lx [] 1 Nat.one_pos hR
  have hla : lx1.m_lookahead = [] := (List.append_eq_nil.mp happ.symm).1
  simp only [Lexer.next, hfill, hla]

theorem next_remaining_cons (lx : Lexer) (t : Token) (rest : List Token)
    (hR : lx.remaining = .ok (t :: rest)) :
    ∃ lx1 : Lexer, lx.next = .ok (t, lx1) ∧ lx1.remaining = .ok rest := by
  obtain ⟨lx1, ts1, hfill, -, htok1, happ, hor⟩ :=
    fill_remaining lx (t :: rest) 1 Nat.one_pos hR
  cases hla : lx1.m_lookahead with
  | nil =>
    rw [hla] at happ hor
    rcases hor with h | h
    · simp at h
    · rw [h] at happ
      simp at happ
  | cons t2 la2 =>
    rw [hla] at happ
    simp only [List.cons_append, List.cons.injEq] at happ
    obtain ⟨rfl, hrest⟩ := happ
    refine ⟨lx1.with_lookahead la2, ?_, ?_⟩
    · simp only [Lexer.next, hfill, hla]
      rfl
    · refine (remaining_iff _ _).mpr ⟨ts1, ?_, hrest⟩
      have hlen : (lx1.with_lookahead la2).m_in.length = lx1.m_in.length := rfl
      rw [hlen, tokenize_with_lookahead]
      exact htok1

theorem next_tokens_remaining :
    ∀ (k : Nat) (lx : Lexer) (R : List Token), lx.remaining = .ok R → k ≤ R.length →
      ∃ lx1 : Lexer, next_tokens k lx = .ok (R.take k, lx1) ∧
        lx1.remaining = .ok (R.drop k) := by
  intro k
  induction k with
  | zero => intro lx R hR _; exact ⟨lx, rfl, hR⟩
  | succ k ih =>
    intro lx R hR hk
    cases R with
    | nil => simp at hk
    | cons t rest =>
      obtain ⟨lx1, hnext, hrem⟩ := next_remaining_cons lx t rest hR
      obtain ⟨lx2, hnt, hrem2⟩ := ih lx1 rest hrem (by simpa using hk)
      refine ⟨lx2, ?_, hrem2⟩
      simp only [next_tokens, hnext, hnt, List.take_succ_cons]
/-! ### C30: peek and next -/

/-- C30, the claim as stated fails: on the input `@` no token can be read,
and `peek(1)` does not return "no token" but raises the syntax error of an
unrecognized character. -/
theorem C30_peek_lexical_error :
    (Lexer.create ['@']).peek 1 =
      .error (.SyntaxError ("Unrecognized character '" ++ String.singleton '@' ++ "'")) := by
  rfl

/-- C30, amended: let the unread input hold no lexical error, and let `R` be
the tokens not yet consumed. For every `k ≥ 1`, `peek(k)` returns the `k`-th
token of `R`, or "no token" when `R` has fewer than `k` tokens and only then,
and leaves the tokens not yet consumed as they are, so that a repeated
`peek(k)` returns the same; when `R` has at least `k` tokens, `k` calls of
`next()` return the first `k` tokens of `R` in order, which are the tokens
that `peek(1)`, ..., `peek(k)` return, and leave the others; and `next()`
raises the syntax error "Unexpected end of input" when `R` is empty and
returns the first token of `R` otherwise. -/
theorem C30_peek_next (lx : Lexer) (R : List Token) (k : Nat) (hk : 1 ≤ k)
    (hR : lx.remaining = .ok R) :
    (∃ lx1 : Lexer, lx.peek k = .ok (R[k - 1]?, lx1) ∧ lx1.remaining = .ok R ∧
      ∃ lx2 : Lexer, lx1.peek k = .ok (R[k - 1]?, lx2) ∧ lx2.remaining = .ok R) ∧
    (R[k - 1]? = none ↔ R.length < k) ∧
    (k ≤ R.length →
      (∃ lx3 : Lexer, next_tokens k lx = .ok (R.take k, lx3) ∧
        lx3.remaining = .ok (R.drop k)) ∧
      ∀ i, 1 ≤ i → i ≤ k →
        ∃ (tok : Token) (lx4 : Lexer),
          lx.peek i = .ok (some tok, lx4) ∧ (R.take k)[i - 1]? = some tok) ∧
    (R = [] → lx.next = .error (.SyntaxError "Unexpected end of input")) ∧
    (R ≠ [] → ∃ (tok : Token) (lx5 : Lexer),
      lx.next = .ok (tok, lx5) ∧ R.head? = some tok ∧ lx5.remaining = .ok R.tail) := by
  refine ⟨?_, ?_, ?_, ?_, ?_⟩
  · obtain ⟨lx1, hp, hrem⟩ := peek_remaining lx R k hk hR
    obtain ⟨lx2, hp2, hrem2⟩ := peek_remaining lx1 R k hk hrem
    exact ⟨lx1, hp, hrem, lx2, hp2, hrem2⟩
  · rw [List.getElem?_eq_none_iff]
    omega
  · intro hle
    refine ⟨next_tokens_remaining k lx R hR hle, ?_⟩
    intro i hi hik
    obtain ⟨lx4, hp, -⟩ := peek_remaining lx R i hi hR
    have hlt : i - 1 < R.length := by omega
    refine ⟨R[i - 1], lx4, ?_, ?_⟩
    · rw [hp, List.getElem?_eq_getElem hlt]
    · rw [List.getElem?_take_of_lt (by omega), List.getElem?_eq_getElem hlt]
  · intro hnil
    subst hnil
    exact next_remaining_nil lx hR
  · intro hne
    cases R with
    | nil => exact absurd rfl hne
    | cons t rest =>
      obtain ⟨lx5, hn, hrem⟩ := next_remaining_cons lx t rest hR
      exact ⟨t, lx5, hn, rfl, hrem⟩

/-- Witness of C30: the input `a b` and `k = 2`. -/
theorem C30_peek_next_witness :
    (∃ lx1 : Lexer,
      (Lexer.create ['a', ' ', 'b']).peek 2 =
        .ok (([⟨TOK_IDENTIFIER, "a"⟩, ⟨TOK_IDENTIFIER, "b"⟩] : List Token)[2 - 1]?, lx1) ∧
      lx1.remaining = .ok [⟨TOK_IDENTIFIER, "a"⟩, ⟨TOK_IDENTIFIER, "b"⟩]) ∧
    (∃ lx3 : Lexer,
      next_tokens 2 (Lexer.create ['a', ' ', 'b']) =
        .ok (([⟨TOK_IDENTIFIER, "a"⟩, ⟨TOK_IDENTIFIER, "b"⟩] : List Token).take 2, lx3) ∧
      lx3.remaining =
        .ok (([⟨TOK_IDENTIFIER, "a"⟩, ⟨TOK_IDENTIFIER, "b"⟩] : List Token).drop 2)) := by
  have h := C30_peek_next (Lexer.create ['a', ' ', 'b'])
    [⟨TOK_IDENTIFIER, "a"⟩, ⟨TOK_IDENTIFIER, "b"⟩] 2 (by decide) rfl
  obtain ⟨⟨lx1, hp, hrem, -⟩, -, hnext, -, -⟩ := h
  exact ⟨⟨lx1, hp, hrem⟩, (hnext (by decide)).1⟩

/-! ### The parser reads the lexer only through its tokens -/

theorem same_result_error {α : Type} (e : Failure) :
    same_result (.error e : Except Failure (α × Lexer)) (.error e) := rfl

theorem same_result_ok {α : Type} (a : α) (l1 l2 : Lexer) (h : l1.same_tokens l2) :
    same_result (.ok (a, l1)) (.ok (a, l2)) := ⟨rfl, h⟩

theorem same_result_ite {α : Type} (c : Prop) [Decidable c]
    (a1 a2 b1 b2 : Except Failure (α × Lexer))
    (ha : c → same_result a1 a2) (hb : ¬c → same_result b1 b2) :
    same_result (if c then a1 else b1) (if c then a2 else b2) := by
  by_cases hc : c
  · rw [if_pos hc, if_pos hc]; exact ha hc
  · rw [if_neg hc, if_neg hc]; exact hb hc

theorem bind_rec {α β : Type} (r1 r2 : Except Failure (α × Lexer))
    (f1 f2 : α × Lexer → Except Failure (β × Lexer))
    (h : same_result r1 r2)
    (hf : ∀ a m1 m2, m1.same_tokens m2 → same_result (f1 (a, m1)) (f2 (a, m2))) :
    same_result (r1 >>= f1) (r2 >>= f2) := by
  rcases r1 with e1 | ⟨a1, l1⟩ <;> rcases r2 with e2 | ⟨a2, l2⟩
  · exact h
  · exact h.elim
  · exact h.elim
  · obtain ⟨rfl, hl⟩ := h
    exact hf a1 l1 l2 hl

theorem peek_same (l1 l2 : Lexer) (k : Nat) (hk : 0 < k) (h : l1.same_tokens l2) :
    same_result (l1.peek k) (l2.peek k) := by
  obtain ⟨R, h1, h2⟩ := h
  obtain ⟨m1, hp1, hr1⟩ := peek_remaining l1 R k hk h1
  obtain ⟨m2, hp2, hr2⟩ := peek_remaining l2 R k hk h2
  rw [hp1, hp2]
  exact ⟨rfl, R, hr1, hr2⟩

theorem expect_same (l1 l2 : Lexer) (K : TokenKind) (h : l1.same_tokens l2) :
    same_result (expect l1 K) (expect l2 K) := by
  obtain ⟨R, h1, h2⟩ := h
  cases R with
  | nil =>
    simp only [expect, next_remaining_nil l1 h1, next_remaining_nil l2 h2]
    rfl
  | cons t rest =>
    obtain ⟨m1, hn1, hr1⟩ := next_remaining_cons l1 t rest h1
    obtain ⟨m2, hn2, hr2⟩ := next_remaining_cons l2 t rest h2
    simp only [expect, hn1, hn2]
    apply same_result_ite
    · intro _; rfl
    · intro _; exact ⟨rfl, rest, hr1, hr2⟩

theorem bind_peek {β : Type} (l1 l2 : Lexer) (k : Nat)
    (f1 f2 : Option Token × Lexer → Except Failure (β × Lexer))
    (hk : 0 < k) (h : l1.same_tokens l2)
    (hf : ∀ a m1 m2, m1.same_tokens m2 → same_result (f1 (a, m1)) (f2 (a, m2))) :
    same_result (l1.peek k >>= f1) (l2.peek k >>= f2) :=
  bind_rec _ _ _ _ (peek_same l1 l2 k hk h) hf

theorem bind_expect {β : Type} (l1 l2 : Lexer) (K : TokenKind)
    (f1 f2 : Token × Lexer → Except Failure (β × Lexer))
    (h : l1.same_tokens l2)
    (hf : ∀ a m1 m2, m1.same_tokens m2 → same_result (f1 (a, m1)) (f2 (a, m2))) :
    same_result (expect l1 K >>= f1) (expect l2 K >>= f2) :=
  bind_rec _ _ _ _ (expect_same l1 l2 K h) hf

theorem bind_discard {β : Type} (l1 l2 : Lexer) (K : TokenKind)
    (f1 f2 : Lexer → Except Failure (β × Lexer))
    (h : l1.same_tokens l2)
    (hf : ∀ m1 m2, m1.same_tokens m2 → same_result (f1 m1) (f2 m2)) :
    same_result (expect_and_discard l1 K >>= f1) (expect_and_discard l2 K >>= f2) := by
  have he := expect_same l1 l2 K h
  simp only [expect_and_discard]
  rcases h1 : expect l1 K with e1 | ⟨a1, m1⟩ <;> rcases h2 : expect l2 K with e2 | ⟨a2, m2⟩ <;>
    rw [h1, h2] at he
  · exact he
  · exact he.elim
  · exact he.elim
  · exact hf m1 m2 he.2

theorem parse_mutual_same : ∀ n : Nat,
    (∀ (l1 l2 : Lexer), l1.same_tokens l2 →
      same_result (parse_Stmt n l1) (parse_Stmt n l2)) ∧
    (∀ (x : Node) (l1 l2 : Lexer), l1.same_tokens l2 →
      same_result (parse_SList n x l1) (parse_SList n x l2)) ∧
    (∀ (l1 l2 : Lexer), l1.same_tokens l2 →
      same_result (parse_A n l1) (parse_A n l2)) ∧
    (∀ (l1 l2 : Lexer), l1.same_tokens l2 →
      same_result (parse_L n l1) (parse_L n l2)) ∧
    (∀ (l1 l2 : Lexer), l1.same_tokens l2 →
      same_result (parse_R n l1) (parse_R n l2)) ∧
    (∀ (l1 l2 : Lexer), l1.same_tokens l2 →
      same_result (parse_E n l1) (parse_E n l2)) ∧
    (∀ (x : Node) (l1 l2 : Lexer), l1.same_tokens l2 →
      same_result (parse_EPrime n x l1) (parse_EPrime n x l2)) ∧
    (∀ (l1 l2 : Lexer), l1.same_tokens l2 →
      same_result (parse_T n l1) (parse_T n l2)) ∧
    (∀ (x : Node) (l1 l2 : Lexer), l1.same_tokens l2 →
      same_result (parse_TPrime n x l1) (parse_TPrime n x l2)) ∧
    (∀ (l1 l2 : Lexer), l1.same_tokens l2 →
      same_result (parse_F n l1) (parse_F n l2)) ∧
    (∀ (l1 l2 : Lexer), l1.same_tokens l2 →
      same_result (parse_OptArgList n l1) (parse_OptArgList n l2)) ∧
    (∀ (x : Node) (l1 l2 : Lexer), l1.same_tokens l2 →
      same_result (parse_ArgList n x l1) (parse_ArgList n x l2)) := by
  intro n
  induction n with
  | zero =>
    refine ⟨?_, ?_, ?_, ?_, ?_, ?_, ?_, ?_, ?_, ?_, ?_, ?_⟩ <;> intros <;> rfl
  | succ n ih =>
    obtain ⟨ihStmt, ihSList, ihA, ihL, ihR, ihE, ihEPrime, ihT, ihTPrime, ihF, ihOptArgList,
      ihArgList⟩ := ih
    refine ⟨?_, ?_, ?_, ?_, ?_, ?_, ?_, ?_, ?_, ?_, ?_, ?_⟩
    · intro l1 l2 h
      rw [parse_Stmt, parse_Stmt]
      repeat' first
        | exact same_result_error _
        | (apply same_result_ok; assumption)
        | (apply same_result_ite <;> intro _)
        | (apply bind_peek <;> [decide; assumption; (intro _ _ _ _; try dsimp only)])
        | (apply bind_expect <;> [assumption; (intro _ _ _ _; try dsimp only)])
        | (apply bind_discard <;> [assumption; (intro _ _ _; try dsimp only)])
        | (refine bind_rec _ _ _ _ (ihA _ _ ?_) ?_ <;>
            [assumption; (intro _ _ _ _; try dsimp only)])
        | (refine bind_rec _ _ _ _ (ihSList _ _ _ ?_) ?_ <;>
            [assumption; (intro _ _ _ _; try dsimp only)])
        | split
    · intro x l1 l2 h
      rw [parse_SList, parse_SList]
      repeat' first
        | (apply same_result_ok; assumption)
        | (apply ihSList; assumption)
        | (apply same_result_ite <;> intro _)
        | (apply bind_peek <;> [decide; assumption; (intro _ _ _ _; try dsimp only)])
        | (refine bind_rec _ _ _ _ (ihStmt _ _ ?_) ?_ <;>
            [assumption; (intro _ _ _ _; try dsimp only)])
    · intro l1 l2 h
      rw [parse_A, parse_A]
      repeat' first
        | exact same_result_error _
        | (apply same_result_ok; assumption)
        | (apply ihL; assumption)
        | (apply same_result_ite <;> intro _)
        | (apply bind_peek <;> [decide; assumption; (intro _ _ _ _; try dsimp only)])
        | (apply bind_discard <;> [assumption; (intro _ _ _; try dsimp only)])
        | (refine bind_rec _ _ _ _ (ihA _ _ ?_) ?_ <;>
            [assumption; (intro _ _ _ _; try dsimp only)])
        | split
    · intro l1 l2 h
      rw [parse_L, parse_L]
      repeat' first
        | exact same_result_error _
        | (apply same_result_ok; assumption)
        | (apply same_result_ite <;> intro _)
        | (apply bind_peek <;> [decide; assumption; (intro _ _ _ _; try dsimp only)])
        | (apply bind_expect <;> [assumption; (intro _ _ _ _; try dsimp only)])
        | (refine bind_rec _ _ _ _ (ihR _ _ ?_) ?_ <;>
            [assumption; (intro _ _ _ _; try dsimp only)])
        | split
    · intro l1 l2 h
      rw [parse_R, parse_R]
      repeat' first
        | exact same_result_error _
        | (apply same_result_ok; assumption)
        | (apply same_result_ite <;> intro _)
        | (apply bind_peek <;> [decide; assumption; (intro _ _ _ _; try dsimp only)])
        | (apply bind_expect <;> [assumption; (intro _ _ _ _; try dsimp only)])
        | (refine bind_rec _ _ _ _ (ihE _ _ ?_) ?_ <;>
            [assumption; (intro _ _ _ _; try dsimp only)])
        | split
    · intro l1 l2 h
      rw [parse_E, parse_E]
      repeat' first
        | (apply ihEPrime; assumption)
        | (refine bind_rec _ _ _ _ (ihT _ _ ?_) ?_ <;>
            [assumption; (intro _ _ _ _; try dsimp only)])
    · intro x l1 l2 h
      rw [parse_EPrime, parse_EPrime]
      repeat' first
        | (apply same_result_ok; assumption)
        | (apply ihEPrime; assumption)
        | (apply same_result_ite <;> intro _)
        | (apply bind_peek <;> [decide; assumption; (intro _ _ _ _; try dsimp only)])
        | (apply bind_expect <;> [assumption; (intro _ _ _ _; try dsimp only)])
        | (refine bind_rec _ _ _ _ (ihT _ _ ?_) ?_ <;>
            [assumption; (intro _ _ _ _; try dsimp only)])
        | split
    · intro l1 l2 h
      rw [parse_T, parse_T]
      repeat' first
        | (apply ihTPrime; assumption)
        | (refine bind_rec _ _ _ _ (ihF _ _ ?_) ?_ <;>
            [assumption; (intro _ _ _ _; try dsimp only)])
    · intro x l1 l2 h
      rw [parse_TPrime, parse_TPrime]
      repeat' first
        | (apply same_result_ok; assumption)
        | (apply ihTPrime; assumption)
        | (apply same_result_ite <;> intro _)
        | (apply bind_peek <;> [decide; assumption; (intro _ _ _ _; try dsimp only)])
        | (apply bind_expect <;> [assumption; (intro _ _ _ _; try dsimp only)])
        | (refine bind_rec _ _ _ _ (ihF _ _ ?_) ?_ <;>
            [assumption; (intro _ _ _ _; try dsimp only)])
        | split
    · intro l1 l2 h
      rw [parse_F, parse_F]
      repeat' first
        | exact same_result_error _
        | (apply same_result_ok; assumption)
        | (apply same_result_ite <;> intro _)
        | (apply bind_peek <;> [decide; assumption; (intro _ _ _ _; try dsimp only)])
        | (apply bind_expect <;> [assumption; (intro _ _ _ _; try dsimp only)])
        | (apply bind_discard <;> [assumption; (intro _ _ _; try dsimp only)])
        | (refine bind_rec _ _ _ _ (ihOptArgList _ _ ?_) ?_ <;>
            [assumption; (intro _ _ _ _; try dsimp only)])
        | (refine bind_rec _ _ _ _ (ihA _ _ ?_) ?_ <;>
            [assumption; (intro _ _ _ _; try dsimp only)])
        | split
    · intro l1 l2 h
      rw [parse_OptArgList, parse_OptArgList]
      repeat' first
        | (apply same_result_ok; assumption)
        | (apply ihArgList; assumption)
        | (apply same_result_ite <;> intro _)
        | (apply bind_peek <;> [decide; assumption; (intro _ _ _ _; try dsimp only)])
        | split
    · intro x l1 l2 h
      rw [parse_ArgList, parse_ArgList]
      repeat' first
        | (apply same_result_ok; assumption)
        | (apply ihArgList; assumption)
        | (apply same_result_ite <;> intro _)
        | (apply bind_peek <;> [decide; assumption; (intro _ _ _ _; try dsimp only)])
        | (apply bind_discard <;> [assumption; (intro _ _ _; try dsimp only)])
        | (refine bind_rec _ _ _ _ (ihL _ _ ?_) ?_ <;>
            [assumption; (intro _ _ _ _; try dsimp only)])

theorem parse_Stmt_same (n : Nat) (l1 l2 : Lexer) (h : l1.same_tokens l2) :
    same_result (parse_Stmt n l1) (parse_Stmt n l2) :=
  (parse_mutual_same n).1 l1 l2 h

theorem parse_SList_same (n : Nat) (x : Node) (l1 l2 : Lexer) (h : l1.same_tokens l2) :
    same_result (parse_SList n x l1) (parse_SList n x l2) :=
  (parse_mutual_same n).2.1 x l1 l2 h

theorem parse_PList_same :
    ∀ (n : Nat) (x : Node) (l1 l2 : Lexer), l1.same_tokens l2 →
      same_result (parse_PList n x l1) (parse_PList n x l2) := by
  intro n
  induction n with
  | zero => intros; rfl
  | succ n ihPList =>
    intro x l1 l2 h
    rw [parse_PList, parse_PList]
    repeat' first
      | (apply same_result_ok; assumption)
      | (apply ihPList; assumption)
      | (apply same_result_ite <;> intro _)
      | (apply bind_expect <;> [assumption; (intro _ _ _ _; try dsimp only)])
      | (apply bind_peek <;> [decide; assumption; (intro _ _ _ _; try dsimp only)])
      | (apply bind_discard <;> [assumption; (intro _ _ _; try dsimp only)])

theorem parse_OptPList_same (n : Nat) (l1 l2 : Lexer) (h : l1.same_tokens l2) :
    same_result (parse_OptPList n l1) (parse_OptPList n l2) := by
  have ihPList := parse_PList_same n
  unfold parse_OptPList
  repeat' first
    | (apply same_result_ok; assumption)
    | (apply ihPList; assumption)
    | (apply same_result_ite <;> intro _)
    | (apply bind_peek <;> [decide; assumption; (intro _ _ _ _; try dsimp only)])
    | split

theorem parse_Func_same (n : Nat) (l1 l2 : Lexer) (h : l1.same_tokens l2) :
    same_result (parse_Func n l1) (parse_Func n l2) := by
  have ihSList := parse_SList_same n
  have ihOptPList := parse_OptPList_same n
  unfold parse_Func
  repeat' first
    | exact same_result_error _
    | (apply same_result_ok; assumption)
    | (apply bind_peek <;> [decide; assumption; (intro _ _ _ _; try dsimp only)])
    | (apply bind_expect <;> [assumption; (intro _ _ _ _; try dsimp only)])
    | (apply bind_discard <;> [assumption; (intro _ _ _; try dsimp only)])
    | (refine bind_rec _ _ _ _ (ihOptPList _ _ ?_) ?_ <;>
        [assumption; (intro _ _ _ _; try dsimp only)])
    | (refine bind_rec _ _ _ _ (ihSList _ _ _ ?_) ?_ <;>
        [assumption; (intro _ _ _ _; try dsimp only)])
    | split

theorem parse_TStmt_same (n : Nat) (l1 l2 : Lexer) (h : l1.same_tokens l2) :
    same_result (parse_TStmt n l1) (parse_TStmt n l2) := by
  have ihFunc := parse_Func_same n
  have ihStmt := parse_Stmt_same n
  unfold parse_TStmt
  repeat' first
    | exact same_result_error _
    | (apply ihFunc; assumption)
    | (apply ihStmt; assumption)
    | (apply same_result_ite <;> intro _)
    | (apply bind_peek <;> [decide; assumption; (intro _ _ _ _; try dsimp only)])
    | split

theorem parse_Unit_loop_same (fuel : Nat) :
    ∀ (n : Nat) (x : Node) (l1 l2 : Lexer), l1.same_tokens l2 →
      same_result (parse_Unit_loop fuel n x l1) (parse_Unit_loop fuel n x l2) := by
  have ihTStmt := parse_TStmt_same fuel
  intro n
  induction n with
  | zero => intros; rfl
  | succ n ihLoop =>
    intro x l1 l2 h
    rw [parse_Unit_loop, parse_Unit_loop]
    repeat' first
      | (apply same_result_ok; assumption)
      | (apply ihLoop; assumption)
      | (apply same_result_ite <;> intro _)
      | (apply bind_peek <;> [decide; assumption; (intro _ _ _ _; try dsimp only)])
      | (refine bind_rec _ _ _ _ (ihTStmt _ _ ?_) ?_ <;>
          [assumption; (intro _ _ _ _; try dsimp only)])

/-- The parser reads its lexer only through the tokens not yet consumed: on
two lexers that have the same tokens left, `parse` fails in the same way or
returns the same tree. -/
theorem parse_same (fuel : Nat) (l1 l2 : Lexer) (h : l1.same_tokens l2) :
    same_result (parse fuel l1) (parse fuel l2) :=
  parse_Unit_loop_same fuel fuel _ l1 l2 h

theorem of_tokens_remaining (toks : List Token) :
    (Lexer.of_tokens toks).remaining = .ok toks := by
  simp [Lexer.remaining, Lexer.of_tokens, tokenize, Except.map]

theorem parse_of_remaining (fuel : Nat) (lx : Lexer) (R : List Token) (ast : Node)
    (lx2 : Lexer) (hR : lx.remaining = .ok R)
    (hp : parse fuel (Lexer.of_tokens R) = .ok (ast, lx2)) :
    ∃ lx1 : Lexer, parse fuel lx = .ok (ast, lx1) := by
  have h := parse_same fuel lx (Lexer.of_tokens R) ⟨R, hR, of_tokens_remaining R⟩
  rw [hp] at h
  rcases hq : parse fuel lx with e | ⟨a, lx1⟩
  · rw [hq] at h
    exact h.elim
  · rw [hq] at h
    exact ⟨lx1, by rw [h.1]⟩
/-! ### C28: the program `var x; x = n; println(x);` -/

theorem tokenize_cons (lx lx1 : Lexer) (tok : Token) (rest : List Token) (n : Nat)
    (he : lx.m_eof = false) (hr : lx.read_token = .ok (some tok, lx1))
    (hrest : tokenize (lx1.m_in.length + 1) lx1 = .ok rest) (hn : lx.m_in.length < n) :
    tokenize n lx = .ok (tok :: rest) := by
  cases n with
  | zero => omega
  | succ n =>
    have hlt := (read_token_some lx lx1 tok hr).1
    simp only [tokenize, he, Bool.false_eq_true, if_false, hr]
    rw [tokenize_fuel n (lx1.m_in.length + 1) lx1 (by omega) (Nat.lt_succ_self _), hrest]
    rfl

theorem read_continued_loop_digits_then (kind : TokenKind) (la : List Token) (c : Char)
    (rest : List Char) (hc : isdigit c = false) :
    ∀ (cs : List Char) (n : Nat) (lexeme : String), (∀ d ∈ cs, isdigit d = true) →
      cs.length < n →
      read_continued_loop kind isdigit n lexeme
          { m_in := cs ++ c :: rest, m_eof := false, m_lookahead := la } =
        (⟨kind, ⟨lexeme.data ++ cs⟩⟩, { m_in := c :: rest, m_eof := false, m_lookahead := la }) := by
  intro cs
  induction cs with
  | nil =>
    intro n lexeme _ hn
    cases n with
    | zero => simp at hn
    | succ n => simp [read_continued_loop, Lexer.read, token_create, hc, Lexer.unread]
  | cons d cs ih =>
    intro n lexeme hd hn
    cases n with
    | zero => simp at hn
    | succ n =>
      have hdd : isdigit d = true := hd d (by simp)
      have hcs : ∀ d ∈ cs, isdigit d = true := fun d' h' => hd d' (by simp [h'])
      have hn2 : cs.length < n := by simpa using hn
      have hstep : read_continued_loop kind isdigit (n + 1) lexeme
          { m_in := (d :: cs) ++ c :: rest, m_eof := false, m_lookahead := la } =
          read_continued_loop kind isdigit n (lexeme.push d)
            { m_in := cs ++ c :: rest, m_eof := false, m_lookahead := la } := by
        simp [read_continued_loop, Lexer.read, hdd]
      rw [hstep, ih n (lexeme.push d) hcs hn2]
      simp [String.push]

theorem read_token_digits (ds : List Char) (c : Char) (rest : List Char) (la : List Token)
    (hne : ds ≠ []) (hd : ∀ d ∈ ds, isdigit d = true) (hc : isdigit c = false) :
    Lexer.read_token { m_in := ds ++ c :: rest, m_eof := false, m_lookahead := la } =
      .ok (some ⟨TOK_INTEGER_LITERAL, String.mk ds⟩,
        { m_in := c :: rest, m_eof := false, m_lookahead := la }) := by
  cases ds with
  | nil => exact absurd rfl hne
  | cons d cs =>
    have hdd : isdigit d = true := hd d (by simp)
    have hcs : ∀ d ∈ cs, isdigit d = true := fun d' h' => hd d' (by simp [h'])
    simp only [Lexer.read_token, List.cons_append, List.length_cons, skip_whitespace, Lexer.read,
      Bool.false_eq_true, if_false, isdigit_not_isspace d hdd, isdigit_not_isalpha d hdd, hdd,
      if_true, Lexer.read_continued_token]
    rw [read_continued_loop_digits_then TOK_INTEGER_LITERAL la c rest hc cs _ _ hcs
      (by simp only [List.length_append, List.length_cons]; omega)]
    simp [String.singleton, String.push]

theorem read_token_var (rest : List Char) :
    Lexer.read_token ⟨'v' :: 'a' :: 'r' :: ' ' :: rest, false, []⟩ =
      .ok (some ⟨TOK_VAR, "var"⟩, ⟨' ' :: rest, false, []⟩) :=
  rfl

theorem read_token_space (rest : List Char) (la : List Token) :
    Lexer.read_token ⟨' ' :: rest, false, la⟩ = Lexer.read_token ⟨rest, false, la⟩ :=
  rfl

theorem remaining_print_literal (ds : List Char) (hne : ds ≠ [])
    (hd : ∀ c ∈ ds, isdigit c = true) :
    (Lexer.create (source_print_literal ds)).remaining = .ok (tokens_print_literal ds) := by
  refine (remaining_iff _ _).mpr ⟨tokens_print_literal ds, ?_, rfl⟩
  have h6 : tokenize
      (([';', ' ', 'p', 'r', 'i', 'n', 't', 'l', 'n', '(', 'x', ')', ';'] : List Char).length + 1)
      ⟨[';', ' ', 'p', 'r', 'i', 'n', 't', 'l', 'n', '(', 'x', ')', ';'], false, []⟩ =
      .ok [⟨TOK_SEMICOLON, ";"⟩, ⟨TOK_IDENTIFIER, "println"⟩, ⟨TOK_LPAREN, "("⟩,
        ⟨TOK_IDENTIFIER, "x"⟩, ⟨TOK_RPAREN, ")"⟩, ⟨TOK_SEMICOLON, ";"⟩] := rfl
  have h5 : Lexer.read_token
      ⟨' ' :: (ds ++ [';', ' ', 'p', 'r', 'i', 'n', 't', 'l', 'n', '(', 'x', ')', ';']), false, []⟩ =
      .ok (some ⟨TOK_INTEGER_LITERAL, String.mk ds⟩,
        ⟨[';', ' ', 'p', 'r', 'i', 'n', 't', 'l', 'n', '(', 'x', ')', ';'], false, []⟩) := by
    rw [read_token_space]
    exact read_token_digits ds ';' _ [] hne hd (by decide)
  refine tokenize_cons _
    ⟨' ' :: 'x' :: ';' :: ' ' :: 'x' :: ' ' :: '=' :: ' ' ::
      (ds ++ [';', ' ', 'p', 'r', 'i', 'n', 't', 'l', 'n', '(', 'x', ')', ';']), false, []⟩
    _ _ _ rfl rfl ?_ (Nat.lt_succ_self _)
  refine tokenize_cons _
    ⟨';' :: ' ' :: 'x' :: ' ' :: '=' :: ' ' ::
      (ds ++ [';', ' ', 'p', 'r', 'i', 'n', 't', 'l', 'n', '(', 'x', ')', ';']), false, []⟩
    _ _ _ rfl rfl ?_ (Nat.lt_succ_self _)
  refine tokenize_cons _
    ⟨' ' :: 'x' :: ' ' :: '=' :: ' ' ::
      (ds ++ [';', ' ', 'p', 'r', 'i', 'n', 't', 'l', 'n', '(', 'x', ')', ';']), false, []⟩
    _ _ _ rfl rfl ?_ (Nat.lt_succ_self _)
  refine tokenize_cons _
    ⟨' ' :: '=' :: ' ' ::
      (ds ++ [';', ' ', 'p', 'r', 'i', 'n', 't', 'l', 'n', '(', 'x', ')', ';']), false, []⟩
    _ _ _ rfl rfl ?_ (Nat.lt_succ_self _)
  refine tokenize_cons _
    ⟨' ' :: (ds ++ [';', ' ', 'p', 'r', 'i', 'n', 't', 'l', 'n', '(', 'x', ')', ';']), false, []⟩
    _ _ _ rfl rfl ?_ (Nat.lt_succ_self _)
  exact tokenize_cons _ _ _ _ _ rfl h5 h6 (Nat.lt_succ_self _)
theorem parse_print_literal (fuel : Nat) (ds : List Char) :
    parse (fuel + 16) (Lexer.of_tokens (tokens_print_literal ds)) =
      .ok (program_print_literal ds, Lexer.of_tokens []) := by
  rfl

theorem analyze_print_literal (ds : List Char) :
    analyze (program_print_literal ds) = .ok ("x" :: builtin_names) := by
  rfl

theorem bind_intrinsics_initial (input : List Int) :
    bind_intrinsics 0 intrinsic_bindings ((Store.initial input).new_env none).2 =
      .ok (global_store [] "" input) := rfl

theorem evaluate_vardef_x (fuel : Nat) (input : List Int) :
    evaluate (fuel + 1) (vardef_node "x") 0 (global_store [] "" input) =
      .ok (VALUE_INT 0, global_store [("x", VALUE_INT 0)] "" input) := rfl

theorem evaluate_assign_x (fuel : Nat) (input : List Int) (e : Node) (v : Value)
    (he : evaluate fuel e 0 (global_store [("x", VALUE_INT 0)] "" input) =
      .ok (v, global_store [("x", VALUE_INT 0)] "" input)) :
    evaluate (fuel + 1) (assign_node "x" e) 0 (global_store [("x", VALUE_INT 0)] "" input) =
      .ok (v, global_store [("x", v)] "" input) := by
  rw [evaluate_assign, he]
  rfl

theorem evaluate_println_x (fuel : Nat) (input : List Int) (n : Int) :
    evaluate (fuel + 2) (fncall_node "println" [varref "x"]) 0
        (global_store [("x", VALUE_INT n)] "" input) =
      .ok (VALUE_INT 0, global_store [("x", VALUE_INT n)] ("" ++ format_d n ++ "\n") input) :=
  rfl

theorem execute_top_loop_statement (fuel g : Nat) (kid : Node) (rest : List Node) (r0 : Value)
    (s : Store) :
    execute_top_loop fuel g (statement kid :: rest) r0 s =
      (do
        let (result, s) ← evaluate fuel kid g s
        execute_top_loop fuel g rest result s) := rfl

theorem execute_print_literal (fuel : Nat) (ds : List Char) (input : List Int)
    (hne : ds ≠ []) (hd : ∀ c ∈ ds, isdigit c = true) (hr : decimal_value ds ≤ 2147483647) :
    execute_program (fuel + 2) (program_print_literal ds) (Store.initial input) =
      .ok (VALUE_INT 0,
        (global_store [("x", VALUE_INT (decimal_value ds))]
          ("" ++ format_d (decimal_value ds) ++ "\n") input).delete_env 0) := by
  have hlit : ∀ s : Store, evaluate (fuel + 1) (int_literal (String.mk ds)) 0 s =
      .ok (VALUE_INT (decimal_value ds), s) := by
    intro s
    simp [evaluate, int_literal, Node.get_tag, Node.get_str, stoi_of_digits ds hne hd hr, bind,
      Except.bind]
  have hprog : execute_program (fuel + 2) (program_print_literal ds) (Store.initial input) =
      (do
        let s ← bind_intrinsics 0 intrinsic_bindings ((Store.initial input).new_env none).2
        let (result, s) ← execute_top_loop (fuel + 2) 0
          [statement (vardef_node "x"),
           statement (assign_node "x" (int_literal (String.mk ds))),
           statement (fncall_node "println" [varref "x"])] (VALUE_INT 0) s
        .ok (result, s.delete_env 0)) := rfl
  rw [hprog, bind_intrinsics_initial]
  simp only [bind, Except.bind]
  rw [execute_top_loop_statement, evaluate_vardef_x]
  simp only [bind, Except.bind]
  rw [execute_top_loop_statement, evaluate_assign_x (fuel + 1) input _ _ (hlit _)]
  simp only [bind, Except.bind]
  rw [execute_top_loop_statement, evaluate_println_x]
  simp only [bind, Except.bind, execute_top_loop]

/-- C28: let `ds` be a non-empty string of decimal digits whose value `n`
fits an `int`. The text `var x; x = ds; println(x);` is lexed without error
into its twelve tokens; `parse`, reading that text through the lexer, returns
the tree of the three statements (on any fuel from 16 up); `analyze` accepts
the tree; and `execute`, started with nothing written (on any fuel from 2
up), returns without error having written the decimal rendering of `n`
followed by one newline, and nothing else. -/
theorem C28_print_literal (fuel : Nat) (ds : List Char) (input : List Int)
    (hne : ds ≠ []) (hd : ∀ c ∈ ds, isdigit c = true) (hr : decimal_value ds ≤ 2147483647) :
    (Lexer.create (source_print_literal ds)).remaining = .ok (tokens_print_literal ds) ∧
    (∃ lx1 : Lexer, parse (fuel + 16) (Lexer.create (source_print_literal ds)) =
      .ok (program_print_literal ds, lx1)) ∧
    analyze (program_print_literal ds) = .ok ("x" :: builtin_names) ∧
    ∃ s1 : Store,
      execute_program (fuel + 2) (program_print_literal ds) (Store.initial input) =
        .ok (VALUE_INT 0, s1) ∧
      s1.output = Nat.repr (decimal_value ds) ++ "\n" := by
  have hrem := remaining_print_literal ds hne hd
  refine ⟨hrem, ?_, analyze_print_literal ds, ?_⟩
  · exact parse_of_remaining (fuel + 16) _ _ _ _ hrem (parse_print_literal fuel ds)
  · refine ⟨_, execute_print_literal fuel ds input hne hd hr, ?_⟩
    have hnn : ¬ ((decimal_value ds : Int) < 0) := by omega
    simp [Store.delete_env, global_store, format_d, hnn]

/-- Witness of C28: the literal `42`. -/
theorem C28_print_literal_witness :
    (Lexer.create (source_print_literal ['4', '2'])).remaining =
      .ok (tokens_print_literal ['4', '2']) ∧
    (∃ lx1 : Lexer, parse (0 + 16) (Lexer.create (source_print_literal ['4', '2'])) =
      .ok (program_print_literal ['4', '2'], lx1)) ∧
    analyze (program_print_literal ['4', '2']) = .ok ("x" :: builtin_names) ∧
    ∃ s1 : Store,
      execute_program (0 + 2) (program_print_literal ['4', '2']) (Store.initial []) =
        .ok (VALUE_INT 0, s1) ∧
      s1.output = Nat.repr (decimal_value ['4', '2']) ++ "\n" :=
  C28_print_literal 0 ['4', '2'] [] (by decide) (by decide) (by decide)

/-! ### The tokens not yet consumed are defined unless a lexical error lies ahead -/

theorem string_create_loop_error :
    ∀ (n : Nat) (lexeme : String) (lx : Lexer) (e : Failure), lx.m_in.length < n →
      string_create_loop n lexeme lx = .error e → ∃ msg, e = .SyntaxError msg := by
  intro n
  induction n with
  | zero => intro lexeme lx e hn; omega
  | succ n ih =>
    intro lexeme lx e hn h
    simp only [string_create_loop] at h
    rcases hr : lx.read with ⟨_ | c, lx1⟩
    · rw [hr] at h
      simp only [Except.error.injEq] at h
      exact ⟨_, h.symm⟩
    · have hs := read_some lx lx1 c hr
      have hlen : lx.m_in.length = lx1.m_in.length + 1 := by rw [hs.1]; rfl
      rw [hr] at h
      simp only at h
      split at h
      · rcases hr2 : lx1.read with ⟨_ | c2, lx3⟩
        · rw [hr2] at h
          simp only [Except.error.injEq] at h
          exact ⟨_, h.symm⟩
        · have hs2 := read_some lx1 lx3 c2 hr2
          have hlen2 : lx1.m_in.length = lx3.m_in.length + 1 := by rw [hs2.1]; rfl
          rw [hr2] at h
          simp only at h
          repeat' split at h
          all_goals first
            | exact ih _ _ _ (by omega) h
            | (simp only [Except.error.injEq] at h; exact ⟨_, h.symm⟩)
      · split at h
        · simp at h
        · exact ih _ _ _ (by omega) h

theorem read_token_error (lx : Lexer) (e : Failure) (h : lx.read_token = .error e) :
    ∃ msg, e = .SyntaxError msg := by
  have key : ∀ e, lx.read_token = .error e → ∃ msg, e = .SyntaxError msg := by
    apply read_token_cases lx (fun r => ∀ e, r = .error e → ∃ msg, e = .SyntaxError msg)
    · intro lx1 _ e h
      simp at h
    · intro c lx1 kind pred g _ e h
      simp at h
    · intro c lx1 tok _ e h
      simp at h
    · intro c lx1 first second k1 k2 _ e h
      simp only [Lexer.try_two_character_token] at h
      rcases hr : lx1.read with ⟨_ | d, lx2⟩ <;> rw [hr] at h <;> simp only at h <;>
        repeat' split at h
      all_goals first
        | (simp only [Except.map, Except.error.injEq] at h; exact ⟨_, h.symm⟩)
        | simp [Except.map] at h
    · intro c lx1 _ e h
      cases hs : string_create_loop (lx1.m_in.length + 1) "" lx1 with
      | error e2 =>
        rw [hs] at h
        simp only [Except.map, Except.error.injEq] at h
        rw [← h]
        exact string_create_loop_error _ _ _ _ (Nat.lt_succ_self _) hs
      | ok r => rw [hs] at h; simp [Except.map] at h
    · intro msg e h
      simp only [Except.error.injEq] at h
      exact ⟨msg, h.symm⟩
  exact key e h

theorem tokenize_error :
    ∀ (n : Nat) (lx : Lexer) (e : Failure), lx.m_in.length < n →
      tokenize n lx = .error e → ∃ msg, e = .SyntaxError msg := by
  intro n
  induction n with
  | zero => intro lx e hn; omega
  | succ n ih =>
    intro lx e hn h
    simp only [tokenize] at h
    cases he : lx.m_eof with
    | true => simp [he] at h
    | false =>
      simp only [he, Bool.false_eq_true, if_false] at h
      rcases hr : lx.read_token with e2 | ⟨_ | tok, lx1⟩
      · rw [hr] at h
        simp only [Except.error.injEq] at h
        rw [← h]
        exact read_token_error lx e2 hr
      · rw [hr] at h
        simp at h
      · rw [hr] at h
        have hlt := (read_token_some lx lx1 tok hr).1
        simp only at h
        cases hrest : tokenize n lx1 with
        | error e3 =>
          rw [hrest] at h
          simp only [Except.map, Except.error.injEq] at h
          rw [← h]
          exact ih lx1 e3 (by omega) hrest
        | ok rest => rw [hrest] at h; simp [Except.map] at h

/-- The tokens not yet consumed are defined for every lexer, unless the
unread input holds a lexical error: `remaining` never runs out of fuel. -/
theorem remaining_defined (lx : Lexer) :
    (∃ R, lx.remaining = .ok R) ∨ ∃ msg, lx.remaining = .error (.SyntaxError msg) := by
  unfold Lexer.remaining
  cases h : tokenize (lx.m_in.length + 1) lx with
  | error e =>
    obtain ⟨msg, rfl⟩ := tokenize_error _ lx e (Nat.lt_succ_self _) h
    exact Or.inr ⟨msg, rfl⟩
  | ok ts => exact Or.inl ⟨_, rfl⟩

/-! ### C31: string literals -/

theorem read_token_dquote (cs : List Char) (la : List Token) :
    Lexer.read_token ⟨dquote :: cs, false, la⟩ =
      (string_create_loop (cs.length + 1) "" ⟨cs, false, la⟩).map
        (fun r => (some r.1, r.2)) := rfl

theorem string_create_loop_piece (p : StringPiece) (hp : p.well_formed = true) (n : Nat)
    (lexeme : String) (tail : List Char) (la : List Token) :
    string_create_loop (n + 1) lexeme ⟨p.source ++ tail, false, la⟩ =
      string_create_loop n (lexeme.push p.value) ⟨tail, false, la⟩ := by
  cases p with
  | plain c =>
    simp only [StringPiece.well_formed, Bool.and_eq_true, decide_eq_true_eq] at hp
    simp [string_create_loop, StringPiece.source, StringPiece.value, Lexer.read, hp.1, hp.2]
  | escape_n => rfl
  | escape_t => rfl
  | escape_r => rfl
  | escape_quote => rfl

theorem string_create_loop_pieces (tail : List Char) (la : List Token) :
    ∀ (ps : List StringPiece) (n : Nat) (lexeme : String),
      (∀ p ∈ ps, p.well_formed = true) →
      string_create_loop (n + ps.length) lexeme ⟨literal_source ps ++ tail, false, la⟩ =
        string_create_loop n ⟨lexeme.data ++ literal_value ps⟩ ⟨tail, false, la⟩ := by
  intro ps
  induction ps with
  | nil =>
    intro n lexeme _
    simp [literal_source, literal_value]
  | cons p ps ih =>
    intro n lexeme hwf
    have hp : p.well_formed = true := hwf p (by simp)
    have hps : ∀ q ∈ ps, q.well_formed = true := fun q hq => hwf q (by simp [hq])
    have hsrc : literal_source (p :: ps) ++ tail = p.source ++ (literal_source ps ++ tail) := by
      simp [literal_source]
    have hfuel : n + (p :: ps).length = (n + ps.length) + 1 := rfl
    rw [hsrc, hfuel, string_create_loop_piece p hp, ih n _ hps]
    simp [literal_value, String.push]

theorem source_length_ge (ps : List StringPiece) : ps.length ≤ (literal_source ps).length := by
  induction ps with
  | nil => simp [literal_source]
  | cons p ps ih =>
    have h1 : 1 ≤ p.source.length := by cases p <;> simp [StringPiece.source]
    have h2 : (literal_source (p :: ps)).length = p.source.length + (literal_source ps).length := by
      simp [literal_source]
    rw [h2, List.length_cons]
    omega

theorem read_token_literal (ps : List StringPiece) (tail : List Char) (la : List Token)
    (hwf : ∀ p ∈ ps, p.well_formed = true) :
    ∃ m : Nat,
      Lexer.read_token ⟨dquote :: (literal_source ps ++ tail), false, la⟩ =
        (string_create_loop (m + 1) ⟨literal_value ps⟩ ⟨tail, false, la⟩).map
          (fun r => (some r.1, r.2)) := by
  have hge := source_length_ge ps
  refine ⟨(literal_source ps).length - ps.length + tail.length, ?_⟩
  have hfuel : (literal_source ps ++ tail).length + 1 =
      ((literal_source ps).length - ps.length + tail.length + 1) + ps.length := by
    rw [List.length_append]
    omega
  rw [read_token_dquote, hfuel, string_create_loop_pieces tail la ps _ "" hwf]
  rfl

/-- C31: let the text after an opening double quote be made of pieces, each a
character other than the backslash and the double quote or one of the escapes
`\n`, `\t`, `\r`, `\"`. When a double quote follows, the lexer returns one
string token whose lexeme holds, piece by piece, the character itself or the
newline, tab, carriage return or double quote that the escape stands for, and
the input after the closing quote is left unread. When a backslash and a
character other than `n`, `t`, `r` and the double quote follow, or a backslash
at the end of the input, the lexer raises the syntax error "Invalid escape
character"; when the input ends after the pieces, it raises the syntax error
"Unexpected end of string input". -/
theorem C31_string_literal (ps : List StringPiece) (rest : List Char) (la : List Token)
    (hwf : ∀ p ∈ ps, p.well_formed = true) :
    Lexer.read_token ⟨dquote :: (literal_source ps ++ dquote :: rest), false, la⟩ =
      .ok (some ⟨TOK_STRING, ⟨literal_value ps⟩⟩, ⟨rest, false, la⟩) ∧
    (∀ c : Char, c ≠ 'n' → c ≠ 't' → c ≠ 'r' → c ≠ dquote →
      Lexer.read_token ⟨dquote :: (literal_source ps ++ backslash :: c :: rest), false, la⟩ =
        .error (.SyntaxError "Invalid escape character")) ∧
    Lexer.read_token ⟨dquote :: (literal_source ps ++ [backslash]), false, la⟩ =
      .error (.SyntaxError "Invalid escape character") ∧
    Lexer.read_token ⟨dquote :: (literal_source ps ++ []), false, la⟩ =
      .error (.SyntaxError "Unexpected end of string input") := by
  refine ⟨?_, ?_, ?_, ?_⟩
  · obtain ⟨m, hm⟩ := read_token_literal ps (dquote :: rest) la hwf
    rw [hm]
    rfl
  · intro c h1 h2 h3 h4
    obtain ⟨m, hm⟩ := read_token_literal ps (backslash :: c :: rest) la hwf
    rw [hm]
    simp [string_create_loop, Lexer.read, h1, h2, h3, h4, Except.map]
  · obtain ⟨m, hm⟩ := read_token_literal ps [backslash] la hwf
    rw [hm]
    rfl
  · obtain ⟨m, hm⟩ := read_token_literal ps [] la hwf
    rw [hm]
    rfl

/-- Witness of C31: the literal `"a\n\"b"` followed by `;`, and the same
pieces followed by `\q`, by a lone backslash and by the end of the input. -/
theorem C31_string_literal_witness :
    Lexer.read_token ⟨dquote :: (literal_source
        [.plain 'a', .escape_n, .escape_quote, .plain 'b'] ++ dquote :: [';']), false, []⟩ =
      .ok (some ⟨TOK_STRING, ⟨literal_value
        [.plain 'a', .escape_n, .escape_quote, .plain 'b']⟩⟩, ⟨[';'], false, []⟩) ∧
    literal_source [.plain 'a', .escape_n, .escape_quote, .plain 'b'] =
      ['a', backslash, 'n', backslash, dquote, 'b'] ∧
    literal_value [.plain 'a', .escape_n, .escape_quote, .plain 'b'] =
      ['a', Char.ofNat 10, dquote, 'b'] ∧
    Lexer.read_token ⟨dquote :: (literal_source
        [.plain 'a', .escape_n, .escape_quote, .plain 'b'] ++ backslash :: 'q' :: [';']),
        false, []⟩ =
      .error (.SyntaxError "Invalid escape character") ∧
    Lexer.read_token ⟨dquote :: (literal_source
        [.plain 'a', .escape_n, .escape_quote, .plain 'b'] ++ [backslash]), false, []⟩ =
      .error (.SyntaxError "Invalid escape character") ∧
    Lexer.read_token ⟨dquote :: (literal_source
        [.plain 'a', .escape_n, .escape_quote, .plain 'b'] ++ []), false, []⟩ =
      .error (.SyntaxError "Unexpected end of string input") :=
  ⟨(C31_string_literal [.plain 'a', .escape_n, .escape_quote, .plain 'b'] [';'] []
      (by decide)).1,
   rfl, rfl,
   (C31_string_literal [.plain 'a', .escape_n, .escape_quote, .plain 'b'] [';'] []
      (by decide)).2.1 'q' (by decide) (by decide) (by decide) (by decide),
   (C31_string_literal [.plain 'a', .escape_n, .escape_quote, .plain 'b'] [';'] []
      (by decide)).2.2.1,
   (C31_string_literal [.plain 'a', .escape_n, .escape_quote, .plain 'b'] [';'] []
      (by decide)).2.2.2⟩
/-! ### C32: operators of one and two characters -/

/-- C32: each of `=`, `<`, `>` followed at once by `=` is read as the one
token `==`, `<=`, `>=`; followed by another character it is read as the
one-character token and that character stays unread, and at the end of the
input it is read as the one-character token. Each of `&`, `|`, `!` followed
at once by `&`, `|`, `=` respectively is read as `&&`, `||`, `!=`; followed by
another character, or at the end of the input, it raises the syntax error
"Unrecognized character". -/
theorem C32_operators (rest : List Char) (la : List Token) :
    (∀ e ∈ extensible_operators,
      Lexer.read_token ⟨e.1 :: e.2.1 :: rest, false, la⟩ =
        .ok (some ⟨e.2.2.2, ⟨[e.1, e.2.1]⟩⟩, ⟨rest, false, la⟩) ∧
      (∀ c : Char, c ≠ e.2.1 →
        Lexer.read_token ⟨e.1 :: c :: rest, false, la⟩ =
          .ok (some ⟨e.2.2.1, ⟨[e.1]⟩⟩, ⟨c :: rest, false, la⟩)) ∧
      Lexer.read_token ⟨[e.1], false, la⟩ =
        .ok (some ⟨e.2.2.1, ⟨[e.1]⟩⟩, ⟨[], true, la⟩)) ∧
    (∀ e ∈ paired_operators,
      Lexer.read_token ⟨e.1 :: e.2.1 :: rest, false, la⟩ =
        .ok (some ⟨e.2.2, ⟨[e.1, e.2.1]⟩⟩, ⟨rest, false, la⟩) ∧
      (∀ c : Char, c ≠ e.2.1 →
        Lexer.read_token ⟨e.1 :: c :: rest, false, la⟩ =
          .error (.SyntaxError ("Unrecognized character '" ++ String.singleton e.1 ++ "'"))) ∧
      Lexer.read_token ⟨[e.1], false, la⟩ =
        .error (.SyntaxError ("Unrecognized character '" ++ String.singleton e.1 ++ "'"))) := by
  have h1 : ∀ cs : List Char, Lexer.read_token ⟨'=' :: cs, false, la⟩ =
      (Lexer.try_two_character_token ⟨cs, false, la⟩ '=' '=' TOK_ASSIGN TOK_IS_EQUAL).map
        (fun r => (some r.1, r.2)) := fun _ => rfl
  have h2 : ∀ cs : List Char, Lexer.read_token ⟨'<' :: cs, false, la⟩ =
      (Lexer.try_two_character_token ⟨cs, false, la⟩ '<' '=' TOK_LESS TOK_LESS_EQUAL).map
        (fun r => (some r.1, r.2)) := fun _ => rfl
  have h3 : ∀ cs : List Char, Lexer.read_token ⟨'>' :: cs, false, la⟩ =
      (Lexer.try_two_character_token ⟨cs, false, la⟩ '>' '=' TOK_GREATER
        TOK_GREATER_EQUAL).map (fun r => (some r.1, r.2)) := fun _ => rfl
  have h4 : ∀ cs : List Char, Lexer.read_token ⟨'&' :: cs, false, la⟩ =
      (Lexer.try_two_character_token ⟨cs, false, la⟩ '&' '&' ERROR TOK_AND).map
        (fun r => (some r.1, r.2)) := fun _ => rfl
  have h5 : ∀ cs : List Char, Lexer.read_token ⟨'|' :: cs, false, la⟩ =
      (Lexer.try_two_character_token ⟨cs, false, la⟩ '|' '|' ERROR TOK_OR).map
        (fun r => (some r.1, r.2)) := fun _ => rfl
  have h6 : ∀ cs : List Char, Lexer.read_token ⟨'!' :: cs, false, la⟩ =
      (Lexer.try_two_character_token ⟨cs, false, la⟩ '!' '=' ERROR TOK_NOT_EQUAL).map
        (fun r => (some r.1, r.2)) := fun _ => rfl
  constructor
  · intro e he
    simp only [extensible_operators, List.mem_cons, List.mem_singleton, List.not_mem_nil,
      or_false] at he
    rcases he with rfl | rfl | rfl
    · refine ⟨rfl, fun c hc => ?_, rfl⟩
      rw [h1]
      simp [Lexer.try_two_character_token, Lexer.read, hc, Lexer.unread, token_create,
        Except.map, String.singleton, String.push]
    · refine ⟨rfl, fun c hc => ?_, rfl⟩
      rw [h2]
      simp [Lexer.try_two_character_token, Lexer.read, hc, Lexer.unread, token_create,
        Except.map, String.singleton, String.push]
    · refine ⟨rfl, fun c hc => ?_, rfl⟩
      rw [h3]
      simp [Lexer.try_two_character_token, Lexer.read, hc, Lexer.unread, token_create,
        Except.map, String.singleton, String.push]
  · intro e he
    simp only [paired_operators, List.mem_cons, List.mem_singleton, List.not_mem_nil,
      or_false] at he
    rcases he with rfl | rfl | rfl
    · refine ⟨rfl, fun c hc => ?_, rfl⟩
      rw [h4]
      simp [Lexer.try_two_character_token, Lexer.read, hc, Except.map]
    · refine ⟨rfl, fun c hc => ?_, rfl⟩
      rw [h5]
      simp [Lexer.try_two_character_token, Lexer.read, hc, Except.map]
    · refine ⟨rfl, fun c hc => ?_, rfl⟩
      rw [h6]
      simp [Lexer.try_two_character_token, Lexer.read, hc, Except.map]

/-- Witness of C32: `==`, `=` before a space, `&&`, and `&` before a space. -/
theorem C32_operators_witness :
    Lexer.read_token ⟨'=' :: '=' :: ['1'], false, []⟩ =
      .ok (some ⟨TOK_IS_EQUAL, "=="⟩, ⟨['1'], false, []⟩) ∧
    Lexer.read_token ⟨'=' :: ' ' :: ['1'], false, []⟩ =
      .ok (some ⟨TOK_ASSIGN, "="⟩, ⟨' ' :: ['1'], false, []⟩) ∧
    Lexer.read_token ⟨'&' :: '&' :: ['1'], false, []⟩ =
      .ok (some ⟨TOK_AND, "&&"⟩, ⟨['1'], false, []⟩) ∧
    Lexer.read_token ⟨'&' :: ' ' :: ['1'], false, []⟩ =
      .error (.SyntaxError ("Unrecognized character '" ++ String.singleton '&' ++ "'")) :=
  ⟨((C32_operators ['1'] []).1 ('=', '=', TOK_ASSIGN, TOK_IS_EQUAL) (by decide)).1,
   ((C32_operators ['1'] []).1 ('=', '=', TOK_ASSIGN, TOK_IS_EQUAL) (by decide)).2.1 ' '
     (by decide),
   ((C32_operators ['1'] []).2 ('&', '&', TOK_AND) (by decide)).1,
   ((C32_operators ['1'] []).2 ('&', '&', TOK_AND) (by decide)).2.1 ' ' (by decide)⟩

/-! ### C33: identifiers and keywords -/

theorem isalpha_not_isspace (c : Char) (h : isalpha c = true) : isspace c = false := by
  simp only [isalpha, Bool.or_eq_true, Bool.and_eq_true, decide_eq_true_eq] at h
  have h1 : (c.toNat == 32) = false := by
    rw [beq_eq_false_iff_ne]; omega
  have h2 : decide (c.toNat ≤ 13) = false := by
    rw [decide_eq_false_iff_not]; omega
  simp [isspace, h1, h2]

theorem skip_whitespace_run (c : Char) (tail : List Char) (la : List Token)
    (hc : isspace c = false) :
    ∀ (ws : List Char) (n : Nat), (∀ w ∈ ws, isspace w = true) → ws.length < n →
      skip_whitespace n ⟨ws ++ c :: tail, false, la⟩ = (some c, ⟨tail, false, la⟩) := by
  intro ws
  induction ws with
  | nil =>
    intro n _ hn
    cases n with
    | zero => simp at hn
    | succ n => simp [skip_whitespace, Lexer.read, hc]
  | cons w ws ih =>
    intro n hws hn
    cases n with
    | zero => simp at hn
    | succ n =>
      have hw : isspace w = true := hws w (by simp)
      have hrest : ∀ v ∈ ws, isspace v = true := fun v hv => hws v (by simp [hv])
      have hn2 : ws.length < n := by simpa using hn
      have hstep : skip_whitespace (n + 1) ⟨(w :: ws) ++ c :: tail, false, la⟩ =
          skip_whitespace n ⟨ws ++ c :: tail, false, la⟩ := by
        simp [skip_whitespace, Lexer.read, hw]
      rw [hstep, ih n hrest hn2]

theorem read_continued_loop_run (kind : TokenKind) (pred : Char → Bool) (la : List Token)
    (tail : List Char) (htail : ∀ d ∈ tail.head?, pred d = false) :
    ∀ (cs : List Char) (n : Nat) (lexeme : String), (∀ d ∈ cs, pred d = true) →
      cs.length < n →
      read_continued_loop kind pred n lexeme ⟨cs ++ tail, false, la⟩ =
        (⟨kind, ⟨lexeme.data ++ cs⟩⟩, ⟨tail, decide (tail = []), la⟩) := by
  intro cs
  induction cs with
  | nil =>
    intro n lexeme _ hn
    cases n with
    | zero => simp at hn
    | succ n =>
      cases tail with
      | nil => simp [read_continued_loop, Lexer.read, token_create]
      | cons d rest =>
        have hd : pred d = false := htail d (by simp)
        simp [read_continued_loop, Lexer.read, token_create, hd, Lexer.unread]
  | cons c cs ih =>
    intro n lexeme hcs hn
    cases n with
    | zero => simp at hn
    | succ n =>
      have hc : pred c = true := hcs c (by simp)
      have hrest : ∀ d ∈ cs, pred d = true := fun d hd => hcs d (by simp [hd])
      have hn2 : cs.length < n := by simpa using hn
      have hstep : read_continued_loop kind pred (n + 1) lexeme
          ⟨(c :: cs) ++ tail, false, la⟩ =
          read_continued_loop kind pred n (lexeme.push c) ⟨cs ++ tail, false, la⟩ := by
        simp [read_continued_loop, Lexer.read, hc]
      rw [hstep, ih n (lexeme.push c) hrest hn2]
      simp [String.push]

theorem keyword_tag_spec (s : String) :
    (keyword_tag ⟨TOK_IDENTIFIER, s⟩).str = s ∧
    ((keyword_tag ⟨TOK_IDENTIFIER, s⟩).tag = TOK_VAR ↔ s = "var") ∧
    ((keyword_tag ⟨TOK_IDENTIFIER, s⟩).tag = TOK_IF ↔ s = "if") ∧
    ((keyword_tag ⟨TOK_IDENTIFIER, s⟩).tag = TOK_ELSE ↔ s = "else") ∧
    ((keyword_tag ⟨TOK_IDENTIFIER, s⟩).tag = TOK_WHILE ↔ s = "while") ∧
    ((keyword_tag ⟨TOK_IDENTIFIER, s⟩).tag = TOK_FUNCTION ↔ s = "function") ∧
    ((keyword_tag ⟨TOK_IDENTIFIER, s⟩).tag = TOK_IDENTIFIER ↔ s ∉ keywords) := by
  simp only [keyword_tag, keywords]
  by_cases h1 : s = "var"
  · subst h1; simp
  by_cases h2 : s = "if"
  · subst h2; simp
  by_cases h3 : s = "else"
  · subst h3; simp
  by_cases h4 : s = "while"
  · subst h4; simp
  by_cases h5 : s = "function"
  · subst h5; simp
  simp [h1, h2, h3, h4, h5]

/-- C33: let the unread input be white space, then a letter, then a run of
letters and digits that ends at a character that is neither or at the end of
the input. The lexer returns one token whose lexeme is the letter followed by
the whole run and leaves what follows the run unread. The kind of the token is
the keyword kind of `var`, `if`, `else`, `while`, `function` exactly when the
lexeme is that keyword, and identifier exactly when it is none of the five;
`variable` and `if1` are identifiers. -/
theorem C33_identifier (ws : List Char) (c : Char) (run tail : List Char) (la : List Token)
    (hws : ∀ w ∈ ws, isspace w = true) (hc : isalpha c = true)
    (hrun : ∀ d ∈ run, isalnum d = true) (htail : ∀ d ∈ tail.head?, isalnum d = false) :
    Lexer.read_token ⟨ws ++ c :: (run ++ tail), false, la⟩ =
      .ok (some (keyword_tag ⟨TOK_IDENTIFIER, ⟨c :: run⟩⟩), ⟨tail, decide (tail = []), la⟩) ∧
    (keyword_tag ⟨TOK_IDENTIFIER, ⟨c :: run⟩⟩).str = ⟨c :: run⟩ ∧
    ((keyword_tag ⟨TOK_IDENTIFIER, ⟨c :: run⟩⟩).tag = TOK_VAR ↔ (⟨c :: run⟩ : String) = "var") ∧
    ((keyword_tag ⟨TOK_IDENTIFIER, ⟨c :: run⟩⟩).tag = TOK_IF ↔ (⟨c :: run⟩ : String) = "if") ∧
    ((keyword_tag ⟨TOK_IDENTIFIER, ⟨c :: run⟩⟩).tag = TOK_ELSE ↔
      (⟨c :: run⟩ : String) = "else") ∧
    ((keyword_tag ⟨TOK_IDENTIFIER, ⟨c :: run⟩⟩).tag = TOK_WHILE ↔
      (⟨c :: run⟩ : String) = "while") ∧
    ((keyword_tag ⟨TOK_IDENTIFIER, ⟨c :: run⟩⟩).tag = TOK_FUNCTION ↔
      (⟨c :: run⟩ : String) = "function") ∧
    ((keyword_tag ⟨TOK_IDENTIFIER, ⟨c :: run⟩⟩).tag = TOK_IDENTIFIER ↔
      (⟨c :: run⟩ : String) ∉ keywords) ∧
    keyword_tag ⟨TOK_IDENTIFIER, "variable"⟩ = ⟨TOK_IDENTIFIER, "variable"⟩ ∧
    keyword_tag ⟨TOK_IDENTIFIER, "if1"⟩ = ⟨TOK_IDENTIFIER, "if1"⟩ := by
  have hsp : isspace c = false := isalpha_not_isspace c hc
  have hskip : skip_whitespace ((ws ++ c :: (run ++ tail)).length + 1)
      ⟨ws ++ c :: (run ++ tail), false, la⟩ = (some c, ⟨run ++ tail, false, la⟩) :=
    skip_whitespace_run c (run ++ tail) la hsp ws _ hws (by
      simp only [List.length_append, List.length_cons]; omega)
  have hloop := read_continued_loop_run TOK_IDENTIFIER isalnum la tail htail run
    ((run ++ tail).length + 1) (String.singleton c) hrun (by
      simp only [List.length_append]; omega)
  obtain ⟨k0, k1, k2, k3, k4, k5, k6⟩ := keyword_tag_spec ⟨c :: run⟩
  refine ⟨?_, k0, k1, k2, k3, k4, k5, k6, by decide, by decide⟩
  simp only [Lexer.read_token, hskip, hc, if_true, Lexer.read_continued_token, hloop]
  simp [String.singleton, String.push]

/-- Witness of C33: `  var1 = 2` is read as the identifier `var1`, and
`var x` as the keyword `var`. -/
theorem C33_identifier_witness :
    Lexer.read_token ⟨[' ', ' '] ++ 'v' :: (['a', 'r', '1'] ++ [' ', '=', ' ', '2']), false, []⟩ =
      .ok (some (keyword_tag ⟨TOK_IDENTIFIER, ⟨'v' :: ['a', 'r', '1']⟩⟩),
        ⟨[' ', '=', ' ', '2'], decide ([' ', '=', ' ', '2'] = []), []⟩) ∧
    keyword_tag ⟨TOK_IDENTIFIER, ⟨'v' :: ['a', 'r', '1']⟩⟩ = ⟨TOK_IDENTIFIER, "var1"⟩ ∧
    Lexer.read_token ⟨[] ++ 'v' :: (['a', 'r'] ++ [' ', 'x']), false, []⟩ =
      .ok (some (keyword_tag ⟨TOK_IDENTIFIER, ⟨'v' :: ['a', 'r']⟩⟩),
        ⟨[' ', 'x'], decide ([' ', 'x'] = []), []⟩) ∧
    keyword_tag ⟨TOK_IDENTIFIER, ⟨'v' :: ['a', 'r']⟩⟩ = ⟨TOK_VAR, "var"⟩ :=
  ⟨(C33_identifier [' ', ' '] 'v' ['a', 'r', '1'] [' ', '=', ' ', '2'] [] (by decide)
      (by decide) (by decide) (by decide)).1,
   by decide,
   (C33_identifier [] 'v' ['a', 'r'] [' ', 'x'] [] (by decide) (by decide) (by decide)
      (by decide)).1,
   by decide⟩

/-! ### The parser on a list of tokens -/

theorem bind_eq_ok {α β : Type} (x : Except Failure α) (f : α → Except Failure β) (r : β)
    (h : (x >>= f) = .ok r) : ∃ a, x = .ok a ∧ f a = .ok r := by
  cases x with
  | error e => simp [bind, Except.bind] at h
  | ok a => exact ⟨a, rfl, h⟩

theorem of_tokens_inj (xs ys : List Token) (h : Lexer.of_tokens xs = Lexer.of_tokens ys) :
    xs = ys := by
  simp only [Lexer.of_tokens, Lexer.mk.injEq, true_and] at h
  exact h

theorem expect_of_tokens (t : Token) (rest : List Token) (K : TokenKind) :
    expect (Lexer.of_tokens (t :: rest)) K =
      if t.tag ≠ K then .error (.SyntaxError ("Unexpected token '" ++ t.str ++ "'"))
      else .ok (t, Lexer.of_tokens rest) := by
  simp [expect, next_of_tokens_cons]

theorem expect_same_tag (t : Token) (rest : List Token) :
    expect (Lexer.of_tokens (t :: rest)) t.tag = .ok (t, Lexer.of_tokens rest) := by
  simp [expect_of_tokens]

theorem parse_TPrime_stop (k : Nat) (ast : Node) (t : Token) (more : List Token)
    (h1 : t.tag ≠ TOK_TIMES) (h2 : t.tag ≠ TOK_DIVIDE) :
    parse_TPrime (k + 1) ast (Lexer.of_tokens (t :: more)) =
      .ok (ast, Lexer.of_tokens (t :: more)) := by
  simp [parse_TPrime, peek_one_cons, bind, Except.bind, h1, h2]

theorem parse_EPrime_stop (k : Nat) (ast : Node) (t : Token) (more : List Token)
    (h1 : t.tag ≠ TOK_PLUS) (h2 : t.tag ≠ TOK_MINUS) :
    parse_EPrime (k + 1) ast (Lexer.of_tokens (t :: more)) =
      .ok (ast, Lexer.of_tokens (t :: more)) := by
  simp [parse_EPrime, peek_one_cons, bind, Except.bind, h1, h2]

theorem parse_TPrime_nil (k : Nat) (ast : Node) :
    parse_TPrime (k + 1) ast (Lexer.of_tokens []) = .ok (ast, Lexer.of_tokens []) := by
  simp [parse_TPrime, peek_one_nil, bind, Except.bind]

theorem parse_EPrime_nil (k : Nat) (ast : Node) :
    parse_EPrime (k + 1) ast (Lexer.of_tokens []) = .ok (ast, Lexer.of_tokens []) := by
  simp [parse_EPrime, peek_one_nil, bind, Except.bind]

theorem parse_F_ok_head (m : Nat) (toks : List Token) (r : Node × Lexer)
    (h : parse_F m (Lexer.of_tokens toks) = .ok r) :
    ∃ t rest, toks = t :: rest ∧
      (t.tag = TOK_IDENTIFIER ∨ t.tag = TOK_INTEGER_LITERAL ∨ t.tag = TOK_LPAREN ∨
        t.tag = TOK_STRING) := by
  cases m with
  | zero => simp [parse_F] at h
  | succ m =>
    cases toks with
    | nil => simp [parse_F, peek_one_nil, bind, Except.bind] at h
    | cons t rest =>
      refine ⟨t, rest, rfl, ?_⟩
      by_contra hne
      simp only [not_or] at hne
      obtain ⟨h1, h2, h3, h4⟩ := hne
      simp [parse_F, peek_one_cons, peek_two_cons, bind, Except.bind, h1, h2, h3, h4] at h

theorem parse_T_ok_head (m : Nat) (toks : List Token) (r : Node × Lexer)
    (h : parse_T m (Lexer.of_tokens toks) = .ok r) :
    ∃ t rest, toks = t :: rest ∧
      (t.tag = TOK_IDENTIFIER ∨ t.tag = TOK_INTEGER_LITERAL ∨ t.tag = TOK_LPAREN ∨
        t.tag = TOK_STRING) := by
  cases m with
  | zero => simp [parse_T] at h
  | succ m =>
    rw [parse_T] at h
    obtain ⟨a, ha, -⟩ := bind_eq_ok _ _ _ h
    exact parse_F_ok_head m toks a ha

theorem parse_E_ok_head (m : Nat) (toks : List Token) (r : Node × Lexer)
    (h : parse_E m (Lexer.of_tokens toks) = .ok r) :
    ∃ t rest, toks = t :: rest ∧
      (t.tag = TOK_IDENTIFIER ∨ t.tag = TOK_INTEGER_LITERAL ∨ t.tag = TOK_LPAREN ∨
        t.tag = TOK_STRING) := by
  cases m with
  | zero => simp [parse_E] at h
  | succ m =>
    rw [parse_E] at h
    obtain ⟨a, ha, -⟩ := bind_eq_ok _ _ _ h
    exact parse_T_ok_head m toks a ha

theorem parse_R_ok_head (m : Nat) (toks : List Token) (r : Node × Lexer)
    (h : parse_R m (Lexer.of_tokens toks) = .ok r) :
    ∃ t rest, toks = t :: rest ∧
      (t.tag = TOK_IDENTIFIER ∨ t.tag = TOK_INTEGER_LITERAL ∨ t.tag = TOK_LPAREN ∨
        t.tag = TOK_STRING) := by
  cases m with
  | zero => simp [parse_R] at h
  | succ m =>
    rw [parse_R] at h
    obtain ⟨a, ha, -⟩ := bind_eq_ok _ _ _ h
    exact parse_E_ok_head m toks a ha

theorem parse_E_ident_assign (m : Nat) (t0 t1 : Token) (more : List Token) (r : Node × Lexer)
    (h0 : t0.tag = TOK_IDENTIFIER) (h1 : t1.tag = TOK_ASSIGN)
    (h : parse_E m (Lexer.of_tokens (t0 :: t1 :: more)) = .ok r) :
    r = (Node.mk AST_VARREF t0.str [], Lexer.of_tokens (t1 :: more)) := by
  match m, h with
  | 0, h => simp [parse_E] at h
  | 1, h => simp [parse_E, parse_T, bind, Except.bind] at h
  | 2, h => simp [parse_E, parse_T, parse_F, bind, Except.bind] at h
  | k + 3, h =>
    have hF : parse_F (k + 1) (Lexer.of_tokens (t0 :: t1 :: more)) =
        .ok (Node.mk AST_VARREF t0.str [], Lexer.of_tokens (t1 :: more)) := by
      simp [parse_F, peek_one_cons, peek_two_cons, bind, Except.bind, has_tag, h0, h1,
        expect_of_tokens]
    have hT : parse_T (k + 2) (Lexer.of_tokens (t0 :: t1 :: more)) =
        .ok (Node.mk AST_VARREF t0.str [], Lexer.of_tokens (t1 :: more)) := by
      rw [parse_T, hF]
      exact parse_TPrime_stop k _ t1 more (by simp [h1]) (by simp [h1])
    rw [parse_E, hT] at h
    have hE := parse_EPrime_stop (k + 1) (Node.mk AST_VARREF t0.str []) t1 more
      (by simp [h1]) (by simp [h1])
    simp only [bind, Except.bind] at h
    rw [hE] at h
    simp only [Except.ok.injEq] at h
    exact h.symm

theorem parse_R_ident_assign (m : Nat) (t0 t1 : Token) (more : List Token) (r : Node × Lexer)
    (h0 : t0.tag = TOK_IDENTIFIER) (h1 : t1.tag = TOK_ASSIGN)
    (h : parse_R m (Lexer.of_tokens (t0 :: t1 :: more)) = .ok r) :
    r = (Node.mk AST_VARREF t0.str [], Lexer.of_tokens (t1 :: more)) := by
  cases m with
  | zero => simp [parse_R] at h
  | succ m =>
    rw [parse_R] at h
    obtain ⟨a, ha, hrest⟩ := bind_eq_ok _ _ _ h
    have hE := parse_E_ident_assign m t0 t1 more a h0 h1 ha
    subst hE
    simp [peek_one_cons, bind, Except.bind, is_relational, h1] at hrest
    exact hrest.symm

theorem parse_of_parse_Stmt_error (f : Nat) (t : Token) (rest : List Token) (e : Failure)
    (ht : t.tag ≠ TOK_FUNCTION)
    (h : parse_Stmt (f + 1) (Lexer.of_tokens (t :: rest)) = .error e) :
    parse (f + 1) (Lexer.of_tokens (t :: rest)) = .error e := by
  simp [parse, parse_Unit, parse_Unit_loop, parse_TStmt, peek_one_cons, bind, Except.bind, ht, h]

theorem parse_Stmt_of_parse_A (f : Nat) (t : Token) (rest : List Token)
    (h1 : t.tag ≠ TOK_VAR) (h2 : t.tag ≠ TOK_IF) (h3 : t.tag ≠ TOK_WHILE) :
    parse_Stmt (f + 1) (Lexer.of_tokens (t :: rest)) =
      (do
        let (ast_A, lx) ← parse_A f (Lexer.of_tokens (t :: rest))
        let lx ← expect_and_discard lx TOK_SEMICOLON
        .ok (Node.mk AST_STATEMENT "" [ast_A], lx)) := by
  simp [parse_Stmt, peek_one_cons, bind, Except.bind, h1, h2, h3]

theorem parse_A_of_parse_L (f : Nat) (t : Token) (rest : List Token)
    (h : ¬ (has_tag rest.head? TOK_ASSIGN = true ∧ t.tag = TOK_IDENTIFIER)) :
    parse_A (f + 1) (Lexer.of_tokens (t :: rest)) = parse_L f (Lexer.of_tokens (t :: rest)) := by
  have hc : (has_tag rest.head? TOK_ASSIGN && decide (t.tag = TOK_IDENTIFIER)) = false := by
    cases hh : has_tag rest.head? TOK_ASSIGN
    · rfl
    · have : ¬ t.tag = TOK_IDENTIFIER := fun ht => h ⟨hh, ht⟩
      simp [this]
  simp [parse_A, peek_one_cons, peek_two_cons, bind, Except.bind, hc]

theorem is_relational_tags (k : TokenKind) (h : is_relational k = true) :
    k ≠ TOK_FUNCTION ∧ k ≠ TOK_VAR ∧ k ≠ TOK_IF ∧ k ≠ TOK_WHILE ∧ k ≠ TOK_ASSIGN ∧
      k ≠ TOK_OR ∧ k ≠ TOK_AND ∧ k ≠ TOK_SEMICOLON := by
  cases k <;> simp [is_relational] at h ⊢

/-- C34: a statement that begins with two operands joined by a relational
operator and goes on with a second relational operator makes `parse_Stmt`,
and `parse` when the statement opens the program, raise the syntax error
"Unexpected token" at the second operator, whatever the operands are and
whatever follows; the operands are any token sequences that `parse_E` reads
as one expression. So does a statement with two operands of `parse_R`
joined by `&&` or `||` and followed by a second `&&` or `||`. No tree is
produced. -/
theorem C34_no_chaining (n : Nat) (ta tb rest : List Token) (op1 op2 : Token) (a b : Node) :
    (is_relational op1.tag = true → is_relational op2.tag = true →
      parse_E n (Lexer.of_tokens (ta ++ op1 :: (tb ++ op2 :: rest))) =
        .ok (a, Lexer.of_tokens (op1 :: (tb ++ op2 :: rest))) →
      parse_E n (Lexer.of_tokens (tb ++ op2 :: rest)) =
        .ok (b, Lexer.of_tokens (op2 :: rest)) →
      parse_Stmt (n + 4) (Lexer.of_tokens (ta ++ op1 :: (tb ++ op2 :: rest))) =
        .error (.SyntaxError ("Unexpected token '" ++ op2.str ++ "'")) ∧
      parse (n + 4) (Lexer.of_tokens (ta ++ op1 :: (tb ++ op2 :: rest))) =
        .error (.SyntaxError ("Unexpected token '" ++ op2.str ++ "'"))) ∧
    ((op1.tag = TOK_OR ∨ op1.tag = TOK_AND) → (op2.tag = TOK_OR ∨ op2.tag = TOK_AND) →
      parse_R n (Lexer.of_tokens (ta ++ op1 :: (tb ++ op2 :: rest))) =
        .ok (a, Lexer.of_tokens (op1 :: (tb ++ op2 :: rest))) →
      parse_R n (Lexer.of_tokens (tb ++ op2 :: rest)) =
        .ok (b, Lexer.of_tokens (op2 :: rest)) →
      parse_Stmt (n + 3) (Lexer.of_tokens (ta ++ op1 :: (tb ++ op2 :: rest))) =
        .error (.SyntaxError ("Unexpected token '" ++ op2.str ++ "'")) ∧
      parse (n + 3) (Lexer.of_tokens (ta ++ op1 :: (tb ++ op2 :: rest))) =
        .error (.SyntaxError ("Unexpected token '" ++ op2.str ++ "'"))) := by
  constructor
  · intro hop1 hop2 ha hb
    obtain ⟨t0, r0, htoks, hhead⟩ := parse_E_ok_head n _ _ ha
    rw [htoks] at ha ⊢
    have h1 := is_relational_tags _ hop1
    have h2 := is_relational_tags _ hop2
    have hnotA : ¬ (has_tag r0.head? TOK_ASSIGN = true ∧ t0.tag = TOK_IDENTIFIER) := by
      rintro ⟨hh, hid⟩
      cases r0 with
      | nil => simp [has_tag] at hh
      | cons t1 more =>
        have ht1 : t1.tag = TOK_ASSIGN := by simpa [has_tag] using hh
        have := parse_E_ident_assign n t0 t1 more _ hid ht1 ha
        simp only [Prod.mk.injEq] at this
        have hl := of_tokens_inj _ _ this.2
        simp only [List.cons.injEq] at hl
        rw [← hl.1] at ht1
        exact h1.2.2.2.2.1 ht1
    have hR : parse_R (n + 1) (Lexer.of_tokens (t0 :: r0)) =
        .ok (Node.mk (relational_tag op1.tag) "" [a, b], Lexer.of_tokens (op2 :: rest)) := by
      rw [parse_R, ha]
      simp [peek_one_cons, bind, Except.bind, hop1, expect_same_tag, hb]
    have hL : parse_L (n + 2) (Lexer.of_tokens (t0 :: r0)) =
        .ok (Node.mk (relational_tag op1.tag) "" [a, b], Lexer.of_tokens (op2 :: rest)) := by
      rw [parse_L, hR]
      simp [peek_one_cons, bind, Except.bind, h2.2.2.2.2.2.1, h2.2.2.2.2.2.2.1]
    have htag : t0.tag ≠ TOK_FUNCTION ∧ t0.tag ≠ TOK_VAR ∧ t0.tag ≠ TOK_IF ∧
        t0.tag ≠ TOK_WHILE := by
      rcases hhead with h | h | h | h <;> simp [h]
    have hS : parse_Stmt (n + 4) (Lexer.of_tokens (t0 :: r0)) =
        .error (.SyntaxError ("Unexpected token '" ++ op2.str ++ "'")) := by
      rw [parse_Stmt_of_parse_A _ _ _ htag.2.1 htag.2.2.1 htag.2.2.2,
        parse_A_of_parse_L _ _ _ hnotA, hL]
      simp [bind, Except.bind, expect_and_discard, expect_of_tokens, h2.2.2.2.2.2.2.2,
        Except.map]
    exact ⟨hS, parse_of_parse_Stmt_error _ _ _ _ htag.1 hS⟩
  · intro hop1 hop2 ha hb
    obtain ⟨t0, r0, htoks, hhead⟩ := parse_R_ok_head n _ _ ha
    rw [htoks] at ha ⊢
    have h1 : op1.tag ≠ TOK_ASSIGN := by rcases hop1 with h | h <;> simp [h]
    have h2 : op2.tag ≠ TOK_SEMICOLON := by rcases hop2 with h | h <;> simp [h]
    have hnotA : ¬ (has_tag r0.head? TOK_ASSIGN = true ∧ t0.tag = TOK_IDENTIFIER) := by
      rintro ⟨hh, hid⟩
      cases r0 with
      | nil => simp [has_tag] at hh
      | cons t1 more =>
        have ht1 : t1.tag = TOK_ASSIGN := by simpa [has_tag] using hh
        have := parse_R_ident_assign n t0 t1 more _ hid ht1 ha
        simp only [Prod.mk.injEq] at this
        have hl := of_tokens_inj _ _ this.2
        simp only [List.cons.injEq] at hl
        rw [← hl.1] at ht1
        exact h1 ht1
    have hL : parse_L (n + 1) (Lexer.of_tokens (t0 :: r0)) =
        .ok (Node.mk (if op1.tag = TOK_OR then AST_LOGICAL_OR else AST_LOGICAL_AND) "" [a, b],
          Lexer.of_tokens (op2 :: rest)) := by
      rw [parse_L, ha]
      have hc : (op1.tag = TOK_OR ∨ op1.tag = TOK_AND) := hop1
      simp [peek_one_cons, bind, Except.bind, hc, expect_same_tag, hb]
    have htag : t0.tag ≠ TOK_FUNCTION ∧ t0.tag ≠ TOK_VAR ∧ t0.tag ≠ TOK_IF ∧
        t0.tag ≠ TOK_WHILE := by
      rcases hhead with h | h | h | h <;> simp [h]
    have hS : parse_Stmt (n + 3) (Lexer.of_tokens (t0 :: r0)) =
        .error (.SyntaxError ("Unexpected token '" ++ op2.str ++ "'")) := by
      rw [parse_Stmt_of_parse_A _ _ _ htag.2.1 htag.2.2.1 htag.2.2.2,
        parse_A_of_parse_L _ _ _ hnotA, hL]
      simp [bind, Except.bind, expect_and_discard, expect_of_tokens, h2, Except.map]
    exact ⟨hS, parse_of_parse_Stmt_error _ _ _ _ htag.1 hS⟩

/-- Witness of C34: the statements `a < b < c;` and `a && b && c;`. -/
theorem C34_no_chaining_witness :
    (parse_Stmt (3 + 4) (Lexer.of_tokens ([⟨TOK_IDENTIFIER, "a"⟩] ++ ⟨TOK_LESS, "<"⟩ ::
        ([⟨TOK_IDENTIFIER, "b"⟩] ++ ⟨TOK_LESS, "<"⟩ ::
          [⟨TOK_IDENTIFIER, "c"⟩, ⟨TOK_SEMICOLON, ";"⟩]))) =
        .error (.SyntaxError ("Unexpected token '" ++ "<" ++ "'")) ∧
      parse (3 + 4) (Lexer.of_tokens ([⟨TOK_IDENTIFIER, "a"⟩] ++ ⟨TOK_LESS, "<"⟩ ::
        ([⟨TOK_IDENTIFIER, "b"⟩] ++ ⟨TOK_LESS, "<"⟩ ::
          [⟨TOK_IDENTIFIER, "c"⟩, ⟨TOK_SEMICOLON, ";"⟩]))) =
        .error (.SyntaxError ("Unexpected token '" ++ "<" ++ "'"))) ∧
    (parse_Stmt (4 + 3) (Lexer.of_tokens ([⟨TOK_IDENTIFIER, "a"⟩] ++ ⟨TOK_AND, "&&"⟩ ::
        ([⟨TOK_IDENTIFIER, "b"⟩] ++ ⟨TOK_AND, "&&"⟩ ::
          [⟨TOK_IDENTIFIER, "c"⟩, ⟨TOK_SEMICOLON, ";"⟩]))) =
        .error (.SyntaxError ("Unexpected token '" ++ "&&" ++ "'")) ∧
      parse (4 + 3) (Lexer.of_tokens ([⟨TOK_IDENTIFIER, "a"⟩] ++ ⟨TOK_AND, "&&"⟩ ::
        ([⟨TOK_IDENTIFIER, "b"⟩] ++ ⟨TOK_AND, "&&"⟩ ::
          [⟨TOK_IDENTIFIER, "c"⟩, ⟨TOK_SEMICOLON, ";"⟩]))) =
        .error (.SyntaxError ("Unexpected token '" ++ "&&" ++ "'"))) :=
  ⟨(C34_no_chaining 3 [⟨TOK_IDENTIFIER, "a"⟩] [⟨TOK_IDENTIFIER, "b"⟩]
      [⟨TOK_IDENTIFIER, "c"⟩, ⟨TOK_SEMICOLON, ";"⟩] ⟨TOK_LESS, "<"⟩ ⟨TOK_LESS, "<"⟩
      (Node.mk AST_VARREF "a" []) (Node.mk AST_VARREF "b" [])).1 rfl rfl rfl rfl,
   (C34_no_chaining 4 [⟨TOK_IDENTIFIER, "a"⟩] [⟨TOK_IDENTIFIER, "b"⟩]
      [⟨TOK_IDENTIFIER, "c"⟩, ⟨TOK_SEMICOLON, ";"⟩] ⟨TOK_AND, "&&"⟩ ⟨TOK_AND, "&&"⟩
      (Node.mk AST_VARREF "a" []) (Node.mk AST_VARREF "b" [])).2 (Or.inr rfl) (Or.inr rfl)
      rfl rfl⟩

/-! ### C36: assignments -/

theorem parse_EPrime_root :
    ∀ (n : Nat) (ast : Node) (lx : Lexer) (r : Node) (lx2 : Lexer),
      parse_EPrime n ast lx = .ok (r, lx2) →
      r = ast ∨ r.get_tag = AST_ADD ∨ r.get_tag = AST_SUB := by
  intro n
  induction n with
  | zero => intro ast lx r lx2 h; simp [parse_EPrime] at h
  | succ n ih =>
    intro ast lx r lx2 h
    rw [parse_EPrime] at h
    obtain ⟨⟨t, l1⟩, -, h⟩ := bind_eq_ok _ _ _ h
    cases t with
    | none =>
      simp only [Except.ok.injEq, Prod.mk.injEq] at h
      exact Or.inl h.1.symm
    | some tok =>
      simp only at h
      split at h
      · obtain ⟨⟨t2, l2⟩, -, h⟩ := bind_eq_ok _ _ _ h
        obtain ⟨⟨term, l3⟩, -, h⟩ := bind_eq_ok _ _ _ h
        rcases ih _ _ _ _ h with h1 | h1 | h1
        · right
          rw [h1]
          by_cases hp : tok.tag = TOK_PLUS <;> simp [hp, Node.get_tag]
        · exact Or.inr (Or.inl h1)
        · exact Or.inr (Or.inr h1)
      · simp only [Except.ok.injEq, Prod.mk.injEq] at h
        exact Or.inl h.1.symm

theorem parse_TPrime_root :
    ∀ (n : Nat) (ast : Node) (lx : Lexer) (r : Node) (lx2 : Lexer),
      parse_TPrime n ast lx = .ok (r, lx2) →
      r = ast ∨ r.get_tag = AST_MULTIPLY ∨ r.get_tag = AST_DIVIDE := by
  intro n
  induction n with
  | zero => intro ast lx r lx2 h; simp [parse_TPrime] at h
  | succ n ih =>
    intro ast lx r lx2 h
    rw [parse_TPrime] at h
    obtain ⟨⟨t, l1⟩, -, h⟩ := bind_eq_ok _ _ _ h
    cases t with
    | none =>
      simp only [Except.ok.injEq, Prod.mk.injEq] at h
      exact Or.inl h.1.symm
    | some tok =>
      simp only at h
      split at h
      · obtain ⟨⟨t2, l2⟩, -, h⟩ := bind_eq_ok _ _ _ h
        obtain ⟨⟨term, l3⟩, -, h⟩ := bind_eq_ok _ _ _ h
        rcases ih _ _ _ _ h with h1 | h1 | h1
        · right
          rw [h1]
          by_cases hp : tok.tag = TOK_TIMES <;> simp [hp, Node.get_tag]
        · exact Or.inr (Or.inl h1)
        · exact Or.inr (Or.inr h1)
      · simp only [Except.ok.injEq, Prod.mk.injEq] at h
        exact Or.inl h.1.symm

theorem parse_F_root (n : Nat) (t : Token) (rest : List Token) (ast : Node) (lx2 : Lexer)
    (h : parse_F n (Lexer.of_tokens (t :: rest)) = .ok (ast, lx2))
    (htag : ast.get_tag = AST_ASSIGN) : t.tag = TOK_LPAREN := by
  cases n with
  | zero => simp [parse_F] at h
  | succ n =>
    simp only [parse_F, peek_one_cons, peek_two_cons, bind, Except.bind] at h
    repeat' split at h
    all_goals first
      | contradiction
      | assumption
      | (simp only [Except.ok.injEq, Prod.mk.injEq] at h
         obtain ⟨rfl, -⟩ := h
         simp [Node.get_tag] at htag)

theorem parse_T_root (n : Nat) (t : Token) (rest : List Token) (ast : Node) (lx2 : Lexer)
    (h : parse_T n (Lexer.of_tokens (t :: rest)) = .ok (ast, lx2))
    (htag : ast.get_tag = AST_ASSIGN) : t.tag = TOK_LPAREN := by
  cases n with
  | zero => simp [parse_T] at h
  | succ n =>
    rw [parse_T] at h
    obtain ⟨⟨f, l1⟩, hf, h⟩ := bind_eq_ok _ _ _ h
    rcases parse_TPrime_root _ _ _ _ _ h with h1 | h1 | h1
    · rw [h1] at htag
      exact parse_F_root n t rest f l1 hf htag
    · rw [h1] at htag; exact absurd htag (by decide)
    · rw [h1] at htag; exact absurd htag (by decide)

theorem parse_E_root (n : Nat) (t : Token) (rest : List Token) (ast : Node) (lx2 : Lexer)
    (h : parse_E n (Lexer.of_tokens (t :: rest)) = .ok (ast, lx2))
    (htag : ast.get_tag = AST_ASSIGN) : t.tag = TOK_LPAREN := by
  cases n with
  | zero => simp [parse_E] at h
  | succ n =>
    rw [parse_E] at h
    obtain ⟨⟨f, l1⟩, hf, h⟩ := bind_eq_ok _ _ _ h
    rcases parse_EPrime_root _ _ _ _ _ h with h1 | h1 | h1
    · rw [h1] at htag
      exact parse_T_root n t rest f l1 hf htag
    · rw [h1] at htag; exact absurd htag (by decide)
    · rw [h1] at htag; exact absurd htag (by decide)

theorem relational_tag_ne_assign (k : TokenKind) : relational_tag k ≠ AST_ASSIGN := by
  cases k <;> simp [relational_tag]

theorem parse_R_root (n : Nat) (t : Token) (rest : List Token) (ast : Node) (lx2 : Lexer)
    (h : parse_R n (Lexer.of_tokens (t :: rest)) = .ok (ast, lx2))
    (htag : ast.get_tag = AST_ASSIGN) : t.tag = TOK_LPAREN := by
  cases n with
  | zero => simp [parse_R] at h
  | succ n =>
    rw [parse_R] at h
    obtain ⟨⟨f, l1⟩, hf, h⟩ := bind_eq_ok _ _ _ h
    obtain ⟨⟨nt, l2⟩, -, h⟩ := bind_eq_ok _ _ _ h
    cases nt with
    | none => simp at h
    | some tok =>
      simp only at h
      split at h
      · obtain ⟨⟨t2, l3⟩, -, h⟩ := bind_eq_ok _ _ _ h
        obtain ⟨⟨right, l4⟩, -, h⟩ := bind_eq_ok _ _ _ h
        simp only [Except.ok.injEq, Prod.mk.injEq] at h
        rw [← h.1] at htag
        exact absurd htag (relational_tag_ne_assign _)
      · simp only [Except.ok.injEq, Prod.mk.injEq] at h
        rw [← h.1] at htag
        exact parse_E_root n t rest f l1 hf htag

theorem parse_L_root (n : Nat) (t : Token) (rest : List Token) (ast : Node) (lx2 : Lexer)
    (h : parse_L n (Lexer.of_tokens (t :: rest)) = .ok (ast, lx2))
    (htag : ast.get_tag = AST_ASSIGN) : t.tag = TOK_LPAREN := by
  cases n with
  | zero => simp [parse_L] at h
  | succ n =>
    rw [parse_L] at h
    obtain ⟨⟨f, l1⟩, hf, h⟩ := bind_eq_ok _ _ _ h
    obtain ⟨⟨nt, l2⟩, -, h⟩ := bind_eq_ok _ _ _ h
    cases nt with
    | none => simp at h
    | some tok =>
      simp only at h
      split at h
      · obtain ⟨⟨t2, l3⟩, -, h⟩ := bind_eq_ok _ _ _ h
        obtain ⟨⟨right, l4⟩, -, h⟩ := bind_eq_ok _ _ _ h
        simp only [Except.ok.injEq, Prod.mk.injEq] at h
        rw [← h.1] at htag
        by_cases hp : tok.tag = TOK_OR <;> simp [hp, Node.get_tag] at htag
      · simp only [Except.ok.injEq, Prod.mk.injEq] at h
        rw [← h.1] at htag
        exact parse_R_root n t rest f l1 hf htag

theorem parse_A_assign (n : Nat) (t0 t1 : Token) (more : List Token)
    (h0 : t0.tag = TOK_IDENTIFIER) (h1 : t1.tag = TOK_ASSIGN) :
    parse_A (n + 1) (Lexer.of_tokens (t0 :: t1 :: more)) =
      (parse_A n (Lexer.of_tokens more)).map
        (fun r => (Node.mk AST_ASSIGN "" [Node.mk AST_VARREF t0.str [], r.1], r.2)) := by
  simp only [parse_A, peek_one_cons, peek_two_cons, bind, Except.bind, List.head?, has_tag, h0,
    h1, decide_True, Bool.and_self, if_true, expect_and_discard, expect_of_tokens, ne_eq,
    not_true_eq_false, if_false, Except.map]

/-- C36, the claim as stated fails: the expression `(a = b)` does not begin
with an identifier followed by `=`, so `parse_A` hands it to `parse_L`; the
tree returned has an ASSIGN node at its root all the same, because
`parse_F` returns the tree of a parenthesised expression as it is. -/
theorem C36_parenthesised_assignment :
    parse_A 14 (Lexer.of_tokens [⟨TOK_LPAREN, "("⟩, ⟨TOK_IDENTIFIER, "a"⟩, ⟨TOK_ASSIGN, "="⟩,
        ⟨TOK_IDENTIFIER, "b"⟩, ⟨TOK_RPAREN, ")"⟩, ⟨TOK_SEMICOLON, ";"⟩]) =
      .ok (Node.mk AST_ASSIGN "" [Node.mk AST_VARREF "a" [], Node.mk AST_VARREF "b" []],
        Lexer.of_tokens [⟨TOK_SEMICOLON, ";"⟩]) ∧
    parse_A 14 (Lexer.of_tokens [⟨TOK_LPAREN, "("⟩, ⟨TOK_IDENTIFIER, "a"⟩, ⟨TOK_ASSIGN, "="⟩,
        ⟨TOK_IDENTIFIER, "b"⟩, ⟨TOK_RPAREN, ")"⟩, ⟨TOK_SEMICOLON, ";"⟩]) =
      parse_L 13 (Lexer.of_tokens [⟨TOK_LPAREN, "("⟩, ⟨TOK_IDENTIFIER, "a"⟩, ⟨TOK_ASSIGN, "="⟩,
        ⟨TOK_IDENTIFIER, "b"⟩, ⟨TOK_RPAREN, ")"⟩, ⟨TOK_SEMICOLON, ";"⟩]) := by
  constructor <;> rfl

/-- C36, amended: `parse_A` takes the assignment rule exactly when the first
token is an identifier and the second is `=`. Then its result is
ASSIGN(VARREF ident, A), A being what `parse_A` returns on the tokens after
the `=` (and its failure when that fails), so that `a = b = c` yields
ASSIGN(a, ASSIGN(b, c)). In every other case, an identifier followed by `==`
included, its result is that of `parse_L` on the same tokens, and the tree
that `parse_L` returns has an ASSIGN node at its root only when the first
token is `(`, the expression being a parenthesised one. -/
theorem C36_assignment (n : Nat) (t0 t1 : Token) (more : List Token) (ast : Node)
    (lx2 : Lexer) :
    (t0.tag = TOK_IDENTIFIER → t1.tag = TOK_ASSIGN →
      parse_A (n + 1) (Lexer.of_tokens (t0 :: t1 :: more)) =
        (parse_A n (Lexer.of_tokens more)).map
          (fun r => (Node.mk AST_ASSIGN "" [Node.mk AST_VARREF t0.str [], r.1], r.2))) ∧
    (¬ (t0.tag = TOK_IDENTIFIER ∧ t1.tag = TOK_ASSIGN) →
      parse_A (n + 1) (Lexer.of_tokens (t0 :: t1 :: more)) =
        parse_L n (Lexer.of_tokens (t0 :: t1 :: more))) ∧
    parse_A (n + 1) (Lexer.of_tokens [t0]) = parse_L n (Lexer.of_tokens [t0]) ∧
    (parse_L n (Lexer.of_tokens (t0 :: t1 :: more)) = .ok (ast, lx2) →
      ast.get_tag = AST_ASSIGN → t0.tag = TOK_LPAREN) ∧
    parse_A (n + 9) (Lexer.of_tokens [⟨TOK_IDENTIFIER, "a"⟩, ⟨TOK_ASSIGN, "="⟩,
        ⟨TOK_IDENTIFIER, "b"⟩, ⟨TOK_ASSIGN, "="⟩, ⟨TOK_IDENTIFIER, "c"⟩,
        ⟨TOK_SEMICOLON, ";"⟩]) =
      .ok (Node.mk AST_ASSIGN "" [Node.mk AST_VARREF "a" [],
          Node.mk AST_ASSIGN "" [Node.mk AST_VARREF "b" [], Node.mk AST_VARREF "c" []]],
        Lexer.of_tokens [⟨TOK_SEMICOLON, ";"⟩]) ∧
    parse_A (n + 7) (Lexer.of_tokens [⟨TOK_IDENTIFIER, "a"⟩, ⟨TOK_IS_EQUAL, "=="⟩,
        ⟨TOK_IDENTIFIER, "b"⟩, ⟨TOK_SEMICOLON, ";"⟩]) =
      .ok (Node.mk AST_ISEQUAL "" [Node.mk AST_VARREF "a" [], Node.mk AST_VARREF "b" []],
        Lexer.of_tokens [⟨TOK_SEMICOLON, ";"⟩]) := by
  refine ⟨parse_A_assign n t0 t1 more, ?_, ?_, ?_, rfl, rfl⟩
  · intro h
    apply parse_A_of_parse_L
    rintro ⟨hh, hid⟩
    exact h ⟨hid, by simpa [has_tag] using hh⟩
  · apply parse_A_of_parse_L
    simp [has_tag]
  · exact parse_L_root n t0 (t1 :: more) ast lx2

/-- Witness of C36 amended: the tokens of `x = 1 ;`, of `x == 1 ;` and of
`( x = 1 ) ;`. -/
theorem C36_assignment_witness :
    parse_A (8 + 1) (Lexer.of_tokens (⟨TOK_IDENTIFIER, "x"⟩ :: ⟨TOK_ASSIGN, "="⟩ ::
        [⟨TOK_INTEGER_LITERAL, "1"⟩, ⟨TOK_SEMICOLON, ";"⟩])) =
      (parse_A 8 (Lexer.of_tokens [⟨TOK_INTEGER_LITERAL, "1"⟩, ⟨TOK_SEMICOLON, ";"⟩])).map
        (fun r => (Node.mk AST_ASSIGN "" [Node.mk AST_VARREF "x" [], r.1], r.2)) ∧
    parse_A (8 + 1) (Lexer.of_tokens (⟨TOK_IDENTIFIER, "x"⟩ :: ⟨TOK_IS_EQUAL, "=="⟩ ::
        [⟨TOK_INTEGER_LITERAL, "1"⟩, ⟨TOK_SEMICOLON, ";"⟩])) =
      parse_L 8 (Lexer.of_tokens (⟨TOK_IDENTIFIER, "x"⟩ :: ⟨TOK_IS_EQUAL, "=="⟩ ::
        [⟨TOK_INTEGER_LITERAL, "1"⟩, ⟨TOK_SEMICOLON, ";"⟩])) ∧
    (⟨TOK_LPAREN, "("⟩ : Token).tag = TOK_LPAREN :=
  ⟨(C36_assignment 8 ⟨TOK_IDENTIFIER, "x"⟩ ⟨TOK_ASSIGN, "="⟩
      [⟨TOK_INTEGER_LITERAL, "1"⟩, ⟨TOK_SEMICOLON, ";"⟩] (Node.mk AST_VARREF "x" [])
      (Lexer.of_tokens [])).1 rfl rfl,
   (C36_assignment 8 ⟨TOK_IDENTIFIER, "x"⟩ ⟨TOK_IS_EQUAL, "=="⟩
      [⟨TOK_INTEGER_LITERAL, "1"⟩, ⟨TOK_SEMICOLON, ";"⟩] (Node.mk AST_VARREF "x" [])
      (Lexer.of_tokens [])).2.1 (by decide),
   (C36_assignment 13 ⟨TOK_LPAREN, "("⟩ ⟨TOK_IDENTIFIER, "x"⟩
      [⟨TOK_ASSIGN, "="⟩, ⟨TOK_INTEGER_LITERAL, "1"⟩, ⟨TOK_RPAREN, ")"⟩, ⟨TOK_SEMICOLON, ";"⟩]
      (Node.mk AST_ASSIGN "" [Node.mk AST_VARREF "x" [], Node.mk AST_INT_LITERAL "1" []])
      (Lexer.of_tokens [⟨TOK_SEMICOLON, ";"⟩])).2.2.2.1 rfl rfl⟩
/-! ### The parser on more fuel -/

theorem result_le_refl {α : Type} (r : Except Failure α) : result_le r r :=
  fun _ h => h

theorem result_le_error {α : Type} (e : Failure) (r : Except Failure α) :
    result_le (.error e) r := by
  intro v h
  simp at h

theorem result_le_ite {α : Type} (c : Prop) [Decidable c] (a1 a2 b1 b2 : Except Failure α)
    (ha : c → result_le a1 a2) (hb : ¬c → result_le b1 b2) :
    result_le (if c then a1 else b1) (if c then a2 else b2) := by
  by_cases hc : c
  · rw [if_pos hc, if_pos hc]; exact ha hc
  · rw [if_neg hc, if_neg hc]; exact hb hc

theorem result_le_bind {α β : Type} (r1 r2 : Except Failure α) (f1 f2 : α → Except Failure β)
    (h : result_le r1 r2) (hf : ∀ a, result_le (f1 a) (f2 a)) :
    result_le (r1 >>= f1) (r2 >>= f2) := by
  intro v hv
  obtain ⟨a, ha, hfa⟩ := bind_eq_ok _ _ _ hv
  rw [h a ha]
  exact hf a v hfa

theorem result_le_bind_same {α β : Type} (r : Except Failure α) (f1 f2 : α → Except Failure β)
    (hf : ∀ a, result_le (f1 a) (f2 a)) : result_le (r >>= f1) (r >>= f2) :=
  result_le_bind r r f1 f2 (result_le_refl r) hf

theorem parse_mutual_mono : ∀ n : Nat,
    (∀ (lx : Lexer), result_le (parse_Stmt n lx) (parse_Stmt (n + 1) lx)) ∧
    (∀ (x : Node) (lx : Lexer), result_le (parse_SList n x lx) (parse_SList (n + 1) x lx)) ∧
    (∀ (lx : Lexer), result_le (parse_A n lx) (parse_A (n + 1) lx)) ∧
    (∀ (lx : Lexer), result_le (parse_L n lx) (parse_L (n + 1) lx)) ∧
    (∀ (lx : Lexer), result_le (parse_R n lx) (parse_R (n + 1) lx)) ∧
    (∀ (lx : Lexer), result_le (parse_E n lx) (parse_E (n + 1) lx)) ∧
    (∀ (x : Node) (lx : Lexer), result_le (parse_EPrime n x lx) (parse_EPrime (n + 1) x lx)) ∧
    (∀ (lx : Lexer), result_le (parse_T n lx) (parse_T (n + 1) lx)) ∧
    (∀ (x : Node) (lx : Lexer), result_le (parse_TPrime n x lx) (parse_TPrime (n + 1) x lx)) ∧
    (∀ (lx : Lexer), result_le (parse_F n lx) (parse_F (n + 1) lx)) ∧
    (∀ (lx : Lexer), result_le (parse_OptArgList n lx) (parse_OptArgList (n + 1) lx)) ∧
    (∀ (x : Node) (lx : Lexer), result_le (parse_ArgList n x lx) (parse_ArgList (n + 1) x lx)) := by
  intro n
  induction n with
  | zero =>
    refine ⟨?_, ?_, ?_, ?_, ?_, ?_, ?_, ?_, ?_, ?_, ?_, ?_⟩ <;> intros <;>
      exact result_le_error _ _
  | succ n ih =>
    obtain ⟨ihStmt, ihSList, ihA, ihL, ihR, ihE, ihEPrime, ihT, ihTPrime, ihF, ihOptArgList,
      ihArgList⟩ := ih
    refine ⟨?_, ?_, ?_, ?_, ?_, ?_, ?_, ?_, ?_, ?_, ?_, ?_⟩
    · intro lx
      rw [parse_Stmt, parse_Stmt]
      repeat' first
        | exact result_le_refl _
        | exact ihA _
        | exact ihSList _ _
        | (apply result_le_ite <;> intro _)
        | (apply result_le_bind_same; rintro ⟨_, _⟩; try dsimp only)
        | (refine result_le_bind _ _ _ _ (ihA _) ?_; rintro ⟨_, _⟩; try dsimp only)
        | (refine result_le_bind _ _ _ _ (ihSList _ _) ?_; rintro ⟨_, _⟩; try dsimp only)
        | split
    · intro x lx
      rw [parse_SList, parse_SList]
      repeat' first
        | exact result_le_refl _
        | exact ihStmt _
        | exact ihSList _ _
        | (apply result_le_ite <;> intro _)
        | (apply result_le_bind_same; rintro ⟨_, _⟩; try dsimp only)
        | (refine result_le_bind _ _ _ _ (ihStmt _) ?_; rintro ⟨_, _⟩; try dsimp only)
    · intro lx
      rw [parse_A, parse_A]
      repeat' first
        | exact result_le_refl _
        | exact ihA _
        | exact ihL _
        | (apply result_le_ite <;> intro _)
        | (apply result_le_bind_same; rintro ⟨_, _⟩; try dsimp only)
        | (refine result_le_bind _ _ _ _ (ihA _) ?_; rintro ⟨_, _⟩; try dsimp only)
        | split
    · intro lx
      rw [parse_L, parse_L]
      repeat' first
        | exact result_le_refl _
        | exact ihR _
        | (apply result_le_ite <;> intro _)
        | (apply result_le_bind_same; rintro ⟨_, _⟩; try dsimp only)
        | (refine result_le_bind _ _ _ _ (ihR _) ?_; rintro ⟨_, _⟩; try dsimp only)
        | split
    · intro lx
      rw [parse_R, parse_R]
      repeat' first
        | exact result_le_refl _
        | exact ihE _
        | (apply result_le_ite <;> intro _)
        | (apply result_le_bind_same; rintro ⟨_, _⟩; try dsimp only)
        | (refine result_le_bind _ _ _ _ (ihE _) ?_; rintro ⟨_, _⟩; try dsimp only)
        | split
    · intro lx
      rw [parse_E, parse_E]
      repeat' first
        | exact result_le_refl _
        | exact ihT _
        | exact ihEPrime _ _
        | (refine result_le_bind _ _ _ _ (ihT _) ?_; rintro ⟨_, _⟩; try dsimp only)
    · intro x lx
      rw [parse_EPrime, parse_EPrime]
      repeat' first
        | exact result_le_refl _
        | exact ihT _
        | exact ihEPrime _ _
        | (apply result_le_ite <;> intro _)
        | (apply result_le_bind_same; rintro ⟨_, _⟩; try dsimp only)
        | (refine result_le_bind _ _ _ _ (ihT _) ?_; rintro ⟨_, _⟩; try dsimp only)
        | split
    · intro lx
      rw [parse_T, parse_T]
      repeat' first
        | exact result_le_refl _
        | exact ihF _
        | exact ihTPrime _ _
        | (refine result_le_bind _ _ _ _ (ihF _) ?_; rintro ⟨_, _⟩; try dsimp only)
    · intro x lx
      rw [parse_TPrime, parse_TPrime]
      repeat' first
        | exact result_le_refl _
        | exact ihF _
        | exact ihTPrime _ _
        | (apply result_le_ite <;> intro _)
        | (apply result_le_bind_same; rintro ⟨_, _⟩; try dsimp only)
        | (refine result_le_bind _ _ _ _ (ihF _) ?_; rintro ⟨_, _⟩; try dsimp only)
        | split
    · intro lx
      rw [parse_F, parse_F]
      repeat' first
        | exact result_le_refl _
        | exact ihOptArgList _
        | exact ihA _
        | (apply result_le_ite <;> intro _)
        | (apply result_le_bind_same; rintro ⟨_, _⟩; try dsimp only)
        | (refine result_le_bind _ _ _ _ (ihOptArgList _) ?_; rintro ⟨_, _⟩; try dsimp only)
        | (refine result_le_bind _ _ _ _ (ihA _) ?_; rintro ⟨_, _⟩; try dsimp only)
        | split
    · intro lx
      rw [parse_OptArgList, parse_OptArgList]
      repeat' first
        | exact result_le_refl _
        | exact ihArgList _ _
        | (apply result_le_ite <;> intro _)
        | (apply result_le_bind_same; rintro ⟨_, _⟩; try dsimp only)
        | split
    · intro x lx
      rw [parse_ArgList, parse_ArgList]
      repeat' first
        | exact result_le_refl _
        | exact ihL _
        | exact ihArgList _ _
        | (apply result_le_ite <;> intro _)
        | (apply result_le_bind_same; rintro ⟨_, _⟩; try dsimp only)
        | (refine result_le_bind _ _ _ _ (ihL _) ?_; rintro ⟨_, _⟩; try dsimp only)

theorem parse_F_mono (lx : Lexer) (r : Node × Lexer) :
    ∀ (k n : Nat), parse_F n lx = .ok r → parse_F (n + k) lx = .ok r := by
  intro k
  induction k with
  | zero => intro n h; exact h
  | succ k ih =>
    intro n h
    exact (parse_mutual_mono (n + k)).2.2.2.2.2.2.2.2.2.1 lx r (ih n h)

theorem parse_T_mono (lx : Lexer) (r : Node × Lexer) :
    ∀ (k n : Nat), parse_T n lx = .ok r → parse_T (n + k) lx = .ok r := by
  intro k
  induction k with
  | zero => intro n h; exact h
  | succ k ih =>
    intro n h
    exact (parse_mutual_mono (n + k)).2.2.2.2.2.2.2.1 lx r (ih n h)

/-! ### C35: chains of additive and of multiplicative operators -/

theorem parse_TPrime_step (k : Nat) (ast : Node) (op : Token) (toks : List Token)
    (hop : op.tag = TOK_TIMES ∨ op.tag = TOK_DIVIDE) :
    parse_TPrime (k + 1) ast (Lexer.of_tokens (op :: toks)) =
      (parse_F k (Lexer.of_tokens toks)) >>= fun r =>
        parse_TPrime k (Node.mk (multiplicative_tag op.tag) "" [ast, r.1]) r.2 := by
  rw [parse_TPrime]
  simp only [peek_one_cons, bind, Except.bind]
  rw [if_pos (by rcases hop with h | h <;> simp [h])]
  simp only [expect_same_tag]
  rfl

theorem parse_EPrime_step (k : Nat) (ast : Node) (op : Token) (toks : List Token)
    (hop : op.tag = TOK_PLUS ∨ op.tag = TOK_MINUS) :
    parse_EPrime (k + 1) ast (Lexer.of_tokens (op :: toks)) =
      (parse_T k (Lexer.of_tokens toks)) >>= fun r =>
        parse_EPrime k (Node.mk (additive_tag op.tag) "" [ast, r.1]) r.2 := by
  rw [parse_EPrime]
  simp only [peek_one_cons, bind, Except.bind]
  rw [if_pos (by rcases hop with h | h <;> simp [h])]
  simp only [expect_same_tag]
  rfl

theorem parse_TPrime_end (k : Nat) (ast : Node) (rest : List Token)
    (hrest : ∀ t ∈ rest.head?, t.tag ≠ TOK_TIMES ∧ t.tag ≠ TOK_DIVIDE) :
    parse_TPrime (k + 1) ast (Lexer.of_tokens rest) = .ok (ast, Lexer.of_tokens rest) := by
  cases rest with
  | nil => exact parse_TPrime_nil k ast
  | cons t more =>
    have h := hrest t (by simp)
    exact parse_TPrime_stop k ast t more h.1 h.2

theorem parse_EPrime_end (k : Nat) (ast : Node) (rest : List Token)
    (hrest : ∀ t ∈ rest.head?, t.tag ≠ TOK_PLUS ∧ t.tag ≠ TOK_MINUS) :
    parse_EPrime (k + 1) ast (Lexer.of_tokens rest) = .ok (ast, Lexer.of_tokens rest) := by
  cases rest with
  | nil => exact parse_EPrime_nil k ast
  | cons t more =>
    have h := hrest t (by simp)
    exact parse_EPrime_stop k ast t more h.1 h.2

theorem parse_TPrime_chain (n : Nat) (rest : List Token)
    (hrest : ∀ t ∈ rest.head?, t.tag ≠ TOK_TIMES ∧ t.tag ≠ TOK_DIVIDE) :
    ∀ (items : List Operand) (ast : Node),
      (∀ o ∈ items, o.op.tag = TOK_TIMES ∨ o.op.tag = TOK_DIVIDE) →
      operands_parsed (parse_F n) items rest →
      parse_TPrime (n + items.length + 1) ast (Lexer.of_tokens (operand_tokens items ++ rest)) =
        .ok (left_nested multiplicative_tag ast items, Lexer.of_tokens rest) := by
  intro items
  induction items with
  | nil =>
    intro ast _ _
    exact parse_TPrime_end _ ast rest hrest
  | cons o more ih =>
    intro ast hops hparsed
    obtain ⟨hp, hmore⟩ := hparsed
    have hF := parse_F_mono _ _ (more.length + 1) n hp
    show parse_TPrime ((n + (more.length + 1)) + 1) ast
      (Lexer.of_tokens (o.op :: ((o.toks ++ operand_tokens more) ++ rest))) = _
    rw [parse_TPrime_step _ _ _ _ (hops o (List.mem_cons_self _ _)), List.append_assoc, hF]
    exact ih _ (fun o2 h2 => hops o2 (List.mem_cons_of_mem _ h2)) hmore

theorem parse_EPrime_chain (n : Nat) (rest : List Token)
    (hrest : ∀ t ∈ rest.head?, t.tag ≠ TOK_PLUS ∧ t.tag ≠ TOK_MINUS) :
    ∀ (items : List Operand) (ast : Node),
      (∀ o ∈ items, o.op.tag = TOK_PLUS ∨ o.op.tag = TOK_MINUS) →
      operands_parsed (parse_T n) items rest →
      parse_EPrime (n + items.length + 1) ast (Lexer.of_tokens (operand_tokens items ++ rest)) =
        .ok (left_nested additive_tag ast items, Lexer.of_tokens rest) := by
  intro items
  induction items with
  | nil =>
    intro ast _ _
    exact parse_EPrime_end _ ast rest hrest
  | cons o more ih =>
    intro ast hops hparsed
    obtain ⟨hp, hmore⟩ := hparsed
    have hT := parse_T_mono _ _ (more.length + 1) n hp
    show parse_EPrime ((n + (more.length + 1)) + 1) ast
      (Lexer.of_tokens (o.op :: ((o.toks ++ operand_tokens more) ++ rest))) = _
    rw [parse_EPrime_step _ _ _ _ (hops o (List.mem_cons_self _ _)), List.append_assoc, hT]
    exact ih _ (fun o2 h2 => hops o2 (List.mem_cons_of_mem _ h2)) hmore

theorem parse_T_chain (n : Nat) (t1 : List Token) (f1 : Node) (items : List Operand)
    (rest : List Token)
    (hops : ∀ o ∈ items, o.op.tag = TOK_TIMES ∨ o.op.tag = TOK_DIVIDE)
    (hfirst : parse_F n (Lexer.of_tokens (t1 ++ (operand_tokens items ++ rest))) =
      .ok (f1, Lexer.of_tokens (operand_tokens items ++ rest)))
    (hparsed : operands_parsed (parse_F n) items rest)
    (hrest : ∀ t ∈ rest.head?, t.tag ≠ TOK_TIMES ∧ t.tag ≠ TOK_DIVIDE) :
    parse_T (n + items.length + 2) (Lexer.of_tokens (t1 ++ (operand_tokens items ++ rest))) =
      .ok (left_nested multiplicative_tag f1 items, Lexer.of_tokens rest) := by
  show parse_T ((n + (items.length + 1)) + 1) _ = _
  rw [parse_T, parse_F_mono _ _ (items.length + 1) n hfirst]
  exact parse_TPrime_chain n rest hrest items f1 hops hparsed

theorem parse_T_primary (n : Nat) (toks suffix : List Token) (f : Node)
    (h : parse_F n (Lexer.of_tokens (toks ++ suffix)) = .ok (f, Lexer.of_tokens suffix))
    (hsuffix : ∀ t ∈ suffix.head?, t.tag ≠ TOK_TIMES ∧ t.tag ≠ TOK_DIVIDE) :
    parse_T (n + 2) (Lexer.of_tokens (toks ++ suffix)) = .ok (f, Lexer.of_tokens suffix) := by
  have h0 := parse_T_chain n toks f [] suffix (by simp) h trivial hsuffix
  exact h0

theorem operand_tokens_head (items : List Operand) (rest : List Token)
    (hops : ∀ o ∈ items, o.op.tag = TOK_PLUS ∨ o.op.tag = TOK_MINUS)
    (hrest : ∀ t ∈ rest.head?, t.tag ≠ TOK_TIMES ∧ t.tag ≠ TOK_DIVIDE) :
    ∀ t ∈ (operand_tokens items ++ rest).head?, t.tag ≠ TOK_TIMES ∧ t.tag ≠ TOK_DIVIDE := by
  cases items with
  | nil => exact hrest
  | cons o more =>
    intro t ht
    simp only [operand_tokens, List.cons_append, List.head?_cons, Option.mem_def,
      Option.some.injEq] at ht
    subst ht
    rcases hops o (List.mem_cons_self _ _) with h | h <;> simp [h]

theorem operands_parsed_primary (n : Nat) (rest : List Token)
    (hrest : ∀ t ∈ rest.head?, t.tag ≠ TOK_TIMES ∧ t.tag ≠ TOK_DIVIDE) :
    ∀ (items : List Operand), (∀ o ∈ items, o.op.tag = TOK_PLUS ∨ o.op.tag = TOK_MINUS) →
      operands_parsed (parse_F n) items rest → operands_parsed (parse_T (n + 2)) items rest := by
  intro items
  induction items with
  | nil => intro _ _; trivial
  | cons o more ih =>
    intro hops hparsed
    have hops2 : ∀ o2 ∈ more, o2.op.tag = TOK_PLUS ∨ o2.op.tag = TOK_MINUS :=
      fun o2 h2 => hops o2 (List.mem_cons_of_mem _ h2)
    exact ⟨parse_T_primary n _ _ _ hparsed.1 (operand_tokens_head more rest hops2 hrest),
      ih hops2 hparsed.2⟩

theorem parse_E_chain (n : Nat) (t1 : List Token) (f1 : Node) (items : List Operand)
    (rest : List Token)
    (hops : ∀ o ∈ items, o.op.tag = TOK_PLUS ∨ o.op.tag = TOK_MINUS)
    (hfirst : parse_T n (Lexer.of_tokens (t1 ++ (operand_tokens items ++ rest))) =
      .ok (f1, Lexer.of_tokens (operand_tokens items ++ rest)))
    (hparsed : operands_parsed (parse_T n) items rest)
    (hrest : ∀ t ∈ rest.head?, t.tag ≠ TOK_PLUS ∧ t.tag ≠ TOK_MINUS) :
    parse_E (n + items.length + 2) (Lexer.of_tokens (t1 ++ (operand_tokens items ++ rest))) =
      .ok (left_nested additive_tag f1 items, Lexer.of_tokens rest) := by
  show parse_E ((n + (items.length + 1)) + 1) _ = _
  rw [parse_E, parse_T_mono _ _ (items.length + 1) n hfirst]
  exact parse_EPrime_chain n rest hrest items f1 hops hparsed

/-- C35: additive and multiplicative operators parse left-associatively, and
`*` `/` bind tighter than `+` `-`. For primary expressions f1, f2, ..., each
parsed by `parse_F` where it stands, the tokens `f1 op1 f2 op2 ... fn`
followed by a token that is no arithmetic operator (or by nothing) are parsed
by `parse_E`, when all the operators are `+` or `-`, and by `parse_T`, when
all are `*` or `/`, to the left-nested tree ((f1 op1 f2) op2 f3)..., the
parser stopping right after fn. `a + b * c` yields ADD(a, MULTIPLY(b, c)) and
`a * b + c` yields ADD(MULTIPLY(a, b), c), for primary expressions a, b, c. -/
theorem C35_left_associative (n : Nat) (t1 : List Token) (f1 : Node) (items : List Operand)
    (rest : List Token) (ta tb tc : List Token) (a b c : Node) (plus times : Token) :
    ((∀ o ∈ items, o.op.tag = TOK_PLUS ∨ o.op.tag = TOK_MINUS) →
      parse_F n (Lexer.of_tokens (t1 ++ (operand_tokens items ++ rest))) =
        .ok (f1, Lexer.of_tokens (operand_tokens items ++ rest)) →
      operands_parsed (parse_F n) items rest →
      (∀ t ∈ rest.head?, t.tag ≠ TOK_PLUS ∧ t.tag ≠ TOK_MINUS ∧ t.tag ≠ TOK_TIMES ∧
        t.tag ≠ TOK_DIVIDE) →
      parse_E (n + items.length + 4) (Lexer.of_tokens (t1 ++ (operand_tokens items ++ rest))) =
        .ok (left_nested additive_tag f1 items, Lexer.of_tokens rest)) ∧
    ((∀ o ∈ items, o.op.tag = TOK_TIMES ∨ o.op.tag = TOK_DIVIDE) →
      parse_F n (Lexer.of_tokens (t1 ++ (operand_tokens items ++ rest))) =
        .ok (f1, Lexer.of_tokens (operand_tokens items ++ rest)) →
      operands_parsed (parse_F n) items rest →
      (∀ t ∈ rest.head?, t.tag ≠ TOK_TIMES ∧ t.tag ≠ TOK_DIVIDE) →
      parse_T (n + items.length + 2) (Lexer.of_tokens (t1 ++ (operand_tokens items ++ rest))) =
        .ok (left_nested multiplicative_tag f1 items, Lexer.of_tokens rest)) ∧
    (plus.tag = TOK_PLUS → times.tag = TOK_TIMES →
      (∀ t ∈ rest.head?, t.tag ≠ TOK_PLUS ∧ t.tag ≠ TOK_MINUS ∧ t.tag ≠ TOK_TIMES ∧
        t.tag ≠ TOK_DIVIDE) →
      parse_F n (Lexer.of_tokens (tc ++ rest)) = .ok (c, Lexer.of_tokens rest) →
      (parse_F n (Lexer.of_tokens (ta ++ plus :: (tb ++ times :: (tc ++ rest)))) =
          .ok (a, Lexer.of_tokens (plus :: (tb ++ times :: (tc ++ rest)))) →
        parse_F n (Lexer.of_tokens (tb ++ times :: (tc ++ rest))) =
          .ok (b, Lexer.of_tokens (times :: (tc ++ rest))) →
        parse_E (n + 6) (Lexer.of_tokens (ta ++ plus :: (tb ++ times :: (tc ++ rest)))) =
          .ok (Node.mk AST_ADD "" [a, Node.mk AST_MULTIPLY "" [b, c]], Lexer.of_tokens rest)) ∧
      (parse_F n (Lexer.of_tokens (ta ++ times :: (tb ++ plus :: (tc ++ rest)))) =
          .ok (a, Lexer.of_tokens (times :: (tb ++ plus :: (tc ++ rest)))) →
        parse_F n (Lexer.of_tokens (tb ++ plus :: (tc ++ rest))) =
          .ok (b, Lexer.of_tokens (plus :: (tc ++ rest))) →
        parse_E (n + 6) (Lexer.of_tokens (ta ++ times :: (tb ++ plus :: (tc ++ rest)))) =
          .ok (Node.mk AST_ADD "" [Node.mk AST_MULTIPLY "" [a, b], c], Lexer.of_tokens rest))) := by
  refine ⟨?_, ?_, ?_⟩
  · intro hops hfirst hparsed hrest
    have hrest1 : ∀ t ∈ rest.head?, t.tag ≠ TOK_TIMES ∧ t.tag ≠ TOK_DIVIDE :=
      fun t ht => ⟨(hrest t ht).2.2.1, (hrest t ht).2.2.2⟩
    have hrest2 : ∀ t ∈ rest.head?, t.tag ≠ TOK_PLUS ∧ t.tag ≠ TOK_MINUS :=
      fun t ht => ⟨(hrest t ht).1, (hrest t ht).2.1⟩
    have e : n + items.length + 4 = n + 2 + items.length + 2 := by omega
    rw [e]
    exact parse_E_chain (n + 2) t1 f1 items rest hops
      (parse_T_primary n _ _ _ hfirst (operand_tokens_head items rest hops hrest1))
      (operands_parsed_primary n rest hrest1 items hops hparsed) hrest2
  · intro hops hfirst hparsed hrest
    exact parse_T_chain n t1 f1 items rest hops hfirst hparsed hrest
  · intro hplus htimes hrest hc
    have hrest1 : ∀ t ∈ rest.head?, t.tag ≠ TOK_TIMES ∧ t.tag ≠ TOK_DIVIDE :=
      fun t ht => ⟨(hrest t ht).2.2.1, (hrest t ht).2.2.2⟩
    have hrest2 : ∀ t ∈ rest.head?, t.tag ≠ TOK_PLUS ∧ t.tag ≠ TOK_MINUS :=
      fun t ht => ⟨(hrest t ht).1, (hrest t ht).2.1⟩
    have hplus_head : ∀ (l : List Token), ∀ t ∈ (plus :: l).head?,
        t.tag ≠ TOK_TIMES ∧ t.tag ≠ TOK_DIVIDE := by
      intro l t ht
      simp only [List.head?_cons, Option.mem_def, Option.some.injEq] at ht
      subst ht
      simp [hplus]
    constructor
    · intro ha hb
      have hbc := parse_T_chain n tb b [⟨times, tc, c⟩] rest
        (by simp [htimes]) (by simpa [operand_tokens] using hb)
        ⟨by simpa [operand_tokens] using hc, trivial⟩ hrest1
      have hA := parse_T_mono _ _ 1 (n + 2) (parse_T_primary n ta _ a ha (hplus_head _))
      have hE := parse_E_chain (n + 3) ta a
        [⟨plus, tb ++ times :: tc, Node.mk AST_MULTIPLY "" [b, c]⟩]
        rest (by simp [hplus])
        (by simpa [operand_tokens] using hA)
        ⟨by simpa [operand_tokens, left_nested, multiplicative_tag, htimes] using hbc, trivial⟩
        hrest2
      simpa [operand_tokens, left_nested, additive_tag, hplus] using hE
    · intro ha hb
      have hab := parse_T_chain n ta a [⟨times, tb, b⟩] (plus :: (tc ++ rest))
        (by simp [htimes]) (by simpa [operand_tokens] using ha)
        ⟨by simpa [operand_tokens] using hb, trivial⟩ (hplus_head _)
      have hC := parse_T_mono _ _ 1 (n + 2) (parse_T_primary n tc rest c hc hrest1)
      have hE := parse_E_chain (n + 3) (ta ++ times :: tb) (Node.mk AST_MULTIPLY "" [a, b])
        [⟨plus, tc, c⟩] rest (by simp [hplus])
        (by simpa [operand_tokens, left_nested, multiplicative_tag, htimes] using hab)
        ⟨by simpa [operand_tokens] using hC, trivial⟩
        hrest2
      simpa [operand_tokens, left_nested, additive_tag, hplus] using hE

/-- Witness of C35: `a + b - c ;` parses to SUB(ADD(a, b), c), `a * b / c ;`
to DIVIDE(MULTIPLY(a, b), c), `a + b * c ;` to ADD(a, MULTIPLY(b, c)) and
`a * b + c ;` to ADD(MULTIPLY(a, b), c). -/
theorem C35_left_associative_witness :
    parse_E (1 + 2 + 4) (Lexer.of_tokens [⟨TOK_IDENTIFIER, "a"⟩, ⟨TOK_PLUS, "+"⟩,
        ⟨TOK_IDENTIFIER, "b"⟩, ⟨TOK_MINUS, "-"⟩, ⟨TOK_IDENTIFIER, "c"⟩, ⟨TOK_SEMICOLON, ";"⟩]) =
      .ok (Node.mk AST_SUB "" [Node.mk AST_ADD "" [Node.mk AST_VARREF "a" [],
          Node.mk AST_VARREF "b" []], Node.mk AST_VARREF "c" []],
        Lexer.of_tokens [⟨TOK_SEMICOLON, ";"⟩]) ∧
    parse_T (1 + 2 + 2) (Lexer.of_tokens [⟨TOK_IDENTIFIER, "a"⟩, ⟨TOK_TIMES, "*"⟩,
        ⟨TOK_IDENTIFIER, "b"⟩, ⟨TOK_DIVIDE, "/"⟩, ⟨TOK_IDENTIFIER, "c"⟩, ⟨TOK_SEMICOLON, ";"⟩]) =
      .ok (Node.mk AST_DIVIDE "" [Node.mk AST_MULTIPLY "" [Node.mk AST_VARREF "a" [],
          Node.mk AST_VARREF "b" []], Node.mk AST_VARREF "c" []],
        Lexer.of_tokens [⟨TOK_SEMICOLON, ";"⟩]) ∧
    parse_E (1 + 6) (Lexer.of_tokens [⟨TOK_IDENTIFIER, "a"⟩, ⟨TOK_PLUS, "+"⟩,
        ⟨TOK_IDENTIFIER, "b"⟩, ⟨TOK_TIMES, "*"⟩, ⟨TOK_IDENTIFIER, "c"⟩, ⟨TOK_SEMICOLON, ";"⟩]) =
      .ok (Node.mk AST_ADD "" [Node.mk AST_VARREF "a" [],
          Node.mk AST_MULTIPLY "" [Node.mk AST_VARREF "b" [], Node.mk AST_VARREF "c" []]],
        Lexer.of_tokens [⟨TOK_SEMICOLON, ";"⟩]) ∧
    parse_E (1 + 6) (Lexer.of_tokens [⟨TOK_IDENTIFIER, "a"⟩, ⟨TOK_TIMES, "*"⟩,
        ⟨TOK_IDENTIFIER, "b"⟩, ⟨TOK_PLUS, "+"⟩, ⟨TOK_IDENTIFIER, "c"⟩, ⟨TOK_SEMICOLON, ";"⟩]) =
      .ok (Node.mk AST_ADD "" [Node.mk AST_MULTIPLY "" [Node.mk AST_VARREF "a" [],
          Node.mk AST_VARREF "b" []], Node.mk AST_VARREF "c" []],
        Lexer.of_tokens [⟨TOK_SEMICOLON, ";"⟩]) :=
  ⟨(C35_left_associative 1 [⟨TOK_IDENTIFIER, "a"⟩] (Node.mk AST_VARREF "a" [])
      [⟨⟨TOK_PLUS, "+"⟩, [⟨TOK_IDENTIFIER, "b"⟩], Node.mk AST_VARREF "b" []⟩,
       ⟨⟨TOK_MINUS, "-"⟩, [⟨TOK_IDENTIFIER, "c"⟩], Node.mk AST_VARREF "c" []⟩]
      [⟨TOK_SEMICOLON, ";"⟩] [] [] [] (Node.mk AST_VARREF "a" []) (Node.mk AST_VARREF "a" [])
      (Node.mk AST_VARREF "a" []) ⟨TOK_PLUS, "+"⟩ ⟨TOK_TIMES, "*"⟩).1
      (by decide) rfl ⟨rfl, rfl, trivial⟩ (by decide),
   (C35_left_associative 1 [⟨TOK_IDENTIFIER, "a"⟩] (Node.mk AST_VARREF "a" [])
      [⟨⟨TOK_TIMES, "*"⟩, [⟨TOK_IDENTIFIER, "b"⟩], Node.mk AST_VARREF "b" []⟩,
       ⟨⟨TOK_DIVIDE, "/"⟩, [⟨TOK_IDENTIFIER, "c"⟩], Node.mk AST_VARREF "c" []⟩]
      [⟨TOK_SEMICOLON, ";"⟩] [] [] [] (Node.mk AST_VARREF "a" []) (Node.mk AST_VARREF "a" [])
      (Node.mk AST_VARREF "a" []) ⟨TOK_PLUS, "+"⟩ ⟨TOK_TIMES, "*"⟩).2.1
      (by decide) rfl ⟨rfl, rfl, trivial⟩ (by decide),
   ((C35_left_associative 1 [] (Node.mk AST_VARREF "a" []) [] [⟨TOK_SEMICOLON, ";"⟩]
      [⟨TOK_IDENTIFIER, "a"⟩] [⟨TOK_IDENTIFIER, "b"⟩] [⟨TOK_IDENTIFIER, "c"⟩]
      (Node.mk AST_VARREF "a" []) (Node.mk AST_VARREF "b" []) (Node.mk AST_VARREF "c" [])
      ⟨TOK_PLUS, "+"⟩ ⟨TOK_TIMES, "*"⟩).2.2 rfl rfl (by decide) rfl).1 rfl rfl,
   ((C35_left_associative 1 [] (Node.mk AST_VARREF "a" []) [] [⟨TOK_SEMICOLON, ";"⟩]
      [⟨TOK_IDENTIFIER, "a"⟩] [⟨TOK_IDENTIFIER, "b"⟩] [⟨TOK_IDENTIFIER, "c"⟩]
      (Node.mk AST_VARREF "a" []) (Node.mk AST_VARREF "b" []) (Node.mk AST_VARREF "c" [])
      ⟨TOK_PLUS, "+"⟩ ⟨TOK_TIMES, "*"⟩).2.2 rfl rfl (by decide) rfl).2 rfl rfl⟩

/-! ### C37: assignment to a bound name -/

theorem map_assign_keys (m : List (String × Value)) (x : String) (v : Value)
    (h : (map_find m x).isSome = true) :
    (map_assign m x v).map Prod.fst = m.map Prod.fst := by
  induction m with
  | nil => simp [map_find] at h
  | cons kw rest ih =>
    obtain ⟨k, w⟩ := kw
    by_cases hk : x = k
    · simp [map_assign, hk]
    · have hne : (x == k) = false := by simpa using hk
      have h2 : (map_find rest x).isSome = true := by
        simpa [map_find, List.lookup, hne] using h
      simp [map_assign, hk, ih h2]

theorem setVar_walk_chain (x : String) (v : Value) (s : Store) (q : Nat) (post : List Nat)
    (E : Environment) (hq : s.env q = .ok E) (hx : (map_find E.vars x).isSome = true) :
    ∀ (n env : Nat) (pre : List Nat),
      chain_addresses s n env = some (pre ++ q :: post) →
      (∀ r ∈ pre, ∀ P, s.env r = .ok P → map_find P.vars x = none) →
      setVar_walk v n s env x = .ok (s.put_env q { E with vars := map_assign E.vars x v }) ∧
        isDefined_walk s n env x = .ok true := by
  intro n
  induction n with
  | zero => intro env pre h; simp [chain_addresses] at h
  | succ n ih =>
    intro env pre h hpre
    simp only [chain_addresses] at h
    cases he : s.envs[env]? with
    | none => simp [he] at h
    | some o =>
      cases o with
      | none => simp [he] at h
      | some e =>
        simp only [he] at h
        have hE : s.env env = .ok e := by simp [Store.env, he]
        cases pre with
        | nil =>
          have hqe : q = env := by
            cases hp : e.m_parent with
            | none => simp [hp] at h; exact h.1.symm
            | some p =>
              simp only [hp, Option.map_eq_some'] at h
              obtain ⟨rest, _, hc⟩ := h
              simp at hc
              exact hc.1.symm
          subst hqe
          rw [hq] at hE
          simp only [Except.ok.injEq] at hE
          subst hE
          simp [setVar_walk, isDefined_walk, hq, hx, bind, Except.bind]
        | cons r pre2 =>
          cases hp : e.m_parent with
          | none => simp [hp] at h
          | some p =>
            simp only [hp, Option.map_eq_some'] at h
            obtain ⟨rest, hrest, hc⟩ := h
            simp only [List.cons_append, List.cons.injEq] at hc
            obtain ⟨hr, hc2⟩ := hc
            subst hr
            subst hc2
            have hnone := hpre env (List.mem_cons_self _ _) e hE
            obtain ⟨h1, h2⟩ := ih p pre2 hrest
              (fun r2 hr2 => hpre r2 (List.mem_cons_of_mem _ hr2))
            simp [setVar_walk, isDefined_walk, hE, hnone, hp, h1, h2, bind, Except.bind]

/-- C37: when `e` evaluates to `v` and, in the store `e` leaves, the scope at
address `q` is the innermost scope of the chain from `env` that binds `x`
(the scopes before it on the chain do not bind `x`), evaluating `x = e`
yields `v` in the store that differs from the one `e` leaves only in the
scope at `q`, whose binding of `x` is overwritten with `v`: the other names
of that scope keep their values, the scope has the same names as before (no
binding is created), every other scope, outer scopes binding `x` included, is
the same, and so are functions, arrays, output and input. Reading `x` from
`env` in the new store returns `v`. When `e` fails, the assignment fails the
same way. -/
theorem C37_assignment (fuel : Nat) (x : String) (e : Node) (env : Nat) (s s1 : Store)
    (v : Value) (pre : List Nat) (q : Nat) (post : List Nat) (E : Environment) :
    (∀ err, evaluate fuel e env s = .error err →
      evaluate (fuel + 1) (assign_node x e) env s = .error err) ∧
    (evaluate fuel e env s = .ok (v, s1) →
      chain_addresses s1 s1.envs.length env = some (pre ++ q :: post) →
      (∀ r ∈ pre, ∀ P, s1.env r = .ok P → map_find P.vars x = none) →
      s1.env q = .ok E → (map_find E.vars x).isSome = true →
      evaluate (fuel + 1) (assign_node x e) env s =
          .ok (v, s1.put_env q { E with vars := map_assign E.vars x v }) ∧
        (s1.put_env q { E with vars := map_assign E.vars x v }).env q =
          .ok { E with vars := map_assign E.vars x v } ∧
        map_find (map_assign E.vars x v) x = some v ∧
        (∀ y, y ≠ x → map_find (map_assign E.vars x v) y = map_find E.vars y) ∧
        (map_assign E.vars x v).map Prod.fst = E.vars.map Prod.fst ∧
        (∀ r, r ≠ q →
          (s1.put_env q { E with vars := map_assign E.vars x v }).envs[r]? = s1.envs[r]?) ∧
        (s1.put_env q { E with vars := map_assign E.vars x v }).envs.length = s1.envs.length ∧
        (s1.put_env q { E with vars := map_assign E.vars x v }).functions = s1.functions ∧
        (s1.put_env q { E with vars := map_assign E.vars x v }).arrays = s1.arrays ∧
        (s1.put_env q { E with vars := map_assign E.vars x v }).output = s1.output ∧
        (s1.put_env q { E with vars := map_assign E.vars x v }).input = s1.input ∧
        evaluate (fuel + 1) (varref x) env
            (s1.put_env q { E with vars := map_assign E.vars x v }) =
          .ok (v, s1.put_env q { E with vars := map_assign E.vars x v })) := by
  constructor
  · intro err herr
    rw [evaluate_assign, herr]
    rfl
  · intro he hchain hpre hq hx
    obtain ⟨hset, hdef⟩ := setVar_walk_chain x v s1 q post E hq hx _ env pre hchain hpre
    obtain ⟨s2, hset2, hget, hlen, _⟩ := setVar_walk_defined x v _ s1 env hdef
    rw [hset] at hset2
    simp only [Except.ok.injEq] at hset2
    subst hset2
    refine ⟨?_, env_put_env_same s1 q E _ hq, map_find_map_assign_same _ _ _, ?_,
      map_assign_keys _ _ _ hx, ?_, hlen, rfl, rfl, rfl, rfl, ?_⟩
    · rw [evaluate_assign, he]
      simp [bind, Except.bind, check_exists, Environment_isDefined, hdef, Environment_setVar,
        hset]
    · intro y hy
      exact map_find_map_assign_other _ _ _ _ hy
    · intro r hr
      simp [Store.put_env, List.getElem?_set, Ne.symm hr]
    · apply evaluate_varref_of_getVar
      unfold Environment_getVar
      rw [hlen]
      exact hget

/-- Witness of C37: in `two_scope_store`, `x = 7` evaluated in the inner
scope (address 1) overwrites the inner `x`; the global scope keeps its `x`. -/
theorem C37_assignment_witness :
    evaluate (1 + 1) (assign_node "x" (int_literal "7")) 1 two_scope_store =
        .ok (VALUE_INT 7,
          { envs := [some { m_parent := none, vars := [("x", VALUE_INT 1), ("y", VALUE_INT 5)] },
                     some { m_parent := some 0, vars := [("x", VALUE_INT 7)] }],
            functions := [], arrays := [], output := "", input := [] }) :=
  ((C37_assignment 1 "x" (int_literal "7") 1 two_scope_store two_scope_store (VALUE_INT 7)
    [] 1 [0] { m_parent := some 0, vars := [("x", VALUE_INT 2)] }).2
    rfl rfl (by simp) rfl rfl).1

/-! ### C38: analyze as one pass over the nodes in pre-order -/

mutual

theorem analyze_nodes_preorder : ∀ (t : Node) (more : List Node) (D : List String),
    analyze_nodes (preorder t ++ more) D =
      match analyzeHelper t D with
      | .ok d => analyze_nodes more d
      | .error e => .error e
  | .mk tag str kids, more, D => by
    have hk := fun D2 => analyze_nodes_preorder_kids kids more D2
    simp only [preorder, List.cons_append, analyze_nodes, Node.get_tag, Node.kids, Node.get_str,
      analyzeHelper]
    by_cases h1 : tag = AST_VARDEF
    · simp only [h1, if_true]
      cases kids with
      | nil => rfl
      | cons v rest => exact hk _
    · simp only [h1, if_false]
      by_cases h2 : tag = AST_VARREF
      · simp only [h2, if_true]
        by_cases h3 : str ∈ D
        · simp only [h3, if_true]; exact hk _
        · simp only [h3, if_false]
      · simp only [h2, if_false]; exact hk _

theorem analyze_nodes_preorder_kids : ∀ (kids : List Node) (more : List Node) (D : List String),
    analyze_nodes (preorder_kids kids ++ more) D =
      match analyze_kids kids D with
      | .ok d => analyze_nodes more d
      | .error e => .error e
  | [], more, D => by simp [preorder_kids, analyze_kids]
  | kid :: rest, more, D => by
    have h1 := analyze_nodes_preorder kid (preorder_kids rest ++ more) D
    have h2 := fun D2 => analyze_nodes_preorder_kids rest more D2
    simp only [preorder_kids, List.append_assoc, analyze_kids, h1]
    cases analyzeHelper kid D with
    | error e => rfl
    | ok d => exact h2 d

end

theorem analyze_eq_analyze_nodes (t : Node) :
    analyze t = analyze_nodes (preorder t) builtin_names := by
  have h := analyze_nodes_preorder t [] builtin_names
  rw [List.append_nil] at h
  rw [h, analyze]
  cases analyzeHelper t builtin_names <;> rfl

theorem analyze_nodes_cons_vardef (n : Node) (v : Node) (vs rest : List Node) (D : List String)
    (h1 : n.get_tag = AST_VARDEF) (hk : n.kids = v :: vs) :
    analyze_nodes (n :: rest) D = analyze_nodes rest (D.insert v.get_str) := by
  simp [analyze_nodes, h1, hk]

theorem analyze_nodes_cons_varref (n : Node) (rest : List Node) (D : List String)
    (h2 : n.get_tag = AST_VARREF) :
    analyze_nodes (n :: rest) D =
      if n.get_str ∈ D then analyze_nodes rest D
      else .error (.EvaluationError ("Reference to undefined name '" ++ n.get_str ++ "'")) := by
  simp [analyze_nodes, h2]

theorem analyze_nodes_cons_other (n : Node) (rest : List Node) (D : List String)
    (h1 : n.get_tag ≠ AST_VARDEF) (h2 : n.get_tag ≠ AST_VARREF) :
    analyze_nodes (n :: rest) D = analyze_nodes rest D := by
  simp [analyze_nodes, h1, h2]

theorem declares_false_of_tag (n : Node) (x : String) (h : n.get_tag ≠ AST_VARDEF) :
    n.declares x = false := by
  simp [Node.declares, h]

theorem declares_of_kids (n v : Node) (vs : List Node) (x : String)
    (h1 : n.get_tag = AST_VARDEF) (hk : n.kids = v :: vs) :
    n.declares x = decide (v.get_str = x) := by
  simp [Node.declares, h1, hk]

theorem undefined_reference_cons (n : Node) (rest : List Node) (D D2 : List String)
    (hhead : ¬ (n.get_tag = AST_VARREF ∧ n.get_str ∉ D))
    (hD2 : ∀ x, x ∈ D2 ↔ x ∈ D ∨ n.declares x = true) :
    undefined_reference (n :: rest) D ↔ undefined_reference rest D2 := by
  constructor
  · rintro ⟨pre, m, post, heq, htag, hnot, hpre⟩
    cases pre with
    | nil =>
      simp only [List.nil_append, List.cons.injEq] at heq
      obtain ⟨hn, _⟩ := heq
      subst hn
      exact absurd ⟨htag, hnot⟩ hhead
    | cons p pre2 =>
      simp only [List.cons_append, List.cons.injEq] at heq
      obtain ⟨hp, hrest⟩ := heq
      subst hp
      refine ⟨pre2, m, post, hrest, htag, ?_, fun d hd => hpre d (List.mem_cons_of_mem _ hd)⟩
      intro hmem
      rcases (hD2 _).mp hmem with h | h
      · exact hnot h
      · have := hpre n (List.mem_cons_self _ _)
        rw [this] at h
        exact absurd h (by decide)
  · rintro ⟨pre, m, post, heq, htag, hnot, hpre⟩
    refine ⟨n :: pre, m, post, by simp [heq], htag, ?_, ?_⟩
    · intro hmem
      exact hnot ((hD2 _).mpr (Or.inl hmem))
    · intro d hd
      rcases List.mem_cons.mp hd with h | h
      · subst h
        cases hdec : d.declares m.get_str with
        | false => rfl
        | true => exact absurd ((hD2 _).mpr (Or.inr hdec)) hnot
      · exact hpre d h

theorem vardefs_named_cons (n : Node) (rest : List Node) (h : vardefs_named (n :: rest) = true) :
    (n.get_tag = AST_VARDEF → ∃ v vs, n.kids = v :: vs) ∧ vardefs_named rest = true := by
  simp only [vardefs_named, List.all_cons, Bool.and_eq_true, Bool.or_eq_true, bne_iff_ne, ne_eq,
    Bool.not_eq_true', List.isEmpty_eq_false] at h
  refine ⟨?_, by simpa [vardefs_named] using h.2⟩
  intro htag
  rcases h.1 with h1 | h1
  · exact absurd htag h1
  · cases hk : n.kids with
    | nil => simp [hk] at h1
    | cons v vs => exact ⟨v, vs, rfl⟩

/-- The three ways a node is treated, with the set of names after it. -/
theorem analyze_nodes_step (n : Node) (rest : List Node) (D : List String)
    (hnamed : n.get_tag = AST_VARDEF → ∃ v vs, n.kids = v :: vs) :
    (n.get_tag = AST_VARREF ∧ n.get_str ∉ D ∧
      analyze_nodes (n :: rest) D =
        .error (.EvaluationError ("Reference to undefined name '" ++ n.get_str ++ "'"))) ∨
    (¬ (n.get_tag = AST_VARREF ∧ n.get_str ∉ D) ∧
      ∃ D2, analyze_nodes (n :: rest) D = analyze_nodes rest D2 ∧
        ∀ x, x ∈ D2 ↔ x ∈ D ∨ n.declares x = true) := by
  by_cases h1 : n.get_tag = AST_VARDEF
  · obtain ⟨v, vs, hk⟩ := hnamed h1
    right
    refine ⟨fun h => by rw [h1] at h; exact absurd h.1 (by decide), D.insert v.get_str,
      analyze_nodes_cons_vardef n v vs rest D h1 hk, ?_⟩
    intro x
    rw [declares_of_kids n v vs x h1 hk, List.mem_insert_iff]
    constructor
    · rintro (h | h)
      · exact Or.inr (by simp [h])
      · exact Or.inl h
    · rintro (h | h)
      · exact Or.inr h
      · exact Or.inl (of_decide_eq_true h).symm
  · by_cases h2 : n.get_tag = AST_VARREF
    · by_cases h3 : n.get_str ∈ D
      · right
        refine ⟨fun h => h.2 h3, D, ?_, ?_⟩
        · rw [analyze_nodes_cons_varref n rest D h2, if_pos h3]
        · intro x
          simp [declares_false_of_tag n x h1]
      · left
        refine ⟨h2, h3, ?_⟩
        rw [analyze_nodes_cons_varref n rest D h2, if_neg h3]
    · right
      refine ⟨fun h => h2 h.1, D, analyze_nodes_cons_other n rest D h1 h2, ?_⟩
      intro x
      simp [declares_false_of_tag n x h1]

theorem analyze_nodes_error_iff : ∀ (L : List Node) (D : List String),
    vardefs_named L = true →
    ((∃ msg, analyze_nodes L D = .error (.EvaluationError msg)) ↔ undefined_reference L D) := by
  intro L
  induction L with
  | nil =>
    intro D _
    constructor
    · rintro ⟨msg, h⟩; simp [analyze_nodes] at h
    · rintro ⟨pre, m, post, heq, _⟩; simp at heq
  | cons n rest ih =>
    intro D hn
    obtain ⟨hnamed, hrest⟩ := vardefs_named_cons n rest hn
    rcases analyze_nodes_step n rest D hnamed with ⟨htag, hnot, herr⟩ | ⟨hhead, D2, heq, hD2⟩
    · constructor
      · intro _
        exact ⟨[], n, rest, rfl, htag, hnot, by simp⟩
      · intro _
        exact ⟨_, herr⟩
    · rw [heq, ih D2 hrest]
      exact (undefined_reference_cons n rest D D2 hhead hD2).symm

theorem analyze_nodes_error_kind : ∀ (L : List Node) (D : List String) (err : Failure),
    vardefs_named L = true → analyze_nodes L D = .error err →
    ∃ n ∈ L, n.get_tag = AST_VARREF ∧
      err = .EvaluationError ("Reference to undefined name '" ++ n.get_str ++ "'") := by
  intro L
  induction L with
  | nil => intro D err _ h; simp [analyze_nodes] at h
  | cons n rest ih =>
    intro D err hn h
    obtain ⟨hnamed, hrest⟩ := vardefs_named_cons n rest hn
    rcases analyze_nodes_step n rest D hnamed with ⟨htag, _, herr⟩ | ⟨_, D2, heq, _⟩
    · rw [herr] at h
      simp only [Except.error.injEq] at h
      exact ⟨n, List.mem_cons_self _ _, htag, h.symm⟩
    · rw [heq] at h
      obtain ⟨m, hm, hres⟩ := ih D2 err hrest h
      exact ⟨m, List.mem_cons_of_mem _ hm, hres⟩

theorem analyze_nodes_ok_set : ∀ (L : List Node) (D D1 : List String),
    vardefs_named L = true → analyze_nodes L D = .ok D1 →
    ∀ x, x ∈ D1 ↔ x ∈ D ∨ ∃ d ∈ L, d.declares x = true := by
  intro L
  induction L with
  | nil =>
    intro D D1 _ h x
    simp only [analyze_nodes, Except.ok.injEq] at h
    subst h
    simp
  | cons n rest ih =>
    intro D D1 hn h x
    obtain ⟨hnamed, hrest⟩ := vardefs_named_cons n rest hn
    rcases analyze_nodes_step n rest D hnamed with ⟨_, _, herr⟩ | ⟨_, D2, heq, hD2⟩
    · rw [herr] at h
      simp at h
    · rw [heq] at h
      rw [ih D2 D1 hrest h x, hD2 x]
      simp only [List.mem_cons, exists_eq_or_imp]
      tauto

/-- C38: the set of names of analyze is flat and only grows. For a tree whose
VARDEF nodes all have a child (such are the trees of the parser, those of
programs without function definitions among them), analyze raises an
evaluation error if and only if, the nodes being taken in pre-order, some
variable-reference node names a name that is not one of the twelve built-in
names and that no `var` declaration earlier in the traversal declares,
wherever in the tree that declaration is. It raises nothing else, the message
being "Reference to undefined name" with the name of a reference node, and
when it raises nothing the set it ends with holds the built-in names and the
names declared anywhere in the tree. In particular `if (1) { var y; } y;`,
whose reference to `y` follows a declaration inside an already closed block,
is accepted by analyze although executing it raises. -/
theorem C38_analyze_flat (t : Node) (hnamed : vardefs_named (preorder t) = true) :
    ((∃ msg, analyze t = .error (.EvaluationError msg)) ↔
      undefined_reference (preorder t) builtin_names) ∧
    (∀ err, analyze t = .error err → ∃ n ∈ preorder t, n.get_tag = AST_VARREF ∧
      err = .EvaluationError ("Reference to undefined name '" ++ n.get_str ++ "'")) ∧
    (∀ D, analyze t = .ok D →
      ∀ x, x ∈ D ↔ x ∈ builtin_names ∨ ∃ d ∈ preorder t, d.declares x = true) ∧
    builtin_names.length = 12 ∧
    parse_Unit 12 (Lexer.of_tokens tokens_block_then_reference) =
      .ok (program_block_then_reference, Lexer.of_tokens []) ∧
    analyze program_block_then_reference = .ok ("y" :: builtin_names) ∧
    execute_program 4 program_block_then_reference (Store.initial []) =
      .error (.EvaluationError "Function not defined before invoking 'y'") := by
  rw [analyze_eq_analyze_nodes]
  exact ⟨analyze_nodes_error_iff _ _ hnamed, fun err => analyze_nodes_error_kind _ _ err hnamed,
    fun D => analyze_nodes_ok_set _ _ D hnamed, rfl, rfl, rfl, rfl⟩

/-- Witness of C38: the tree of `z;` holds an undefined reference, analyze
raising on it, and the tree of `if (1) { var y; } y;` holds none. -/
theorem C38_analyze_flat_witness :
    undefined_reference (preorder (.mk AST_UNIT "" [statement (varref "z")])) builtin_names ∧
    ¬ undefined_reference (preorder program_block_then_reference) builtin_names :=
  ⟨(C38_analyze_flat (.mk AST_UNIT "" [statement (varref "z")]) rfl).1.mp ⟨_, rfl⟩,
   fun h => by
    obtain ⟨msg, hmsg⟩ := (C38_analyze_flat program_block_then_reference rfl).1.mpr h
    rw [show analyze program_block_then_reference = .ok ("y" :: builtin_names) from rfl] at hmsg
    cases hmsg⟩
/-! ### C39: every variable-reference node is checked -/

theorem preorder_head (t : Node) : preorder t = t :: preorder_kids t.kids := by
  cases t with
  | mk tag str kids => simp [preorder, Node.kids]

mutual

theorem preorder_subtree : ∀ (t : Node) (pre : List Node) (n : Node) (post : List Node),
    preorder t = pre ++ n :: post → ∃ post2, post = preorder_kids n.kids ++ post2
  | .mk tag str kids, pre, n, post, h => by
    have hk := fun pre2 => preorder_subtree_kids kids pre2 n post
    simp only [preorder] at h
    cases pre with
    | nil =>
      simp only [List.nil_append, List.cons.injEq] at h
      obtain ⟨hn, hpost⟩ := h
      subst hn
      exact ⟨[], by simp [Node.kids, hpost]⟩
    | cons p pre2 =>
      simp only [List.cons_append, List.cons.injEq] at h
      exact hk pre2 h.2

theorem preorder_subtree_kids : ∀ (kids : List Node) (pre : List Node) (n : Node)
    (post : List Node),
    preorder_kids kids = pre ++ n :: post → ∃ post2, post = preorder_kids n.kids ++ post2
  | [], pre, n, post, h => by simp [preorder_kids] at h
  | kid :: rest, pre, n, post, h => by
    have h1 := fun pre2 post1 => preorder_subtree kid pre2 n post1
    have h2 := fun pre2 => preorder_subtree_kids rest pre2 n post
    simp only [preorder_kids] at h
    rcases List.append_eq_append_iff.mp h with ⟨a, ha, hb⟩ | ⟨c, hc, hd⟩
    · exact h2 a hb
    · cases c with
      | nil =>
        simp only [List.nil_append] at hd
        exact h2 [] hd.symm
      | cons m c2 =>
        simp only [List.cons_append, List.cons.injEq] at hd
        obtain ⟨hm, hpost⟩ := hd
        subst hm
        obtain ⟨post2, hp2⟩ := h1 pre c2 hc
        exact ⟨post2 ++ preorder_kids rest, by rw [hpost, hp2, List.append_assoc]⟩

end

theorem undefined_reference_first_kid (t : Node) (pre : List Node) (parent child : Node)
    (more post : List Node) (D : List String)
    (hpos : preorder t = pre ++ parent :: post) (hparent : parent.get_tag ≠ AST_VARDEF)
    (hkids : parent.kids = child :: more) (hchild : child.get_tag = AST_VARREF)
    (hD : child.get_str ∉ D) (hdecl : ∀ d ∈ pre, d.declares child.get_str = false) :
    undefined_reference (preorder t) D := by
  obtain ⟨post2, hpost⟩ := preorder_subtree t pre parent post hpos
  rw [hkids, preorder_kids, preorder_head child] at hpost
  refine ⟨pre ++ [parent], child, preorder_kids child.kids ++ preorder_kids more ++ post2, ?_,
    hchild, hD, ?_⟩
  · rw [hpos, hpost]
    simp
  · intro d hd
    rcases List.mem_append.mp hd with h | h
    · exact hdecl d h
    · simp only [List.mem_singleton] at h
      subst h
      exact declares_false_of_tag _ _ hparent

/-- C39: analyze checks every variable-reference node, whatever its role. In
a tree whose VARDEF nodes all have a child, let a node other than a VARDEF
node have a variable-reference node as its first child: the name node of a
function definition, the callee of a call or the target of an assignment. If
the name of that child is not a built-in name and no `var` declaration
earlier in the pre-order traversal declares it, analyze raises "Reference to
undefined name" (with the name of a reference node of the tree). So every
program containing a function definition whose name is neither built-in nor
declared by an earlier `var` is rejected, even one whose execution succeeds:
`function f() { 1; } f();` is rejected by analyze and executes to 1. The
callee of `g();` and the target of `x = 1;` are rejected likewise. -/
theorem C39_every_reference_checked (t : Node) (pre : List Node) (parent nameNode : Node)
    (more post : List Node) (hnamed : vardefs_named (preorder t) = true)
    (hpos : preorder t = pre ++ parent :: post)
    (hparent : parent.get_tag = AST_FUNCTION ∨ parent.get_tag = AST_FNCALL ∨
      parent.get_tag = AST_ASSIGN)
    (hkids : parent.kids = nameNode :: more) (hname : nameNode.get_tag = AST_VARREF)
    (hbuiltin : nameNode.get_str ∉ builtin_names)
    (hdecl : ∀ d ∈ pre, d.declares nameNode.get_str = false) :
    (∃ n ∈ preorder t, n.get_tag = AST_VARREF ∧
      analyze t =
        .error (.EvaluationError ("Reference to undefined name '" ++ n.get_str ++ "'"))) ∧
    parse_Unit 12 (Lexer.of_tokens tokens_function_then_call) =
      .ok (program_function_then_call, Lexer.of_tokens []) ∧
    analyze program_function_then_call =
      .error (.EvaluationError "Reference to undefined name 'f'") ∧
    (execute_program 6 program_function_then_call (Store.initial [])).map Prod.fst =
      .ok (VALUE_INT 1) ∧
    analyze (.mk AST_UNIT "" [statement (fncall_node "g" [])]) =
      .error (.EvaluationError "Reference to undefined name 'g'") ∧
    analyze (.mk AST_UNIT "" [statement (assign_node "x" (int_literal "1"))]) =
      .error (.EvaluationError "Reference to undefined name 'x'") := by
  refine ⟨?_, rfl, rfl, rfl, rfl, rfl⟩
  have hpar : parent.get_tag ≠ AST_VARDEF := by
    rcases hparent with h | h | h <;> rw [h] <;> decide
  have hundef := undefined_reference_first_kid t pre parent nameNode more post builtin_names
    hpos hpar hkids hname hbuiltin hdecl
  rw [analyze_eq_analyze_nodes]
  obtain ⟨msg, hmsg⟩ := (analyze_nodes_error_iff _ _ hnamed).mpr hundef
  obtain ⟨n, hn, htag, herr⟩ := analyze_nodes_error_kind _ _ _ hnamed hmsg
  exact ⟨n, hn, htag, by rw [hmsg, herr]⟩

/-- Witness of C39: the definition of `f` in `function f() { 1; } f();`. -/
theorem C39_every_reference_checked_witness :
    ∃ n ∈ preorder program_function_then_call, n.get_tag = AST_VARREF ∧
      analyze program_function_then_call =
        .error (.EvaluationError ("Reference to undefined name '" ++ n.get_str ++ "'")) :=
  (C39_every_reference_checked program_function_then_call
    [program_function_then_call] (function_node "f" [] [statement (int_literal "1")])
    (varref "f") [.mk AST_PARAM_LIST "" [], statement_list [statement (int_literal "1")]]
    ([varref "f", .mk AST_PARAM_LIST "" [], statement_list [statement (int_literal "1")],
      statement (int_literal "1"), int_literal "1"] ++
      preorder (statement (fncall_node "f" [])))
    rfl rfl (Or.inl rfl) rfl rfl (by decide) (by simp [Node.declares, program_function_then_call,
      Node.get_tag])).1

end MiniLang
